import Mathlib

/-!
SimpleString.hpp: a shallow embedding of `simple::StringType`.

The embedding follows `src/include/SimpleString.hpp` statement by statement.

* A unit (`ValueType`) is an integer, which covers every integral character
  type, signed or unsigned, with its order and its zero.
* A heap block is a list of cells; a cell is `none` while its value is
  indeterminate (fresh from `new ValueType[n]`) and `some v` once written.
* A `Pointer` is `none` for `nullptr` and `some block` otherwise; the block
  is the whole allocation, so its length is the allocated number of units.
* A raw sequence (`ConstPointer` argument) is the readable block of
  initialised units that starts at the pointer; it is never null.
* Every operation returns an `Option`: `none` stands for undefined
  behaviour (an access outside an allocation, a read of an indeterminate
  cell by a comparison, a failed `assert_assume` or `assume`).
* `SizeType` is an unbounded natural number, except in `lookupCapacity64`,
  which takes it 64 bits wide; allocation never fails.
* Two string operands of one operation are distinct objects.
* A raw sequence argument of type `ConstPointer` is storage outside the
  string operand's buffer. The three calls whose result depends on it,
  `insert(ConstPointer, SizeType)`, `operator+=(ConstPointer)` and
  `operator+(ConstPointer, StringType &&)`, are embedded a second time for an
  argument `m_data + k` that points into the string operand's own buffer
  (`insert_cstring_within`, `append_cstring_within`,
  `cstring_plus_move_within`); there every copy from the argument reads the
  buffer as the statements before it left it.
-/

namespace simple

/-! ## Memory primitives -/

abbrev ValueType := Int
abbrev Cell := Option ValueType
abbrev Block := List Cell
abbrev Pointer := Option Block
abbrev ConstPointer := List ValueType

/-- The constant `NUL_TERMINATION = '\0'`. -/
def NUL_TERMINATION : ValueType := 0

/-- The check `assert_assume(expr)`: a violated expression aborts or is undefined. -/
def assert_assume (c : Prop) [Decidable c] : Option Unit :=
  if c then some () else none

/-- The hint `assume(expr)` (on MSVC, GCC and Clang): a violated expression is undefined. -/
def assume (c : Prop) [Decidable c] : Option Unit :=
  if c then some () else none

/-- The expression `new ValueType[capacity]`: a block of indeterminate cells. -/
def newArray (capacity : Nat) : Pointer :=
  some (List.replicate capacity none)

/-- The block of a raw sequence, every unit initialised. -/
def rawBlock (cstring : ConstPointer) : Pointer :=
  some (cstring.map some)

/-- The assignment `p[i] = v`. -/
def store (p : Pointer) (i : Nat) (v : ValueType) : Option Pointer :=
  match p with
  | none => none
  | some b => if i < b.length then some (some (b.set i (some v))) else none

/-- The value read by `p[i]` in a comparison. -/
def load (p : Pointer) (i : Nat) : Option ValueType :=
  match p with
  | none => none
  | some b =>
    match b[i]? with
    | some (some v) => some v
    | _ => none

/-- The element loop of `std::copy` between two distinct blocks:
`n` steps of `*d++ = *first++`. -/
def copyLoop (src : Block) (first : Nat) (dst : Block) (d : Nat) : Nat → Option Block
  | 0 => some dst
  | n + 1 =>
    match src[first]? with
    | none => none
    | some v =>
      if d < dst.length then copyLoop src (first + 1) (dst.set d v) (d + 1) n else none

/-- The call `std::copy(src + first, src + last, dst + d)`, `src` and `dst` distinct blocks. -/
def std_copy (src : Pointer) (first last : Nat) (dst : Pointer) (d : Nat) : Option Pointer :=
  if last = first then some dst
  else if last < first then none
  else
    match src, dst with
    | some s, some t => (copyLoop s first t d (last - first)).map some
    | _, _ => none

/-- The element loop of `std::copy` inside one block, front to back. -/
def moveLoop (b : Block) (first d : Nat) : Nat → Option Block
  | 0 => some b
  | n + 1 =>
    match b[first]? with
    | none => none
    | some v =>
      if d < b.length then moveLoop (b.set d v) (first + 1) (d + 1) n else none

/-- The call `std::copy(p + first, p + last, p + d)` inside one block. -/
def std_copy_within (p : Pointer) (first last d : Nat) : Option Pointer :=
  if last = first then some p
  else if last < first then none
  else
    match p with
    | some b => (moveLoop b first d (last - first)).map some
    | none => none

/-- The call `std::copy(p + first, p + last, p + d)` inside one block when `d`
is not known to precede `first`: undefined when `p + d` lies inside the source
range behind its start, which `std::copy` excludes and where a forward loop
and `memmove` differ; otherwise the front-to-back loop. -/
def std_copy_self (p : Pointer) (first last d : Nat) : Option Pointer :=
  if first < d ∧ d < last then none else std_copy_within p first last d

/-- The element loop of `std::copy_backward` inside one block, back to front:
`n` steps of `*--d_last = *--last`. -/
def backLoop (b : Block) (first dfirst : Nat) : Nat → Option Block
  | 0 => some b
  | n + 1 =>
    match b[first + n]? with
    | none => none
    | some v =>
      if dfirst + n < b.length then backLoop (b.set (dfirst + n) v) first dfirst n else none

/-- The call `std::copy_backward(p + first, p + last, p + dlast)` inside one block. -/
def std_copy_backward (p : Pointer) (first last dlast : Nat) : Option Pointer :=
  if last = first then some p
  else if last < first ∨ dlast < last - first then none
  else
    match p with
    | some b => (backLoop b first (dlast - (last - first)) (last - first)).map some
    | none => none

/-- The element loop of `std::fill`. -/
def fillLoop (b : Block) (first : Nat) (v : ValueType) : Nat → Option Block
  | 0 => some b
  | n + 1 =>
    if first < b.length then fillLoop (b.set first (some v)) (first + 1) v n else none

/-- The call `std::fill(p + first, p + last, v)`. -/
def std_fill (p : Pointer) (first last : Nat) (v : ValueType) : Option Pointer :=
  if last = first then some p
  else if last < first then none
  else
    match p with
    | some b => (fillLoop b first v (last - first)).map some
    | none => none

/-! ## Utility functions -/

/-- The `while (size > capacity) capacity *= 2;` loop of `lookupCapacity`,
run for at most `fuel` iterations. -/
def lookupCapacityLoop (size : Nat) : Nat → Nat → Nat
  | 0, capacity => capacity
  | fuel + 1, capacity =>
    if size > capacity then lookupCapacityLoop size fuel (capacity * 2) else capacity

/-- The seed of the growth policy. -/
def SEED : Nat := 15

/-- The function `lookupCapacity` over unbounded naturals, where its asserted
bound `size < max` always holds; `size + 1` iterations are more than the loop
ever takes (`lookupCapacityLoop_spec`). -/
def lookupCapacity (size : Nat) : Nat :=
  if size = 0 then 0
  else lookupCapacityLoop (size + 1) (size + 1) SEED

/-- The number of `SizeType` values when `std::size_t` is 64 bits wide;
`std::numeric_limits<SizeType>::max()` is one less. -/
def SIZE_MODULUS : Nat := 2 ^ 64

/-- The `while (size > capacity) capacity *= 2;` loop of `lookupCapacity` with
64-bit unsigned multiplication, run for at most `fuel` evaluations of its
condition: `none` when the loop has not been left by then. -/
def lookupCapacityLoop64 (size : Nat) : Nat → Nat → Option Nat
  | 0, _ => none
  | fuel + 1, capacity =>
    if size > capacity then lookupCapacityLoop64 size fuel (capacity * 2 % SIZE_MODULUS)
    else some capacity

/-- The function `lookupCapacity` over 64-bit `SizeType`, its loop run for at
most `fuel` evaluations of its condition: `none` when the asserted bound is
violated or the loop has not been left by then. -/
def lookupCapacity64 (fuel size : Nat) : Option Nat := do
  assert_assume (size < SIZE_MODULUS - 1)
  if size = 0 then some 0
  else lookupCapacityLoop64 ((size + 1) % SIZE_MODULUS) fuel SEED

/-- The scan of `cstringSize` from index `size` on; running off the block is undefined. -/
def cstringSizeLoop : ConstPointer → Nat → Option Nat
  | [], _ => none
  | c :: rest, size =>
    if c ≠ NUL_TERMINATION then cstringSizeLoop rest (size + 1) else some size

/-- The function `cstringSize`. -/
def cstringSize (cstring : ConstPointer) : Option Nat :=
  cstringSizeLoop cstring 0

/-- The scan of `cstringSize` over the cells that follow a pointer into a
buffer; running off the block or reading an indeterminate cell is undefined. -/
def cstringSizeCells : List Cell → Nat → Option Nat
  | [], _ => none
  | none :: _, _ => none
  | some c :: rest, size =>
    if c ≠ NUL_TERMINATION then cstringSizeCells rest (size + 1) else some size

/-- The function `cstringSize` called with `p + k`, a pointer to cell `k` of
the block of `p`. -/
def cstringSizeAt (p : Pointer) (k : Nat) : Option Nat :=
  match p with
  | none => none
  | some b => cstringSizeCells (b.drop k) 0

/-- The `size` units that start at cell `k` of the block of `p`, with the unit
that follows them, as a raw sequence. -/
def unitsAt (p : Pointer) (k size : Nat) : ConstPointer :=
  (((p.getD []).drop k).take (size + 1)).map fun c => c.getD NUL_TERMINATION

/-- A pointer into the block of `p` after `delete[] p` has released that
block: every read through it is undefined. -/
def released (_p : Pointer) : Pointer := none

/-! ## The string value -/

/-- The data members `m_data`, `m_size`, `m_capacity`. -/
structure StringType where
  m_data : Pointer
  m_size : Nat
  m_capacity : Nat
deriving DecidableEq, Repr

namespace StringType

/-- The empty triple, left behind by every transfer of a buffer. -/
def null : StringType := ⟨none, 0, 0⟩

/-- The private constructor `StringType(Pointer, SizeType, SizeType)`. -/
def ofTriple (data : Pointer) (size capacity : Nat) : Option StringType := do
  assert_assume (data ≠ none ∨ (size = 0 ∧ capacity = 0))
  assert_assume (size < capacity ∨ (size = 0 ∧ capacity = 0))
  some ⟨data, size, capacity⟩

/-- The default constructor `StringType()`. -/
def ctor : StringType := null

/-- The constructor `StringType(std::initializer_list<ValueType>)`. -/
def ctor_list (list : List ValueType) : Option StringType :=
  if list.length = 0 then some null
  else do
    let capacity := lookupCapacity list.length
    assume (list.length < capacity)
    let data := newArray capacity
    let data ← std_copy (rawBlock list) 0 list.length data 0
    let data ← store data list.length NUL_TERMINATION
    some ⟨data, list.length, capacity⟩

/-- The constructor `StringType(ValueType, SizeType)`. -/
def ctor_fill (character : ValueType) (size : Nat) : Option StringType :=
  if size = 0 then some null
  else do
    let capacity := lookupCapacity size
    assume (size < capacity)
    let data := newArray capacity
    let data ← std_fill data 0 size character
    let data ← store data size NUL_TERMINATION
    some ⟨data, size, capacity⟩

/-- The constructor `StringType(ConstPointer)`. -/
def ctor_cstring (cstring : ConstPointer) : Option StringType := do
  let size ← cstringSize cstring
  if size = 0 then some null
  else do
    let capacity := lookupCapacity size
    assume (size < capacity)
    let data := newArray capacity
    let data ← std_copy (rawBlock cstring) 0 size data 0
    let data ← store data size NUL_TERMINATION
    some ⟨data, size, capacity⟩

/-- The copy constructor `StringType(const StringType &)`. -/
def ctor_copy (object : StringType) : Option StringType :=
  if object.m_size = 0 then some null
  else do
    let capacity := lookupCapacity object.m_size
    assume (object.m_size < capacity)
    let data := newArray capacity
    let data ← std_copy object.m_data 0 object.m_size data 0
    let data ← store data object.m_size NUL_TERMINATION
    some ⟨data, object.m_size, capacity⟩

/-- The move constructor `StringType(StringType &&)`: the new value and the source afterwards. -/
def ctor_move (object : StringType) : StringType × StringType :=
  (⟨object.m_data, object.m_size, object.m_capacity⟩, ⟨none, 0, 0⟩)

/-! ### Assignment -/

/-- The assignment `operator=(ValueType)`. -/
def assign_char (self : StringType) (character : ValueType) : Option StringType := do
  let size := 1
  let capacity := lookupCapacity size
  assume (size < capacity)
  let data := if self.m_capacity < capacity then newArray capacity else self.m_data
  let cap := if self.m_capacity < capacity then capacity else self.m_capacity
  let data ← store data 0 character
  let data ← store data size NUL_TERMINATION
  some ⟨data, size, cap⟩

/-- The assignment `operator=(ConstPointer)`. -/
def assign_cstring (self : StringType) (cstring : ConstPointer) : Option StringType := do
  let size ← cstringSize cstring
  if size = 0 then
    if self.m_capacity > 0 then do
      let data ← store self.m_data 0 NUL_TERMINATION
      some ⟨data, 0, self.m_capacity⟩
    else some self
  else do
    let capacity := lookupCapacity size
    assume (size < capacity)
    let data := if self.m_capacity < capacity then newArray capacity else self.m_data
    let cap := if self.m_capacity < capacity then capacity else self.m_capacity
    let data ← std_copy (rawBlock cstring) 0 size data 0
    let data ← store data size NUL_TERMINATION
    some ⟨data, size, cap⟩

/-- The copy assignment `operator=(const StringType &)`. -/
def assign_copy (self object : StringType) : Option StringType :=
  if object.m_size = 0 then
    if self.m_capacity > 0 then do
      let data ← store self.m_data 0 NUL_TERMINATION
      some ⟨data, object.m_size, self.m_capacity⟩
    else some self
  else do
    let capacity := lookupCapacity object.m_size
    assume (object.m_size < capacity)
    let data := if self.m_capacity < capacity then newArray capacity else self.m_data
    let cap := if self.m_capacity < capacity then capacity else self.m_capacity
    let data ← std_copy object.m_data 0 object.m_size data 0
    let data ← store data object.m_size NUL_TERMINATION
    some ⟨data, object.m_size, cap⟩

/-- The move assignment `operator=(StringType &&)`: the destination and the source afterwards. -/
def assign_move (_self object : StringType) : StringType × StringType :=
  (⟨object.m_data, object.m_size, object.m_capacity⟩, ⟨none, 0, 0⟩)

/-! ### Size and capacity -/

/-- The function `empty()`. -/
def empty (self : StringType) : Bool := self.m_size == 0

/-- The function `size()`. -/
def size (self : StringType) : Nat := self.m_size

/-- The function `capacity()`. -/
def capacity (self : StringType) : Nat := self.m_capacity

/-- The function `reserve(SizeType)`. -/
def reserve (self : StringType) (size : Nat) : Option StringType := do
  let capacity := lookupCapacity size
  assume (size < capacity)
  if self.m_capacity < capacity then do
    let data := newArray capacity
    let data ← std_copy self.m_data 0 self.m_size data 0
    let data ← store data self.m_size NUL_TERMINATION
    some ⟨data, self.m_size, capacity⟩
  else some self

/-- The function `shrink()`. -/
def shrink (self : StringType) : Option StringType :=
  if self.m_size = 0 then some ⟨none, 0, 0⟩
  else do
    let capacity := lookupCapacity self.m_size
    assume (self.m_size < capacity)
    if self.m_capacity > capacity then do
      let data := newArray capacity
      let data ← std_copy self.m_data 0 self.m_size data 0
      let data ← store data self.m_size NUL_TERMINATION
      some ⟨data, self.m_size, capacity⟩
    else some self

/-- The function `deallocate()`. -/
def deallocate (_self : StringType) : StringType := ⟨none, 0, 0⟩

/-! ### Data access -/

/-- The function `data()`. -/
def data (self : StringType) : Pointer := self.m_data

/-- The function `cstring()`; the fallback is the static terminator unit. -/
def cstring (self : StringType) : Pointer :=
  if self.m_capacity > 0 then self.m_data else some [some NUL_TERMINATION]

/-- A read through `operator[](SizeType) const`. -/
def get (self : StringType) (index : Nat) : Option ValueType := do
  assert_assume (index < self.m_size)
  load self.m_data index

/-- A write through the reference returned by `operator[](SizeType)`. -/
def set (self : StringType) (index : Nat) (v : ValueType) : Option StringType := do
  assert_assume (index < self.m_size)
  let data ← store self.m_data index v
  some ⟨data, self.m_size, self.m_capacity⟩

/-- A read through `front() const`. -/
def front (self : StringType) : Option ValueType := do
  assert_assume (self.m_size > 0)
  load self.m_data 0

/-- A write through the reference returned by `front()`. -/
def set_front (self : StringType) (v : ValueType) : Option StringType := do
  assert_assume (self.m_size > 0)
  let data ← store self.m_data 0 v
  some ⟨data, self.m_size, self.m_capacity⟩

/-- A read through `back() const`. -/
def back (self : StringType) : Option ValueType := do
  assert_assume (self.m_size > 0)
  load self.m_data (self.m_size - 1)

/-- A write through the reference returned by `back()`. -/
def set_back (self : StringType) (v : ValueType) : Option StringType := do
  assert_assume (self.m_size > 0)
  let data ← store self.m_data (self.m_size - 1) v
  some ⟨data, self.m_size, self.m_capacity⟩

/-! ### Mutation functions -/

/-- The function `clear()`. -/
def clear (self : StringType) : Option StringType :=
  if self.m_capacity > 0 then do
    let data ← store self.m_data 0 NUL_TERMINATION
    some ⟨data, 0, self.m_capacity⟩
  else some ⟨self.m_data, 0, self.m_capacity⟩

/-- The function `popback(SizeType)`. -/
def popback (self : StringType) (count : Nat) : Option StringType := do
  assert_assume (count ≤ self.m_size)
  let size := self.m_size - count
  let data ← store self.m_data size NUL_TERMINATION
  some ⟨data, size, self.m_capacity⟩

/-- The function `trim(SizeType)`. -/
def trim (self : StringType) (count : Nat) : Option StringType := do
  assert_assume (count ≤ self.m_size)
  let data ← std_copy_within self.m_data count self.m_size 0
  let size := self.m_size - count
  let data ← store data size NUL_TERMINATION
  some ⟨data, size, self.m_capacity⟩

/-- The function `erase(SizeType)`. -/
def erase (self : StringType) (index : Nat) : Option StringType := do
  assert_assume (index < self.m_size)
  let data ← std_copy_within self.m_data (index + 1) self.m_size index
  let size := self.m_size - 1
  let data ← store data size NUL_TERMINATION
  some ⟨data, size, self.m_capacity⟩

/-- The function `erase(SizeType, SizeType)`. -/
def erase_range (self : StringType) (first last : Nat) : Option StringType := do
  assert_assume (first < last)
  assert_assume (last ≤ self.m_size)
  let data ← std_copy_within self.m_data last self.m_size first
  let size := self.m_size - (last - first)
  let data ← store data size NUL_TERMINATION
  some ⟨data, size, self.m_capacity⟩

/-- The function `insert(ValueType, SizeType)`. -/
def insert_char (self : StringType) (character : ValueType) (index : Nat) :
    Option StringType := do
  assert_assume (index < self.m_size)
  let capacity := lookupCapacity (self.m_size + 1)
  assume (self.m_size + 1 < capacity)
  if self.m_capacity < capacity then do
    let data := newArray capacity
    let data ← std_copy self.m_data 0 index data 0
    let data ← std_copy self.m_data index self.m_size data (index + 1)
    let data ← store data index character
    let size := self.m_size + 1
    let data ← store data size NUL_TERMINATION
    some ⟨data, size, capacity⟩
  else do
    let data ← std_copy_backward self.m_data index self.m_size (self.m_size + 1)
    let data ← store data index character
    let size := self.m_size + 1
    let data ← store data size NUL_TERMINATION
    some ⟨data, size, self.m_capacity⟩

/-- The function `insert(ConstPointer, SizeType)` for a raw sequence stored
outside the string's buffer. -/
def insert_cstring (self : StringType) (cstring : ConstPointer) (index : Nat) :
    Option StringType := do
  assert_assume (index < self.m_size)
  let size ← cstringSize cstring
  if size = 0 then some self
  else do
    let capacity := lookupCapacity (self.m_size + size)
    assume (self.m_size + size < capacity)
    if self.m_capacity < capacity then do
      let data := newArray capacity
      let data ← std_copy self.m_data 0 index data 0
      let data ← std_copy self.m_data index self.m_size data (index + size)
      let data ← std_copy (rawBlock cstring) 0 size data index
      let newSize := self.m_size + size
      let data ← store data newSize NUL_TERMINATION
      some ⟨data, newSize, capacity⟩
    else do
      let data ← std_copy_backward self.m_data index self.m_size (self.m_size + size)
      let data ← std_copy (rawBlock cstring) 0 size data index
      let newSize := self.m_size + size
      let data ← store data newSize NUL_TERMINATION
      some ⟨data, newSize, self.m_capacity⟩

/-- The function `insert(ConstPointer, SizeType)` called with
`cstring = m_data + k`, a pointer into the string's own buffer: the
reallocating branch reads the sequence from the old buffer before releasing
it, the in-place branch reads it after the tail has been shifted. -/
def insert_cstring_within (self : StringType) (k index : Nat) : Option StringType := do
  assert_assume (index < self.m_size)
  let size ← cstringSizeAt self.m_data k
  if size = 0 then some self
  else do
    let capacity := lookupCapacity (self.m_size + size)
    assume (self.m_size + size < capacity)
    if self.m_capacity < capacity then do
      let data := newArray capacity
      let data ← std_copy self.m_data 0 index data 0
      let data ← std_copy self.m_data index self.m_size data (index + size)
      let data ← std_copy self.m_data k (k + size) data index
      let newSize := self.m_size + size
      let data ← store data newSize NUL_TERMINATION
      some ⟨data, newSize, capacity⟩
    else do
      let data ← std_copy_backward self.m_data index self.m_size (self.m_size + size)
      let data ← std_copy_self data k (k + size) index
      let newSize := self.m_size + size
      let data ← store data newSize NUL_TERMINATION
      some ⟨data, newSize, self.m_capacity⟩

/-- The function `insert(const StringType &, SizeType)`. -/
def insert_copy (self object : StringType) (index : Nat) : Option StringType := do
  assert_assume (index < self.m_size)
  if object.m_size = 0 then some self
  else do
    let capacity := lookupCapacity (self.m_size + object.m_size)
    assume (self.m_size + object.m_size < capacity)
    if self.m_capacity < capacity then do
      let data := newArray capacity
      let data ← std_copy self.m_data 0 index data 0
      let data ← std_copy self.m_data index self.m_size data (index + object.m_size)
      let data ← std_copy object.m_data 0 object.m_size data index
      let newSize := self.m_size + object.m_size
      let data ← store data newSize NUL_TERMINATION
      some ⟨data, newSize, capacity⟩
    else do
      let data ← std_copy_backward self.m_data index self.m_size (self.m_size + object.m_size)
      let data ← std_copy object.m_data 0 object.m_size data index
      let newSize := self.m_size + object.m_size
      let data ← store data newSize NUL_TERMINATION
      some ⟨data, newSize, self.m_capacity⟩

/-- The function `insert(StringType &&, SizeType)`: the destination and the source afterwards. -/
def insert_move (self object : StringType) (index : Nat) :
    Option (StringType × StringType) := do
  assert_assume (index < self.m_size)
  if object.m_size = 0 then some (self, object)
  else do
    let capacity := lookupCapacity (self.m_size + object.m_size)
    assume (self.m_size + object.m_size < capacity)
    if self.m_capacity < capacity then
      if object.m_capacity ≥ capacity then do
        let odata ← std_copy_backward object.m_data 0 object.m_size (object.m_size + index)
        let odata ← std_copy self.m_data 0 index odata 0
        let odata ← std_copy self.m_data index self.m_size odata (object.m_size + index)
        let size := self.m_size + object.m_size
        let object' : StringType := ⟨none, 0, 0⟩
        -- after the branch: `m_size += object.m_size` adds the zero left in `object`
        let size := size + object'.m_size
        let data ← store odata size NUL_TERMINATION
        some (⟨data, size, object.m_capacity⟩, object')
      else do
        let data := newArray capacity
        let data ← std_copy self.m_data 0 index data 0
        let data ← std_copy self.m_data index self.m_size data (index + object.m_size)
        let data ← std_copy object.m_data 0 object.m_size data index
        let size := self.m_size + object.m_size
        let data ← store data size NUL_TERMINATION
        some (⟨data, size, capacity⟩, object)
    else do
      let data ← std_copy_backward self.m_data index self.m_size (self.m_size + object.m_size)
      let data ← std_copy object.m_data 0 object.m_size data index
      let size := self.m_size + object.m_size
      let data ← store data size NUL_TERMINATION
      some (⟨data, size, self.m_capacity⟩, object)

/-- The operator `operator+=(ValueType)`. -/
def append_char (self : StringType) (character : ValueType) : Option StringType := do
  let capacity := lookupCapacity (self.m_size + 1)
  assume (self.m_size + 1 < capacity)
  let data ←
    if self.m_capacity < capacity then std_copy self.m_data 0 self.m_size (newArray capacity) 0
    else some self.m_data
  let cap := if self.m_capacity < capacity then capacity else self.m_capacity
  let data ← store data self.m_size character
  let size := self.m_size + 1
  let data ← store data size NUL_TERMINATION
  some ⟨data, size, cap⟩

/-- The operator `operator+=(ConstPointer)` for a raw sequence stored outside
the string's buffer. -/
def append_cstring (self : StringType) (cstring : ConstPointer) : Option StringType := do
  let size ← cstringSize cstring
  if size = 0 then some self
  else do
    let capacity := lookupCapacity (self.m_size + size)
    assume (self.m_size + size < capacity)
    let data ←
      if self.m_capacity < capacity then std_copy self.m_data 0 self.m_size (newArray capacity) 0
      else some self.m_data
    let cap := if self.m_capacity < capacity then capacity else self.m_capacity
    let data ← std_copy (rawBlock cstring) 0 size data self.m_size
    let newSize := self.m_size + size
    let data ← store data newSize NUL_TERMINATION
    some ⟨data, newSize, cap⟩

/-- The operator `operator+=(ConstPointer)` called with `cstring = m_data + k`,
a pointer into the string's own buffer: the reallocating branch executes
`delete[] m_data` before the copy from `cstring`, which then reads a released
block; without reallocation the copy reads the buffer itself. -/
def append_cstring_within (self : StringType) (k : Nat) : Option StringType := do
  let size ← cstringSizeAt self.m_data k
  if size = 0 then some self
  else do
    let capacity := lookupCapacity (self.m_size + size)
    assume (self.m_size + size < capacity)
    if self.m_capacity < capacity then do
      let data ← std_copy self.m_data 0 self.m_size (newArray capacity) 0
      let data ← std_copy (released self.m_data) k (k + size) data self.m_size
      let newSize := self.m_size + size
      let data ← store data newSize NUL_TERMINATION
      some ⟨data, newSize, capacity⟩
    else do
      let data ← std_copy_self self.m_data k (k + size) self.m_size
      let newSize := self.m_size + size
      let data ← store data newSize NUL_TERMINATION
      some ⟨data, newSize, self.m_capacity⟩

/-- The operator `operator+=(const StringType &)`. -/
def append_copy (self object : StringType) : Option StringType :=
  if object.m_size = 0 then some self
  else do
    let capacity := lookupCapacity (self.m_size + object.m_size)
    assume (self.m_size + object.m_size < capacity)
    let data ←
      if self.m_capacity < capacity then std_copy self.m_data 0 self.m_size (newArray capacity) 0
      else some self.m_data
    let cap := if self.m_capacity < capacity then capacity else self.m_capacity
    let data ← std_copy object.m_data 0 object.m_size data self.m_size
    let newSize := self.m_size + object.m_size
    let data ← store data newSize NUL_TERMINATION
    some ⟨data, newSize, cap⟩

/-- The operator `operator+=(StringType &&)`: the destination and the source afterwards. -/
def append_move (self object : StringType) : Option (StringType × StringType) :=
  if object.m_size = 0 then some (self, object)
  else do
    let capacity := lookupCapacity (self.m_size + object.m_size)
    assume (self.m_size + object.m_size < capacity)
    if self.m_capacity < capacity then
      if object.m_capacity ≥ capacity then do
        let odata ← std_copy_backward object.m_data 0 object.m_size (object.m_size + self.m_size)
        let odata ← std_copy self.m_data 0 self.m_size odata 0
        let size := self.m_size + object.m_size
        let object' : StringType := ⟨none, 0, 0⟩
        -- after the branch: a copy of the zero units left in `object`, from its null pointer
        let data ← std_copy object'.m_data 0 object'.m_size odata size
        let size := size + object'.m_size
        let data ← store data size NUL_TERMINATION
        some (⟨data, size, object.m_capacity⟩, object')
      else do
        let data ← std_copy self.m_data 0 self.m_size (newArray capacity) 0
        let data ← std_copy object.m_data 0 object.m_size data self.m_size
        let size := self.m_size + object.m_size
        let data ← store data size NUL_TERMINATION
        some (⟨data, size, capacity⟩, object)
    else do
      let data ← std_copy object.m_data 0 object.m_size self.m_data self.m_size
      let size := self.m_size + object.m_size
      let data ← store data size NUL_TERMINATION
      some (⟨data, size, self.m_capacity⟩, object)

/-- The function `substring(SizeType) const &`. -/
def substring (self : StringType) (last : Nat) : Option StringType := do
  assert_assume (last ≤ self.m_size)
  let size := last
  let capacity := lookupCapacity size
  assume (size < capacity)
  let data := newArray capacity
  let data ← std_copy self.m_data 0 last data 0
  let data ← store data size NUL_TERMINATION
  ofTriple data size capacity

/-- The function `substring(SizeType, SizeType) const &`. -/
def substring_range (self : StringType) (first last : Nat) : Option StringType := do
  assert_assume (first < last)
  assert_assume (last ≤ self.m_size)
  let size := last - first
  let capacity := lookupCapacity size
  assume (size < capacity)
  let data := newArray capacity
  let data ← std_copy self.m_data first last data 0
  let data ← store data size NUL_TERMINATION
  ofTriple data size capacity

/-- The function `substring(SizeType) &&`: the result and the source afterwards. -/
def substring_move (self : StringType) (last : Nat) : Option (StringType × StringType) := do
  assert_assume (last ≤ self.m_size)
  let size := last
  let capacity := self.m_capacity
  let data := self.m_data
  let data ← store data size NUL_TERMINATION
  let result ← ofTriple data size capacity
  some (result, ⟨none, 0, 0⟩)

/-- The function `substring(SizeType, SizeType) &&`: the result and the source afterwards. -/
def substring_range_move (self : StringType) (first last : Nat) :
    Option (StringType × StringType) := do
  assert_assume (first < last)
  assert_assume (last ≤ self.m_size)
  let size := last - first
  let capacity := self.m_capacity
  let data := self.m_data
  let data ← std_copy_within data first last 0
  let data ← store data size NUL_TERMINATION
  let result ← ofTriple data size capacity
  some (result, ⟨none, 0, 0⟩)

/-! ### Comparison functions -/

/-- The statements of `compare(ConstPointer)` after its loop, entered with index `i`. -/
def compareCStringTail (self : StringType) (cstring : ConstPointer) (i : Nat) : Option Int := do
  let c ← cstring[i]?
  if c ≠ NUL_TERMINATION then some (-1)
  else if self.m_size > i then some 1
  else some 0

/-- The loop of `compare(ConstPointer)` at index `i`, with `n = m_size - i` iterations left. -/
def compareCStringLoop (self : StringType) (cstring : ConstPointer) (i : Nat) : Nat → Option Int
  | 0 => compareCStringTail self cstring i
  | n + 1 => do
    let c ← cstring[i]?
    if c = NUL_TERMINATION then compareCStringTail self cstring i
    else do
      let a ← load self.m_data i
      if a < c then some (-1)
      else if a > c then some 1
      else compareCStringLoop self cstring (i + 1) n

/-- The function `compare(ConstPointer)`. -/
def compare_cstring (self : StringType) (cstring : ConstPointer) : Option Int :=
  compareCStringLoop self cstring 0 self.m_size

/-- The statements of `compare(const StringType &)` after its loop. -/
def compareTail (self object : StringType) : Int :=
  if self.m_size < object.m_size then -1
  else if self.m_size > object.m_size then 1
  else 0

/-- The loop of `compare(const StringType &)` at index `i`, with
`n = min(m_size, object.m_size) - i` iterations left. -/
def compareLoop (self object : StringType) (i : Nat) : Nat → Option Int
  | 0 => some (compareTail self object)
  | n + 1 => do
    let a ← load self.m_data i
    let b ← load object.m_data i
    if a < b then some (-1)
    else if a > b then some 1
    else compareLoop self object (i + 1) n

/-- The function `compare(const StringType &)`. -/
def compare (self object : StringType) : Option Int :=
  compareLoop self object 0 (min self.m_size object.m_size)

/-! ### Concatenation operators

A braced `StringType<ValueType>{ x }` with a unit `x` selects the
initializer-list constructor, with a string the copy constructor, with a raw
sequence the raw-sequence constructor. The movable overloads return the
result together with the left and right string operands afterwards. -/

/-- The operator `operator+(const StringType &, const StringType &)`. -/
def plus (left right : StringType) : Option StringType :=
  if left.m_size = 0 ∧ right.m_size = 0 then some ctor
  else if left.m_size = 0 then ctor_copy right
  else if right.m_size = 0 then ctor_copy left
  else do
    let size := left.m_size + right.m_size
    let capacity := lookupCapacity size
    assume (size < capacity)
    let data := newArray capacity
    let data ← std_copy left.m_data 0 left.m_size data 0
    let data ← std_copy right.m_data 0 right.m_size data left.m_size
    let data ← store data size NUL_TERMINATION
    ofTriple data size capacity

/-- The operator `operator+(const StringType &, ConstPointer)`. -/
def plus_cstring (left : StringType) (right : ConstPointer) : Option StringType := do
  let rightSize ← cstringSize right
  if left.m_size = 0 ∧ rightSize = 0 then some ctor
  else if left.m_size = 0 then ctor_cstring right
  else if rightSize = 0 then ctor_copy left
  else do
    let size := left.m_size + rightSize
    let capacity := lookupCapacity size
    assume (size < capacity)
    let data := newArray capacity
    let data ← std_copy left.m_data 0 left.m_size data 0
    let data ← std_copy (rawBlock right) 0 rightSize data left.m_size
    let data ← store data size NUL_TERMINATION
    ofTriple data size capacity

/-- The operator `operator+(ConstPointer, const StringType &)`. -/
def cstring_plus (left : ConstPointer) (right : StringType) : Option StringType := do
  let leftSize ← cstringSize left
  if leftSize = 0 ∧ right.m_size = 0 then some ctor
  else if leftSize = 0 then ctor_copy right
  else if right.m_size = 0 then ctor_cstring left
  else do
    let size := leftSize + right.m_size
    let capacity := lookupCapacity size
    assume (size < capacity)
    let data := newArray capacity
    let data ← std_copy (rawBlock left) 0 leftSize data 0
    let data ← std_copy right.m_data 0 right.m_size data leftSize
    let data ← store data size NUL_TERMINATION
    ofTriple data size capacity

/-- The operator `operator+(const StringType &, ValueType)`. -/
def plus_char (left : StringType) (right : ValueType) : Option StringType :=
  if left.m_size = 0 then ctor_list [right]
  else do
    let size := left.m_size + 1
    let capacity := lookupCapacity size
    assume (size < capacity)
    let data := newArray capacity
    let data ← std_copy left.m_data 0 left.m_size data 0
    let data ← store data left.m_size right
    let data ← store data size NUL_TERMINATION
    ofTriple data size capacity

/-- The operator `operator+(ValueType, const StringType &)`. -/
def char_plus (left : ValueType) (right : StringType) : Option StringType :=
  if right.m_size = 0 then ctor_list [left]
  else do
    let size := 1 + right.m_size
    let capacity := lookupCapacity size
    assume (size < capacity)
    let data := newArray capacity
    let data ← store data 0 left
    let data ← std_copy right.m_data 0 right.m_size data 1
    let data ← store data size NUL_TERMINATION
    ofTriple data size capacity

/-- The operator `operator+(StringType &&, StringType &&)`. -/
def plus_move_move (left right : StringType) :
    Option (StringType × StringType × StringType) :=
  if left.m_size = 0 ∧ right.m_size = 0 then some (ctor, left, right)
  else if left.m_size = 0 then some ((ctor_move right).1, left, (ctor_move right).2)
  else if right.m_size = 0 then some ((ctor_move left).1, (ctor_move left).2, right)
  else do
    let size := left.m_size + right.m_size
    let capacity := lookupCapacity size
    assume (size < capacity)
    if left.m_capacity ≥ capacity then do
      let data ← std_copy right.m_data 0 right.m_size left.m_data left.m_size
      let data ← store data size NUL_TERMINATION
      let result ← ofTriple data size left.m_capacity
      some (result, ⟨none, 0, 0⟩, right)
    else if right.m_capacity ≥ capacity then do
      let data ← std_copy_backward right.m_data 0 right.m_size size
      let data ← std_copy left.m_data 0 left.m_size data 0
      let data ← store data size NUL_TERMINATION
      let result ← ofTriple data size right.m_capacity
      some (result, left, ⟨none, 0, 0⟩)
    else do
      let data := newArray capacity
      let data ← std_copy left.m_data 0 left.m_size data 0
      let data ← std_copy right.m_data 0 right.m_size data left.m_size
      let data ← store data size NUL_TERMINATION
      let result ← ofTriple data size capacity
      some (result, left, right)

/-- The operator `operator+(StringType &&, const StringType &)`. -/
def plus_move_copy (left right : StringType) :
    Option (StringType × StringType × StringType) :=
  if left.m_size = 0 ∧ right.m_size = 0 then some (ctor, left, right)
  else if left.m_size = 0 then do
    let result ← ctor_copy right
    some (result, left, right)
  else if right.m_size = 0 then some ((ctor_move left).1, (ctor_move left).2, right)
  else do
    let size := left.m_size + right.m_size
    let capacity := lookupCapacity size
    assume (size < capacity)
    if left.m_capacity ≥ capacity then do
      let data ← std_copy right.m_data 0 right.m_size left.m_data left.m_size
      let data ← store data size NUL_TERMINATION
      let result ← ofTriple data size left.m_capacity
      some (result, ⟨none, 0, 0⟩, right)
    else do
      let data := newArray capacity
      let data ← std_copy left.m_data 0 left.m_size data 0
      let data ← std_copy right.m_data 0 right.m_size data left.m_size
      let data ← store data size NUL_TERMINATION
      let result ← ofTriple data size capacity
      some (result, left, right)

/-- The operator `operator+(const StringType &, StringType &&)`. -/
def plus_copy_move (left right : StringType) :
    Option (StringType × StringType × StringType) :=
  if left.m_size = 0 ∧ right.m_size = 0 then some (ctor, left, right)
  else if left.m_size = 0 then some ((ctor_move right).1, left, (ctor_move right).2)
  else if right.m_size = 0 then do
    let result ← ctor_copy left
    some (result, left, right)
  else do
    let size := left.m_size + right.m_size
    let capacity := lookupCapacity size
    assume (size < capacity)
    if right.m_capacity ≥ capacity then do
      let data ← std_copy_backward right.m_data 0 right.m_size size
      let data ← std_copy left.m_data 0 left.m_size data 0
      let data ← store data size NUL_TERMINATION
      let result ← ofTriple data size right.m_capacity
      some (result, left, ⟨none, 0, 0⟩)
    else do
      let data := newArray capacity
      let data ← std_copy left.m_data 0 left.m_size data 0
      let data ← std_copy right.m_data 0 right.m_size data left.m_size
      let data ← store data size NUL_TERMINATION
      let result ← ofTriple data size capacity
      some (result, left, right)

/-- The operator `operator+(StringType &&, ConstPointer)`: the result and `left` afterwards. -/
def plus_move_cstring (left : StringType) (right : ConstPointer) :
    Option (StringType × StringType) := do
  let rightSize ← cstringSize right
  if left.m_size = 0 ∧ rightSize = 0 then some (ctor, left)
  else if left.m_size = 0 then do
    let result ← ctor_cstring right
    some (result, left)
  else if rightSize = 0 then some (ctor_move left)
  else do
    let size := left.m_size + rightSize
    let capacity := lookupCapacity size
    assume (size < capacity)
    if left.m_capacity ≥ capacity then do
      let data ← std_copy (rawBlock right) 0 rightSize left.m_data left.m_size
      let data ← store data size NUL_TERMINATION
      let result ← ofTriple data size left.m_capacity
      some (result, ⟨none, 0, 0⟩)
    else do
      let data := newArray capacity
      let data ← std_copy left.m_data 0 left.m_size data 0
      let data ← std_copy (rawBlock right) 0 rightSize data left.m_size
      let data ← store data size NUL_TERMINATION
      let result ← ofTriple data size capacity
      some (result, left)

/-- The operator `operator+(ConstPointer, StringType &&)` for a raw sequence
stored outside `right`'s buffer: the result and `right` afterwards. -/
def cstring_plus_move (left : ConstPointer) (right : StringType) :
    Option (StringType × StringType) := do
  let leftSize ← cstringSize left
  if leftSize = 0 ∧ right.m_size = 0 then some (ctor, right)
  else if leftSize = 0 then some (ctor_move right)
  else if right.m_size = 0 then do
    let result ← ctor_cstring left
    some (result, right)
  else do
    let size := leftSize + right.m_size
    let capacity := lookupCapacity size
    assume (size < capacity)
    if right.m_capacity ≥ capacity then do
      let data ← std_copy_backward right.m_data 0 right.m_size size
      let data ← std_copy (rawBlock left) 0 leftSize data 0
      let data ← store data size NUL_TERMINATION
      let result ← ofTriple data size right.m_capacity
      some (result, ⟨none, 0, 0⟩)
    else do
      let data := newArray capacity
      let data ← std_copy (rawBlock left) 0 leftSize data 0
      let data ← std_copy right.m_data 0 right.m_size data leftSize
      let data ← store data size NUL_TERMINATION
      let result ← ofTriple data size capacity
      some (result, right)

/-- The operator `operator+(StringType &&, ValueType)`: the result and `left` afterwards. -/
def plus_move_char (left : StringType) (right : ValueType) :
    Option (StringType × StringType) :=
  if left.m_size = 0 then do
    let result ← ctor_list [right]
    some (result, left)
  else do
    let size := left.m_size + 1
    let capacity := lookupCapacity size
    assume (size < capacity)
    if left.m_capacity ≥ capacity then do
      let data ← store left.m_data left.m_size right
      let data ← store data size NUL_TERMINATION
      let result ← ofTriple data size left.m_capacity
      some (result, ⟨none, 0, 0⟩)
    else do
      let data := newArray capacity
      let data ← std_copy left.m_data 0 left.m_size data 0
      let data ← store data left.m_size right
      let data ← store data size NUL_TERMINATION
      let result ← ofTriple data size capacity
      some (result, left)

/-- The operator `operator+(ValueType, StringType &&)`: the result and `right` afterwards. -/
def char_plus_move (left : ValueType) (right : StringType) :
    Option (StringType × StringType) :=
  if right.m_size = 0 then do
    let result ← ctor_list [left]
    some (result, right)
  else do
    let size := 1 + right.m_size
    let capacity := lookupCapacity size
    assume (size < capacity)
    if right.m_capacity ≥ capacity then do
      let data ← std_copy_backward right.m_data 0 right.m_size size
      let data ← store data 0 left
      let data ← store data size NUL_TERMINATION
      let result ← ofTriple data size right.m_capacity
      some (result, ⟨none, 0, 0⟩)
    else do
      let data := newArray capacity
      let data ← store data 0 left
      let data ← std_copy right.m_data 0 right.m_size data 1
      let data ← store data size NUL_TERMINATION
      let result ← ofTriple data size capacity
      some (result, right)

/-! ### Comparison operators -/

/-- The loop of `operator==(const StringType &, const StringType &)`. -/
def equalLoop (left right : StringType) (i : Nat) : Nat → Option Bool
  | 0 => some true
  | n + 1 => do
    let a ← load left.m_data i
    let b ← load right.m_data i
    if a ≠ b then some false else equalLoop left right (i + 1) n

/-- The operator `operator==(const StringType &, const StringType &)`. -/
def equal (left right : StringType) : Option Bool :=
  if left.m_size ≠ right.m_size then some false
  else if left.m_size = 0 then some true
  else equalLoop left right 0 left.m_size

/-- The loop of `operator==(const StringType &, ConstPointer)` and its final test. -/
def equalCStringLoop (left : StringType) (right : ConstPointer) (i : Nat) : Nat → Option Bool
  | 0 => do
    let c ← right[left.m_size]?
    some (c == NUL_TERMINATION)
  | n + 1 => do
    let c ← right[i]?
    if c = NUL_TERMINATION then some false
    else do
      let a ← load left.m_data i
      if a ≠ c then some false else equalCStringLoop left right (i + 1) n

/-- The operator `operator==(const StringType &, ConstPointer)`. -/
def equal_cstring (left : StringType) (right : ConstPointer) : Option Bool :=
  equalCStringLoop left right 0 left.m_size

/-- The operator `operator==(ConstPointer, const StringType &)`. -/
def cstring_equal (left : ConstPointer) (right : StringType) : Option Bool :=
  equal_cstring right left

/-- The operator `operator!=(const StringType &, const StringType &)`. -/
def not_equal (left right : StringType) : Option Bool :=
  (equal left right).map (fun b => !b)

/-- The operator `operator!=(const StringType &, ConstPointer)`. -/
def not_equal_cstring (left : StringType) (right : ConstPointer) : Option Bool :=
  (equal_cstring left right).map (fun b => !b)

/-- The operator `operator!=(ConstPointer, const StringType &)`. -/
def cstring_not_equal (left : ConstPointer) (right : StringType) : Option Bool :=
  (cstring_equal left right).map (fun b => !b)

/-! ### Observations used by the statements -/

/-- The live cells `m_data[0 .. m_size)`. -/
def content (self : StringType) : List Cell :=
  (self.m_data.getD []).take self.m_size

end StringType

/-- The units of a raw sequence before its first terminator. -/
def rawContent (cstring : ConstPointer) : List ValueType :=
  cstring.takeWhile (fun c => c ≠ NUL_TERMINATION)

/-! ## Definitions used by the statements and proofs -/

/-- The cell at index `i` of a block; `none` also outside the block. -/
def cellAt (b : Block) (i : Nat) : Cell := (b[i]?).join

/-- The block `t` with the `n` cells `s[first ..]` written at `t[d ..]`. -/
def blit (s : Block) (first : Nat) (t : Block) (d n : Nat) : Block :=
  (List.range t.length).map fun i =>
    if d ≤ i ∧ i < d + n then cellAt s (first + (i - d)) else cellAt t i

namespace StringType

/-- The representation invariant of a string value: no buffer and the empty
triple, or a buffer of `m_capacity` cells whose first `m_size` cells are
initialised and whose cell `m_size` holds the terminator. -/
def Valid (s : StringType) : Prop :=
  match s.m_data with
  | none => s.m_size = 0 ∧ s.m_capacity = 0
  | some b =>
    b.length = s.m_capacity ∧ s.m_size < s.m_capacity ∧
      cellAt b s.m_size = some NUL_TERMINATION ∧ ∀ i, i < s.m_size → cellAt b i ≠ none

instance (s : StringType) : Decidable (Valid s) := by
  unfold Valid
  split <;> infer_instance

/-- The values produced from the public constructors by public operations
that return (their asserted preconditions hold and no access is undefined).
An operation with a movable operand contributes its result and each operand
as left behind. -/
inductive Reachable : StringType → Prop
  | ctor : Reachable ctor
  | ctor_list (list : List ValueType) (r : StringType) :
      ctor_list list = some r → Reachable r
  | ctor_fill (character : ValueType) (size : Nat) (r : StringType) :
      ctor_fill character size = some r → Reachable r
  | ctor_cstring (cstring : ConstPointer) (r : StringType) :
      ctor_cstring cstring = some r → Reachable r
  | ctor_copy (object r : StringType) :
      Reachable object → ctor_copy object = some r → Reachable r
  | ctor_move_result (object : StringType) :
      Reachable object → Reachable (ctor_move object).1
  | ctor_move_source (object : StringType) :
      Reachable object → Reachable (ctor_move object).2
  | assign_char (self : StringType) (character : ValueType) (r : StringType) :
      Reachable self → assign_char self character = some r → Reachable r
  | assign_cstring (self : StringType) (cstring : ConstPointer) (r : StringType) :
      Reachable self → assign_cstring self cstring = some r → Reachable r
  | assign_copy (self object r : StringType) :
      Reachable self → Reachable object → assign_copy self object = some r → Reachable r
  | assign_move_result (self object : StringType) :
      Reachable self → Reachable object → Reachable (assign_move self object).1
  | assign_move_source (self object : StringType) :
      Reachable self → Reachable object → Reachable (assign_move self object).2
  | reserve (self : StringType) (size : Nat) (r : StringType) :
      Reachable self → reserve self size = some r → Reachable r
  | shrink (self r : StringType) :
      Reachable self → shrink self = some r → Reachable r
  | deallocate (self : StringType) :
      Reachable self → Reachable (deallocate self)
  | set (self : StringType) (index : Nat) (v : ValueType) (r : StringType) :
      Reachable self → set self index v = some r → Reachable r
  | set_front (self : StringType) (v : ValueType) (r : StringType) :
      Reachable self → set_front self v = some r → Reachable r
  | set_back (self : StringType) (v : ValueType) (r : StringType) :
      Reachable self → set_back self v = some r → Reachable r
  | clear (self r : StringType) :
      Reachable self → clear self = some r → Reachable r
  | popback (self : StringType) (count : Nat) (r : StringType) :
      Reachable self → popback self count = some r → Reachable r
  | trim (self : StringType) (count : Nat) (r : StringType) :
      Reachable self → trim self count = some r → Reachable r
  | erase (self : StringType) (index : Nat) (r : StringType) :
      Reachable self → erase self index = some r → Reachable r
  | erase_range (self : StringType) (first last : Nat) (r : StringType) :
      Reachable self → erase_range self first last = some r → Reachable r
  | insert_char (self : StringType) (character : ValueType) (index : Nat) (r : StringType) :
      Reachable self → insert_char self character index = some r → Reachable r
  | insert_cstring (self : StringType) (cstring : ConstPointer) (index : Nat) (r : StringType) :
      Reachable self → insert_cstring self cstring index = some r → Reachable r
  | insert_copy (self object : StringType) (index : Nat) (r : StringType) :
      Reachable self → Reachable object → insert_copy self object index = some r → Reachable r
  | insert_move_result (self object : StringType) (index : Nat) (p : StringType × StringType) :
      Reachable self → Reachable object → insert_move self object index = some p → Reachable p.1
  | insert_move_source (self object : StringType) (index : Nat) (p : StringType × StringType) :
      Reachable self → Reachable object → insert_move self object index = some p → Reachable p.2
  | append_char (self : StringType) (character : ValueType) (r : StringType) :
      Reachable self → append_char self character = some r → Reachable r
  | append_cstring (self : StringType) (cstring : ConstPointer) (r : StringType) :
      Reachable self → append_cstring self cstring = some r → Reachable r
  | append_copy (self object r : StringType) :
      Reachable self → Reachable object → append_copy self object = some r → Reachable r
  | append_move_result (self object : StringType) (p : StringType × StringType) :
      Reachable self → Reachable object → append_move self object = some p → Reachable p.1
  | append_move_source (self object : StringType) (p : StringType × StringType) :
      Reachable self → Reachable object → append_move self object = some p → Reachable p.2
  | substring (self : StringType) (last : Nat) (r : StringType) :
      Reachable self → substring self last = some r → Reachable r
  | substring_range (self : StringType) (first last : Nat) (r : StringType) :
      Reachable self → substring_range self first last = some r → Reachable r
  | substring_move_result (self : StringType) (last : Nat) (p : StringType × StringType) :
      Reachable self → substring_move self last = some p → Reachable p.1
  | substring_move_source (self : StringType) (last : Nat) (p : StringType × StringType) :
      Reachable self → substring_move self last = some p → Reachable p.2
  | substring_range_move_result (self : StringType) (first last : Nat)
      (p : StringType × StringType) :
      Reachable self → substring_range_move self first last = some p → Reachable p.1
  | substring_range_move_source (self : StringType) (first last : Nat)
      (p : StringType × StringType) :
      Reachable self → substring_range_move self first last = some p → Reachable p.2
  | plus (left right r : StringType) :
      Reachable left → Reachable right → plus left right = some r → Reachable r
  | plus_cstring (left : StringType) (right : ConstPointer) (r : StringType) :
      Reachable left → plus_cstring left right = some r → Reachable r
  | cstring_plus (left : ConstPointer) (right r : StringType) :
      Reachable right → cstring_plus left right = some r → Reachable r
  | plus_char (left : StringType) (right : ValueType) (r : StringType) :
      Reachable left → plus_char left right = some r → Reachable r
  | char_plus (left : ValueType) (right r : StringType) :
      Reachable right → char_plus left right = some r → Reachable r
  | plus_move_move_result (left right : StringType) (p : StringType × StringType × StringType) :
      Reachable left → Reachable right → plus_move_move left right = some p → Reachable p.1
  | plus_move_move_left (left right : StringType) (p : StringType × StringType × StringType) :
      Reachable left → Reachable right → plus_move_move left right = some p → Reachable p.2.1
  | plus_move_move_right (left right : StringType) (p : StringType × StringType × StringType) :
      Reachable left → Reachable right → plus_move_move left right = some p → Reachable p.2.2
  | plus_move_copy_result (left right : StringType) (p : StringType × StringType × StringType) :
      Reachable left → Reachable right → plus_move_copy left right = some p → Reachable p.1
  | plus_move_copy_left (left right : StringType) (p : StringType × StringType × StringType) :
      Reachable left → Reachable right → plus_move_copy left right = some p → Reachable p.2.1
  | plus_copy_move_result (left right : StringType) (p : StringType × StringType × StringType) :
      Reachable left → Reachable right → plus_copy_move left right = some p → Reachable p.1
  | plus_copy_move_right (left right : StringType) (p : StringType × StringType × StringType) :
      Reachable left → Reachable right → plus_copy_move left right = some p → Reachable p.2.2
  | plus_move_cstring_result (left : StringType) (right : ConstPointer)
      (p : StringType × StringType) :
      Reachable left → plus_move_cstring left right = some p → Reachable p.1
  | plus_move_cstring_left (left : StringType) (right : ConstPointer)
      (p : StringType × StringType) :
      Reachable left → plus_move_cstring left right = some p → Reachable p.2
  | cstring_plus_move_result (left : ConstPointer) (right : StringType)
      (p : StringType × StringType) :
      Reachable right → cstring_plus_move left right = some p → Reachable p.1
  | cstring_plus_move_right (left : ConstPointer) (right : StringType)
      (p : StringType × StringType) :
      Reachable right → cstring_plus_move left right = some p → Reachable p.2
  | plus_move_char_result (left : StringType) (right : ValueType) (p : StringType × StringType) :
      Reachable left → plus_move_char left right = some p → Reachable p.1
  | plus_move_char_left (left : StringType) (right : ValueType) (p : StringType × StringType) :
      Reachable left → plus_move_char left right = some p → Reachable p.2
  | char_plus_move_result (left : ValueType) (right : StringType) (p : StringType × StringType) :
      Reachable right → char_plus_move left right = some p → Reachable p.1
  | char_plus_move_right (left : ValueType) (right : StringType) (p : StringType × StringType) :
      Reachable right → char_plus_move left right = some p → Reachable p.2

end StringType

/-- The units `m_data[0 .. m_size)` of a string value. -/
def StringType.units (self : StringType) : List ValueType :=
  (List.range self.m_size).map fun i => (load self.m_data i).getD 0

/-- The lexicographic three-way comparison of two unit sequences by unit
value: the first differing pair decides, otherwise the shorter sequence is
less and equal lengths are equal. -/
def threeWay : List ValueType → List ValueType → Int
  | [], [] => 0
  | [], _ :: _ => -1
  | _ :: _, [] => 1
  | x :: xs, y :: ys => if x < y then -1 else if x > y then 1 else threeWay xs ys

/-- An operation returns a value of the given length whose live cells are the given cells. -/
def Yields (res : Option StringType) (size : Nat) (cells : List Cell) : Prop :=
  ∃ r, res = some r ∧ r.m_size = size ∧ StringType.content r = cells

/-- The capacity of a value is at least what the growth policy prescribes for its length. -/
def StringType.Fits (s : StringType) : Prop :=
  lookupCapacity s.m_size ≤ s.m_capacity

/-- An operation returns a value of the given length, live cells and capacity. -/
def YieldsWith (res : Option StringType) (size : Nat) (cells : List Cell) (capacity : Nat) :
    Prop :=
  ∃ r, res = some r ∧ r.m_size = size ∧ StringType.content r = cells ∧ r.m_capacity = capacity

/-- Equality of two strings worded through the comparison: `a.compare(b) == 0`. -/
def equalByCompare (a b : StringType) : Option Bool :=
  (StringType.compare a b).map fun c => c == 0

/-- Equality of a string and a raw sequence worded through the comparison:
`a.compare(r) == 0`. -/
def equalByCompareCString (a : StringType) (r : ConstPointer) : Option Bool :=
  (StringType.compare_cstring a r).map fun c => c == 0

/-- A constructor returns a value of `n` units with the given live cells and
capacity `lookupCapacity n`, without a buffer when `n = 0`, whose `cstring()`
view holds the terminator at index `n`, as does its buffer when `n > 0`. -/
def Constructs (res : Option StringType) (n : Nat) (cells : List Cell) : Prop :=
  ∃ r, res = some r ∧ r.m_size = n ∧ r.m_capacity = lookupCapacity n ∧
    (n = 0 → r.m_data = none) ∧ StringType.content r = cells ∧
    load (StringType.cstring r) n = some NUL_TERMINATION ∧
    (0 < n → load r.m_data n = some NUL_TERMINATION)

/-! ### Concrete values used to instantiate the statements -/

/-- The raw sequence `"ab"` with its terminator. -/
def rawAb : ConstPointer := [97, 98, 0]

/-- The raw sequence `"cd"` with its terminator. -/
def rawCd : ConstPointer := [99, 100, 0]

/-- The value built by `StringType("ab")`. -/
def StringType.sampleAb : StringType :=
  ⟨some ([some 97, some 98, some 0] ++ List.replicate 12 none), 2, 15⟩

/-- The literal `"very big and long string of text. "` of the example program,
with its terminator. -/
def rawBig : ConstPointer :=
  [118, 101, 114, 121, 32, 98, 105, 103, 32, 97, 110, 100, 32, 108, 111, 110, 103, 32,
    115, 116, 114, 105, 110, 103, 32, 111, 102, 32, 116, 101, 120, 116, 46, 32, 0]

/-- The literal `"short text. "` of the example program, with its terminator. -/
def rawSmall : ConstPointer :=
  [115, 104, 111, 114, 116, 32, 116, 101, 120, 116, 46, 32, 0]

/-- The value left by `StringType("ab")` followed by `reserve(20)`. -/
def StringType.sampleWide : StringType :=
  ⟨some ([some 97, some 98, some 0] ++ List.replicate 27 none), 2, 30⟩

/-- A value of ten units `0 .. 9` with capacity 15. -/
def StringType.sampleTen : StringType :=
  ⟨some ([some 0, some 1, some 2, some 3, some 4, some 5, some 6, some 7, some 8, some 9,
    some 0] ++ List.replicate 4 none), 10, 15⟩

/-- The value built by `StringType("abcdefghijklmn")`: fourteen units, capacity 15. -/
def StringType.sampleLong : StringType :=
  ⟨some [some 97, some 98, some 99, some 100, some 101, some 102, some 103, some 104,
    some 105, some 106, some 107, some 108, some 109, some 110, some 0], 14, 15⟩

/-- The raw sequence `"xyz"` with its terminator. -/
def rawXyz : ConstPointer := [120, 121, 122, 0]

/-- The units of `"hello"`. -/
def unitsHello : List ValueType := [104, 101, 108, 108, 111]

/-- The raw sequence `"abcd"` with its terminator. -/
def rawAbcd : ConstPointer := [97, 98, 99, 100, 0]

/-- The raw sequence `"abcdefghijklmn"` with its terminator. -/
def rawLong : ConstPointer :=
  [97, 98, 99, 100, 101, 102, 103, 104, 105, 106, 107, 108, 109, 110, 0]

/-- The value built by `StringType("abcd")`. -/
def StringType.sampleAbcd : StringType :=
  ⟨some ([some 97, some 98, some 99, some 100, some 0] ++ List.replicate 10 none), 4, 15⟩

/-- The value built by `StringType("abc")`. -/
def StringType.sampleAbc : StringType :=
  ⟨some ([some 97, some 98, some 99, some 0] ++ List.replicate 11 none), 3, 15⟩

/-- The value built by `StringType("cd")`. -/
def StringType.sampleCd : StringType :=
  ⟨some ([some 99, some 100, some 0] ++ List.replicate 12 none), 2, 15⟩

/-- The value left by `StringType("ab")` followed by `clear()`. -/
def StringType.sampleCleared : StringType :=
  ⟨some ([some 0, some 98, some 0] ++ List.replicate 12 none), 0, 15⟩

/-! ## Blocks and cells -/

set_option maxHeartbeats 1000000
set_option linter.unusedTactic false
set_option linter.unreachableTactic false
set_option linter.unnecessarySeqFocus false
set_option linter.unusedVariables false

theorem getElem?_eq_cellAt (b : Block) (i : Nat) :
    b[i]? = if i < b.length then some (cellAt b i) else none := by
  unfold cellAt
  by_cases h : i < b.length
  · simp [h, List.getElem?_eq_getElem h]
  · simp [h, List.getElem?_eq_none (Nat.le_of_not_lt h)]

theorem cellAt_of_le (b : Block) (i : Nat) (h : b.length ≤ i) : cellAt b i = none := by
  simp [cellAt, List.getElem?_eq_none h]

theorem block_ext (a b : Block) (hl : a.length = b.length)
    (h : ∀ i, i < a.length → cellAt a i = cellAt b i) : a = b := by
  apply List.ext_getElem? 
  intro i
  rw [getElem?_eq_cellAt, getElem?_eq_cellAt, hl]
  by_cases hi : i < b.length
  · simp [hi, h i (hl ▸ hi)]
  · simp [hi]

@[simp] theorem length_blit (s : Block) (first : Nat) (t : Block) (d n : Nat) :
    (blit s first t d n).length = t.length := by
  simp [blit]

theorem cellAt_blit (s : Block) (first : Nat) (t : Block) (d n i : Nat) :
    cellAt (blit s first t d n) i =
      if d ≤ i ∧ i < d + n ∧ i < t.length then cellAt s (first + (i - d)) else cellAt t i := by
  by_cases hi : i < t.length
  · simp only [cellAt, blit, List.getElem?_map, List.getElem?_range hi, Option.map_some', Option.join]
    simp [hi]
  · rw [cellAt_of_le _ _ (by simpa using hi), cellAt_of_le t _ (by omega)]
    simp [hi]

theorem cellAt_set (b : Block) (i j : Nat) (c : Cell) :
    cellAt (b.set i c) j = if i = j ∧ j < b.length then c else cellAt b j := by
  unfold cellAt
  rw [List.getElem?_set]
  by_cases hij : i = j
  · subst hij
    by_cases hi : i < b.length
    · simp [hi]
    · simp [hi, List.getElem?_eq_none (Nat.le_of_not_lt hi)]
  · simp [hij]

theorem cellAt_replicate (n i : Nat) (c : Cell) :
    cellAt (List.replicate n c) i = if i < n then c else none := by
  unfold cellAt
  rw [List.getElem?_replicate]
  by_cases h : i < n <;> simp [h]

theorem cellAt_map_some (l : List ValueType) (i : Nat) :
    cellAt (l.map some) i = l[i]? := by
  unfold cellAt
  rw [List.getElem?_map]
  cases l[i]? <;> rfl

theorem cellAt_take (b : Block) (n i : Nat) :
    cellAt (b.take n) i = if i < n then cellAt b i else none := by
  unfold cellAt
  rw [List.getElem?_take]
  by_cases h : i < n <;> simp [h]

theorem cellAt_append (a b : Block) (i : Nat) :
    cellAt (a ++ b) i = if i < a.length then cellAt a i else cellAt b (i - a.length) := by
  unfold cellAt
  by_cases h : i < a.length
  · simp [h, List.getElem?_append_left h]
  · simp [h, List.getElem?_append_right (Nat.le_of_not_lt h)]

theorem blit_zero (s : Block) (first : Nat) (t : Block) (d : Nat) : blit s first t d 0 = t := by
  apply block_ext
  · simp
  · intro i _
    rw [cellAt_blit]
    have : ¬ (d ≤ i ∧ i < d + 0 ∧ i < t.length) := by omega
    simp only [this, if_false]

theorem copyLoop_eq (s : Block) (n : Nat) : ∀ (first : Nat) (t : Block) (d : Nat),
    first + n ≤ s.length → d + n ≤ t.length →
    copyLoop s first t d n = some (blit s first t d n) := by
  induction n with
  | zero =>
    intro first t d _ _
    simp only [copyLoop, blit_zero]
  | succ n ih =>
    intro first t d h1 h2
    have hf : first < s.length := by omega
    have hd : d < t.length := by omega
    simp only [copyLoop, List.getElem?_eq_getElem hf, hd, if_true]
    rw [ih (first + 1) _ (d + 1) (by omega) (by simp; omega)]
    congr 1
    apply block_ext
    · simp
    · intro i _
      simp only [cellAt_blit, cellAt_set, List.length_set]
      have hv : cellAt s first = s[first] := by simp [cellAt, List.getElem?_eq_getElem hf]
      by_cases h0 : i = d
      · subst h0
        simp [hd, hv]
      · by_cases h3 : d + 1 ≤ i ∧ i < d + 1 + n ∧ i < t.length
        · have h4 : d ≤ i ∧ i < d + (n + 1) ∧ i < t.length := by omega
          have h5 : first + 1 + (i - (d + 1)) = first + (i - d) := by omega
          simp [h3, h4, h5]
        · have h4 : ¬ (d ≤ i ∧ i < d + (n + 1) ∧ i < t.length) := by omega
          simp only [h3, h4, if_false]
          have : ¬ (d = i ∧ i < t.length) := by omega
          simp [this]

theorem moveLoop_eq (n : Nat) : ∀ (b : Block) (first d : Nat),
    d ≤ first → first + n ≤ b.length →
    moveLoop b first d n = some (blit b first b d n) := by
  induction n with
  | zero =>
    intro b first d _ _
    simp only [moveLoop, blit_zero]
  | succ n ih =>
    intro b first d h1 h2
    have hf : first < b.length := by omega
    have hd : d < b.length := by omega
    simp only [moveLoop, List.getElem?_eq_getElem hf, hd, if_true]
    rw [ih _ (first + 1) (d + 1) (by omega) (by simp; omega)]
    congr 1
    apply block_ext
    · simp
    · intro i _
      simp only [cellAt_blit, cellAt_set, List.length_set]
      have hv : cellAt b first = b[first] := by simp [cellAt, List.getElem?_eq_getElem hf]
      by_cases h0 : i = d
      · subst h0
        simp [hd, hv]
      · by_cases h3 : d + 1 ≤ i ∧ i < d + 1 + n ∧ i < b.length
        · have h4 : d ≤ i ∧ i < d + (n + 1) ∧ i < b.length := by omega
          have h5 : first + 1 + (i - (d + 1)) = first + (i - d) := by omega
          have h6 : ¬ (d = first + (i - d) ∧ first + (i - d) < b.length) := by omega
          simp [h3, h4, h5, h6]
        · have h4 : ¬ (d ≤ i ∧ i < d + (n + 1) ∧ i < b.length) := by omega
          simp only [h3, h4, if_false]
          have : ¬ (d = i ∧ i < b.length) := by omega
          simp [this]

theorem backLoop_eq (n : Nat) : ∀ (b : Block) (first dfirst : Nat),
    first ≤ dfirst → dfirst + n ≤ b.length →
    backLoop b first dfirst n = some (blit b first b dfirst n) := by
  induction n with
  | zero =>
    intro b first dfirst _ _
    simp only [backLoop, blit_zero]
  | succ n ih =>
    intro b first dfirst h1 h2
    have hf : first + n < b.length := by omega
    have hd : dfirst + n < b.length := by omega
    simp only [backLoop, List.getElem?_eq_getElem hf, hd, if_true]
    rw [ih _ first dfirst h1 (by simp; omega)]
    congr 1
    apply block_ext
    · simp
    · intro i _
      simp only [cellAt_blit, cellAt_set, List.length_set]
      have hv : cellAt b (first + n) = b[first + n] := by
        simp [cellAt, List.getElem?_eq_getElem hf]
      by_cases h0 : i = dfirst + n
      · subst h0
        have h3 : ¬ (dfirst ≤ dfirst + n ∧ dfirst + n < dfirst + n ∧ dfirst + n < b.length) := by
          omega
        have h4 : dfirst ≤ dfirst + n ∧ dfirst + n < dfirst + (n + 1) ∧ dfirst + n < b.length := by
          omega
        have h5 : first + (dfirst + n - dfirst) = first + n := by omega
        simp [h3, h4, h5, hd, hv]
      · by_cases h3 : dfirst ≤ i ∧ i < dfirst + n ∧ i < b.length
        · have h4 : dfirst ≤ i ∧ i < dfirst + (n + 1) ∧ i < b.length := by omega
          have h6 : ¬ (dfirst + n = first + (i - dfirst) ∧ first + (i - dfirst) < b.length) := by
            omega
          simp [h3, h4, h6]
        · have h4 : ¬ (dfirst ≤ i ∧ i < dfirst + (n + 1) ∧ i < b.length) := by omega
          simp only [h3, h4, if_false]
          have : ¬ (dfirst + n = i ∧ i < b.length) := by omega
          simp [this]

theorem fillLoop_eq (v : ValueType) (n : Nat) : ∀ (b : Block) (first : Nat),
    first + n ≤ b.length →
    fillLoop b first v n = some (blit (List.replicate (first + n) (some v)) first b first n) := by
  induction n with
  | zero =>
    intro b first _
    simp only [fillLoop, blit_zero]
  | succ n ih =>
    intro b first h
    have hf : first < b.length := by omega
    simp only [fillLoop, hf, if_true]
    rw [ih _ (first + 1) (by simp; omega)]
    congr 1
    apply block_ext
    · simp
    · intro i _
      simp only [cellAt_blit, cellAt_set, cellAt_replicate, List.length_set]
      by_cases h0 : i = first
      · subst h0
        have h3 : ¬ (i + 1 ≤ i ∧ i < i + 1 + n ∧ i < b.length) := by omega
        have h4 : i ≤ i ∧ i < i + (n + 1) ∧ i < b.length := by omega
        have h5 : i + (i - i) < i + (n + 1) := by omega
        simp [h3, h4, h5, hf]
      · by_cases h3 : first + 1 ≤ i ∧ i < first + 1 + n ∧ i < b.length
        · have h4 : first ≤ i ∧ i < first + (n + 1) ∧ i < b.length := by omega
          have h5 : first + 1 + (i - (first + 1)) < first + 1 + n := by omega
          have h6 : first + (i - first) < first + (n + 1) := by omega
          simp [h3, h4, h5, h6]
        · have h4 : ¬ (first ≤ i ∧ i < first + (n + 1) ∧ i < b.length) := by omega
          simp only [h3, h4, if_false]
          have : ¬ (first = i ∧ i < b.length) := by omega
          simp [this]


/-! ## Pointer-level closed forms -/

theorem store_some (b : Block) (i : Nat) (v : ValueType) (h : i < b.length) :
    store (some b) i v = some (some (b.set i (some v))) := by
  simp [store, h]

theorem std_copy_some (s t : Block) (first last d : Nat)
    (h1 : first ≤ last) (h2 : last ≤ s.length) (h3 : d + (last - first) ≤ t.length) :
    std_copy (some s) first last (some t) d = some (some (blit s first t d (last - first))) := by
  unfold std_copy
  by_cases h : last = first
  · subst h
    simp [blit_zero]
  · have h' : ¬ last < first := by omega
    simp only [h, h', if_false]
    rw [copyLoop_eq s _ first t d (by omega) h3]
    rfl

theorem std_copy_empty (p q : Pointer) (first d : Nat) :
    std_copy p first first q d = some q := by
  simp [std_copy]

theorem std_copy_within_some (b : Block) (first last d : Nat)
    (h1 : first ≤ last) (h2 : last ≤ b.length) (h3 : d ≤ first) :
    std_copy_within (some b) first last d = some (some (blit b first b d (last - first))) := by
  unfold std_copy_within
  by_cases h : last = first
  · subst h
    simp [blit_zero]
  · have h' : ¬ last < first := by omega
    simp only [h, h', if_false]
    rw [moveLoop_eq _ b first d h3 (by omega)]
    rfl

theorem std_copy_backward_some (b : Block) (first last dlast : Nat)
    (h1 : first ≤ last) (h2 : last ≤ dlast) (h3 : dlast ≤ b.length) :
    std_copy_backward (some b) first last dlast =
      some (some (blit b first b (dlast - (last - first)) (last - first))) := by
  unfold std_copy_backward
  by_cases h : last = first
  · subst h
    simp [blit_zero]
  · have h' : ¬ (last < first ∨ dlast < last - first) := by omega
    simp only [h, h', if_false]
    rw [backLoop_eq _ b first _ (by omega) (by omega)]
    rfl

theorem std_fill_some (b : Block) (first last : Nat) (v : ValueType)
    (h1 : first ≤ last) (h2 : last ≤ b.length) :
    std_fill (some b) first last v =
      some (some (blit (List.replicate last (some v)) first b first (last - first))) := by
  unfold std_fill
  by_cases h : last = first
  · subst h
    simp [blit_zero]
  · have h' : ¬ last < first := by omega
    simp only [h, h', if_false]
    rw [fillLoop_eq v _ b first (by omega)]
    have : first + (last - first) = last := by omega
    rw [this]
    rfl

namespace StringType

theorem valid_none (n c : Nat) : Valid ⟨none, n, c⟩ ↔ n = 0 ∧ c = 0 := by
  simp [Valid]

theorem valid_some (b : Block) (n c : Nat) : Valid ⟨some b, n, c⟩ ↔
    b.length = c ∧ n < c ∧ cellAt b n = some NUL_TERMINATION ∧ ∀ i, i < n → cellAt b i ≠ none := by
  simp [Valid]

end StringType

/-! ## The growth policy -/

theorem lookupCapacityLoop_spec (size : Nat) : ∀ (fuel capacity : Nat),
    0 < capacity → size ≤ capacity * 2 ^ fuel →
    ∃ k, lookupCapacityLoop size fuel capacity = capacity * 2 ^ k ∧
      size ≤ capacity * 2 ^ k ∧ ∀ j, size ≤ capacity * 2 ^ j → k ≤ j := by
  intro fuel
  induction fuel with
  | zero =>
    intro capacity _ h
    exact ⟨0, by simp [lookupCapacityLoop], by simpa using h, fun j _ => Nat.zero_le j⟩
  | succ fuel ih =>
    intro capacity hpos h
    by_cases hgt : size > capacity
    · have h2 : size ≤ capacity * 2 * 2 ^ fuel := by
        rw [Nat.mul_assoc, ← Nat.pow_succ']
        exact h
      obtain ⟨k, hk1, hk2, hk3⟩ := ih (capacity * 2) (by omega) h2
      refine ⟨k + 1, ?_, ?_, ?_⟩
      · simp only [lookupCapacityLoop, hgt, if_true, hk1]
        rw [Nat.mul_assoc, ← Nat.pow_succ']
      · rw [Nat.pow_succ', ← Nat.mul_assoc]
        exact hk2
      · intro j hj
        cases j with
        | zero => simp at hj; omega
        | succ j =>
          have := hk3 j (by rw [Nat.mul_assoc, ← Nat.pow_succ']; exact hj)
          omega
    · refine ⟨0, ?_, ?_, fun j _ => Nat.zero_le j⟩
      · simp [lookupCapacityLoop, hgt]
      · simp; omega

theorem lookupCapacity_zero : lookupCapacity 0 = 0 := by
  simp [lookupCapacity]

theorem lookupCapacity_spec (n : Nat) (hn : 0 < n) :
    ∃ k, lookupCapacity n = 15 * 2 ^ k ∧ n < 15 * 2 ^ k ∧
      ∀ j, n < 15 * 2 ^ j → 15 * 2 ^ k ≤ 15 * 2 ^ j := by
  have hfuel : n + 1 ≤ SEED * 2 ^ (n + 1) := by
    have : n + 1 < 2 ^ (n + 1) := Nat.lt_two_pow (n + 1)
    simp only [SEED]
    omega
  obtain ⟨k, hk1, hk2, hk3⟩ := lookupCapacityLoop_spec (n + 1) (n + 1) SEED (by decide) hfuel
  refine ⟨k, ?_, ?_, ?_⟩
  · simp only [lookupCapacity, Nat.ne_of_gt hn, if_false, hk1]
    rfl
  · simp only [SEED] at hk2
    omega
  · intro j hj
    have := hk3 j (by simp only [SEED]; omega)
    exact Nat.mul_le_mul_left 15 (Nat.pow_le_pow_right (by decide) this)

theorem lookupCapacity_gt (n : Nat) (hn : 0 < n) : n < lookupCapacity n := by
  obtain ⟨k, hk1, hk2, _⟩ := lookupCapacity_spec n hn
  omega

theorem lookupCapacity_mono (m n : Nat) (h : m ≤ n) : lookupCapacity m ≤ lookupCapacity n := by
  by_cases hm : m = 0
  · subst hm
    simp [lookupCapacity_zero]
  · have hm' : 0 < m := Nat.pos_of_ne_zero hm
    obtain ⟨k, hk1, _, hk3⟩ := lookupCapacity_spec m hm'
    obtain ⟨k', hk1', hk2', _⟩ := lookupCapacity_spec n (by omega)
    rw [hk1, hk1']
    exact hk3 k' (by omega)


/-! ## Raw sequences -/

theorem cstringSizeLoop_spec : ∀ (l : ConstPointer) (k L : Nat), cstringSizeLoop l k = some L →
    ∃ j, L = k + j ∧ j < l.length ∧ l[j]? = some NUL_TERMINATION ∧ rawContent l = l.take j := by
  intro l
  induction l with
  | nil => intro k L h; simp [cstringSizeLoop] at h
  | cons c rest ih =>
    intro k L h
    by_cases hc : c = NUL_TERMINATION
    · simp only [cstringSizeLoop, hc, ne_eq, not_true_eq_false, if_false, Option.some.injEq] at h
      exact ⟨0, by omega, by simp, by simp [hc], by simp [rawContent, hc]⟩
    · simp only [cstringSizeLoop, ne_eq, hc, not_false_eq_true, if_true] at h
      obtain ⟨j, h1, h2, h3, h4⟩ := ih (k + 1) L h
      refine ⟨j + 1, by omega, by simp; omega, by simpa using h3, ?_⟩
      simp only [rawContent] at h4
      simp only [rawContent, List.takeWhile_cons, ne_eq, hc, not_false_eq_true, decide_True, if_true,
        List.take_succ_cons, h4]

theorem cstringSize_spec (r : ConstPointer) (L : Nat) (h : cstringSize r = some L) :
    L < r.length ∧ r[L]? = some NUL_TERMINATION ∧ rawContent r = r.take L := by
  obtain ⟨j, h1, h2, h3, h4⟩ := cstringSizeLoop_spec r 0 L h
  have : L = j := by omega
  subst this
  exact ⟨h2, h3, h4⟩

theorem rawContent_length (r : ConstPointer) (L : Nat) (h : cstringSize r = some L) :
    (rawContent r).length = L := by
  obtain ⟨h1, _, h3⟩ := cstringSize_spec r L h
  rw [h3, List.length_take]
  omega

theorem rawContent_ne_nul (r : ConstPointer) (i : Nat) (v : ValueType)
    (h : (rawContent r)[i]? = some v) : v ≠ NUL_TERMINATION := by
  have hm : v ∈ rawContent r := List.getElem?_mem h
  have := List.mem_takeWhile_imp hm
  simpa using this



/-! ## Values from buffers -/

theorem cellAt_drop (b : Block) (k i : Nat) : cellAt (b.drop k) i = cellAt b (k + i) := by
  unfold cellAt
  rw [List.getElem?_drop]

theorem cellAt_nil (i : Nat) : cellAt [] i = none := by
  simp [cellAt]

theorem cellAt_cons_zero (c : Cell) (b : Block) : cellAt (c :: b) 0 = c := by
  simp [cellAt]

namespace StringType

theorem valid_null : Valid ⟨none, 0, 0⟩ := by
  simp [Valid]

theorem content_none (n c : Nat) : content ⟨none, n, c⟩ = [] := by
  simp [content]

/-- A buffer with the right length, terminator and initialised cells is a valid
value whose content is the list it agrees with cell by cell. -/
theorem mk_spec (B : Block) (N C : Nat) (xs : Block)
    (h1 : B.length = C) (h2 : N < C) (h3 : cellAt B N = some NUL_TERMINATION)
    (h4 : xs.length = N) (h5 : ∀ i, i < N → cellAt B i = cellAt xs i)
    (h6 : ∀ i, i < N → cellAt B i ≠ none) :
    Valid ⟨some B, N, C⟩ ∧ content ⟨some B, N, C⟩ = xs := by
  refine ⟨(valid_some B N C).mpr ⟨h1, h2, h3, h6⟩, ?_⟩
  simp only [content, Option.getD_some]
  apply block_ext
  · rw [List.length_take, h4]
    omega
  · intro i hi
    rw [List.length_take] at hi
    rw [cellAt_take, if_pos (by omega)]
    exact h5 i (by omega)

end StringType

namespace StringType

/-! ## Constructors -/

theorem ctor_list_spec (list : List ValueType) :
    ∃ r, ctor_list list = some r ∧ r.m_size = list.length ∧
      r.m_capacity = lookupCapacity list.length ∧ Valid r ∧ content r = list.map some := by
  by_cases hl : list.length = 0
  · have : list = [] := List.length_eq_zero.mp hl
    subst this
    exact ⟨⟨none, 0, 0⟩, by simp [ctor_list, null], rfl, by simp [lookupCapacity_zero],
      valid_null, by simp [content]⟩
  · have hcap := lookupCapacity_gt list.length (by omega)
    simp (disch := first | omega | (simp only [length_blit, List.length_set, List.length_replicate, List.length_map, List.length_take, List.length_append, List.length_drop, List.length_cons, List.length_nil, content, Option.getD_some, Option.getD_none, List.take_nil]; omega)) only [ctor_list, assert_assume, assume, bind, Option.bind, newArray, rawBlock, if_true, if_false, std_copy_some, std_copy_empty, std_copy_within_some, std_copy_backward_some, std_fill_some, store_some, ofTriple, ctor, null, ctor_move, ge_iff_le, gt_iff_lt, not_lt, not_le, hl, hcap]
    refine ⟨_, rfl, rfl, rfl, ?_⟩
    apply mk_spec
    · simp only [length_blit, List.length_set, List.length_replicate, List.length_map, List.length_take, List.length_append, List.length_drop, List.length_cons, List.length_nil, content, Option.getD_some, Option.getD_none, List.take_nil] <;> omega
    · omega
    · simp only [length_blit, List.length_set, List.length_replicate, List.length_map, List.length_take, List.length_append, List.length_drop, List.length_cons, List.length_nil, content, Option.getD_some, Option.getD_none, List.take_nil, cellAt_set, cellAt_blit, cellAt_replicate, cellAt_map_some, cellAt_take, cellAt_append, cellAt_drop, cellAt_cons_zero, cellAt_nil, List.getElem?_take, true_and, and_true, Nat.sub_zero, Nat.zero_add, Nat.add_zero, Nat.zero_le, Nat.sub_self, Nat.lt_irrefl, if_true, if_false]
      split_ifs <;> first | rfl | omega
    · simp only [length_blit, List.length_set, List.length_replicate, List.length_map, List.length_take, List.length_append, List.length_drop, List.length_cons, List.length_nil, content, Option.getD_some, Option.getD_none, List.take_nil] <;> omega
    · intro i hi
      simp only [length_blit, List.length_set, List.length_replicate, List.length_map, List.length_take, List.length_append, List.length_drop, List.length_cons, List.length_nil, content, Option.getD_some, Option.getD_none, List.take_nil, cellAt_set, cellAt_blit, cellAt_replicate, cellAt_map_some, cellAt_take, cellAt_append, cellAt_drop, cellAt_cons_zero, cellAt_nil, List.getElem?_take, true_and, and_true, Nat.sub_zero, Nat.zero_add, Nat.add_zero, Nat.zero_le, Nat.sub_self, Nat.lt_irrefl, if_true, if_false]
      split_ifs <;> first | rfl | omega | (congr 1; omega)
    · intro i hi
      simp only [length_blit, List.length_set, List.length_replicate, List.length_map, List.length_take, List.length_append, List.length_drop, List.length_cons, List.length_nil, content, Option.getD_some, Option.getD_none, List.take_nil, cellAt_set, cellAt_blit, cellAt_replicate, cellAt_map_some, cellAt_take, cellAt_append, cellAt_drop, cellAt_cons_zero, cellAt_nil, List.getElem?_take, true_and, and_true, Nat.sub_zero, Nat.zero_add, Nat.add_zero, Nat.zero_le, Nat.sub_self, Nat.lt_irrefl, if_true, if_false]
      have := List.getElem?_eq_getElem hi
      split_ifs <;> first | omega | simp [this]

theorem ctor_fill_spec (character : ValueType) (size : Nat) :
    ∃ r, ctor_fill character size = some r ∧ r.m_size = size ∧
      r.m_capacity = lookupCapacity size ∧ Valid r ∧
      content r = List.replicate size (some character) := by
  by_cases hl : size = 0
  · subst hl
    exact ⟨⟨none, 0, 0⟩, by simp [ctor_fill, null], rfl, by simp [lookupCapacity_zero],
      valid_null, by simp [content]⟩
  · have hcap := lookupCapacity_gt size (by omega)
    simp (disch := first | omega | (simp only [length_blit, List.length_set, List.length_replicate, List.length_map, List.length_take, List.length_append, List.length_drop, List.length_cons, List.length_nil, content, Option.getD_some, Option.getD_none, List.take_nil]; omega)) only [ctor_fill, assert_assume, assume, bind, Option.bind, newArray, rawBlock, if_true, if_false, std_copy_some, std_copy_empty, std_copy_within_some, std_copy_backward_some, std_fill_some, store_some, ofTriple, ctor, null, ctor_move, ge_iff_le, gt_iff_lt, not_lt, not_le, hl, hcap]
    refine ⟨_, rfl, rfl, rfl, ?_⟩
    apply mk_spec
    · simp only [length_blit, List.length_set, List.length_replicate, List.length_map, List.length_take, List.length_append, List.length_drop, List.length_cons, List.length_nil, content, Option.getD_some, Option.getD_none, List.take_nil] <;> omega
    · omega
    · simp only [length_blit, List.length_set, List.length_replicate, List.length_map, List.length_take, List.length_append, List.length_drop, List.length_cons, List.length_nil, content, Option.getD_some, Option.getD_none, List.take_nil, cellAt_set, cellAt_blit, cellAt_replicate, cellAt_map_some, cellAt_take, cellAt_append, cellAt_drop, cellAt_cons_zero, cellAt_nil, List.getElem?_take, true_and, and_true, Nat.sub_zero, Nat.zero_add, Nat.add_zero, Nat.zero_le, Nat.sub_self, Nat.lt_irrefl, if_true, if_false]
      split_ifs <;> first | rfl | omega
    · simp only [length_blit, List.length_set, List.length_replicate, List.length_map, List.length_take, List.length_append, List.length_drop, List.length_cons, List.length_nil, content, Option.getD_some, Option.getD_none, List.take_nil] <;> omega
    · intro i hi
      simp only [length_blit, List.length_set, List.length_replicate, List.length_map, List.length_take, List.length_append, List.length_drop, List.length_cons, List.length_nil, content, Option.getD_some, Option.getD_none, List.take_nil, cellAt_set, cellAt_blit, cellAt_replicate, cellAt_map_some, cellAt_take, cellAt_append, cellAt_drop, cellAt_cons_zero, cellAt_nil, List.getElem?_take, true_and, and_true, Nat.sub_zero, Nat.zero_add, Nat.add_zero, Nat.zero_le, Nat.sub_self, Nat.lt_irrefl, if_true, if_false]
      split_ifs <;> first | rfl | omega | (congr 1; omega)
    · intro i hi
      simp only [length_blit, List.length_set, List.length_replicate, List.length_map, List.length_take, List.length_append, List.length_drop, List.length_cons, List.length_nil, content, Option.getD_some, Option.getD_none, List.take_nil, cellAt_set, cellAt_blit, cellAt_replicate, cellAt_map_some, cellAt_take, cellAt_append, cellAt_drop, cellAt_cons_zero, cellAt_nil, List.getElem?_take, true_and, and_true, Nat.sub_zero, Nat.zero_add, Nat.add_zero, Nat.zero_le, Nat.sub_self, Nat.lt_irrefl, if_true, if_false]
      split_ifs <;> first | omega | simp

theorem ctor_cstring_spec (cstring : ConstPointer) (L : Nat) (hL : cstringSize cstring = some L) :
    ∃ r, ctor_cstring cstring = some r ∧ r.m_size = L ∧
      r.m_capacity = lookupCapacity L ∧ Valid r ∧
      content r = (rawContent cstring).map some := by
  obtain ⟨hL1, hL2, hL3⟩ := cstringSize_spec cstring L hL
  by_cases hl : L = 0
  · subst hl
    exact ⟨⟨none, 0, 0⟩, by simp [ctor_cstring, null, hL], rfl, by simp [lookupCapacity_zero],
      valid_null, by simp [content, hL3]⟩
  · have hcap := lookupCapacity_gt L (by omega)
    simp (disch := first | omega | (simp only [length_blit, List.length_set, List.length_replicate, List.length_map, List.length_take, List.length_append, List.length_drop, List.length_cons, List.length_nil, content, Option.getD_some, Option.getD_none, List.take_nil]; omega)) only [ctor_cstring, assert_assume, assume, bind, Option.bind, newArray, rawBlock, if_true, if_false, std_copy_some, std_copy_empty, std_copy_within_some, std_copy_backward_some, std_fill_some, store_some, ofTriple, ctor, null, ctor_move, ge_iff_le, gt_iff_lt, not_lt, not_le, hL, hl, hcap]
    refine ⟨_, rfl, rfl, rfl, ?_⟩
    rw [hL3]
    apply mk_spec
    · simp only [length_blit, List.length_set, List.length_replicate, List.length_map, List.length_take, List.length_append, List.length_drop, List.length_cons, List.length_nil, content, Option.getD_some, Option.getD_none, List.take_nil] <;> omega
    · omega
    · simp only [length_blit, List.length_set, List.length_replicate, List.length_map, List.length_take, List.length_append, List.length_drop, List.length_cons, List.length_nil, content, Option.getD_some, Option.getD_none, List.take_nil, cellAt_set, cellAt_blit, cellAt_replicate, cellAt_map_some, cellAt_take, cellAt_append, cellAt_drop, cellAt_cons_zero, cellAt_nil, List.getElem?_take, true_and, and_true, Nat.sub_zero, Nat.zero_add, Nat.add_zero, Nat.zero_le, Nat.sub_self, Nat.lt_irrefl, if_true, if_false]
      split_ifs <;> first | rfl | omega
    · simp only [length_blit, List.length_set, List.length_replicate, List.length_map, List.length_take, List.length_append, List.length_drop, List.length_cons, List.length_nil, content, Option.getD_some, Option.getD_none, List.take_nil] <;> omega
    · intro i hi
      simp only [length_blit, List.length_set, List.length_replicate, List.length_map, List.length_take, List.length_append, List.length_drop, List.length_cons, List.length_nil, content, Option.getD_some, Option.getD_none, List.take_nil, cellAt_set, cellAt_blit, cellAt_replicate, cellAt_map_some, cellAt_take, cellAt_append, cellAt_drop, cellAt_cons_zero, cellAt_nil, List.getElem?_take, true_and, and_true, Nat.sub_zero, Nat.zero_add, Nat.add_zero, Nat.zero_le, Nat.sub_self, Nat.lt_irrefl, if_true, if_false]
      split_ifs <;> first | rfl | omega | (congr 1; omega)
    · intro i hi
      simp only [length_blit, List.length_set, List.length_replicate, List.length_map, List.length_take, List.length_append, List.length_drop, List.length_cons, List.length_nil, content, Option.getD_some, Option.getD_none, List.take_nil, cellAt_set, cellAt_blit, cellAt_replicate, cellAt_map_some, cellAt_take, cellAt_append, cellAt_drop, cellAt_cons_zero, cellAt_nil, List.getElem?_take, true_and, and_true, Nat.sub_zero, Nat.zero_add, Nat.add_zero, Nat.zero_le, Nat.sub_self, Nat.lt_irrefl, if_true, if_false]
      have := List.getElem?_eq_getElem (show i < cstring.length by omega)
      split_ifs <;> first | omega | simp [this]

theorem ctor_copy_spec (object : StringType) (ho : Valid object) :
    ∃ r, ctor_copy object = some r ∧ r.m_size = object.m_size ∧
      r.m_capacity = lookupCapacity object.m_size ∧ Valid r ∧
      content r = content object := by
  by_cases hl : object.m_size = 0
  · exact ⟨⟨none, 0, 0⟩, by simp [ctor_copy, null, hl], by simp [hl],
      by simp [hl, lookupCapacity_zero], valid_null, by simp [content, hl]⟩
  · rcases object with ⟨_ | bo, m, co⟩
    · simp only [valid_none] at ho
      exact absurd ho.1 hl
    · simp only [valid_some] at ho
      obtain ⟨rfl, ho2, ho3, ho4⟩ := ho
      simp only at hl
      have hcap := lookupCapacity_gt m (by omega)
      simp (disch := first | omega | (simp only [length_blit, List.length_set, List.length_replicate, List.length_map, List.length_take, List.length_append, List.length_drop, List.length_cons, List.length_nil, content, Option.getD_some, Option.getD_none, List.take_nil]; omega)) only [ctor_copy, assert_assume, assume, bind, Option.bind, newArray, rawBlock, if_true, if_false, std_copy_some, std_copy_empty, std_copy_within_some, std_copy_backward_some, std_fill_some, store_some, ofTriple, ctor, null, ctor_move, ge_iff_le, gt_iff_lt, not_lt, not_le, hl, hcap]
      refine ⟨_, rfl, rfl, rfl, ?_⟩
      apply mk_spec
      · simp only [length_blit, List.length_set, List.length_replicate, List.length_map, List.length_take, List.length_append, List.length_drop, List.length_cons, List.length_nil, content, Option.getD_some, Option.getD_none, List.take_nil] <;> omega
      · omega
      · simp only [length_blit, List.length_set, List.length_replicate, List.length_map, List.length_take, List.length_append, List.length_drop, List.length_cons, List.length_nil, content, Option.getD_some, Option.getD_none, List.take_nil, cellAt_set, cellAt_blit, cellAt_replicate, cellAt_map_some, cellAt_take, cellAt_append, cellAt_drop, cellAt_cons_zero, cellAt_nil, List.getElem?_take, true_and, and_true, Nat.sub_zero, Nat.zero_add, Nat.add_zero, Nat.zero_le, Nat.sub_self, Nat.lt_irrefl, if_true, if_false]
        split_ifs <;> first | rfl | omega
      · simp only [length_blit, List.length_set, List.length_replicate, List.length_map, List.length_take, List.length_append, List.length_drop, List.length_cons, List.length_nil, content, Option.getD_some, Option.getD_none, List.take_nil] <;> omega
      · intro i hi
        simp only [length_blit, List.length_set, List.length_replicate, List.length_map, List.length_take, List.length_append, List.length_drop, List.length_cons, List.length_nil, content, Option.getD_some, Option.getD_none, List.take_nil, cellAt_set, cellAt_blit, cellAt_replicate, cellAt_map_some, cellAt_take, cellAt_append, cellAt_drop, cellAt_cons_zero, cellAt_nil, List.getElem?_take, true_and, and_true, Nat.sub_zero, Nat.zero_add, Nat.add_zero, Nat.zero_le, Nat.sub_self, Nat.lt_irrefl, if_true, if_false]
        split_ifs <;> first | rfl | omega | (congr 1; omega)
      · intro i hi
        simp only [length_blit, List.length_set, List.length_replicate, List.length_map, List.length_take, List.length_append, List.length_drop, List.length_cons, List.length_nil, content, Option.getD_some, Option.getD_none, List.take_nil, cellAt_set, cellAt_blit, cellAt_replicate, cellAt_map_some, cellAt_take, cellAt_append, cellAt_drop, cellAt_cons_zero, cellAt_nil, List.getElem?_take, true_and, and_true, Nat.sub_zero, Nat.zero_add, Nat.add_zero, Nat.zero_le, Nat.sub_self, Nat.lt_irrefl, if_true, if_false]
        split_ifs <;> first | omega | exact ho4 _ (by omega)

end StringType


theorem lookupCapacity_one : lookupCapacity 1 = 15 := by decide

namespace StringType

/-! ## Assignment -/

theorem assign_char_spec (self : StringType) (character : ValueType) (hs : Valid self) :
    ∃ r, assign_char self character = some r ∧ r.m_size = 1 ∧
      r.m_capacity =
        (if self.m_capacity < lookupCapacity 1 then lookupCapacity 1 else self.m_capacity) ∧
      Valid r ∧ content r = [some character] := by
  have hcap : 1 < lookupCapacity 1 := by decide
  by_cases hlt : self.m_capacity < lookupCapacity 1
  · simp (disch := first | omega | (simp only [length_blit, List.length_set, List.length_replicate, List.length_map, List.length_take, List.length_append, List.length_drop, List.length_cons, List.length_nil, content, Option.getD_some, Option.getD_none, List.take_nil]; omega)) only [assign_char, assert_assume, assume, bind, Option.bind, newArray, rawBlock, if_true, if_false, std_copy_some, std_copy_empty, std_copy_within_some, std_copy_backward_some, std_fill_some, store_some, ofTriple, ctor, null, ctor_move, ge_iff_le, gt_iff_lt, not_lt, not_le, hlt, hcap]
    refine ⟨_, rfl, rfl, rfl, ?_⟩
    apply mk_spec
    · simp only [length_blit, List.length_set, List.length_replicate, List.length_map, List.length_take, List.length_append, List.length_drop, List.length_cons, List.length_nil, content, Option.getD_some, Option.getD_none, List.take_nil] <;> omega
    · omega
    · simp only [length_blit, List.length_set, List.length_replicate, List.length_map, List.length_take, List.length_append, List.length_drop, List.length_cons, List.length_nil, content, Option.getD_some, Option.getD_none, List.take_nil, cellAt_set, cellAt_blit, cellAt_replicate, cellAt_map_some, cellAt_take, cellAt_append, cellAt_drop, cellAt_cons_zero, cellAt_nil, List.getElem?_take, true_and, and_true, Nat.sub_zero, Nat.zero_add, Nat.add_zero, Nat.zero_le, Nat.sub_self, Nat.lt_irrefl, Nat.one_ne_zero, false_and, and_false, if_true, if_false]
      split_ifs <;> first | rfl | omega | exact hs3 | exact ho3 | (simp only [false_and, and_false] at *; done)
    · simp only [length_blit, List.length_set, List.length_replicate, List.length_map, List.length_take, List.length_append, List.length_drop, List.length_cons, List.length_nil, content, Option.getD_some, Option.getD_none, List.take_nil] <;> omega
    · intro i hi
      obtain rfl : i = 0 := by omega
      simp only [length_blit, List.length_set, List.length_replicate, List.length_map, List.length_take, List.length_append, List.length_drop, List.length_cons, List.length_nil, content, Option.getD_some, Option.getD_none, List.take_nil, cellAt_set, cellAt_blit, cellAt_replicate, cellAt_map_some, cellAt_take, cellAt_append, cellAt_drop, cellAt_cons_zero, cellAt_nil, List.getElem?_take, true_and, and_true, Nat.sub_zero, Nat.zero_add, Nat.add_zero, Nat.zero_le, Nat.sub_self, Nat.lt_irrefl, Nat.one_ne_zero, false_and, and_false, if_true, if_false]
      split_ifs <;> first | rfl | omega | (congr 1; omega) | (simp only [false_and, and_false] at *; done)
    · intro i hi
      obtain rfl : i = 0 := by omega
      simp only [length_blit, List.length_set, List.length_replicate, List.length_map, List.length_take, List.length_append, List.length_drop, List.length_cons, List.length_nil, content, Option.getD_some, Option.getD_none, List.take_nil, cellAt_set, cellAt_blit, cellAt_replicate, cellAt_map_some, cellAt_take, cellAt_append, cellAt_drop, cellAt_cons_zero, cellAt_nil, List.getElem?_take, true_and, and_true, Nat.sub_zero, Nat.zero_add, Nat.add_zero, Nat.zero_le, Nat.sub_self, Nat.lt_irrefl, Nat.one_ne_zero, false_and, and_false, if_true, if_false]
      have := trivial
      split_ifs <;> first | omega | exact hs4 _ (by omega) | exact ho4 _ (by omega) | simp [this] | simp | (simp only [false_and, and_false] at *; done)
  · rcases self with ⟨_ | bs, n, c⟩
    · simp only [valid_none] at hs
      simp only [hs.2] at hlt
      omega
    · simp only [valid_some] at hs
      obtain ⟨rfl, hs2, hs3, hs4⟩ := hs
      simp only at hlt
      simp (disch := first | omega | (simp only [length_blit, List.length_set, List.length_replicate, List.length_map, List.length_take, List.length_append, List.length_drop, List.length_cons, List.length_nil, content, Option.getD_some, Option.getD_none, List.take_nil]; omega)) only [assign_char, assert_assume, assume, bind, Option.bind, newArray, rawBlock, if_true, if_false, std_copy_some, std_copy_empty, std_copy_within_some, std_copy_backward_some, std_fill_some, store_some, ofTriple, ctor, null, ctor_move, ge_iff_le, gt_iff_lt, not_lt, not_le, hlt, hcap]
      refine ⟨_, rfl, rfl, rfl, ?_⟩
      apply mk_spec
      · simp only [length_blit, List.length_set, List.length_replicate, List.length_map, List.length_take, List.length_append, List.length_drop, List.length_cons, List.length_nil, content, Option.getD_some, Option.getD_none, List.take_nil] <;> omega
      · omega
      · simp only [length_blit, List.length_set, List.length_replicate, List.length_map, List.length_take, List.length_append, List.length_drop, List.length_cons, List.length_nil, content, Option.getD_some, Option.getD_none, List.take_nil, cellAt_set, cellAt_blit, cellAt_replicate, cellAt_map_some, cellAt_take, cellAt_append, cellAt_drop, cellAt_cons_zero, cellAt_nil, List.getElem?_take, true_and, and_true, Nat.sub_zero, Nat.zero_add, Nat.add_zero, Nat.zero_le, Nat.sub_self, Nat.lt_irrefl, Nat.one_ne_zero, false_and, and_false, if_true, if_false]
        split_ifs <;> first | rfl | omega | exact hs3 | exact ho3 | (simp only [false_and, and_false] at *; done)
      · simp only [length_blit, List.length_set, List.length_replicate, List.length_map, List.length_take, List.length_append, List.length_drop, List.length_cons, List.length_nil, content, Option.getD_some, Option.getD_none, List.take_nil] <;> omega
      · intro i hi
        obtain rfl : i = 0 := by omega
        simp only [length_blit, List.length_set, List.length_replicate, List.length_map, List.length_take, List.length_append, List.length_drop, List.length_cons, List.length_nil, content, Option.getD_some, Option.getD_none, List.take_nil, cellAt_set, cellAt_blit, cellAt_replicate, cellAt_map_some, cellAt_take, cellAt_append, cellAt_drop, cellAt_cons_zero, cellAt_nil, List.getElem?_take, true_and, and_true, Nat.sub_zero, Nat.zero_add, Nat.add_zero, Nat.zero_le, Nat.sub_self, Nat.lt_irrefl, Nat.one_ne_zero, false_and, and_false, if_true, if_false]
        split_ifs <;> first | rfl | omega | (congr 1; omega) | (simp only [false_and, and_false] at *; done)
      · intro i hi
        obtain rfl : i = 0 := by omega
        simp only [length_blit, List.length_set, List.length_replicate, List.length_map, List.length_take, List.length_append, List.length_drop, List.length_cons, List.length_nil, content, Option.getD_some, Option.getD_none, List.take_nil, cellAt_set, cellAt_blit, cellAt_replicate, cellAt_map_some, cellAt_take, cellAt_append, cellAt_drop, cellAt_cons_zero, cellAt_nil, List.getElem?_take, true_and, and_true, Nat.sub_zero, Nat.zero_add, Nat.add_zero, Nat.zero_le, Nat.sub_self, Nat.lt_irrefl, Nat.one_ne_zero, false_and, and_false, if_true, if_false]
        have := trivial
        split_ifs <;> first | omega | exact hs4 _ (by omega) | exact ho4 _ (by omega) | simp [this] | simp | (simp only [false_and, and_false] at *; done)

theorem assign_cstring_spec (self : StringType) (cstring : ConstPointer) (L : Nat)
    (hs : Valid self) (hL : cstringSize cstring = some L) :
    ∃ r, assign_cstring self cstring = some r ∧ r.m_size = L ∧
      r.m_capacity =
        (if self.m_capacity < lookupCapacity L then lookupCapacity L else self.m_capacity) ∧
      Valid r ∧ content r = (rawContent cstring).map some := by
  obtain ⟨hL1, hL2, hL3⟩ := cstringSize_spec cstring L hL
  rw [hL3]
  by_cases hl : L = 0
  · subst hl
    rcases self with ⟨_ | bs, n, c⟩
    · simp only [valid_none] at hs
      obtain ⟨rfl, rfl⟩ := hs
      exact ⟨⟨none, 0, 0⟩, by simp [assign_cstring, hL], rfl, by simp [lookupCapacity_zero],
        valid_null, by simp [content]⟩
    · simp only [valid_some] at hs
      obtain ⟨rfl, hs2, hs3, hs4⟩ := hs
      have hpos : 0 < bs.length := by omega
      simp (disch := first | omega | (simp only [length_blit, List.length_set, List.length_replicate, List.length_map, List.length_take, List.length_append, List.length_drop, List.length_cons, List.length_nil, content, Option.getD_some, Option.getD_none, List.take_nil]; omega)) only [assign_cstring, assert_assume, assume, bind, Option.bind, newArray, rawBlock, if_true, if_false, std_copy_some, std_copy_empty, std_copy_within_some, std_copy_backward_some, std_fill_some, store_some, ofTriple, ctor, null, ctor_move, ge_iff_le, gt_iff_lt, not_lt, not_le, hL, hpos, lookupCapacity_zero]
      refine ⟨_, rfl, rfl, rfl, ?_⟩
      apply mk_spec
      · simp only [length_blit, List.length_set, List.length_replicate, List.length_map, List.length_take, List.length_append, List.length_drop, List.length_cons, List.length_nil, content, Option.getD_some, Option.getD_none, List.take_nil] <;> omega
      · omega
      · simp only [length_blit, List.length_set, List.length_replicate, List.length_map, List.length_take, List.length_append, List.length_drop, List.length_cons, List.length_nil, content, Option.getD_some, Option.getD_none, List.take_nil, cellAt_set, cellAt_blit, cellAt_replicate, cellAt_map_some, cellAt_take, cellAt_append, cellAt_drop, cellAt_cons_zero, cellAt_nil, List.getElem?_take, true_and, and_true, Nat.sub_zero, Nat.zero_add, Nat.add_zero, Nat.zero_le, Nat.sub_self, Nat.lt_irrefl, Nat.one_ne_zero, false_and, and_false, if_true, if_false]
        split_ifs <;> first | rfl | omega | exact hs3 | exact ho3 | (simp only [false_and, and_false] at *; done)
      · simp only [length_blit, List.length_set, List.length_replicate, List.length_map, List.length_take, List.length_append, List.length_drop, List.length_cons, List.length_nil, content, Option.getD_some, Option.getD_none, List.take_nil] <;> omega
      · intro i hi
        skip
        simp only [length_blit, List.length_set, List.length_replicate, List.length_map, List.length_take, List.length_append, List.length_drop, List.length_cons, List.length_nil, content, Option.getD_some, Option.getD_none, List.take_nil, cellAt_set, cellAt_blit, cellAt_replicate, cellAt_map_some, cellAt_take, cellAt_append, cellAt_drop, cellAt_cons_zero, cellAt_nil, List.getElem?_take, true_and, and_true, Nat.sub_zero, Nat.zero_add, Nat.add_zero, Nat.zero_le, Nat.sub_self, Nat.lt_irrefl, Nat.one_ne_zero, false_and, and_false, if_true, if_false]
        split_ifs <;> first | rfl | omega | (congr 1; omega) | (simp only [false_and, and_false] at *; done)
      · intro i hi
        skip
        simp only [length_blit, List.length_set, List.length_replicate, List.length_map, List.length_take, List.length_append, List.length_drop, List.length_cons, List.length_nil, content, Option.getD_some, Option.getD_none, List.take_nil, cellAt_set, cellAt_blit, cellAt_replicate, cellAt_map_some, cellAt_take, cellAt_append, cellAt_drop, cellAt_cons_zero, cellAt_nil, List.getElem?_take, true_and, and_true, Nat.sub_zero, Nat.zero_add, Nat.add_zero, Nat.zero_le, Nat.sub_self, Nat.lt_irrefl, Nat.one_ne_zero, false_and, and_false, if_true, if_false]
        have := trivial
        split_ifs <;> first | omega | exact hs4 _ (by omega) | exact ho4 _ (by omega) | simp [this] | simp | (simp only [false_and, and_false] at *; done)
  · have hcap := lookupCapacity_gt L (by omega)
    by_cases hlt : self.m_capacity < lookupCapacity L
    · simp (disch := first | omega | (simp only [length_blit, List.length_set, List.length_replicate, List.length_map, List.length_take, List.length_append, List.length_drop, List.length_cons, List.length_nil, content, Option.getD_some, Option.getD_none, List.take_nil]; omega)) only [assign_cstring, assert_assume, assume, bind, Option.bind, newArray, rawBlock, if_true, if_false, std_copy_some, std_copy_empty, std_copy_within_some, std_copy_backward_some, std_fill_some, store_some, ofTriple, ctor, null, ctor_move, ge_iff_le, gt_iff_lt, not_lt, not_le, hL, hl, hlt, hcap]
      refine ⟨_, rfl, rfl, rfl, ?_⟩
      apply mk_spec
      · simp only [length_blit, List.length_set, List.length_replicate, List.length_map, List.length_take, List.length_append, List.length_drop, List.length_cons, List.length_nil, content, Option.getD_some, Option.getD_none, List.take_nil] <;> omega
      · omega
      · simp only [length_blit, List.length_set, List.length_replicate, List.length_map, List.length_take, List.length_append, List.length_drop, List.length_cons, List.length_nil, content, Option.getD_some, Option.getD_none, List.take_nil, cellAt_set, cellAt_blit, cellAt_replicate, cellAt_map_some, cellAt_take, cellAt_append, cellAt_drop, cellAt_cons_zero, cellAt_nil, List.getElem?_take, true_and, and_true, Nat.sub_zero, Nat.zero_add, Nat.add_zero, Nat.zero_le, Nat.sub_self, Nat.lt_irrefl, Nat.one_ne_zero, false_and, and_false, if_true, if_false]
        split_ifs <;> first | rfl | omega | exact hs3 | exact ho3 | (simp only [false_and, and_false] at *; done)
      · simp only [length_blit, List.length_set, List.length_replicate, List.length_map, List.length_take, List.length_append, List.length_drop, List.length_cons, List.length_nil, content, Option.getD_some, Option.getD_none, List.take_nil] <;> omega
      · intro i hi
        skip
        simp only [length_blit, List.length_set, List.length_replicate, List.length_map, List.length_take, List.length_append, List.length_drop, List.length_cons, List.length_nil, content, Option.getD_some, Option.getD_none, List.take_nil, cellAt_set, cellAt_blit, cellAt_replicate, cellAt_map_some, cellAt_take, cellAt_append, cellAt_drop, cellAt_cons_zero, cellAt_nil, List.getElem?_take, true_and, and_true, Nat.sub_zero, Nat.zero_add, Nat.add_zero, Nat.zero_le, Nat.sub_self, Nat.lt_irrefl, Nat.one_ne_zero, false_and, and_false, if_true, if_false]
        split_ifs <;> first | rfl | omega | (congr 1; omega) | (simp only [false_and, and_false] at *; done)
      · intro i hi
        skip
        simp only [length_blit, List.length_set, List.length_replicate, List.length_map, List.length_take, List.length_append, List.length_drop, List.length_cons, List.length_nil, content, Option.getD_some, Option.getD_none, List.take_nil, cellAt_set, cellAt_blit, cellAt_replicate, cellAt_map_some, cellAt_take, cellAt_append, cellAt_drop, cellAt_cons_zero, cellAt_nil, List.getElem?_take, true_and, and_true, Nat.sub_zero, Nat.zero_add, Nat.add_zero, Nat.zero_le, Nat.sub_self, Nat.lt_irrefl, Nat.one_ne_zero, false_and, and_false, if_true, if_false]
        have := List.getElem?_eq_getElem (show i < cstring.length by omega)
        split_ifs <;> first | omega | exact hs4 _ (by omega) | exact ho4 _ (by omega) | simp [this] | simp | (simp only [false_and, and_false] at *; done)
    · rcases self with ⟨_ | bs, n, c⟩
      · simp only [valid_none] at hs
        simp only [hs.2] at hlt
        omega
      · simp only [valid_some] at hs
        obtain ⟨rfl, hs2, hs3, hs4⟩ := hs
        simp only at hlt
        simp (disch := first | omega | (simp only [length_blit, List.length_set, List.length_replicate, List.length_map, List.length_take, List.length_append, List.length_drop, List.length_cons, List.length_nil, content, Option.getD_some, Option.getD_none, List.take_nil]; omega)) only [assign_cstring, assert_assume, assume, bind, Option.bind, newArray, rawBlock, if_true, if_false, std_copy_some, std_copy_empty, std_copy_within_some, std_copy_backward_some, std_fill_some, store_some, ofTriple, ctor, null, ctor_move, ge_iff_le, gt_iff_lt, not_lt, not_le, hL, hl, hlt, hcap]
        refine ⟨_, rfl, rfl, rfl, ?_⟩
        apply mk_spec
        · simp only [length_blit, List.length_set, List.length_replicate, List.length_map, List.length_take, List.length_append, List.length_drop, List.length_cons, List.length_nil, content, Option.getD_some, Option.getD_none, List.take_nil] <;> omega
        · omega
        · simp only [length_blit, List.length_set, List.length_replicate, List.length_map, List.length_take, List.length_append, List.length_drop, List.length_cons, List.length_nil, content, Option.getD_some, Option.getD_none, List.take_nil, cellAt_set, cellAt_blit, cellAt_replicate, cellAt_map_some, cellAt_take, cellAt_append, cellAt_drop, cellAt_cons_zero, cellAt_nil, List.getElem?_take, true_and, and_true, Nat.sub_zero, Nat.zero_add, Nat.add_zero, Nat.zero_le, Nat.sub_self, Nat.lt_irrefl, Nat.one_ne_zero, false_and, and_false, if_true, if_false]
          split_ifs <;> first | rfl | omega | exact hs3 | exact ho3 | (simp only [false_and, and_false] at *; done)
        · simp only [length_blit, List.length_set, List.length_replicate, List.length_map, List.length_take, List.length_append, List.length_drop, List.length_cons, List.length_nil, content, Option.getD_some, Option.getD_none, List.take_nil] <;> omega
        · intro i hi
          skip
          simp only [length_blit, List.length_set, List.length_replicate, List.length_map, List.length_take, List.length_append, List.length_drop, List.length_cons, List.length_nil, content, Option.getD_some, Option.getD_none, List.take_nil, cellAt_set, cellAt_blit, cellAt_replicate, cellAt_map_some, cellAt_take, cellAt_append, cellAt_drop, cellAt_cons_zero, cellAt_nil, List.getElem?_take, true_and, and_true, Nat.sub_zero, Nat.zero_add, Nat.add_zero, Nat.zero_le, Nat.sub_self, Nat.lt_irrefl, Nat.one_ne_zero, false_and, and_false, if_true, if_false]
          split_ifs <;> first | rfl | omega | (congr 1; omega) | (simp only [false_and, and_false] at *; done)
        · intro i hi
          skip
          simp only [length_blit, List.length_set, List.length_replicate, List.length_map, List.length_take, List.length_append, List.length_drop, List.length_cons, List.length_nil, content, Option.getD_some, Option.getD_none, List.take_nil, cellAt_set, cellAt_blit, cellAt_replicate, cellAt_map_some, cellAt_take, cellAt_append, cellAt_drop, cellAt_cons_zero, cellAt_nil, List.getElem?_take, true_and, and_true, Nat.sub_zero, Nat.zero_add, Nat.add_zero, Nat.zero_le, Nat.sub_self, Nat.lt_irrefl, Nat.one_ne_zero, false_and, and_false, if_true, if_false]
          have := List.getElem?_eq_getElem (show i < cstring.length by omega)
          split_ifs <;> first | omega | exact hs4 _ (by omega) | exact ho4 _ (by omega) | simp [this] | simp | (simp only [false_and, and_false] at *; done)

theorem assign_copy_spec (self object : StringType) (hs : Valid self) (ho : Valid object) :
    ∃ r, assign_copy self object = some r ∧ r.m_size = object.m_size ∧
      r.m_capacity =
        (if self.m_capacity < lookupCapacity object.m_size then lookupCapacity object.m_size
          else self.m_capacity) ∧
      Valid r ∧ content r = content object := by
  by_cases hl : object.m_size = 0
  · have hco : content object = [] := by simp [content, hl]
    rw [hco]
    rcases self with ⟨_ | bs, n, c⟩
    · simp only [valid_none] at hs
      obtain ⟨rfl, rfl⟩ := hs
      exact ⟨⟨none, 0, 0⟩, by simp [assign_copy, hl], by simp [hl],
        by simp [hl, lookupCapacity_zero], valid_null, by simp [content]⟩
    · simp only [valid_some] at hs
      obtain ⟨rfl, hs2, hs3, hs4⟩ := hs
      have hpos : 0 < bs.length := by omega
      simp (disch := first | omega | (simp only [length_blit, List.length_set, List.length_replicate, List.length_map, List.length_take, List.length_append, List.length_drop, List.length_cons, List.length_nil, content, Option.getD_some, Option.getD_none, List.take_nil]; omega)) only [assign_copy, assert_assume, assume, bind, Option.bind, newArray, rawBlock, if_true, if_false, std_copy_some, std_copy_empty, std_copy_within_some, std_copy_backward_some, std_fill_some, store_some, ofTriple, ctor, null, ctor_move, ge_iff_le, gt_iff_lt, not_lt, not_le, hl, hpos, lookupCapacity_zero]
      refine ⟨_, rfl, rfl, rfl, ?_⟩
      apply mk_spec
      · simp only [length_blit, List.length_set, List.length_replicate, List.length_map, List.length_take, List.length_append, List.length_drop, List.length_cons, List.length_nil, content, Option.getD_some, Option.getD_none, List.take_nil] <;> omega
      · omega
      · simp only [length_blit, List.length_set, List.length_replicate, List.length_map, List.length_take, List.length_append, List.length_drop, List.length_cons, List.length_nil, content, Option.getD_some, Option.getD_none, List.take_nil, cellAt_set, cellAt_blit, cellAt_replicate, cellAt_map_some, cellAt_take, cellAt_append, cellAt_drop, cellAt_cons_zero, cellAt_nil, List.getElem?_take, true_and, and_true, Nat.sub_zero, Nat.zero_add, Nat.add_zero, Nat.zero_le, Nat.sub_self, Nat.lt_irrefl, Nat.one_ne_zero, false_and, and_false, if_true, if_false]
        split_ifs <;> first | rfl | omega | exact hs3 | exact ho3 | (simp only [false_and, and_false] at *; done)
      · simp only [length_blit, List.length_set, List.length_replicate, List.length_map, List.length_take, List.length_append, List.length_drop, List.length_cons, List.length_nil, content, Option.getD_some, Option.getD_none, List.take_nil] <;> omega
      · intro i hi
        skip
        simp only [length_blit, List.length_set, List.length_replicate, List.length_map, List.length_take, List.length_append, List.length_drop, List.length_cons, List.length_nil, content, Option.getD_some, Option.getD_none, List.take_nil, cellAt_set, cellAt_blit, cellAt_replicate, cellAt_map_some, cellAt_take, cellAt_append, cellAt_drop, cellAt_cons_zero, cellAt_nil, List.getElem?_take, true_and, and_true, Nat.sub_zero, Nat.zero_add, Nat.add_zero, Nat.zero_le, Nat.sub_self, Nat.lt_irrefl, Nat.one_ne_zero, false_and, and_false, if_true, if_false]
        split_ifs <;> first | rfl | omega | (congr 1; omega) | (simp only [false_and, and_false] at *; done)
      · intro i hi
        skip
        simp only [length_blit, List.length_set, List.length_replicate, List.length_map, List.length_take, List.length_append, List.length_drop, List.length_cons, List.length_nil, content, Option.getD_some, Option.getD_none, List.take_nil, cellAt_set, cellAt_blit, cellAt_replicate, cellAt_map_some, cellAt_take, cellAt_append, cellAt_drop, cellAt_cons_zero, cellAt_nil, List.getElem?_take, true_and, and_true, Nat.sub_zero, Nat.zero_add, Nat.add_zero, Nat.zero_le, Nat.sub_self, Nat.lt_irrefl, Nat.one_ne_zero, false_and, and_false, if_true, if_false]
        have := trivial
        split_ifs <;> first | omega | exact hs4 _ (by omega) | exact ho4 _ (by omega) | simp [this] | simp | (simp only [false_and, and_false] at *; done)
  · rcases object with ⟨_ | bo, m, co⟩
    · simp only [valid_none] at ho
      exact absurd ho.1 hl
    simp only [valid_some] at ho
    obtain ⟨rfl, ho2, ho3, ho4⟩ := ho
    simp only at hl
    have hcap := lookupCapacity_gt m (by omega)
    by_cases hlt : self.m_capacity < lookupCapacity m
    · simp (disch := first | omega | (simp only [length_blit, List.length_set, List.length_replicate, List.length_map, List.length_take, List.length_append, List.length_drop, List.length_cons, List.length_nil, content, Option.getD_some, Option.getD_none, List.take_nil]; omega)) only [assign_copy, assert_assume, assume, bind, Option.bind, newArray, rawBlock, if_true, if_false, std_copy_some, std_copy_empty, std_copy_within_some, std_copy_backward_some, std_fill_some, store_some, ofTriple, ctor, null, ctor_move, ge_iff_le, gt_iff_lt, not_lt, not_le, hl, hlt, hcap]
      refine ⟨_, rfl, rfl, rfl, ?_⟩
      apply mk_spec
      · simp only [length_blit, List.length_set, List.length_replicate, List.length_map, List.length_take, List.length_append, List.length_drop, List.length_cons, List.length_nil, content, Option.getD_some, Option.getD_none, List.take_nil] <;> omega
      · omega
      · simp only [length_blit, List.length_set, List.length_replicate, List.length_map, List.length_take, List.length_append, List.length_drop, List.length_cons, List.length_nil, content, Option.getD_some, Option.getD_none, List.take_nil, cellAt_set, cellAt_blit, cellAt_replicate, cellAt_map_some, cellAt_take, cellAt_append, cellAt_drop, cellAt_cons_zero, cellAt_nil, List.getElem?_take, true_and, and_true, Nat.sub_zero, Nat.zero_add, Nat.add_zero, Nat.zero_le, Nat.sub_self, Nat.lt_irrefl, Nat.one_ne_zero, false_and, and_false, if_true, if_false]
        split_ifs <;> first | rfl | omega | exact hs3 | exact ho3 | (simp only [false_and, and_false] at *; done)
      · simp only [length_blit, List.length_set, List.length_replicate, List.length_map, List.length_take, List.length_append, List.length_drop, List.length_cons, List.length_nil, content, Option.getD_some, Option.getD_none, List.take_nil] <;> omega
      · intro i hi
        skip
        simp only [length_blit, List.length_set, List.length_replicate, List.length_map, List.length_take, List.length_append, List.length_drop, List.length_cons, List.length_nil, content, Option.getD_some, Option.getD_none, List.take_nil, cellAt_set, cellAt_blit, cellAt_replicate, cellAt_map_some, cellAt_take, cellAt_append, cellAt_drop, cellAt_cons_zero, cellAt_nil, List.getElem?_take, true_and, and_true, Nat.sub_zero, Nat.zero_add, Nat.add_zero, Nat.zero_le, Nat.sub_self, Nat.lt_irrefl, Nat.one_ne_zero, false_and, and_false, if_true, if_false]
        split_ifs <;> first | rfl | omega | (congr 1; omega) | (simp only [false_and, and_false] at *; done)
      · intro i hi
        skip
        simp only [length_blit, List.length_set, List.length_replicate, List.length_map, List.length_take, List.length_append, List.length_drop, List.length_cons, List.length_nil, content, Option.getD_some, Option.getD_none, List.take_nil, cellAt_set, cellAt_blit, cellAt_replicate, cellAt_map_some, cellAt_take, cellAt_append, cellAt_drop, cellAt_cons_zero, cellAt_nil, List.getElem?_take, true_and, and_true, Nat.sub_zero, Nat.zero_add, Nat.add_zero, Nat.zero_le, Nat.sub_self, Nat.lt_irrefl, Nat.one_ne_zero, false_and, and_false, if_true, if_false]
        have := trivial
        split_ifs <;> first | omega | exact hs4 _ (by omega) | exact ho4 _ (by omega) | simp [this] | simp | (simp only [false_and, and_false] at *; done)
    · rcases self with ⟨_ | bs, n, c⟩
      · simp only [valid_none] at hs
        simp only [hs.2] at hlt
        omega
      · simp only [valid_some] at hs
        obtain ⟨rfl, hs2, hs3, hs4⟩ := hs
        simp only at hlt
        simp (disch := first | omega | (simp only [length_blit, List.length_set, List.length_replicate, List.length_map, List.length_take, List.length_append, List.length_drop, List.length_cons, List.length_nil, content, Option.getD_some, Option.getD_none, List.take_nil]; omega)) only [assign_copy, assert_assume, assume, bind, Option.bind, newArray, rawBlock, if_true, if_false, std_copy_some, std_copy_empty, std_copy_within_some, std_copy_backward_some, std_fill_some, store_some, ofTriple, ctor, null, ctor_move, ge_iff_le, gt_iff_lt, not_lt, not_le, hl, hlt, hcap]
        refine ⟨_, rfl, rfl, rfl, ?_⟩
        apply mk_spec
        · simp only [length_blit, List.length_set, List.length_replicate, List.length_map, List.length_take, List.length_append, List.length_drop, List.length_cons, List.length_nil, content, Option.getD_some, Option.getD_none, List.take_nil] <;> omega
        · omega
        · simp only [length_blit, List.length_set, List.length_replicate, List.length_map, List.length_take, List.length_append, List.length_drop, List.length_cons, List.length_nil, content, Option.getD_some, Option.getD_none, List.take_nil, cellAt_set, cellAt_blit, cellAt_replicate, cellAt_map_some, cellAt_take, cellAt_append, cellAt_drop, cellAt_cons_zero, cellAt_nil, List.getElem?_take, true_and, and_true, Nat.sub_zero, Nat.zero_add, Nat.add_zero, Nat.zero_le, Nat.sub_self, Nat.lt_irrefl, Nat.one_ne_zero, false_and, and_false, if_true, if_false]
          split_ifs <;> first | rfl | omega | exact hs3 | exact ho3 | (simp only [false_and, and_false] at *; done)
        · simp only [length_blit, List.length_set, List.length_replicate, List.length_map, List.length_take, List.length_append, List.length_drop, List.length_cons, List.length_nil, content, Option.getD_some, Option.getD_none, List.take_nil] <;> omega
        · intro i hi
          skip
          simp only [length_blit, List.length_set, List.length_replicate, List.length_map, List.length_take, List.length_append, List.length_drop, List.length_cons, List.length_nil, content, Option.getD_some, Option.getD_none, List.take_nil, cellAt_set, cellAt_blit, cellAt_replicate, cellAt_map_some, cellAt_take, cellAt_append, cellAt_drop, cellAt_cons_zero, cellAt_nil, List.getElem?_take, true_and, and_true, Nat.sub_zero, Nat.zero_add, Nat.add_zero, Nat.zero_le, Nat.sub_self, Nat.lt_irrefl, Nat.one_ne_zero, false_and, and_false, if_true, if_false]
          split_ifs <;> first | rfl | omega | (congr 1; omega) | (simp only [false_and, and_false] at *; done)
        · intro i hi
          skip
          simp only [length_blit, List.length_set, List.length_replicate, List.length_map, List.length_take, List.length_append, List.length_drop, List.length_cons, List.length_nil, content, Option.getD_some, Option.getD_none, List.take_nil, cellAt_set, cellAt_blit, cellAt_replicate, cellAt_map_some, cellAt_take, cellAt_append, cellAt_drop, cellAt_cons_zero, cellAt_nil, List.getElem?_take, true_and, and_true, Nat.sub_zero, Nat.zero_add, Nat.add_zero, Nat.zero_le, Nat.sub_self, Nat.lt_irrefl, Nat.one_ne_zero, false_and, and_false, if_true, if_false]
          have := trivial
          split_ifs <;> first | omega | exact hs4 _ (by omega) | exact ho4 _ (by omega) | simp [this] | simp | (simp only [false_and, and_false] at *; done)

end StringType

namespace StringType

/-! ## Capacity functions, element access, truncation and erasure -/

theorem reserve_spec (self : StringType) (size : Nat) (hs : Valid self) (hn : 0 < size) :
    ∃ r, reserve self size = some r ∧ r.m_size = self.m_size ∧
      r.m_capacity =
        (if self.m_capacity < lookupCapacity size then lookupCapacity size
          else self.m_capacity) ∧
      Valid r ∧ content r = content self := by
  have hcap := lookupCapacity_gt size hn
  by_cases hlt : self.m_capacity < lookupCapacity size
  · rcases self with ⟨_ | bs, n, c⟩
    · simp only [valid_none] at hs
      obtain ⟨rfl, rfl⟩ := hs
      simp (disch := first | omega | (simp only [length_blit, List.length_set, List.length_replicate, List.length_map, List.length_take, List.length_append, List.length_drop, List.length_cons, List.length_nil, content, Option.getD_some, Option.getD_none, List.take_nil]; omega)) only [reserve, assert_assume, assume, bind, Option.bind, newArray, rawBlock, if_true, if_false, std_copy_some, std_copy_empty, std_copy_within_some, std_copy_backward_some, std_fill_some, store_some, ofTriple, ctor, null, ctor_move, ge_iff_le, gt_iff_lt, not_lt, not_le, hlt, hcap]
      refine ⟨_, rfl, rfl, rfl, ?_⟩
      apply mk_spec
      · simp only [length_blit, List.length_set, List.length_replicate, List.length_map, List.length_take, List.length_append, List.length_drop, List.length_cons, List.length_nil, content, Option.getD_some, Option.getD_none, List.take_nil] <;> omega
      · omega
      · simp only [length_blit, List.length_set, List.length_replicate, List.length_map, List.length_take, List.length_append, List.length_drop, List.length_cons, List.length_nil, content, Option.getD_some, Option.getD_none, List.take_nil, cellAt_set, cellAt_blit, cellAt_replicate, cellAt_map_some, cellAt_take, cellAt_append, cellAt_drop, cellAt_cons_zero, cellAt_nil, List.getElem?_take, true_and, and_true, Nat.sub_zero, Nat.zero_add, Nat.add_zero, Nat.zero_le, Nat.sub_self, Nat.lt_irrefl, Nat.one_ne_zero, false_and, and_false, if_true, if_false]
        split_ifs <;> first | rfl | omega | exact hs3 | exact ho3 | (simp only [false_and, and_false] at *; done)
      · simp only [length_blit, List.length_set, List.length_replicate, List.length_map, List.length_take, List.length_append, List.length_drop, List.length_cons, List.length_nil, content, Option.getD_some, Option.getD_none, List.take_nil] <;> omega
      · intro i hi
        skip
        simp only [length_blit, List.length_set, List.length_replicate, List.length_map, List.length_take, List.length_append, List.length_drop, List.length_cons, List.length_nil, content, Option.getD_some, Option.getD_none, List.take_nil, cellAt_set, cellAt_blit, cellAt_replicate, cellAt_map_some, cellAt_take, cellAt_append, cellAt_drop, cellAt_cons_zero, cellAt_nil, List.getElem?_take, true_and, and_true, Nat.sub_zero, Nat.zero_add, Nat.add_zero, Nat.zero_le, Nat.sub_self, Nat.lt_irrefl, Nat.one_ne_zero, false_and, and_false, if_true, if_false]
        split_ifs <;> first | rfl | omega | (congr 1; omega) | (simp only [false_and, and_false] at *; done)
      · intro i hi
        skip
        simp only [length_blit, List.length_set, List.length_replicate, List.length_map, List.length_take, List.length_append, List.length_drop, List.length_cons, List.length_nil, content, Option.getD_some, Option.getD_none, List.take_nil, cellAt_set, cellAt_blit, cellAt_replicate, cellAt_map_some, cellAt_take, cellAt_append, cellAt_drop, cellAt_cons_zero, cellAt_nil, List.getElem?_take, true_and, and_true, Nat.sub_zero, Nat.zero_add, Nat.add_zero, Nat.zero_le, Nat.sub_self, Nat.lt_irrefl, Nat.one_ne_zero, false_and, and_false, if_true, if_false]
        have := trivial
        split_ifs <;> first | omega | exact hs4 _ (by omega) | exact ho4 _ (by omega) | simp [this] | simp | (simp only [false_and, and_false] at *; done)
    · simp only [valid_some] at hs
      obtain ⟨rfl, hs2, hs3, hs4⟩ := hs
      simp only at hlt
      simp (disch := first | omega | (simp only [length_blit, List.length_set, List.length_replicate, List.length_map, List.length_take, List.length_append, List.length_drop, List.length_cons, List.length_nil, content, Option.getD_some, Option.getD_none, List.take_nil]; omega)) only [reserve, assert_assume, assume, bind, Option.bind, newArray, rawBlock, if_true, if_false, std_copy_some, std_copy_empty, std_copy_within_some, std_copy_backward_some, std_fill_some, store_some, ofTriple, ctor, null, ctor_move, ge_iff_le, gt_iff_lt, not_lt, not_le, hlt, hcap]
      refine ⟨_, rfl, rfl, rfl, ?_⟩
      apply mk_spec
      · simp only [length_blit, List.length_set, List.length_replicate, List.length_map, List.length_take, List.length_append, List.length_drop, List.length_cons, List.length_nil, content, Option.getD_some, Option.getD_none, List.take_nil] <;> omega
      · omega
      · simp only [length_blit, List.length_set, List.length_replicate, List.length_map, List.length_take, List.length_append, List.length_drop, List.length_cons, List.length_nil, content, Option.getD_some, Option.getD_none, List.take_nil, cellAt_set, cellAt_blit, cellAt_replicate, cellAt_map_some, cellAt_take, cellAt_append, cellAt_drop, cellAt_cons_zero, cellAt_nil, List.getElem?_take, true_and, and_true, Nat.sub_zero, Nat.zero_add, Nat.add_zero, Nat.zero_le, Nat.sub_self, Nat.lt_irrefl, Nat.one_ne_zero, false_and, and_false, if_true, if_false]
        split_ifs <;> first | rfl | omega | exact hs3 | exact ho3 | (simp only [false_and, and_false] at *; done)
      · simp only [length_blit, List.length_set, List.length_replicate, List.length_map, List.length_take, List.length_append, List.length_drop, List.length_cons, List.length_nil, content, Option.getD_some, Option.getD_none, List.take_nil] <;> omega
      · intro i hi
        skip
        simp only [length_blit, List.length_set, List.length_replicate, List.length_map, List.length_take, List.length_append, List.length_drop, List.length_cons, List.length_nil, content, Option.getD_some, Option.getD_none, List.take_nil, cellAt_set, cellAt_blit, cellAt_replicate, cellAt_map_some, cellAt_take, cellAt_append, cellAt_drop, cellAt_cons_zero, cellAt_nil, List.getElem?_take, true_and, and_true, Nat.sub_zero, Nat.zero_add, Nat.add_zero, Nat.zero_le, Nat.sub_self, Nat.lt_irrefl, Nat.one_ne_zero, false_and, and_false, if_true, if_false]
        split_ifs <;> first | rfl | omega | (congr 1; omega) | (simp only [false_and, and_false] at *; done)
      · intro i hi
        skip
        simp only [length_blit, List.length_set, List.length_replicate, List.length_map, List.length_take, List.length_append, List.length_drop, List.length_cons, List.length_nil, content, Option.getD_some, Option.getD_none, List.take_nil, cellAt_set, cellAt_blit, cellAt_replicate, cellAt_map_some, cellAt_take, cellAt_append, cellAt_drop, cellAt_cons_zero, cellAt_nil, List.getElem?_take, true_and, and_true, Nat.sub_zero, Nat.zero_add, Nat.add_zero, Nat.zero_le, Nat.sub_self, Nat.lt_irrefl, Nat.one_ne_zero, false_and, and_false, if_true, if_false]
        have := trivial
        split_ifs <;> first | omega | exact hs4 _ (by omega) | exact ho4 _ (by omega) | simp [this] | simp | (simp only [false_and, and_false] at *; done)
  · exact ⟨self, by simp [reserve, assume, hcap, hlt], rfl, by simp [hlt], hs, rfl⟩

theorem shrink_spec (self : StringType) (hs : Valid self) :
    ∃ r, shrink self = some r ∧ r.m_size = self.m_size ∧
      r.m_capacity =
        (if self.m_size = 0 then 0
          else if self.m_capacity > lookupCapacity self.m_size then lookupCapacity self.m_size
          else self.m_capacity) ∧
      Valid r ∧ content r = content self := by
  by_cases hl : self.m_size = 0
  · exact ⟨⟨none, 0, 0⟩, by simp [shrink, hl], by simp [hl], by simp [hl], valid_null,
      by simp [content, hl]⟩
  · have hcap := lookupCapacity_gt self.m_size (by omega)
    by_cases hgt : self.m_capacity > lookupCapacity self.m_size
    · rcases self with ⟨_ | bs, n, c⟩
      · simp only [valid_none] at hs
        exact absurd hs.1 hl
      · simp only [valid_some] at hs
        obtain ⟨rfl, hs2, hs3, hs4⟩ := hs
        simp only at hl hgt hcap
        simp (disch := first | omega | (simp only [length_blit, List.length_set, List.length_replicate, List.length_map, List.length_take, List.length_append, List.length_drop, List.length_cons, List.length_nil, content, Option.getD_some, Option.getD_none, List.take_nil]; omega)) only [shrink, assert_assume, assume, bind, Option.bind, newArray, rawBlock, if_true, if_false, std_copy_some, std_copy_empty, std_copy_within_some, std_copy_backward_some, std_fill_some, store_some, ofTriple, ctor, null, ctor_move, ge_iff_le, gt_iff_lt, not_lt, not_le, hl, hgt, hcap]
        refine ⟨_, rfl, rfl, rfl, ?_⟩
        apply mk_spec
        · simp only [length_blit, List.length_set, List.length_replicate, List.length_map, List.length_take, List.length_append, List.length_drop, List.length_cons, List.length_nil, content, Option.getD_some, Option.getD_none, List.take_nil] <;> omega
        · omega
        · simp only [length_blit, List.length_set, List.length_replicate, List.length_map, List.length_take, List.length_append, List.length_drop, List.length_cons, List.length_nil, content, Option.getD_some, Option.getD_none, List.take_nil, cellAt_set, cellAt_blit, cellAt_replicate, cellAt_map_some, cellAt_take, cellAt_append, cellAt_drop, cellAt_cons_zero, cellAt_nil, List.getElem?_take, true_and, and_true, Nat.sub_zero, Nat.zero_add, Nat.add_zero, Nat.zero_le, Nat.sub_self, Nat.lt_irrefl, Nat.one_ne_zero, false_and, and_false, if_true, if_false]
          split_ifs <;> first | rfl | omega | exact hs3 | exact ho3 | (simp only [false_and, and_false] at *; done)
        · simp only [length_blit, List.length_set, List.length_replicate, List.length_map, List.length_take, List.length_append, List.length_drop, List.length_cons, List.length_nil, content, Option.getD_some, Option.getD_none, List.take_nil] <;> omega
        · intro i hi
          skip
          simp only [length_blit, List.length_set, List.length_replicate, List.length_map, List.length_take, List.length_append, List.length_drop, List.length_cons, List.length_nil, content, Option.getD_some, Option.getD_none, List.take_nil, cellAt_set, cellAt_blit, cellAt_replicate, cellAt_map_some, cellAt_take, cellAt_append, cellAt_drop, cellAt_cons_zero, cellAt_nil, List.getElem?_take, true_and, and_true, Nat.sub_zero, Nat.zero_add, Nat.add_zero, Nat.zero_le, Nat.sub_self, Nat.lt_irrefl, Nat.one_ne_zero, false_and, and_false, if_true, if_false]
          split_ifs <;> first | rfl | omega | (congr 1; omega) | (simp only [false_and, and_false] at *; done)
        · intro i hi
          skip
          simp only [length_blit, List.length_set, List.length_replicate, List.length_map, List.length_take, List.length_append, List.length_drop, List.length_cons, List.length_nil, content, Option.getD_some, Option.getD_none, List.take_nil, cellAt_set, cellAt_blit, cellAt_replicate, cellAt_map_some, cellAt_take, cellAt_append, cellAt_drop, cellAt_cons_zero, cellAt_nil, List.getElem?_take, true_and, and_true, Nat.sub_zero, Nat.zero_add, Nat.add_zero, Nat.zero_le, Nat.sub_self, Nat.lt_irrefl, Nat.one_ne_zero, false_and, and_false, if_true, if_false]
          have := trivial
          split_ifs <;> first | omega | exact hs4 _ (by omega) | exact ho4 _ (by omega) | simp [this] | simp | (simp only [false_and, and_false] at *; done)
    · exact ⟨self, by simp [shrink, assume, hl, hcap, hgt], rfl, by simp [hl, hgt], hs, rfl⟩

theorem set_spec (self : StringType) (index : Nat) (v : ValueType) (hs : Valid self)
    (hi : index < self.m_size) :
    ∃ r, set self index v = some r ∧ r.m_size = self.m_size ∧
      r.m_capacity = self.m_capacity ∧ Valid r ∧
      content r = (content self).set index (some v) := by
  rcases self with ⟨_ | bs, n, c⟩
  · simp only [valid_none] at hs
    simp only [hs.1] at hi
    omega
  · simp only [valid_some] at hs
    obtain ⟨rfl, hs2, hs3, hs4⟩ := hs
    simp only at hi
    simp (disch := first | omega | (simp only [length_blit, List.length_set, List.length_replicate, List.length_map, List.length_take, List.length_append, List.length_drop, List.length_cons, List.length_nil, content, Option.getD_some, Option.getD_none, List.take_nil]; omega)) only [set, assert_assume, assume, bind, Option.bind, newArray, rawBlock, if_true, if_false, std_copy_some, std_copy_empty, std_copy_within_some, std_copy_backward_some, std_fill_some, store_some, ofTriple, ctor, null, ctor_move, ge_iff_le, gt_iff_lt, not_lt, not_le, hi]
    refine ⟨_, rfl, rfl, rfl, ?_⟩
    apply mk_spec
    · simp only [length_blit, List.length_set, List.length_replicate, List.length_map, List.length_take, List.length_append, List.length_drop, List.length_cons, List.length_nil, content, Option.getD_some, Option.getD_none, List.take_nil] <;> omega
    · omega
    · simp only [length_blit, List.length_set, List.length_replicate, List.length_map, List.length_take, List.length_append, List.length_drop, List.length_cons, List.length_nil, content, Option.getD_some, Option.getD_none, List.take_nil, cellAt_set, cellAt_blit, cellAt_replicate, cellAt_map_some, cellAt_take, cellAt_append, cellAt_drop, cellAt_cons_zero, cellAt_nil, List.getElem?_take, true_and, and_true, Nat.sub_zero, Nat.zero_add, Nat.add_zero, Nat.zero_le, Nat.sub_self, Nat.lt_irrefl, Nat.one_ne_zero, false_and, and_false, if_true, if_false]
      split_ifs <;> first | rfl | omega | exact hs3 | exact ho3 | (simp only [false_and, and_false] at *; done)
    · simp only [length_blit, List.length_set, List.length_replicate, List.length_map, List.length_take, List.length_append, List.length_drop, List.length_cons, List.length_nil, content, Option.getD_some, Option.getD_none, List.take_nil] <;> omega
    · intro i hi
      skip
      simp only [length_blit, List.length_set, List.length_replicate, List.length_map, List.length_take, List.length_append, List.length_drop, List.length_cons, List.length_nil, content, Option.getD_some, Option.getD_none, List.take_nil, cellAt_set, cellAt_blit, cellAt_replicate, cellAt_map_some, cellAt_take, cellAt_append, cellAt_drop, cellAt_cons_zero, cellAt_nil, List.getElem?_take, true_and, and_true, Nat.sub_zero, Nat.zero_add, Nat.add_zero, Nat.zero_le, Nat.sub_self, Nat.lt_irrefl, Nat.one_ne_zero, false_and, and_false, if_true, if_false]
      split_ifs <;> first | rfl | omega | (congr 1; omega) | (simp only [false_and, and_false] at *; done)
    · intro i hi
      skip
      simp only [length_blit, List.length_set, List.length_replicate, List.length_map, List.length_take, List.length_append, List.length_drop, List.length_cons, List.length_nil, content, Option.getD_some, Option.getD_none, List.take_nil, cellAt_set, cellAt_blit, cellAt_replicate, cellAt_map_some, cellAt_take, cellAt_append, cellAt_drop, cellAt_cons_zero, cellAt_nil, List.getElem?_take, true_and, and_true, Nat.sub_zero, Nat.zero_add, Nat.add_zero, Nat.zero_le, Nat.sub_self, Nat.lt_irrefl, Nat.one_ne_zero, false_and, and_false, if_true, if_false]
      have := trivial
      split_ifs <;> first | omega | exact hs4 _ (by omega) | exact ho4 _ (by omega) | simp [this] | simp | (simp only [false_and, and_false] at *; done)

theorem set_front_spec (self : StringType) (v : ValueType) (hs : Valid self)
    (hi : 0 < self.m_size) :
    ∃ r, set_front self v = some r ∧ r.m_size = self.m_size ∧
      r.m_capacity = self.m_capacity ∧ Valid r ∧
      content r = (content self).set 0 (some v) := by
  rcases self with ⟨_ | bs, n, c⟩
  · simp only [valid_none] at hs
    simp only [hs.1] at hi
    omega
  · simp only [valid_some] at hs
    obtain ⟨rfl, hs2, hs3, hs4⟩ := hs
    simp only at hi
    simp (disch := first | omega | (simp only [length_blit, List.length_set, List.length_replicate, List.length_map, List.length_take, List.length_append, List.length_drop, List.length_cons, List.length_nil, content, Option.getD_some, Option.getD_none, List.take_nil]; omega)) only [set_front, assert_assume, assume, bind, Option.bind, newArray, rawBlock, if_true, if_false, std_copy_some, std_copy_empty, std_copy_within_some, std_copy_backward_some, std_fill_some, store_some, ofTriple, ctor, null, ctor_move, ge_iff_le, gt_iff_lt, not_lt, not_le, hi]
    refine ⟨_, rfl, rfl, rfl, ?_⟩
    apply mk_spec
    · simp only [length_blit, List.length_set, List.length_replicate, List.length_map, List.length_take, List.length_append, List.length_drop, List.length_cons, List.length_nil, content, Option.getD_some, Option.getD_none, List.take_nil] <;> omega
    · omega
    · simp only [length_blit, List.length_set, List.length_replicate, List.length_map, List.length_take, List.length_append, List.length_drop, List.length_cons, List.length_nil, content, Option.getD_some, Option.getD_none, List.take_nil, cellAt_set, cellAt_blit, cellAt_replicate, cellAt_map_some, cellAt_take, cellAt_append, cellAt_drop, cellAt_cons_zero, cellAt_nil, List.getElem?_take, true_and, and_true, Nat.sub_zero, Nat.zero_add, Nat.add_zero, Nat.zero_le, Nat.sub_self, Nat.lt_irrefl, Nat.one_ne_zero, false_and, and_false, if_true, if_false]
      split_ifs <;> first | rfl | omega | exact hs3 | exact ho3 | (simp only [false_and, and_false] at *; done)
    · simp only [length_blit, List.length_set, List.length_replicate, List.length_map, List.length_take, List.length_append, List.length_drop, List.length_cons, List.length_nil, content, Option.getD_some, Option.getD_none, List.take_nil] <;> omega
    · intro i hi
      skip
      simp only [length_blit, List.length_set, List.length_replicate, List.length_map, List.length_take, List.length_append, List.length_drop, List.length_cons, List.length_nil, content, Option.getD_some, Option.getD_none, List.take_nil, cellAt_set, cellAt_blit, cellAt_replicate, cellAt_map_some, cellAt_take, cellAt_append, cellAt_drop, cellAt_cons_zero, cellAt_nil, List.getElem?_take, true_and, and_true, Nat.sub_zero, Nat.zero_add, Nat.add_zero, Nat.zero_le, Nat.sub_self, Nat.lt_irrefl, Nat.one_ne_zero, false_and, and_false, if_true, if_false]
      split_ifs <;> first | rfl | omega | (congr 1; omega) | (simp only [false_and, and_false] at *; done)
    · intro i hi
      skip
      simp only [length_blit, List.length_set, List.length_replicate, List.length_map, List.length_take, List.length_append, List.length_drop, List.length_cons, List.length_nil, content, Option.getD_some, Option.getD_none, List.take_nil, cellAt_set, cellAt_blit, cellAt_replicate, cellAt_map_some, cellAt_take, cellAt_append, cellAt_drop, cellAt_cons_zero, cellAt_nil, List.getElem?_take, true_and, and_true, Nat.sub_zero, Nat.zero_add, Nat.add_zero, Nat.zero_le, Nat.sub_self, Nat.lt_irrefl, Nat.one_ne_zero, false_and, and_false, if_true, if_false]
      have := trivial
      split_ifs <;> first | omega | exact hs4 _ (by omega) | exact ho4 _ (by omega) | simp [this] | simp | (simp only [false_and, and_false] at *; done)

theorem set_back_spec (self : StringType) (v : ValueType) (hs : Valid self)
    (hi : 0 < self.m_size) :
    ∃ r, set_back self v = some r ∧ r.m_size = self.m_size ∧
      r.m_capacity = self.m_capacity ∧ Valid r ∧
      content r = (content self).set (self.m_size - 1) (some v) := by
  rcases self with ⟨_ | bs, n, c⟩
  · simp only [valid_none] at hs
    simp only [hs.1] at hi
    omega
  · simp only [valid_some] at hs
    obtain ⟨rfl, hs2, hs3, hs4⟩ := hs
    simp only at hi
    simp (disch := first | omega | (simp only [length_blit, List.length_set, List.length_replicate, List.length_map, List.length_take, List.length_append, List.length_drop, List.length_cons, List.length_nil, content, Option.getD_some, Option.getD_none, List.take_nil]; omega)) only [set_back, assert_assume, assume, bind, Option.bind, newArray, rawBlock, if_true, if_false, std_copy_some, std_copy_empty, std_copy_within_some, std_copy_backward_some, std_fill_some, store_some, ofTriple, ctor, null, ctor_move, ge_iff_le, gt_iff_lt, not_lt, not_le, hi]
    refine ⟨_, rfl, rfl, rfl, ?_⟩
    apply mk_spec
    · simp only [length_blit, List.length_set, List.length_replicate, List.length_map, List.length_take, List.length_append, List.length_drop, List.length_cons, List.length_nil, content, Option.getD_some, Option.getD_none, List.take_nil] <;> omega
    · omega
    · simp only [length_blit, List.length_set, List.length_replicate, List.length_map, List.length_take, List.length_append, List.length_drop, List.length_cons, List.length_nil, content, Option.getD_some, Option.getD_none, List.take_nil, cellAt_set, cellAt_blit, cellAt_replicate, cellAt_map_some, cellAt_take, cellAt_append, cellAt_drop, cellAt_cons_zero, cellAt_nil, List.getElem?_take, true_and, and_true, Nat.sub_zero, Nat.zero_add, Nat.add_zero, Nat.zero_le, Nat.sub_self, Nat.lt_irrefl, Nat.one_ne_zero, false_and, and_false, if_true, if_false]
      split_ifs <;> first | rfl | omega | exact hs3 | exact ho3 | (simp only [false_and, and_false] at *; done)
    · simp only [length_blit, List.length_set, List.length_replicate, List.length_map, List.length_take, List.length_append, List.length_drop, List.length_cons, List.length_nil, content, Option.getD_some, Option.getD_none, List.take_nil] <;> omega
    · intro i hi
      skip
      simp only [length_blit, List.length_set, List.length_replicate, List.length_map, List.length_take, List.length_append, List.length_drop, List.length_cons, List.length_nil, content, Option.getD_some, Option.getD_none, List.take_nil, cellAt_set, cellAt_blit, cellAt_replicate, cellAt_map_some, cellAt_take, cellAt_append, cellAt_drop, cellAt_cons_zero, cellAt_nil, List.getElem?_take, true_and, and_true, Nat.sub_zero, Nat.zero_add, Nat.add_zero, Nat.zero_le, Nat.sub_self, Nat.lt_irrefl, Nat.one_ne_zero, false_and, and_false, if_true, if_false]
      split_ifs <;> first | rfl | omega | (congr 1; omega) | (simp only [false_and, and_false] at *; done)
    · intro i hi
      skip
      simp only [length_blit, List.length_set, List.length_replicate, List.length_map, List.length_take, List.length_append, List.length_drop, List.length_cons, List.length_nil, content, Option.getD_some, Option.getD_none, List.take_nil, cellAt_set, cellAt_blit, cellAt_replicate, cellAt_map_some, cellAt_take, cellAt_append, cellAt_drop, cellAt_cons_zero, cellAt_nil, List.getElem?_take, true_and, and_true, Nat.sub_zero, Nat.zero_add, Nat.add_zero, Nat.zero_le, Nat.sub_self, Nat.lt_irrefl, Nat.one_ne_zero, false_and, and_false, if_true, if_false]
      have := trivial
      split_ifs <;> first | omega | exact hs4 _ (by omega) | exact ho4 _ (by omega) | simp [this] | simp | (simp only [false_and, and_false] at *; done)

theorem clear_spec (self : StringType) (hs : Valid self) :
    ∃ r, clear self = some r ∧ r.m_size = 0 ∧
      r.m_capacity = self.m_capacity ∧ Valid r ∧ content r = [] := by
  rcases self with ⟨_ | bs, n, c⟩
  · simp only [valid_none] at hs
    obtain ⟨rfl, rfl⟩ := hs
    exact ⟨⟨none, 0, 0⟩, by simp [clear], rfl, rfl, valid_null, by simp [content]⟩
  · simp only [valid_some] at hs
    obtain ⟨rfl, hs2, hs3, hs4⟩ := hs
    have hpos : 0 < bs.length := by omega
    simp (disch := first | omega | (simp only [length_blit, List.length_set, List.length_replicate, List.length_map, List.length_take, List.length_append, List.length_drop, List.length_cons, List.length_nil, content, Option.getD_some, Option.getD_none, List.take_nil]; omega)) only [clear, assert_assume, assume, bind, Option.bind, newArray, rawBlock, if_true, if_false, std_copy_some, std_copy_empty, std_copy_within_some, std_copy_backward_some, std_fill_some, store_some, ofTriple, ctor, null, ctor_move, ge_iff_le, gt_iff_lt, not_lt, not_le, hpos]
    refine ⟨_, rfl, rfl, rfl, ?_⟩
    apply mk_spec
    · simp only [length_blit, List.length_set, List.length_replicate, List.length_map, List.length_take, List.length_append, List.length_drop, List.length_cons, List.length_nil, content, Option.getD_some, Option.getD_none, List.take_nil] <;> omega
    · omega
    · simp only [length_blit, List.length_set, List.length_replicate, List.length_map, List.length_take, List.length_append, List.length_drop, List.length_cons, List.length_nil, content, Option.getD_some, Option.getD_none, List.take_nil, cellAt_set, cellAt_blit, cellAt_replicate, cellAt_map_some, cellAt_take, cellAt_append, cellAt_drop, cellAt_cons_zero, cellAt_nil, List.getElem?_take, true_and, and_true, Nat.sub_zero, Nat.zero_add, Nat.add_zero, Nat.zero_le, Nat.sub_self, Nat.lt_irrefl, Nat.one_ne_zero, false_and, and_false, if_true, if_false]
      split_ifs <;> first | rfl | omega | exact hs3 | exact ho3 | (simp only [false_and, and_false] at *; done)
    · simp only [length_blit, List.length_set, List.length_replicate, List.length_map, List.length_take, List.length_append, List.length_drop, List.length_cons, List.length_nil, content, Option.getD_some, Option.getD_none, List.take_nil] <;> omega
    · intro i hi
      skip
      simp only [length_blit, List.length_set, List.length_replicate, List.length_map, List.length_take, List.length_append, List.length_drop, List.length_cons, List.length_nil, content, Option.getD_some, Option.getD_none, List.take_nil, cellAt_set, cellAt_blit, cellAt_replicate, cellAt_map_some, cellAt_take, cellAt_append, cellAt_drop, cellAt_cons_zero, cellAt_nil, List.getElem?_take, true_and, and_true, Nat.sub_zero, Nat.zero_add, Nat.add_zero, Nat.zero_le, Nat.sub_self, Nat.lt_irrefl, Nat.one_ne_zero, false_and, and_false, if_true, if_false]
      split_ifs <;> first | rfl | omega | (congr 1; omega) | (simp only [false_and, and_false] at *; done)
    · intro i hi
      skip
      simp only [length_blit, List.length_set, List.length_replicate, List.length_map, List.length_take, List.length_append, List.length_drop, List.length_cons, List.length_nil, content, Option.getD_some, Option.getD_none, List.take_nil, cellAt_set, cellAt_blit, cellAt_replicate, cellAt_map_some, cellAt_take, cellAt_append, cellAt_drop, cellAt_cons_zero, cellAt_nil, List.getElem?_take, true_and, and_true, Nat.sub_zero, Nat.zero_add, Nat.add_zero, Nat.zero_le, Nat.sub_self, Nat.lt_irrefl, Nat.one_ne_zero, false_and, and_false, if_true, if_false]
      have := trivial
      split_ifs <;> first | omega | exact hs4 _ (by omega) | exact ho4 _ (by omega) | simp [this] | simp | (simp only [false_and, and_false] at *; done)

theorem popback_spec (self : StringType) (count : Nat) (hs : Valid self)
    (hc : count ≤ self.m_size) (hb : 0 < self.m_capacity) :
    ∃ r, popback self count = some r ∧ r.m_size = self.m_size - count ∧
      r.m_capacity = self.m_capacity ∧ Valid r ∧
      content r = (content self).take (self.m_size - count) := by
  rcases self with ⟨_ | bs, n, c⟩
  · simp only [valid_none] at hs
    simp only [hs.2] at hb
    omega
  · simp only [valid_some] at hs
    obtain ⟨rfl, hs2, hs3, hs4⟩ := hs
    simp only at hc
    simp (disch := first | omega | (simp only [length_blit, List.length_set, List.length_replicate, List.length_map, List.length_take, List.length_append, List.length_drop, List.length_cons, List.length_nil, content, Option.getD_some, Option.getD_none, List.take_nil]; omega)) only [popback, assert_assume, assume, bind, Option.bind, newArray, rawBlock, if_true, if_false, std_copy_some, std_copy_empty, std_copy_within_some, std_copy_backward_some, std_fill_some, store_some, ofTriple, ctor, null, ctor_move, ge_iff_le, gt_iff_lt, not_lt, not_le, hc]
    refine ⟨_, rfl, rfl, rfl, ?_⟩
    apply mk_spec
    · simp only [length_blit, List.length_set, List.length_replicate, List.length_map, List.length_take, List.length_append, List.length_drop, List.length_cons, List.length_nil, content, Option.getD_some, Option.getD_none, List.take_nil] <;> omega
    · omega
    · simp only [length_blit, List.length_set, List.length_replicate, List.length_map, List.length_take, List.length_append, List.length_drop, List.length_cons, List.length_nil, content, Option.getD_some, Option.getD_none, List.take_nil, cellAt_set, cellAt_blit, cellAt_replicate, cellAt_map_some, cellAt_take, cellAt_append, cellAt_drop, cellAt_cons_zero, cellAt_nil, List.getElem?_take, true_and, and_true, Nat.sub_zero, Nat.zero_add, Nat.add_zero, Nat.zero_le, Nat.sub_self, Nat.lt_irrefl, Nat.one_ne_zero, false_and, and_false, if_true, if_false]
      split_ifs <;> first | rfl | omega | exact hs3 | exact ho3 | (simp only [false_and, and_false] at *; done)
    · simp only [length_blit, List.length_set, List.length_replicate, List.length_map, List.length_take, List.length_append, List.length_drop, List.length_cons, List.length_nil, content, Option.getD_some, Option.getD_none, List.take_nil] <;> omega
    · intro i hi
      skip
      simp only [length_blit, List.length_set, List.length_replicate, List.length_map, List.length_take, List.length_append, List.length_drop, List.length_cons, List.length_nil, content, Option.getD_some, Option.getD_none, List.take_nil, cellAt_set, cellAt_blit, cellAt_replicate, cellAt_map_some, cellAt_take, cellAt_append, cellAt_drop, cellAt_cons_zero, cellAt_nil, List.getElem?_take, true_and, and_true, Nat.sub_zero, Nat.zero_add, Nat.add_zero, Nat.zero_le, Nat.sub_self, Nat.lt_irrefl, Nat.one_ne_zero, false_and, and_false, if_true, if_false]
      split_ifs <;> first | rfl | omega | (congr 1; omega) | (simp only [false_and, and_false] at *; done)
    · intro i hi
      skip
      simp only [length_blit, List.length_set, List.length_replicate, List.length_map, List.length_take, List.length_append, List.length_drop, List.length_cons, List.length_nil, content, Option.getD_some, Option.getD_none, List.take_nil, cellAt_set, cellAt_blit, cellAt_replicate, cellAt_map_some, cellAt_take, cellAt_append, cellAt_drop, cellAt_cons_zero, cellAt_nil, List.getElem?_take, true_and, and_true, Nat.sub_zero, Nat.zero_add, Nat.add_zero, Nat.zero_le, Nat.sub_self, Nat.lt_irrefl, Nat.one_ne_zero, false_and, and_false, if_true, if_false]
      have := trivial
      split_ifs <;> first | omega | exact hs4 _ (by omega) | exact ho4 _ (by omega) | simp [this] | simp | (simp only [false_and, and_false] at *; done)

theorem trim_spec (self : StringType) (count : Nat) (hs : Valid self)
    (hc : count ≤ self.m_size) (hb : 0 < self.m_capacity) :
    ∃ r, trim self count = some r ∧ r.m_size = self.m_size - count ∧
      r.m_capacity = self.m_capacity ∧ Valid r ∧
      content r = (content self).drop count := by
  rcases self with ⟨_ | bs, n, c⟩
  · simp only [valid_none] at hs
    simp only [hs.2] at hb
    omega
  · simp only [valid_some] at hs
    obtain ⟨rfl, hs2, hs3, hs4⟩ := hs
    simp only at hc
    simp (disch := first | omega | (simp only [length_blit, List.length_set, List.length_replicate, List.length_map, List.length_take, List.length_append, List.length_drop, List.length_cons, List.length_nil, content, Option.getD_some, Option.getD_none, List.take_nil]; omega)) only [trim, assert_assume, assume, bind, Option.bind, newArray, rawBlock, if_true, if_false, std_copy_some, std_copy_empty, std_copy_within_some, std_copy_backward_some, std_fill_some, store_some, ofTriple, ctor, null, ctor_move, ge_iff_le, gt_iff_lt, not_lt, not_le, hc]
    refine ⟨_, rfl, rfl, rfl, ?_⟩
    apply mk_spec
    · simp only [length_blit, List.length_set, List.length_replicate, List.length_map, List.length_take, List.length_append, List.length_drop, List.length_cons, List.length_nil, content, Option.getD_some, Option.getD_none, List.take_nil] <;> omega
    · omega
    · simp only [length_blit, List.length_set, List.length_replicate, List.length_map, List.length_take, List.length_append, List.length_drop, List.length_cons, List.length_nil, content, Option.getD_some, Option.getD_none, List.take_nil, cellAt_set, cellAt_blit, cellAt_replicate, cellAt_map_some, cellAt_take, cellAt_append, cellAt_drop, cellAt_cons_zero, cellAt_nil, List.getElem?_take, true_and, and_true, Nat.sub_zero, Nat.zero_add, Nat.add_zero, Nat.zero_le, Nat.sub_self, Nat.lt_irrefl, Nat.one_ne_zero, false_and, and_false, if_true, if_false]
      split_ifs <;> first | rfl | omega | exact hs3 | exact ho3 | (simp only [false_and, and_false] at *; done)
    · simp only [length_blit, List.length_set, List.length_replicate, List.length_map, List.length_take, List.length_append, List.length_drop, List.length_cons, List.length_nil, content, Option.getD_some, Option.getD_none, List.take_nil] <;> omega
    · intro i hi
      skip
      simp only [length_blit, List.length_set, List.length_replicate, List.length_map, List.length_take, List.length_append, List.length_drop, List.length_cons, List.length_nil, content, Option.getD_some, Option.getD_none, List.take_nil, cellAt_set, cellAt_blit, cellAt_replicate, cellAt_map_some, cellAt_take, cellAt_append, cellAt_drop, cellAt_cons_zero, cellAt_nil, List.getElem?_take, true_and, and_true, Nat.sub_zero, Nat.zero_add, Nat.add_zero, Nat.zero_le, Nat.sub_self, Nat.lt_irrefl, Nat.one_ne_zero, false_and, and_false, if_true, if_false]
      split_ifs <;> first | rfl | omega | (congr 1; omega) | (simp only [false_and, and_false] at *; done)
    · intro i hi
      skip
      simp only [length_blit, List.length_set, List.length_replicate, List.length_map, List.length_take, List.length_append, List.length_drop, List.length_cons, List.length_nil, content, Option.getD_some, Option.getD_none, List.take_nil, cellAt_set, cellAt_blit, cellAt_replicate, cellAt_map_some, cellAt_take, cellAt_append, cellAt_drop, cellAt_cons_zero, cellAt_nil, List.getElem?_take, true_and, and_true, Nat.sub_zero, Nat.zero_add, Nat.add_zero, Nat.zero_le, Nat.sub_self, Nat.lt_irrefl, Nat.one_ne_zero, false_and, and_false, if_true, if_false]
      have := trivial
      split_ifs <;> first | omega | exact hs4 _ (by omega) | exact ho4 _ (by omega) | simp [this] | simp | (simp only [false_and, and_false] at *; done)

theorem erase_spec (self : StringType) (index : Nat) (hs : Valid self)
    (hi : index < self.m_size) :
    ∃ r, erase self index = some r ∧ r.m_size = self.m_size - 1 ∧
      r.m_capacity = self.m_capacity ∧ Valid r ∧
      content r = (content self).take index ++ (content self).drop (index + 1) := by
  rcases self with ⟨_ | bs, n, c⟩
  · simp only [valid_none] at hs
    simp only [hs.1] at hi
    omega
  · simp only [valid_some] at hs
    obtain ⟨rfl, hs2, hs3, hs4⟩ := hs
    simp only at hi
    simp (disch := first | omega | (simp only [length_blit, List.length_set, List.length_replicate, List.length_map, List.length_take, List.length_append, List.length_drop, List.length_cons, List.length_nil, content, Option.getD_some, Option.getD_none, List.take_nil]; omega)) only [erase, assert_assume, assume, bind, Option.bind, newArray, rawBlock, if_true, if_false, std_copy_some, std_copy_empty, std_copy_within_some, std_copy_backward_some, std_fill_some, store_some, ofTriple, ctor, null, ctor_move, ge_iff_le, gt_iff_lt, not_lt, not_le, hi]
    refine ⟨_, rfl, rfl, rfl, ?_⟩
    apply mk_spec
    · simp only [length_blit, List.length_set, List.length_replicate, List.length_map, List.length_take, List.length_append, List.length_drop, List.length_cons, List.length_nil, content, Option.getD_some, Option.getD_none, List.take_nil] <;> omega
    · omega
    · simp only [length_blit, List.length_set, List.length_replicate, List.length_map, List.length_take, List.length_append, List.length_drop, List.length_cons, List.length_nil, content, Option.getD_some, Option.getD_none, List.take_nil, cellAt_set, cellAt_blit, cellAt_replicate, cellAt_map_some, cellAt_take, cellAt_append, cellAt_drop, cellAt_cons_zero, cellAt_nil, List.getElem?_take, true_and, and_true, Nat.sub_zero, Nat.zero_add, Nat.add_zero, Nat.zero_le, Nat.sub_self, Nat.lt_irrefl, Nat.one_ne_zero, false_and, and_false, if_true, if_false]
      split_ifs <;> first | rfl | omega | exact hs3 | exact ho3 | (simp only [false_and, and_false] at *; done)
    · simp only [length_blit, List.length_set, List.length_replicate, List.length_map, List.length_take, List.length_append, List.length_drop, List.length_cons, List.length_nil, content, Option.getD_some, Option.getD_none, List.take_nil] <;> omega
    · intro i hi
      skip
      simp only [length_blit, List.length_set, List.length_replicate, List.length_map, List.length_take, List.length_append, List.length_drop, List.length_cons, List.length_nil, content, Option.getD_some, Option.getD_none, List.take_nil, cellAt_set, cellAt_blit, cellAt_replicate, cellAt_map_some, cellAt_take, cellAt_append, cellAt_drop, cellAt_cons_zero, cellAt_nil, List.getElem?_take, true_and, and_true, Nat.sub_zero, Nat.zero_add, Nat.add_zero, Nat.zero_le, Nat.sub_self, Nat.lt_irrefl, Nat.one_ne_zero, false_and, and_false, if_true, if_false]
      split_ifs <;> first | rfl | omega | (congr 1; omega) | (simp only [false_and, and_false] at *; done)
    · intro i hi
      skip
      simp only [length_blit, List.length_set, List.length_replicate, List.length_map, List.length_take, List.length_append, List.length_drop, List.length_cons, List.length_nil, content, Option.getD_some, Option.getD_none, List.take_nil, cellAt_set, cellAt_blit, cellAt_replicate, cellAt_map_some, cellAt_take, cellAt_append, cellAt_drop, cellAt_cons_zero, cellAt_nil, List.getElem?_take, true_and, and_true, Nat.sub_zero, Nat.zero_add, Nat.add_zero, Nat.zero_le, Nat.sub_self, Nat.lt_irrefl, Nat.one_ne_zero, false_and, and_false, if_true, if_false]
      have := trivial
      split_ifs <;> first | omega | exact hs4 _ (by omega) | exact ho4 _ (by omega) | simp [this] | simp | (simp only [false_and, and_false] at *; done)

theorem erase_range_spec (self : StringType) (first last : Nat) (hs : Valid self)
    (hf : first < last) (hl : last ≤ self.m_size) :
    ∃ r, erase_range self first last = some r ∧ r.m_size = self.m_size - (last - first) ∧
      r.m_capacity = self.m_capacity ∧ Valid r ∧
      content r = (content self).take first ++ (content self).drop last := by
  rcases self with ⟨_ | bs, n, c⟩
  · simp only [valid_none] at hs
    simp only [hs.1] at hl
    omega
  · simp only [valid_some] at hs
    obtain ⟨rfl, hs2, hs3, hs4⟩ := hs
    simp only at hl
    simp (disch := first | omega | (simp only [length_blit, List.length_set, List.length_replicate, List.length_map, List.length_take, List.length_append, List.length_drop, List.length_cons, List.length_nil, content, Option.getD_some, Option.getD_none, List.take_nil]; omega)) only [erase_range, assert_assume, assume, bind, Option.bind, newArray, rawBlock, if_true, if_false, std_copy_some, std_copy_empty, std_copy_within_some, std_copy_backward_some, std_fill_some, store_some, ofTriple, ctor, null, ctor_move, ge_iff_le, gt_iff_lt, not_lt, not_le, hf, hl]
    refine ⟨_, rfl, rfl, rfl, ?_⟩
    apply mk_spec
    · simp only [length_blit, List.length_set, List.length_replicate, List.length_map, List.length_take, List.length_append, List.length_drop, List.length_cons, List.length_nil, content, Option.getD_some, Option.getD_none, List.take_nil] <;> omega
    · omega
    · simp only [length_blit, List.length_set, List.length_replicate, List.length_map, List.length_take, List.length_append, List.length_drop, List.length_cons, List.length_nil, content, Option.getD_some, Option.getD_none, List.take_nil, cellAt_set, cellAt_blit, cellAt_replicate, cellAt_map_some, cellAt_take, cellAt_append, cellAt_drop, cellAt_cons_zero, cellAt_nil, List.getElem?_take, true_and, and_true, Nat.sub_zero, Nat.zero_add, Nat.add_zero, Nat.zero_le, Nat.sub_self, Nat.lt_irrefl, Nat.one_ne_zero, false_and, and_false, if_true, if_false]
      split_ifs <;> first | rfl | omega | exact hs3 | exact ho3 | (simp only [false_and, and_false] at *; done)
    · simp only [length_blit, List.length_set, List.length_replicate, List.length_map, List.length_take, List.length_append, List.length_drop, List.length_cons, List.length_nil, content, Option.getD_some, Option.getD_none, List.take_nil] <;> omega
    · intro i hi
      skip
      simp only [length_blit, List.length_set, List.length_replicate, List.length_map, List.length_take, List.length_append, List.length_drop, List.length_cons, List.length_nil, content, Option.getD_some, Option.getD_none, List.take_nil, cellAt_set, cellAt_blit, cellAt_replicate, cellAt_map_some, cellAt_take, cellAt_append, cellAt_drop, cellAt_cons_zero, cellAt_nil, List.getElem?_take, true_and, and_true, Nat.sub_zero, Nat.zero_add, Nat.add_zero, Nat.zero_le, Nat.sub_self, Nat.lt_irrefl, Nat.one_ne_zero, false_and, and_false, if_true, if_false]
      split_ifs <;> first | rfl | omega | (congr 1; omega) | (simp only [false_and, and_false] at *; done)
    · intro i hi
      skip
      simp only [length_blit, List.length_set, List.length_replicate, List.length_map, List.length_take, List.length_append, List.length_drop, List.length_cons, List.length_nil, content, Option.getD_some, Option.getD_none, List.take_nil, cellAt_set, cellAt_blit, cellAt_replicate, cellAt_map_some, cellAt_take, cellAt_append, cellAt_drop, cellAt_cons_zero, cellAt_nil, List.getElem?_take, true_and, and_true, Nat.sub_zero, Nat.zero_add, Nat.add_zero, Nat.zero_le, Nat.sub_self, Nat.lt_irrefl, Nat.one_ne_zero, false_and, and_false, if_true, if_false]
      have := trivial
      split_ifs <;> first | omega | exact hs4 _ (by omega) | exact ho4 _ (by omega) | simp [this] | simp | (simp only [false_and, and_false] at *; done)

end StringType


theorem cellAt_cons (c : Cell) (b : Block) (i : Nat) :
    cellAt (c :: b) i = if i = 0 then c else cellAt b (i - 1) := by
  cases i with
  | zero => simp [cellAt]
  | succ i => simp [cellAt]

theorem raw_cells (cstring : ConstPointer) (L : Nat) (hL : cstringSize cstring = some L) :
    ∀ j, j < L → cstring[j]? ≠ none := by
  intro j hj
  have h := (cstringSize_spec cstring L hL).1
  simp [List.getElem?_eq_getElem (show j < cstring.length by omega)]

namespace StringType

/-! ## Insertion -/

theorem insert_char_spec (self : StringType) (character : ValueType) (index : Nat)
    (hs : Valid self) (hi : index < self.m_size) :
    ∃ r, insert_char self character index = some r ∧ r.m_size = self.m_size + 1 ∧
      r.m_capacity =
        (if self.m_capacity < lookupCapacity (self.m_size + 1)
          then lookupCapacity (self.m_size + 1) else self.m_capacity) ∧
      Valid r ∧
      content r = (content self).take index ++ [some character] ++ (content self).drop index := by
  rcases self with ⟨_ | bs, n, c⟩
  · simp only [valid_none] at hs
    simp only [hs.1] at hi
    omega
  simp only [valid_some] at hs
  obtain ⟨rfl, hs2, hs3, hs4⟩ := hs
  simp only at hi
  have hcap := lookupCapacity_gt (n + 1) (by omega)
  by_cases hlt : bs.length < lookupCapacity (n + 1)
  · simp (disch := first | omega | (simp only [length_blit, List.length_set, List.length_replicate, List.length_map, List.length_take, List.length_append, List.length_drop, List.length_cons, List.length_nil, content, Option.getD_some, Option.getD_none, List.take_nil]; omega)) only [insert_char, assert_assume, assume, bind, Option.bind, newArray, rawBlock, if_true, if_false, std_copy_some, std_copy_empty, std_copy_within_some, std_copy_backward_some, std_fill_some, store_some, ofTriple, ctor, null, ctor_move, ge_iff_le, gt_iff_lt, not_lt, not_le, Nat.add_zero, hi, hcap, hlt]
    refine ⟨_, rfl, rfl, rfl, ?_⟩
    apply mk_spec
    · simp only [length_blit, List.length_set, List.length_replicate, List.length_map, List.length_take, List.length_append, List.length_drop, List.length_cons, List.length_nil, content, Option.getD_some, Option.getD_none, List.take_nil] <;> omega
    · omega
    · simp only [length_blit, List.length_set, List.length_replicate, List.length_map, List.length_take, List.length_append, List.length_drop, List.length_cons, List.length_nil, content, Option.getD_some, Option.getD_none, List.take_nil, cellAt_set, cellAt_blit, cellAt_replicate, cellAt_map_some, cellAt_take, cellAt_append, cellAt_drop, cellAt_cons_zero, cellAt_cons, cellAt_nil, List.getElem?_take, true_and, and_true, Nat.sub_zero, Nat.zero_add, Nat.add_zero, Nat.zero_le, Nat.sub_self, Nat.lt_irrefl, Nat.one_ne_zero, false_and, and_false, if_true, if_false]
      split_ifs <;> first | rfl | omega | exact hs3 | exact ho3 | (simp only [false_and, and_false] at *; done)
    · simp only [length_blit, List.length_set, List.length_replicate, List.length_map, List.length_take, List.length_append, List.length_drop, List.length_cons, List.length_nil, content, Option.getD_some, Option.getD_none, List.take_nil] <;> omega
    · intro i hi
      skip
      simp only [length_blit, List.length_set, List.length_replicate, List.length_map, List.length_take, List.length_append, List.length_drop, List.length_cons, List.length_nil, content, Option.getD_some, Option.getD_none, List.take_nil, cellAt_set, cellAt_blit, cellAt_replicate, cellAt_map_some, cellAt_take, cellAt_append, cellAt_drop, cellAt_cons_zero, cellAt_cons, cellAt_nil, List.getElem?_take, true_and, and_true, Nat.sub_zero, Nat.zero_add, Nat.add_zero, Nat.zero_le, Nat.sub_self, Nat.lt_irrefl, Nat.one_ne_zero, false_and, and_false, if_true, if_false]
      split_ifs <;> first | rfl | omega | (congr 1; omega) | (simp only [false_and, and_false] at *; done)
    · intro i hi
      skip
      simp only [length_blit, List.length_set, List.length_replicate, List.length_map, List.length_take, List.length_append, List.length_drop, List.length_cons, List.length_nil, content, Option.getD_some, Option.getD_none, List.take_nil, cellAt_set, cellAt_blit, cellAt_replicate, cellAt_map_some, cellAt_take, cellAt_append, cellAt_drop, cellAt_cons_zero, cellAt_cons, cellAt_nil, List.getElem?_take, true_and, and_true, Nat.sub_zero, Nat.zero_add, Nat.add_zero, Nat.zero_le, Nat.sub_self, Nat.lt_irrefl, Nat.one_ne_zero, false_and, and_false, if_true, if_false]
      have := trivial
      split_ifs <;> first | omega | exact hs4 _ (by omega) | exact ho4 _ (by omega) | exact hraw _ (by omega) | simp [this] | simp | (simp only [false_and, and_false] at *; done)
  · simp (disch := first | omega | (simp only [length_blit, List.length_set, List.length_replicate, List.length_map, List.length_take, List.length_append, List.length_drop, List.length_cons, List.length_nil, content, Option.getD_some, Option.getD_none, List.take_nil]; omega)) only [insert_char, assert_assume, assume, bind, Option.bind, newArray, rawBlock, if_true, if_false, std_copy_some, std_copy_empty, std_copy_within_some, std_copy_backward_some, std_fill_some, store_some, ofTriple, ctor, null, ctor_move, ge_iff_le, gt_iff_lt, not_lt, not_le, Nat.add_zero, hi, hcap, hlt]
    refine ⟨_, rfl, rfl, rfl, ?_⟩
    apply mk_spec
    · simp only [length_blit, List.length_set, List.length_replicate, List.length_map, List.length_take, List.length_append, List.length_drop, List.length_cons, List.length_nil, content, Option.getD_some, Option.getD_none, List.take_nil] <;> omega
    · omega
    · simp only [length_blit, List.length_set, List.length_replicate, List.length_map, List.length_take, List.length_append, List.length_drop, List.length_cons, List.length_nil, content, Option.getD_some, Option.getD_none, List.take_nil, cellAt_set, cellAt_blit, cellAt_replicate, cellAt_map_some, cellAt_take, cellAt_append, cellAt_drop, cellAt_cons_zero, cellAt_cons, cellAt_nil, List.getElem?_take, true_and, and_true, Nat.sub_zero, Nat.zero_add, Nat.add_zero, Nat.zero_le, Nat.sub_self, Nat.lt_irrefl, Nat.one_ne_zero, false_and, and_false, if_true, if_false]
      split_ifs <;> first | rfl | omega | exact hs3 | exact ho3 | (simp only [false_and, and_false] at *; done)
    · simp only [length_blit, List.length_set, List.length_replicate, List.length_map, List.length_take, List.length_append, List.length_drop, List.length_cons, List.length_nil, content, Option.getD_some, Option.getD_none, List.take_nil] <;> omega
    · intro i hi
      skip
      simp only [length_blit, List.length_set, List.length_replicate, List.length_map, List.length_take, List.length_append, List.length_drop, List.length_cons, List.length_nil, content, Option.getD_some, Option.getD_none, List.take_nil, cellAt_set, cellAt_blit, cellAt_replicate, cellAt_map_some, cellAt_take, cellAt_append, cellAt_drop, cellAt_cons_zero, cellAt_cons, cellAt_nil, List.getElem?_take, true_and, and_true, Nat.sub_zero, Nat.zero_add, Nat.add_zero, Nat.zero_le, Nat.sub_self, Nat.lt_irrefl, Nat.one_ne_zero, false_and, and_false, if_true, if_false]
      split_ifs <;> first | rfl | omega | (congr 1; omega) | (simp only [false_and, and_false] at *; done)
    · intro i hi
      skip
      simp only [length_blit, List.length_set, List.length_replicate, List.length_map, List.length_take, List.length_append, List.length_drop, List.length_cons, List.length_nil, content, Option.getD_some, Option.getD_none, List.take_nil, cellAt_set, cellAt_blit, cellAt_replicate, cellAt_map_some, cellAt_take, cellAt_append, cellAt_drop, cellAt_cons_zero, cellAt_cons, cellAt_nil, List.getElem?_take, true_and, and_true, Nat.sub_zero, Nat.zero_add, Nat.add_zero, Nat.zero_le, Nat.sub_self, Nat.lt_irrefl, Nat.one_ne_zero, false_and, and_false, if_true, if_false]
      have := trivial
      split_ifs <;> first | omega | exact hs4 _ (by omega) | exact ho4 _ (by omega) | exact hraw _ (by omega) | simp [this] | simp | (simp only [false_and, and_false] at *; done)

theorem insert_cstring_spec (self : StringType) (cstring : ConstPointer) (index L : Nat)
    (hs : Valid self) (hi : index < self.m_size) (hL : cstringSize cstring = some L) :
    ∃ r, insert_cstring self cstring index = some r ∧ r.m_size = self.m_size + L ∧
      r.m_capacity =
        (if L = 0 then self.m_capacity
          else if self.m_capacity < lookupCapacity (self.m_size + L)
          then lookupCapacity (self.m_size + L) else self.m_capacity) ∧
      Valid r ∧
      content r =
        (content self).take index ++ (rawContent cstring).map some ++
          (content self).drop index := by
  obtain ⟨hL1, hL2, hL3⟩ := cstringSize_spec cstring L hL
  have hraw := raw_cells cstring L hL
  rw [hL3]
  by_cases hl : L = 0
  · subst hl
    exact ⟨self, by simp [insert_cstring, assert_assume, hi, hL], rfl, by simp, hs, by simp⟩
  rcases self with ⟨_ | bs, n, c⟩
  · simp only [valid_none] at hs
    simp only [hs.1] at hi
    omega
  simp only [valid_some] at hs
  obtain ⟨rfl, hs2, hs3, hs4⟩ := hs
  simp only at hi
  have hcap := lookupCapacity_gt (n + L) (by omega)
  by_cases hlt : bs.length < lookupCapacity (n + L)
  · simp (disch := first | omega | (simp only [length_blit, List.length_set, List.length_replicate, List.length_map, List.length_take, List.length_append, List.length_drop, List.length_cons, List.length_nil, content, Option.getD_some, Option.getD_none, List.take_nil]; omega)) only [insert_cstring, assert_assume, assume, bind, Option.bind, newArray, rawBlock, if_true, if_false, std_copy_some, std_copy_empty, std_copy_within_some, std_copy_backward_some, std_fill_some, store_some, ofTriple, ctor, null, ctor_move, ge_iff_le, gt_iff_lt, not_lt, not_le, Nat.add_zero, hi, hL, hl, hcap, hlt]
    refine ⟨_, rfl, rfl, rfl, ?_⟩
    apply mk_spec
    · simp only [length_blit, List.length_set, List.length_replicate, List.length_map, List.length_take, List.length_append, List.length_drop, List.length_cons, List.length_nil, content, Option.getD_some, Option.getD_none, List.take_nil] <;> omega
    · omega
    · simp only [length_blit, List.length_set, List.length_replicate, List.length_map, List.length_take, List.length_append, List.length_drop, List.length_cons, List.length_nil, content, Option.getD_some, Option.getD_none, List.take_nil, cellAt_set, cellAt_blit, cellAt_replicate, cellAt_map_some, cellAt_take, cellAt_append, cellAt_drop, cellAt_cons_zero, cellAt_cons, cellAt_nil, List.getElem?_take, true_and, and_true, Nat.sub_zero, Nat.zero_add, Nat.add_zero, Nat.zero_le, Nat.sub_self, Nat.lt_irrefl, Nat.one_ne_zero, false_and, and_false, if_true, if_false]
      split_ifs <;> first | rfl | omega | exact hs3 | exact ho3 | (simp only [false_and, and_false] at *; done)
    · simp only [length_blit, List.length_set, List.length_replicate, List.length_map, List.length_take, List.length_append, List.length_drop, List.length_cons, List.length_nil, content, Option.getD_some, Option.getD_none, List.take_nil] <;> omega
    · intro i hi
      skip
      simp only [length_blit, List.length_set, List.length_replicate, List.length_map, List.length_take, List.length_append, List.length_drop, List.length_cons, List.length_nil, content, Option.getD_some, Option.getD_none, List.take_nil, cellAt_set, cellAt_blit, cellAt_replicate, cellAt_map_some, cellAt_take, cellAt_append, cellAt_drop, cellAt_cons_zero, cellAt_cons, cellAt_nil, List.getElem?_take, true_and, and_true, Nat.sub_zero, Nat.zero_add, Nat.add_zero, Nat.zero_le, Nat.sub_self, Nat.lt_irrefl, Nat.one_ne_zero, false_and, and_false, if_true, if_false]
      split_ifs <;> first | rfl | omega | (congr 1; omega) | (simp only [false_and, and_false] at *; done)
    · intro i hi
      skip
      simp only [length_blit, List.length_set, List.length_replicate, List.length_map, List.length_take, List.length_append, List.length_drop, List.length_cons, List.length_nil, content, Option.getD_some, Option.getD_none, List.take_nil, cellAt_set, cellAt_blit, cellAt_replicate, cellAt_map_some, cellAt_take, cellAt_append, cellAt_drop, cellAt_cons_zero, cellAt_cons, cellAt_nil, List.getElem?_take, true_and, and_true, Nat.sub_zero, Nat.zero_add, Nat.add_zero, Nat.zero_le, Nat.sub_self, Nat.lt_irrefl, Nat.one_ne_zero, false_and, and_false, if_true, if_false]
      have := trivial
      split_ifs <;> first | omega | exact hs4 _ (by omega) | exact ho4 _ (by omega) | exact hraw _ (by omega) | simp [this] | simp | (simp only [false_and, and_false] at *; done)
  · simp (disch := first | omega | (simp only [length_blit, List.length_set, List.length_replicate, List.length_map, List.length_take, List.length_append, List.length_drop, List.length_cons, List.length_nil, content, Option.getD_some, Option.getD_none, List.take_nil]; omega)) only [insert_cstring, assert_assume, assume, bind, Option.bind, newArray, rawBlock, if_true, if_false, std_copy_some, std_copy_empty, std_copy_within_some, std_copy_backward_some, std_fill_some, store_some, ofTriple, ctor, null, ctor_move, ge_iff_le, gt_iff_lt, not_lt, not_le, Nat.add_zero, hi, hL, hl, hcap, hlt]
    refine ⟨_, rfl, rfl, rfl, ?_⟩
    apply mk_spec
    · simp only [length_blit, List.length_set, List.length_replicate, List.length_map, List.length_take, List.length_append, List.length_drop, List.length_cons, List.length_nil, content, Option.getD_some, Option.getD_none, List.take_nil] <;> omega
    · omega
    · simp only [length_blit, List.length_set, List.length_replicate, List.length_map, List.length_take, List.length_append, List.length_drop, List.length_cons, List.length_nil, content, Option.getD_some, Option.getD_none, List.take_nil, cellAt_set, cellAt_blit, cellAt_replicate, cellAt_map_some, cellAt_take, cellAt_append, cellAt_drop, cellAt_cons_zero, cellAt_cons, cellAt_nil, List.getElem?_take, true_and, and_true, Nat.sub_zero, Nat.zero_add, Nat.add_zero, Nat.zero_le, Nat.sub_self, Nat.lt_irrefl, Nat.one_ne_zero, false_and, and_false, if_true, if_false]
      split_ifs <;> first | rfl | omega | exact hs3 | exact ho3 | (simp only [false_and, and_false] at *; done)
    · simp only [length_blit, List.length_set, List.length_replicate, List.length_map, List.length_take, List.length_append, List.length_drop, List.length_cons, List.length_nil, content, Option.getD_some, Option.getD_none, List.take_nil] <;> omega
    · intro i hi
      skip
      simp only [length_blit, List.length_set, List.length_replicate, List.length_map, List.length_take, List.length_append, List.length_drop, List.length_cons, List.length_nil, content, Option.getD_some, Option.getD_none, List.take_nil, cellAt_set, cellAt_blit, cellAt_replicate, cellAt_map_some, cellAt_take, cellAt_append, cellAt_drop, cellAt_cons_zero, cellAt_cons, cellAt_nil, List.getElem?_take, true_and, and_true, Nat.sub_zero, Nat.zero_add, Nat.add_zero, Nat.zero_le, Nat.sub_self, Nat.lt_irrefl, Nat.one_ne_zero, false_and, and_false, if_true, if_false]
      split_ifs <;> first | rfl | omega | (congr 1; omega) | (simp only [false_and, and_false] at *; done)
    · intro i hi
      skip
      simp only [length_blit, List.length_set, List.length_replicate, List.length_map, List.length_take, List.length_append, List.length_drop, List.length_cons, List.length_nil, content, Option.getD_some, Option.getD_none, List.take_nil, cellAt_set, cellAt_blit, cellAt_replicate, cellAt_map_some, cellAt_take, cellAt_append, cellAt_drop, cellAt_cons_zero, cellAt_cons, cellAt_nil, List.getElem?_take, true_and, and_true, Nat.sub_zero, Nat.zero_add, Nat.add_zero, Nat.zero_le, Nat.sub_self, Nat.lt_irrefl, Nat.one_ne_zero, false_and, and_false, if_true, if_false]
      have := trivial
      split_ifs <;> first | omega | exact hs4 _ (by omega) | exact ho4 _ (by omega) | exact hraw _ (by omega) | simp [this] | simp | (simp only [false_and, and_false] at *; done)

end StringType

namespace StringType

theorem insert_copy_spec (self object : StringType) (index : Nat)
    (hs : Valid self) (ho : Valid object) (hi : index < self.m_size) :
    ∃ r, insert_copy self object index = some r ∧ r.m_size = self.m_size + object.m_size ∧
      r.m_capacity =
        (if object.m_size = 0 then self.m_capacity
          else if self.m_capacity < lookupCapacity (self.m_size + object.m_size)
          then lookupCapacity (self.m_size + object.m_size) else self.m_capacity) ∧
      Valid r ∧
      content r = (content self).take index ++ content object ++ (content self).drop index := by
  by_cases hm : object.m_size = 0
  · exact ⟨self, by simp [insert_copy, assert_assume, hi, hm], by simp [hm], by simp [hm], hs,
      by simp [content, hm]⟩
  rcases self with ⟨_ | bs, n, c⟩
  · simp only [valid_none] at hs
    simp only [hs.1] at hi
    omega
  simp only [valid_some] at hs
  obtain ⟨rfl, hs2, hs3, hs4⟩ := hs
  simp only at hi
  rcases object with ⟨_ | bo, m, co⟩
  · simp only [valid_none] at ho
    exact absurd ho.1 hm
  simp only [valid_some] at ho
  obtain ⟨rfl, ho2, ho3, ho4⟩ := ho
  simp only at hm
  have hcap := lookupCapacity_gt (n + m) (by omega)
  by_cases hlt : bs.length < lookupCapacity (n + m)
  · simp (disch := first | omega | (simp only [length_blit, List.length_set, List.length_replicate, List.length_map, List.length_take, List.length_append, List.length_drop, List.length_cons, List.length_nil, content, Option.getD_some, Option.getD_none, List.take_nil]; omega)) only [insert_copy, assert_assume, assume, bind, Option.bind, newArray, rawBlock, if_true, if_false, std_copy_some, std_copy_empty, std_copy_within_some, std_copy_backward_some, std_fill_some, store_some, ofTriple, ctor, null, ctor_move, ge_iff_le, gt_iff_lt, not_lt, not_le, Nat.add_zero, hi, hm, hcap, hlt]
    refine ⟨_, rfl, rfl, rfl, ?_⟩
    apply mk_spec
    · simp only [length_blit, List.length_set, List.length_replicate, List.length_map, List.length_take, List.length_append, List.length_drop, List.length_cons, List.length_nil, content, Option.getD_some, Option.getD_none, List.take_nil] <;> omega
    · omega
    · simp only [length_blit, List.length_set, List.length_replicate, List.length_map, List.length_take, List.length_append, List.length_drop, List.length_cons, List.length_nil, content, Option.getD_some, Option.getD_none, List.take_nil, cellAt_set, cellAt_blit, cellAt_replicate, cellAt_map_some, cellAt_take, cellAt_append, cellAt_drop, cellAt_cons_zero, cellAt_cons, cellAt_nil, List.getElem?_take, true_and, and_true, Nat.sub_zero, Nat.zero_add, Nat.add_zero, Nat.zero_le, Nat.sub_self, Nat.lt_irrefl, Nat.one_ne_zero, false_and, and_false, if_true, if_false]
      split_ifs <;> first | (with_reducible rfl) | omega | exact hs3 | exact ho3 | (simp only [false_and, and_false] at *; done)
    · simp only [length_blit, List.length_set, List.length_replicate, List.length_map, List.length_take, List.length_append, List.length_drop, List.length_cons, List.length_nil, content, Option.getD_some, Option.getD_none, List.take_nil] <;> omega
    · intro i hi
      skip
      simp only [length_blit, List.length_set, List.length_replicate, List.length_map, List.length_take, List.length_append, List.length_drop, List.length_cons, List.length_nil, content, Option.getD_some, Option.getD_none, List.take_nil, cellAt_set, cellAt_blit, cellAt_replicate, cellAt_map_some, cellAt_take, cellAt_append, cellAt_drop, cellAt_cons_zero, cellAt_cons, cellAt_nil, List.getElem?_take, true_and, and_true, Nat.sub_zero, Nat.zero_add, Nat.add_zero, Nat.zero_le, Nat.sub_self, Nat.lt_irrefl, Nat.one_ne_zero, false_and, and_false, if_true, if_false]
      split_ifs <;> first | (with_reducible rfl) | omega | (congr 1; omega) | (simp only [false_and, and_false] at *; done)
    · intro i hi
      skip
      simp only [length_blit, List.length_set, List.length_replicate, List.length_map, List.length_take, List.length_append, List.length_drop, List.length_cons, List.length_nil, content, Option.getD_some, Option.getD_none, List.take_nil, cellAt_set, cellAt_blit, cellAt_replicate, cellAt_map_some, cellAt_take, cellAt_append, cellAt_drop, cellAt_cons_zero, cellAt_cons, cellAt_nil, List.getElem?_take, true_and, and_true, Nat.sub_zero, Nat.zero_add, Nat.add_zero, Nat.zero_le, Nat.sub_self, Nat.lt_irrefl, Nat.one_ne_zero, false_and, and_false, if_true, if_false]
      have := trivial
      split_ifs <;> first | omega | exact hs4 _ (by omega) | exact ho4 _ (by omega) | exact hraw _ (by omega) | simp [this] | simp | (simp only [false_and, and_false] at *; done)
  · simp (disch := first | omega | (simp only [length_blit, List.length_set, List.length_replicate, List.length_map, List.length_take, List.length_append, List.length_drop, List.length_cons, List.length_nil, content, Option.getD_some, Option.getD_none, List.take_nil]; omega)) only [insert_copy, assert_assume, assume, bind, Option.bind, newArray, rawBlock, if_true, if_false, std_copy_some, std_copy_empty, std_copy_within_some, std_copy_backward_some, std_fill_some, store_some, ofTriple, ctor, null, ctor_move, ge_iff_le, gt_iff_lt, not_lt, not_le, Nat.add_zero, hi, hm, hcap, hlt]
    refine ⟨_, rfl, rfl, rfl, ?_⟩
    apply mk_spec
    · simp only [length_blit, List.length_set, List.length_replicate, List.length_map, List.length_take, List.length_append, List.length_drop, List.length_cons, List.length_nil, content, Option.getD_some, Option.getD_none, List.take_nil] <;> omega
    · omega
    · simp only [length_blit, List.length_set, List.length_replicate, List.length_map, List.length_take, List.length_append, List.length_drop, List.length_cons, List.length_nil, content, Option.getD_some, Option.getD_none, List.take_nil, cellAt_set, cellAt_blit, cellAt_replicate, cellAt_map_some, cellAt_take, cellAt_append, cellAt_drop, cellAt_cons_zero, cellAt_cons, cellAt_nil, List.getElem?_take, true_and, and_true, Nat.sub_zero, Nat.zero_add, Nat.add_zero, Nat.zero_le, Nat.sub_self, Nat.lt_irrefl, Nat.one_ne_zero, false_and, and_false, if_true, if_false]
      split_ifs <;> first | (with_reducible rfl) | omega | exact hs3 | exact ho3 | (simp only [false_and, and_false] at *; done)
    · simp only [length_blit, List.length_set, List.length_replicate, List.length_map, List.length_take, List.length_append, List.length_drop, List.length_cons, List.length_nil, content, Option.getD_some, Option.getD_none, List.take_nil] <;> omega
    · intro i hi
      skip
      simp only [length_blit, List.length_set, List.length_replicate, List.length_map, List.length_take, List.length_append, List.length_drop, List.length_cons, List.length_nil, content, Option.getD_some, Option.getD_none, List.take_nil, cellAt_set, cellAt_blit, cellAt_replicate, cellAt_map_some, cellAt_take, cellAt_append, cellAt_drop, cellAt_cons_zero, cellAt_cons, cellAt_nil, List.getElem?_take, true_and, and_true, Nat.sub_zero, Nat.zero_add, Nat.add_zero, Nat.zero_le, Nat.sub_self, Nat.lt_irrefl, Nat.one_ne_zero, false_and, and_false, if_true, if_false]
      split_ifs <;> first | (with_reducible rfl) | omega | (congr 1; omega) | (simp only [false_and, and_false] at *; done)
    · intro i hi
      skip
      simp only [length_blit, List.length_set, List.length_replicate, List.length_map, List.length_take, List.length_append, List.length_drop, List.length_cons, List.length_nil, content, Option.getD_some, Option.getD_none, List.take_nil, cellAt_set, cellAt_blit, cellAt_replicate, cellAt_map_some, cellAt_take, cellAt_append, cellAt_drop, cellAt_cons_zero, cellAt_cons, cellAt_nil, List.getElem?_take, true_and, and_true, Nat.sub_zero, Nat.zero_add, Nat.add_zero, Nat.zero_le, Nat.sub_self, Nat.lt_irrefl, Nat.one_ne_zero, false_and, and_false, if_true, if_false]
      have := trivial
      split_ifs <;> first | omega | exact hs4 _ (by omega) | exact ho4 _ (by omega) | exact hraw _ (by omega) | simp [this] | simp | (simp only [false_and, and_false] at *; done)

theorem insert_move_spec (self object : StringType) (index : Nat)
    (hs : Valid self) (ho : Valid object) (hi : index < self.m_size) :
    ∃ p, insert_move self object index = some p ∧
      p.2 =
        (if object.m_size = 0 then object
          else if self.m_capacity < lookupCapacity (self.m_size + object.m_size) ∧
            lookupCapacity (self.m_size + object.m_size) ≤ object.m_capacity
          then ⟨none, 0, 0⟩ else object) ∧
      p.1.m_size = self.m_size + object.m_size ∧
      p.1.m_capacity =
        (if object.m_size = 0 then self.m_capacity
          else if self.m_capacity < lookupCapacity (self.m_size + object.m_size)
          then (if lookupCapacity (self.m_size + object.m_size) ≤ object.m_capacity
            then object.m_capacity else lookupCapacity (self.m_size + object.m_size))
          else self.m_capacity) ∧
      Valid p.1 ∧
      content p.1 =
        (content self).take index ++ content object ++ (content self).drop index := by
  by_cases hm : object.m_size = 0
  · exact ⟨(self, object), by simp [insert_move, assert_assume, hi, hm], by simp [hm],
      by simp [hm], by simp [hm], hs, by simp [content, hm]⟩
  rcases self with ⟨_ | bs, n, c⟩
  · simp only [valid_none] at hs
    simp only [hs.1] at hi
    omega
  simp only [valid_some] at hs
  obtain ⟨rfl, hs2, hs3, hs4⟩ := hs
  simp only at hi
  rcases object with ⟨_ | bo, m, co⟩
  · simp only [valid_none] at ho
    exact absurd ho.1 hm
  simp only [valid_some] at ho
  obtain ⟨rfl, ho2, ho3, ho4⟩ := ho
  simp only at hm
  have hcap := lookupCapacity_gt (n + m) (by omega)
  by_cases hlt : bs.length < lookupCapacity (n + m)
  · by_cases hge : lookupCapacity (n + m) ≤ bo.length
    · simp (disch := first | omega | (simp only [length_blit, List.length_set, List.length_replicate, List.length_map, List.length_take, List.length_append, List.length_drop, List.length_cons, List.length_nil, content, Option.getD_some, Option.getD_none, List.take_nil]; omega)) only [insert_move, assert_assume, assume, bind, Option.bind, newArray, rawBlock, if_true, if_false, std_copy_some, std_copy_empty, std_copy_within_some, std_copy_backward_some, std_fill_some, store_some, ofTriple, ctor, null, ctor_move, ge_iff_le, gt_iff_lt, not_lt, not_le, Nat.add_zero, hi, hm, hcap, hlt, hge]
      refine ⟨_, rfl, by simp, rfl, rfl, ?_⟩
      apply mk_spec
      · simp only [length_blit, List.length_set, List.length_replicate, List.length_map, List.length_take, List.length_append, List.length_drop, List.length_cons, List.length_nil, content, Option.getD_some, Option.getD_none, List.take_nil] <;> omega
      · omega
      · simp only [length_blit, List.length_set, List.length_replicate, List.length_map, List.length_take, List.length_append, List.length_drop, List.length_cons, List.length_nil, content, Option.getD_some, Option.getD_none, List.take_nil, cellAt_set, cellAt_blit, cellAt_replicate, cellAt_map_some, cellAt_take, cellAt_append, cellAt_drop, cellAt_cons_zero, cellAt_cons, cellAt_nil, List.getElem?_take, true_and, and_true, Nat.sub_zero, Nat.zero_add, Nat.add_zero, Nat.zero_le, Nat.sub_self, Nat.lt_irrefl, Nat.one_ne_zero, false_and, and_false, if_true, if_false]
        split_ifs <;> first | (with_reducible rfl) | omega | exact hs3 | exact ho3 | (simp only [false_and, and_false] at *; done)
      · simp only [length_blit, List.length_set, List.length_replicate, List.length_map, List.length_take, List.length_append, List.length_drop, List.length_cons, List.length_nil, content, Option.getD_some, Option.getD_none, List.take_nil] <;> omega
      · intro i hi
        skip
        simp only [length_blit, List.length_set, List.length_replicate, List.length_map, List.length_take, List.length_append, List.length_drop, List.length_cons, List.length_nil, content, Option.getD_some, Option.getD_none, List.take_nil, cellAt_set, cellAt_blit, cellAt_replicate, cellAt_map_some, cellAt_take, cellAt_append, cellAt_drop, cellAt_cons_zero, cellAt_cons, cellAt_nil, List.getElem?_take, true_and, and_true, Nat.sub_zero, Nat.zero_add, Nat.add_zero, Nat.zero_le, Nat.sub_self, Nat.lt_irrefl, Nat.one_ne_zero, false_and, and_false, if_true, if_false]
        split_ifs <;> first | (with_reducible rfl) | omega | (congr 1; omega) | (simp only [false_and, and_false] at *; done)
      · intro i hi
        skip
        simp only [length_blit, List.length_set, List.length_replicate, List.length_map, List.length_take, List.length_append, List.length_drop, List.length_cons, List.length_nil, content, Option.getD_some, Option.getD_none, List.take_nil, cellAt_set, cellAt_blit, cellAt_replicate, cellAt_map_some, cellAt_take, cellAt_append, cellAt_drop, cellAt_cons_zero, cellAt_cons, cellAt_nil, List.getElem?_take, true_and, and_true, Nat.sub_zero, Nat.zero_add, Nat.add_zero, Nat.zero_le, Nat.sub_self, Nat.lt_irrefl, Nat.one_ne_zero, false_and, and_false, if_true, if_false]
        have := trivial
        split_ifs <;> first | omega | exact hs4 _ (by omega) | exact ho4 _ (by omega) | exact hraw _ (by omega) | simp [this] | simp | (simp only [false_and, and_false] at *; done)
    · simp (disch := first | omega | (simp only [length_blit, List.length_set, List.length_replicate, List.length_map, List.length_take, List.length_append, List.length_drop, List.length_cons, List.length_nil, content, Option.getD_some, Option.getD_none, List.take_nil]; omega)) only [insert_move, assert_assume, assume, bind, Option.bind, newArray, rawBlock, if_true, if_false, std_copy_some, std_copy_empty, std_copy_within_some, std_copy_backward_some, std_fill_some, store_some, ofTriple, ctor, null, ctor_move, ge_iff_le, gt_iff_lt, not_lt, not_le, Nat.add_zero, hi, hm, hcap, hlt, hge]
      refine ⟨_, rfl, by simp, rfl, rfl, ?_⟩
      apply mk_spec
      · simp only [length_blit, List.length_set, List.length_replicate, List.length_map, List.length_take, List.length_append, List.length_drop, List.length_cons, List.length_nil, content, Option.getD_some, Option.getD_none, List.take_nil] <;> omega
      · omega
      · simp only [length_blit, List.length_set, List.length_replicate, List.length_map, List.length_take, List.length_append, List.length_drop, List.length_cons, List.length_nil, content, Option.getD_some, Option.getD_none, List.take_nil, cellAt_set, cellAt_blit, cellAt_replicate, cellAt_map_some, cellAt_take, cellAt_append, cellAt_drop, cellAt_cons_zero, cellAt_cons, cellAt_nil, List.getElem?_take, true_and, and_true, Nat.sub_zero, Nat.zero_add, Nat.add_zero, Nat.zero_le, Nat.sub_self, Nat.lt_irrefl, Nat.one_ne_zero, false_and, and_false, if_true, if_false]
        split_ifs <;> first | (with_reducible rfl) | omega | exact hs3 | exact ho3 | (simp only [false_and, and_false] at *; done)
      · simp only [length_blit, List.length_set, List.length_replicate, List.length_map, List.length_take, List.length_append, List.length_drop, List.length_cons, List.length_nil, content, Option.getD_some, Option.getD_none, List.take_nil] <;> omega
      · intro i hi
        skip
        simp only [length_blit, List.length_set, List.length_replicate, List.length_map, List.length_take, List.length_append, List.length_drop, List.length_cons, List.length_nil, content, Option.getD_some, Option.getD_none, List.take_nil, cellAt_set, cellAt_blit, cellAt_replicate, cellAt_map_some, cellAt_take, cellAt_append, cellAt_drop, cellAt_cons_zero, cellAt_cons, cellAt_nil, List.getElem?_take, true_and, and_true, Nat.sub_zero, Nat.zero_add, Nat.add_zero, Nat.zero_le, Nat.sub_self, Nat.lt_irrefl, Nat.one_ne_zero, false_and, and_false, if_true, if_false]
        split_ifs <;> first | (with_reducible rfl) | omega | (congr 1; omega) | (simp only [false_and, and_false] at *; done)
      · intro i hi
        skip
        simp only [length_blit, List.length_set, List.length_replicate, List.length_map, List.length_take, List.length_append, List.length_drop, List.length_cons, List.length_nil, content, Option.getD_some, Option.getD_none, List.take_nil, cellAt_set, cellAt_blit, cellAt_replicate, cellAt_map_some, cellAt_take, cellAt_append, cellAt_drop, cellAt_cons_zero, cellAt_cons, cellAt_nil, List.getElem?_take, true_and, and_true, Nat.sub_zero, Nat.zero_add, Nat.add_zero, Nat.zero_le, Nat.sub_self, Nat.lt_irrefl, Nat.one_ne_zero, false_and, and_false, if_true, if_false]
        have := trivial
        split_ifs <;> first | omega | exact hs4 _ (by omega) | exact ho4 _ (by omega) | exact hraw _ (by omega) | simp [this] | simp | (simp only [false_and, and_false] at *; done)
  · simp (disch := first | omega | (simp only [length_blit, List.length_set, List.length_replicate, List.length_map, List.length_take, List.length_append, List.length_drop, List.length_cons, List.length_nil, content, Option.getD_some, Option.getD_none, List.take_nil]; omega)) only [insert_move, assert_assume, assume, bind, Option.bind, newArray, rawBlock, if_true, if_false, std_copy_some, std_copy_empty, std_copy_within_some, std_copy_backward_some, std_fill_some, store_some, ofTriple, ctor, null, ctor_move, ge_iff_le, gt_iff_lt, not_lt, not_le, Nat.add_zero, hi, hm, hcap, hlt]
    refine ⟨_, rfl, by simp, rfl, rfl, ?_⟩
    apply mk_spec
    · simp only [length_blit, List.length_set, List.length_replicate, List.length_map, List.length_take, List.length_append, List.length_drop, List.length_cons, List.length_nil, content, Option.getD_some, Option.getD_none, List.take_nil] <;> omega
    · omega
    · simp only [length_blit, List.length_set, List.length_replicate, List.length_map, List.length_take, List.length_append, List.length_drop, List.length_cons, List.length_nil, content, Option.getD_some, Option.getD_none, List.take_nil, cellAt_set, cellAt_blit, cellAt_replicate, cellAt_map_some, cellAt_take, cellAt_append, cellAt_drop, cellAt_cons_zero, cellAt_cons, cellAt_nil, List.getElem?_take, true_and, and_true, Nat.sub_zero, Nat.zero_add, Nat.add_zero, Nat.zero_le, Nat.sub_self, Nat.lt_irrefl, Nat.one_ne_zero, false_and, and_false, if_true, if_false]
      split_ifs <;> first | (with_reducible rfl) | omega | exact hs3 | exact ho3 | (simp only [false_and, and_false] at *; done)
    · simp only [length_blit, List.length_set, List.length_replicate, List.length_map, List.length_take, List.length_append, List.length_drop, List.length_cons, List.length_nil, content, Option.getD_some, Option.getD_none, List.take_nil] <;> omega
    · intro i hi
      skip
      simp only [length_blit, List.length_set, List.length_replicate, List.length_map, List.length_take, List.length_append, List.length_drop, List.length_cons, List.length_nil, content, Option.getD_some, Option.getD_none, List.take_nil, cellAt_set, cellAt_blit, cellAt_replicate, cellAt_map_some, cellAt_take, cellAt_append, cellAt_drop, cellAt_cons_zero, cellAt_cons, cellAt_nil, List.getElem?_take, true_and, and_true, Nat.sub_zero, Nat.zero_add, Nat.add_zero, Nat.zero_le, Nat.sub_self, Nat.lt_irrefl, Nat.one_ne_zero, false_and, and_false, if_true, if_false]
      split_ifs <;> first | (with_reducible rfl) | omega | (congr 1; omega) | (simp only [false_and, and_false] at *; done)
    · intro i hi
      skip
      simp only [length_blit, List.length_set, List.length_replicate, List.length_map, List.length_take, List.length_append, List.length_drop, List.length_cons, List.length_nil, content, Option.getD_some, Option.getD_none, List.take_nil, cellAt_set, cellAt_blit, cellAt_replicate, cellAt_map_some, cellAt_take, cellAt_append, cellAt_drop, cellAt_cons_zero, cellAt_cons, cellAt_nil, List.getElem?_take, true_and, and_true, Nat.sub_zero, Nat.zero_add, Nat.add_zero, Nat.zero_le, Nat.sub_self, Nat.lt_irrefl, Nat.one_ne_zero, false_and, and_false, if_true, if_false]
      have := trivial
      split_ifs <;> first | omega | exact hs4 _ (by omega) | exact ho4 _ (by omega) | exact hraw _ (by omega) | simp [this] | simp | (simp only [false_and, and_false] at *; done)

end StringType

namespace StringType

/-! ## Appending -/

theorem append_char_spec (self : StringType) (character : ValueType) (hs : Valid self) :
    ∃ r, append_char self character = some r ∧ r.m_size = self.m_size + 1 ∧
      r.m_capacity =
        (if self.m_capacity < lookupCapacity (self.m_size + 1)
          then lookupCapacity (self.m_size + 1) else self.m_capacity) ∧
      Valid r ∧ content r = content self ++ [some character] := by
  rcases self with ⟨_ | bs, n, c⟩
  · simp only [valid_none] at hs
    obtain ⟨rfl, rfl⟩ := hs
    have hcap := lookupCapacity_gt 1 (by omega)
    have hlt : 0 < lookupCapacity 1 := by omega
    simp (disch := first | omega | (simp only [length_blit, List.length_set, List.length_replicate, List.length_map, List.length_take, List.length_append, List.length_drop, List.length_cons, List.length_nil, content, Option.getD_some, Option.getD_none, List.take_nil]; omega)) only [append_char, assert_assume, assume, bind, Option.bind, newArray, rawBlock, if_true, if_false, std_copy_some, std_copy_empty, std_copy_within_some, std_copy_backward_some, std_fill_some, store_some, ofTriple, ctor, null, ctor_move, ge_iff_le, gt_iff_lt, not_lt, not_le, Nat.add_zero, Nat.zero_add, hcap, hlt]
    refine ⟨_, rfl, rfl, rfl, ?_⟩
    apply mk_spec
    · simp only [length_blit, List.length_set, List.length_replicate, List.length_map, List.length_take, List.length_append, List.length_drop, List.length_cons, List.length_nil, content, Option.getD_some, Option.getD_none, List.take_nil] <;> omega
    · omega
    · simp only [length_blit, List.length_set, List.length_replicate, List.length_map, List.length_take, List.length_append, List.length_drop, List.length_cons, List.length_nil, content, Option.getD_some, Option.getD_none, List.take_nil, cellAt_set, cellAt_blit, cellAt_replicate, cellAt_map_some, cellAt_take, cellAt_append, cellAt_drop, cellAt_cons_zero, cellAt_cons, cellAt_nil, List.getElem?_take, true_and, and_true, Nat.sub_zero, Nat.zero_add, Nat.add_zero, Nat.zero_le, Nat.sub_self, Nat.lt_irrefl, Nat.one_ne_zero, false_and, and_false, if_true, if_false]
      split_ifs <;> first | (with_reducible rfl) | omega | exact hs3 | exact ho3 | (simp only [false_and, and_false] at *; done)
    · simp only [length_blit, List.length_set, List.length_replicate, List.length_map, List.length_take, List.length_append, List.length_drop, List.length_cons, List.length_nil, content, Option.getD_some, Option.getD_none, List.take_nil] <;> omega
    · intro i hi
      skip
      simp only [length_blit, List.length_set, List.length_replicate, List.length_map, List.length_take, List.length_append, List.length_drop, List.length_cons, List.length_nil, content, Option.getD_some, Option.getD_none, List.take_nil, cellAt_set, cellAt_blit, cellAt_replicate, cellAt_map_some, cellAt_take, cellAt_append, cellAt_drop, cellAt_cons_zero, cellAt_cons, cellAt_nil, List.getElem?_take, true_and, and_true, Nat.sub_zero, Nat.zero_add, Nat.add_zero, Nat.zero_le, Nat.sub_self, Nat.lt_irrefl, Nat.one_ne_zero, false_and, and_false, if_true, if_false]
      split_ifs <;> first | (with_reducible rfl) | omega | (congr 1; omega) | (simp only [false_and, and_false] at *; done)
    · intro i hi
      skip
      simp only [length_blit, List.length_set, List.length_replicate, List.length_map, List.length_take, List.length_append, List.length_drop, List.length_cons, List.length_nil, content, Option.getD_some, Option.getD_none, List.take_nil, cellAt_set, cellAt_blit, cellAt_replicate, cellAt_map_some, cellAt_take, cellAt_append, cellAt_drop, cellAt_cons_zero, cellAt_cons, cellAt_nil, List.getElem?_take, true_and, and_true, Nat.sub_zero, Nat.zero_add, Nat.add_zero, Nat.zero_le, Nat.sub_self, Nat.lt_irrefl, Nat.one_ne_zero, false_and, and_false, if_true, if_false]
      have := trivial
      split_ifs <;> first | omega | exact hs4 _ (by omega) | exact ho4 _ (by omega) | exact hraw _ (by omega) | simp [this] | simp | (simp only [false_and, and_false] at *; done)
  simp only [valid_some] at hs
  obtain ⟨rfl, hs2, hs3, hs4⟩ := hs
  have hcap := lookupCapacity_gt (n + 1) (by omega)
  by_cases hlt : bs.length < lookupCapacity (n + 1)
  · simp (disch := first | omega | (simp only [length_blit, List.length_set, List.length_replicate, List.length_map, List.length_take, List.length_append, List.length_drop, List.length_cons, List.length_nil, content, Option.getD_some, Option.getD_none, List.take_nil]; omega)) only [append_char, assert_assume, assume, bind, Option.bind, newArray, rawBlock, if_true, if_false, std_copy_some, std_copy_empty, std_copy_within_some, std_copy_backward_some, std_fill_some, store_some, ofTriple, ctor, null, ctor_move, ge_iff_le, gt_iff_lt, not_lt, not_le, Nat.add_zero, Nat.zero_add, hcap, hlt]
    refine ⟨_, rfl, rfl, rfl, ?_⟩
    apply mk_spec
    · simp only [length_blit, List.length_set, List.length_replicate, List.length_map, List.length_take, List.length_append, List.length_drop, List.length_cons, List.length_nil, content, Option.getD_some, Option.getD_none, List.take_nil] <;> omega
    · omega
    · simp only [length_blit, List.length_set, List.length_replicate, List.length_map, List.length_take, List.length_append, List.length_drop, List.length_cons, List.length_nil, content, Option.getD_some, Option.getD_none, List.take_nil, cellAt_set, cellAt_blit, cellAt_replicate, cellAt_map_some, cellAt_take, cellAt_append, cellAt_drop, cellAt_cons_zero, cellAt_cons, cellAt_nil, List.getElem?_take, true_and, and_true, Nat.sub_zero, Nat.zero_add, Nat.add_zero, Nat.zero_le, Nat.sub_self, Nat.lt_irrefl, Nat.one_ne_zero, false_and, and_false, if_true, if_false]
      split_ifs <;> first | (with_reducible rfl) | omega | exact hs3 | exact ho3 | (simp only [false_and, and_false] at *; done)
    · simp only [length_blit, List.length_set, List.length_replicate, List.length_map, List.length_take, List.length_append, List.length_drop, List.length_cons, List.length_nil, content, Option.getD_some, Option.getD_none, List.take_nil] <;> omega
    · intro i hi
      skip
      simp only [length_blit, List.length_set, List.length_replicate, List.length_map, List.length_take, List.length_append, List.length_drop, List.length_cons, List.length_nil, content, Option.getD_some, Option.getD_none, List.take_nil, cellAt_set, cellAt_blit, cellAt_replicate, cellAt_map_some, cellAt_take, cellAt_append, cellAt_drop, cellAt_cons_zero, cellAt_cons, cellAt_nil, List.getElem?_take, true_and, and_true, Nat.sub_zero, Nat.zero_add, Nat.add_zero, Nat.zero_le, Nat.sub_self, Nat.lt_irrefl, Nat.one_ne_zero, false_and, and_false, if_true, if_false]
      split_ifs <;> first | (with_reducible rfl) | omega | (congr 1; omega) | (simp only [false_and, and_false] at *; done)
    · intro i hi
      skip
      simp only [length_blit, List.length_set, List.length_replicate, List.length_map, List.length_take, List.length_append, List.length_drop, List.length_cons, List.length_nil, content, Option.getD_some, Option.getD_none, List.take_nil, cellAt_set, cellAt_blit, cellAt_replicate, cellAt_map_some, cellAt_take, cellAt_append, cellAt_drop, cellAt_cons_zero, cellAt_cons, cellAt_nil, List.getElem?_take, true_and, and_true, Nat.sub_zero, Nat.zero_add, Nat.add_zero, Nat.zero_le, Nat.sub_self, Nat.lt_irrefl, Nat.one_ne_zero, false_and, and_false, if_true, if_false]
      have := trivial
      split_ifs <;> first | omega | exact hs4 _ (by omega) | exact ho4 _ (by omega) | exact hraw _ (by omega) | simp [this] | simp | (simp only [false_and, and_false] at *; done)
  · simp (disch := first | omega | (simp only [length_blit, List.length_set, List.length_replicate, List.length_map, List.length_take, List.length_append, List.length_drop, List.length_cons, List.length_nil, content, Option.getD_some, Option.getD_none, List.take_nil]; omega)) only [append_char, assert_assume, assume, bind, Option.bind, newArray, rawBlock, if_true, if_false, std_copy_some, std_copy_empty, std_copy_within_some, std_copy_backward_some, std_fill_some, store_some, ofTriple, ctor, null, ctor_move, ge_iff_le, gt_iff_lt, not_lt, not_le, Nat.add_zero, Nat.zero_add, hcap, hlt]
    refine ⟨_, rfl, rfl, rfl, ?_⟩
    apply mk_spec
    · simp only [length_blit, List.length_set, List.length_replicate, List.length_map, List.length_take, List.length_append, List.length_drop, List.length_cons, List.length_nil, content, Option.getD_some, Option.getD_none, List.take_nil] <;> omega
    · omega
    · simp only [length_blit, List.length_set, List.length_replicate, List.length_map, List.length_take, List.length_append, List.length_drop, List.length_cons, List.length_nil, content, Option.getD_some, Option.getD_none, List.take_nil, cellAt_set, cellAt_blit, cellAt_replicate, cellAt_map_some, cellAt_take, cellAt_append, cellAt_drop, cellAt_cons_zero, cellAt_cons, cellAt_nil, List.getElem?_take, true_and, and_true, Nat.sub_zero, Nat.zero_add, Nat.add_zero, Nat.zero_le, Nat.sub_self, Nat.lt_irrefl, Nat.one_ne_zero, false_and, and_false, if_true, if_false]
      split_ifs <;> first | (with_reducible rfl) | omega | exact hs3 | exact ho3 | (simp only [false_and, and_false] at *; done)
    · simp only [length_blit, List.length_set, List.length_replicate, List.length_map, List.length_take, List.length_append, List.length_drop, List.length_cons, List.length_nil, content, Option.getD_some, Option.getD_none, List.take_nil] <;> omega
    · intro i hi
      skip
      simp only [length_blit, List.length_set, List.length_replicate, List.length_map, List.length_take, List.length_append, List.length_drop, List.length_cons, List.length_nil, content, Option.getD_some, Option.getD_none, List.take_nil, cellAt_set, cellAt_blit, cellAt_replicate, cellAt_map_some, cellAt_take, cellAt_append, cellAt_drop, cellAt_cons_zero, cellAt_cons, cellAt_nil, List.getElem?_take, true_and, and_true, Nat.sub_zero, Nat.zero_add, Nat.add_zero, Nat.zero_le, Nat.sub_self, Nat.lt_irrefl, Nat.one_ne_zero, false_and, and_false, if_true, if_false]
      split_ifs <;> first | (with_reducible rfl) | omega | (congr 1; omega) | (simp only [false_and, and_false] at *; done)
    · intro i hi
      skip
      simp only [length_blit, List.length_set, List.length_replicate, List.length_map, List.length_take, List.length_append, List.length_drop, List.length_cons, List.length_nil, content, Option.getD_some, Option.getD_none, List.take_nil, cellAt_set, cellAt_blit, cellAt_replicate, cellAt_map_some, cellAt_take, cellAt_append, cellAt_drop, cellAt_cons_zero, cellAt_cons, cellAt_nil, List.getElem?_take, true_and, and_true, Nat.sub_zero, Nat.zero_add, Nat.add_zero, Nat.zero_le, Nat.sub_self, Nat.lt_irrefl, Nat.one_ne_zero, false_and, and_false, if_true, if_false]
      have := trivial
      split_ifs <;> first | omega | exact hs4 _ (by omega) | exact ho4 _ (by omega) | exact hraw _ (by omega) | simp [this] | simp | (simp only [false_and, and_false] at *; done)

theorem append_cstring_spec (self : StringType) (cstring : ConstPointer) (L : Nat)
    (hs : Valid self) (hL : cstringSize cstring = some L) :
    ∃ r, append_cstring self cstring = some r ∧ r.m_size = self.m_size + L ∧
      r.m_capacity =
        (if L = 0 then self.m_capacity
          else if self.m_capacity < lookupCapacity (self.m_size + L)
          then lookupCapacity (self.m_size + L) else self.m_capacity) ∧
      Valid r ∧ content r = content self ++ (rawContent cstring).map some := by
  obtain ⟨hL1, hL2, hL3⟩ := cstringSize_spec cstring L hL
  have hraw := raw_cells cstring L hL
  rw [hL3]
  by_cases hl : L = 0
  · subst hl
    exact ⟨self, by simp [append_cstring, hL], rfl, by simp, hs, by simp⟩
  rcases self with ⟨_ | bs, n, c⟩
  · simp only [valid_none] at hs
    obtain ⟨rfl, rfl⟩ := hs
    have hcap := lookupCapacity_gt L (by omega)
    have hlt : 0 < lookupCapacity L := by omega
    simp (disch := first | omega | (simp only [length_blit, List.length_set, List.length_replicate, List.length_map, List.length_take, List.length_append, List.length_drop, List.length_cons, List.length_nil, content, Option.getD_some, Option.getD_none, List.take_nil]; omega)) only [append_cstring, assert_assume, assume, bind, Option.bind, newArray, rawBlock, if_true, if_false, std_copy_some, std_copy_empty, std_copy_within_some, std_copy_backward_some, std_fill_some, store_some, ofTriple, ctor, null, ctor_move, ge_iff_le, gt_iff_lt, not_lt, not_le, Nat.add_zero, Nat.zero_add, hL, hl, hcap, hlt]
    refine ⟨_, rfl, rfl, rfl, ?_⟩
    apply mk_spec
    · simp only [length_blit, List.length_set, List.length_replicate, List.length_map, List.length_take, List.length_append, List.length_drop, List.length_cons, List.length_nil, content, Option.getD_some, Option.getD_none, List.take_nil] <;> omega
    · omega
    · simp only [length_blit, List.length_set, List.length_replicate, List.length_map, List.length_take, List.length_append, List.length_drop, List.length_cons, List.length_nil, content, Option.getD_some, Option.getD_none, List.take_nil, cellAt_set, cellAt_blit, cellAt_replicate, cellAt_map_some, cellAt_take, cellAt_append, cellAt_drop, cellAt_cons_zero, cellAt_cons, cellAt_nil, List.getElem?_take, true_and, and_true, Nat.sub_zero, Nat.zero_add, Nat.add_zero, Nat.zero_le, Nat.sub_self, Nat.lt_irrefl, Nat.one_ne_zero, false_and, and_false, if_true, if_false]
      split_ifs <;> first | (with_reducible rfl) | omega | exact hs3 | exact ho3 | (simp only [false_and, and_false] at *; done)
    · simp only [length_blit, List.length_set, List.length_replicate, List.length_map, List.length_take, List.length_append, List.length_drop, List.length_cons, List.length_nil, content, Option.getD_some, Option.getD_none, List.take_nil] <;> omega
    · intro i hi
      skip
      simp only [length_blit, List.length_set, List.length_replicate, List.length_map, List.length_take, List.length_append, List.length_drop, List.length_cons, List.length_nil, content, Option.getD_some, Option.getD_none, List.take_nil, cellAt_set, cellAt_blit, cellAt_replicate, cellAt_map_some, cellAt_take, cellAt_append, cellAt_drop, cellAt_cons_zero, cellAt_cons, cellAt_nil, List.getElem?_take, true_and, and_true, Nat.sub_zero, Nat.zero_add, Nat.add_zero, Nat.zero_le, Nat.sub_self, Nat.lt_irrefl, Nat.one_ne_zero, false_and, and_false, if_true, if_false]
      split_ifs <;> first | (with_reducible rfl) | omega | (congr 1; omega) | (simp only [false_and, and_false] at *; done)
    · intro i hi
      skip
      simp only [length_blit, List.length_set, List.length_replicate, List.length_map, List.length_take, List.length_append, List.length_drop, List.length_cons, List.length_nil, content, Option.getD_some, Option.getD_none, List.take_nil, cellAt_set, cellAt_blit, cellAt_replicate, cellAt_map_some, cellAt_take, cellAt_append, cellAt_drop, cellAt_cons_zero, cellAt_cons, cellAt_nil, List.getElem?_take, true_and, and_true, Nat.sub_zero, Nat.zero_add, Nat.add_zero, Nat.zero_le, Nat.sub_self, Nat.lt_irrefl, Nat.one_ne_zero, false_and, and_false, if_true, if_false]
      have := trivial
      split_ifs <;> first | omega | exact hs4 _ (by omega) | exact ho4 _ (by omega) | exact hraw _ (by omega) | simp [this] | simp | (simp only [false_and, and_false] at *; done)
  simp only [valid_some] at hs
  obtain ⟨rfl, hs2, hs3, hs4⟩ := hs
  have hcap := lookupCapacity_gt (n + L) (by omega)
  by_cases hlt : bs.length < lookupCapacity (n + L)
  · simp (disch := first | omega | (simp only [length_blit, List.length_set, List.length_replicate, List.length_map, List.length_take, List.length_append, List.length_drop, List.length_cons, List.length_nil, content, Option.getD_some, Option.getD_none, List.take_nil]; omega)) only [append_cstring, assert_assume, assume, bind, Option.bind, newArray, rawBlock, if_true, if_false, std_copy_some, std_copy_empty, std_copy_within_some, std_copy_backward_some, std_fill_some, store_some, ofTriple, ctor, null, ctor_move, ge_iff_le, gt_iff_lt, not_lt, not_le, Nat.add_zero, Nat.zero_add, hL, hl, hcap, hlt]
    refine ⟨_, rfl, rfl, rfl, ?_⟩
    apply mk_spec
    · simp only [length_blit, List.length_set, List.length_replicate, List.length_map, List.length_take, List.length_append, List.length_drop, List.length_cons, List.length_nil, content, Option.getD_some, Option.getD_none, List.take_nil] <;> omega
    · omega
    · simp only [length_blit, List.length_set, List.length_replicate, List.length_map, List.length_take, List.length_append, List.length_drop, List.length_cons, List.length_nil, content, Option.getD_some, Option.getD_none, List.take_nil, cellAt_set, cellAt_blit, cellAt_replicate, cellAt_map_some, cellAt_take, cellAt_append, cellAt_drop, cellAt_cons_zero, cellAt_cons, cellAt_nil, List.getElem?_take, true_and, and_true, Nat.sub_zero, Nat.zero_add, Nat.add_zero, Nat.zero_le, Nat.sub_self, Nat.lt_irrefl, Nat.one_ne_zero, false_and, and_false, if_true, if_false]
      split_ifs <;> first | (with_reducible rfl) | omega | exact hs3 | exact ho3 | (simp only [false_and, and_false] at *; done)
    · simp only [length_blit, List.length_set, List.length_replicate, List.length_map, List.length_take, List.length_append, List.length_drop, List.length_cons, List.length_nil, content, Option.getD_some, Option.getD_none, List.take_nil] <;> omega
    · intro i hi
      skip
      simp only [length_blit, List.length_set, List.length_replicate, List.length_map, List.length_take, List.length_append, List.length_drop, List.length_cons, List.length_nil, content, Option.getD_some, Option.getD_none, List.take_nil, cellAt_set, cellAt_blit, cellAt_replicate, cellAt_map_some, cellAt_take, cellAt_append, cellAt_drop, cellAt_cons_zero, cellAt_cons, cellAt_nil, List.getElem?_take, true_and, and_true, Nat.sub_zero, Nat.zero_add, Nat.add_zero, Nat.zero_le, Nat.sub_self, Nat.lt_irrefl, Nat.one_ne_zero, false_and, and_false, if_true, if_false]
      split_ifs <;> first | (with_reducible rfl) | omega | (congr 1; omega) | (simp only [false_and, and_false] at *; done)
    · intro i hi
      skip
      simp only [length_blit, List.length_set, List.length_replicate, List.length_map, List.length_take, List.length_append, List.length_drop, List.length_cons, List.length_nil, content, Option.getD_some, Option.getD_none, List.take_nil, cellAt_set, cellAt_blit, cellAt_replicate, cellAt_map_some, cellAt_take, cellAt_append, cellAt_drop, cellAt_cons_zero, cellAt_cons, cellAt_nil, List.getElem?_take, true_and, and_true, Nat.sub_zero, Nat.zero_add, Nat.add_zero, Nat.zero_le, Nat.sub_self, Nat.lt_irrefl, Nat.one_ne_zero, false_and, and_false, if_true, if_false]
      have := trivial
      split_ifs <;> first | omega | exact hs4 _ (by omega) | exact ho4 _ (by omega) | exact hraw _ (by omega) | simp [this] | simp | (simp only [false_and, and_false] at *; done)
  · simp (disch := first | omega | (simp only [length_blit, List.length_set, List.length_replicate, List.length_map, List.length_take, List.length_append, List.length_drop, List.length_cons, List.length_nil, content, Option.getD_some, Option.getD_none, List.take_nil]; omega)) only [append_cstring, assert_assume, assume, bind, Option.bind, newArray, rawBlock, if_true, if_false, std_copy_some, std_copy_empty, std_copy_within_some, std_copy_backward_some, std_fill_some, store_some, ofTriple, ctor, null, ctor_move, ge_iff_le, gt_iff_lt, not_lt, not_le, Nat.add_zero, Nat.zero_add, hL, hl, hcap, hlt]
    refine ⟨_, rfl, rfl, rfl, ?_⟩
    apply mk_spec
    · simp only [length_blit, List.length_set, List.length_replicate, List.length_map, List.length_take, List.length_append, List.length_drop, List.length_cons, List.length_nil, content, Option.getD_some, Option.getD_none, List.take_nil] <;> omega
    · omega
    · simp only [length_blit, List.length_set, List.length_replicate, List.length_map, List.length_take, List.length_append, List.length_drop, List.length_cons, List.length_nil, content, Option.getD_some, Option.getD_none, List.take_nil, cellAt_set, cellAt_blit, cellAt_replicate, cellAt_map_some, cellAt_take, cellAt_append, cellAt_drop, cellAt_cons_zero, cellAt_cons, cellAt_nil, List.getElem?_take, true_and, and_true, Nat.sub_zero, Nat.zero_add, Nat.add_zero, Nat.zero_le, Nat.sub_self, Nat.lt_irrefl, Nat.one_ne_zero, false_and, and_false, if_true, if_false]
      split_ifs <;> first | (with_reducible rfl) | omega | exact hs3 | exact ho3 | (simp only [false_and, and_false] at *; done)
    · simp only [length_blit, List.length_set, List.length_replicate, List.length_map, List.length_take, List.length_append, List.length_drop, List.length_cons, List.length_nil, content, Option.getD_some, Option.getD_none, List.take_nil] <;> omega
    · intro i hi
      skip
      simp only [length_blit, List.length_set, List.length_replicate, List.length_map, List.length_take, List.length_append, List.length_drop, List.length_cons, List.length_nil, content, Option.getD_some, Option.getD_none, List.take_nil, cellAt_set, cellAt_blit, cellAt_replicate, cellAt_map_some, cellAt_take, cellAt_append, cellAt_drop, cellAt_cons_zero, cellAt_cons, cellAt_nil, List.getElem?_take, true_and, and_true, Nat.sub_zero, Nat.zero_add, Nat.add_zero, Nat.zero_le, Nat.sub_self, Nat.lt_irrefl, Nat.one_ne_zero, false_and, and_false, if_true, if_false]
      split_ifs <;> first | (with_reducible rfl) | omega | (congr 1; omega) | (simp only [false_and, and_false] at *; done)
    · intro i hi
      skip
      simp only [length_blit, List.length_set, List.length_replicate, List.length_map, List.length_take, List.length_append, List.length_drop, List.length_cons, List.length_nil, content, Option.getD_some, Option.getD_none, List.take_nil, cellAt_set, cellAt_blit, cellAt_replicate, cellAt_map_some, cellAt_take, cellAt_append, cellAt_drop, cellAt_cons_zero, cellAt_cons, cellAt_nil, List.getElem?_take, true_and, and_true, Nat.sub_zero, Nat.zero_add, Nat.add_zero, Nat.zero_le, Nat.sub_self, Nat.lt_irrefl, Nat.one_ne_zero, false_and, and_false, if_true, if_false]
      have := trivial
      split_ifs <;> first | omega | exact hs4 _ (by omega) | exact ho4 _ (by omega) | exact hraw _ (by omega) | simp [this] | simp | (simp only [false_and, and_false] at *; done)

theorem append_copy_spec (self object : StringType) (hs : Valid self) (ho : Valid object) :
    ∃ r, append_copy self object = some r ∧ r.m_size = self.m_size + object.m_size ∧
      r.m_capacity =
        (if object.m_size = 0 then self.m_capacity
          else if self.m_capacity < lookupCapacity (self.m_size + object.m_size)
          then lookupCapacity (self.m_size + object.m_size) else self.m_capacity) ∧
      Valid r ∧ content r = content self ++ content object := by
  by_cases hm : object.m_size = 0
  · exact ⟨self, by simp [append_copy, hm], by simp [hm], by simp [hm], hs,
      by simp [content, hm]⟩
  rcases object with ⟨_ | bo, m, co⟩
  · simp only [valid_none] at ho
    exact absurd ho.1 hm
  simp only [valid_some] at ho
  obtain ⟨rfl, ho2, ho3, ho4⟩ := ho
  simp only at hm
  rcases self with ⟨_ | bs, n, c⟩
  · simp only [valid_none] at hs
    obtain ⟨rfl, rfl⟩ := hs
    have hcap := lookupCapacity_gt m (by omega)
    have hlt : 0 < lookupCapacity m := by omega
    simp (disch := first | omega | (simp only [length_blit, List.length_set, List.length_replicate, List.length_map, List.length_take, List.length_append, List.length_drop, List.length_cons, List.length_nil, content, Option.getD_some, Option.getD_none, List.take_nil]; omega)) only [append_copy, assert_assume, assume, bind, Option.bind, newArray, rawBlock, if_true, if_false, std_copy_some, std_copy_empty, std_copy_within_some, std_copy_backward_some, std_fill_some, store_some, ofTriple, ctor, null, ctor_move, ge_iff_le, gt_iff_lt, not_lt, not_le, Nat.add_zero, Nat.zero_add, hm, hcap, hlt]
    refine ⟨_, rfl, rfl, rfl, ?_⟩
    apply mk_spec
    · simp only [length_blit, List.length_set, List.length_replicate, List.length_map, List.length_take, List.length_append, List.length_drop, List.length_cons, List.length_nil, content, Option.getD_some, Option.getD_none, List.take_nil] <;> omega
    · omega
    · simp only [length_blit, List.length_set, List.length_replicate, List.length_map, List.length_take, List.length_append, List.length_drop, List.length_cons, List.length_nil, content, Option.getD_some, Option.getD_none, List.take_nil, cellAt_set, cellAt_blit, cellAt_replicate, cellAt_map_some, cellAt_take, cellAt_append, cellAt_drop, cellAt_cons_zero, cellAt_cons, cellAt_nil, List.getElem?_take, true_and, and_true, Nat.sub_zero, Nat.zero_add, Nat.add_zero, Nat.zero_le, Nat.sub_self, Nat.lt_irrefl, Nat.one_ne_zero, false_and, and_false, if_true, if_false]
      split_ifs <;> first | (with_reducible rfl) | omega | exact hs3 | exact ho3 | (simp only [false_and, and_false] at *; done)
    · simp only [length_blit, List.length_set, List.length_replicate, List.length_map, List.length_take, List.length_append, List.length_drop, List.length_cons, List.length_nil, content, Option.getD_some, Option.getD_none, List.take_nil] <;> omega
    · intro i hi
      skip
      simp only [length_blit, List.length_set, List.length_replicate, List.length_map, List.length_take, List.length_append, List.length_drop, List.length_cons, List.length_nil, content, Option.getD_some, Option.getD_none, List.take_nil, cellAt_set, cellAt_blit, cellAt_replicate, cellAt_map_some, cellAt_take, cellAt_append, cellAt_drop, cellAt_cons_zero, cellAt_cons, cellAt_nil, List.getElem?_take, true_and, and_true, Nat.sub_zero, Nat.zero_add, Nat.add_zero, Nat.zero_le, Nat.sub_self, Nat.lt_irrefl, Nat.one_ne_zero, false_and, and_false, if_true, if_false]
      split_ifs <;> first | (with_reducible rfl) | omega | (congr 1; omega) | (simp only [false_and, and_false] at *; done)
    · intro i hi
      skip
      simp only [length_blit, List.length_set, List.length_replicate, List.length_map, List.length_take, List.length_append, List.length_drop, List.length_cons, List.length_nil, content, Option.getD_some, Option.getD_none, List.take_nil, cellAt_set, cellAt_blit, cellAt_replicate, cellAt_map_some, cellAt_take, cellAt_append, cellAt_drop, cellAt_cons_zero, cellAt_cons, cellAt_nil, List.getElem?_take, true_and, and_true, Nat.sub_zero, Nat.zero_add, Nat.add_zero, Nat.zero_le, Nat.sub_self, Nat.lt_irrefl, Nat.one_ne_zero, false_and, and_false, if_true, if_false]
      have := trivial
      split_ifs <;> first | omega | exact hs4 _ (by omega) | exact ho4 _ (by omega) | exact hraw _ (by omega) | simp [this] | simp | (simp only [false_and, and_false] at *; done)
  simp only [valid_some] at hs
  obtain ⟨rfl, hs2, hs3, hs4⟩ := hs
  have hcap := lookupCapacity_gt (n + m) (by omega)
  by_cases hlt : bs.length < lookupCapacity (n + m)
  · simp (disch := first | omega | (simp only [length_blit, List.length_set, List.length_replicate, List.length_map, List.length_take, List.length_append, List.length_drop, List.length_cons, List.length_nil, content, Option.getD_some, Option.getD_none, List.take_nil]; omega)) only [append_copy, assert_assume, assume, bind, Option.bind, newArray, rawBlock, if_true, if_false, std_copy_some, std_copy_empty, std_copy_within_some, std_copy_backward_some, std_fill_some, store_some, ofTriple, ctor, null, ctor_move, ge_iff_le, gt_iff_lt, not_lt, not_le, Nat.add_zero, Nat.zero_add, hm, hcap, hlt]
    refine ⟨_, rfl, rfl, rfl, ?_⟩
    apply mk_spec
    · simp only [length_blit, List.length_set, List.length_replicate, List.length_map, List.length_take, List.length_append, List.length_drop, List.length_cons, List.length_nil, content, Option.getD_some, Option.getD_none, List.take_nil] <;> omega
    · omega
    · simp only [length_blit, List.length_set, List.length_replicate, List.length_map, List.length_take, List.length_append, List.length_drop, List.length_cons, List.length_nil, content, Option.getD_some, Option.getD_none, List.take_nil, cellAt_set, cellAt_blit, cellAt_replicate, cellAt_map_some, cellAt_take, cellAt_append, cellAt_drop, cellAt_cons_zero, cellAt_cons, cellAt_nil, List.getElem?_take, true_and, and_true, Nat.sub_zero, Nat.zero_add, Nat.add_zero, Nat.zero_le, Nat.sub_self, Nat.lt_irrefl, Nat.one_ne_zero, false_and, and_false, if_true, if_false]
      split_ifs <;> first | (with_reducible rfl) | omega | exact hs3 | exact ho3 | (simp only [false_and, and_false] at *; done)
    · simp only [length_blit, List.length_set, List.length_replicate, List.length_map, List.length_take, List.length_append, List.length_drop, List.length_cons, List.length_nil, content, Option.getD_some, Option.getD_none, List.take_nil] <;> omega
    · intro i hi
      skip
      simp only [length_blit, List.length_set, List.length_replicate, List.length_map, List.length_take, List.length_append, List.length_drop, List.length_cons, List.length_nil, content, Option.getD_some, Option.getD_none, List.take_nil, cellAt_set, cellAt_blit, cellAt_replicate, cellAt_map_some, cellAt_take, cellAt_append, cellAt_drop, cellAt_cons_zero, cellAt_cons, cellAt_nil, List.getElem?_take, true_and, and_true, Nat.sub_zero, Nat.zero_add, Nat.add_zero, Nat.zero_le, Nat.sub_self, Nat.lt_irrefl, Nat.one_ne_zero, false_and, and_false, if_true, if_false]
      split_ifs <;> first | (with_reducible rfl) | omega | (congr 1; omega) | (simp only [false_and, and_false] at *; done)
    · intro i hi
      skip
      simp only [length_blit, List.length_set, List.length_replicate, List.length_map, List.length_take, List.length_append, List.length_drop, List.length_cons, List.length_nil, content, Option.getD_some, Option.getD_none, List.take_nil, cellAt_set, cellAt_blit, cellAt_replicate, cellAt_map_some, cellAt_take, cellAt_append, cellAt_drop, cellAt_cons_zero, cellAt_cons, cellAt_nil, List.getElem?_take, true_and, and_true, Nat.sub_zero, Nat.zero_add, Nat.add_zero, Nat.zero_le, Nat.sub_self, Nat.lt_irrefl, Nat.one_ne_zero, false_and, and_false, if_true, if_false]
      have := trivial
      split_ifs <;> first | omega | exact hs4 _ (by omega) | exact ho4 _ (by omega) | exact hraw _ (by omega) | simp [this] | simp | (simp only [false_and, and_false] at *; done)
  · simp (disch := first | omega | (simp only [length_blit, List.length_set, List.length_replicate, List.length_map, List.length_take, List.length_append, List.length_drop, List.length_cons, List.length_nil, content, Option.getD_some, Option.getD_none, List.take_nil]; omega)) only [append_copy, assert_assume, assume, bind, Option.bind, newArray, rawBlock, if_true, if_false, std_copy_some, std_copy_empty, std_copy_within_some, std_copy_backward_some, std_fill_some, store_some, ofTriple, ctor, null, ctor_move, ge_iff_le, gt_iff_lt, not_lt, not_le, Nat.add_zero, Nat.zero_add, hm, hcap, hlt]
    refine ⟨_, rfl, rfl, rfl, ?_⟩
    apply mk_spec
    · simp only [length_blit, List.length_set, List.length_replicate, List.length_map, List.length_take, List.length_append, List.length_drop, List.length_cons, List.length_nil, content, Option.getD_some, Option.getD_none, List.take_nil] <;> omega
    · omega
    · simp only [length_blit, List.length_set, List.length_replicate, List.length_map, List.length_take, List.length_append, List.length_drop, List.length_cons, List.length_nil, content, Option.getD_some, Option.getD_none, List.take_nil, cellAt_set, cellAt_blit, cellAt_replicate, cellAt_map_some, cellAt_take, cellAt_append, cellAt_drop, cellAt_cons_zero, cellAt_cons, cellAt_nil, List.getElem?_take, true_and, and_true, Nat.sub_zero, Nat.zero_add, Nat.add_zero, Nat.zero_le, Nat.sub_self, Nat.lt_irrefl, Nat.one_ne_zero, false_and, and_false, if_true, if_false]
      split_ifs <;> first | (with_reducible rfl) | omega | exact hs3 | exact ho3 | (simp only [false_and, and_false] at *; done)
    · simp only [length_blit, List.length_set, List.length_replicate, List.length_map, List.length_take, List.length_append, List.length_drop, List.length_cons, List.length_nil, content, Option.getD_some, Option.getD_none, List.take_nil] <;> omega
    · intro i hi
      skip
      simp only [length_blit, List.length_set, List.length_replicate, List.length_map, List.length_take, List.length_append, List.length_drop, List.length_cons, List.length_nil, content, Option.getD_some, Option.getD_none, List.take_nil, cellAt_set, cellAt_blit, cellAt_replicate, cellAt_map_some, cellAt_take, cellAt_append, cellAt_drop, cellAt_cons_zero, cellAt_cons, cellAt_nil, List.getElem?_take, true_and, and_true, Nat.sub_zero, Nat.zero_add, Nat.add_zero, Nat.zero_le, Nat.sub_self, Nat.lt_irrefl, Nat.one_ne_zero, false_and, and_false, if_true, if_false]
      split_ifs <;> first | (with_reducible rfl) | omega | (congr 1; omega) | (simp only [false_and, and_false] at *; done)
    · intro i hi
      skip
      simp only [length_blit, List.length_set, List.length_replicate, List.length_map, List.length_take, List.length_append, List.length_drop, List.length_cons, List.length_nil, content, Option.getD_some, Option.getD_none, List.take_nil, cellAt_set, cellAt_blit, cellAt_replicate, cellAt_map_some, cellAt_take, cellAt_append, cellAt_drop, cellAt_cons_zero, cellAt_cons, cellAt_nil, List.getElem?_take, true_and, and_true, Nat.sub_zero, Nat.zero_add, Nat.add_zero, Nat.zero_le, Nat.sub_self, Nat.lt_irrefl, Nat.one_ne_zero, false_and, and_false, if_true, if_false]
      have := trivial
      split_ifs <;> first | omega | exact hs4 _ (by omega) | exact ho4 _ (by omega) | exact hraw _ (by omega) | simp [this] | simp | (simp only [false_and, and_false] at *; done)

theorem append_move_spec (self object : StringType) (hs : Valid self) (ho : Valid object) :
    ∃ p, append_move self object = some p ∧
      p.2 =
        (if object.m_size = 0 then object
          else if self.m_capacity < lookupCapacity (self.m_size + object.m_size) ∧
            lookupCapacity (self.m_size + object.m_size) ≤ object.m_capacity
          then ⟨none, 0, 0⟩ else object) ∧
      p.1.m_size = self.m_size + object.m_size ∧
      p.1.m_capacity =
        (if object.m_size = 0 then self.m_capacity
          else if self.m_capacity < lookupCapacity (self.m_size + object.m_size)
          then (if lookupCapacity (self.m_size + object.m_size) ≤ object.m_capacity
            then object.m_capacity else lookupCapacity (self.m_size + object.m_size))
          else self.m_capacity) ∧
      Valid p.1 ∧ content p.1 = content self ++ content object := by
  by_cases hm : object.m_size = 0
  · exact ⟨(self, object), by simp [append_move, hm], by simp [hm],
      by simp [hm], by simp [hm], hs, by simp [content, hm]⟩
  rcases object with ⟨_ | bo, m, co⟩
  · simp only [valid_none] at ho
    exact absurd ho.1 hm
  simp only [valid_some] at ho
  obtain ⟨rfl, ho2, ho3, ho4⟩ := ho
  simp only at hm
  rcases self with ⟨_ | bs, n, c⟩
  · simp only [valid_none] at hs
    obtain ⟨rfl, rfl⟩ := hs
    have hcap := lookupCapacity_gt m (by omega)
    have hlt : 0 < lookupCapacity m := by omega
    by_cases hge : lookupCapacity m ≤ bo.length
    · simp (disch := first | omega | (simp only [length_blit, List.length_set, List.length_replicate, List.length_map, List.length_take, List.length_append, List.length_drop, List.length_cons, List.length_nil, content, Option.getD_some, Option.getD_none, List.take_nil]; omega)) only [append_move, assert_assume, assume, bind, Option.bind, newArray, rawBlock, if_true, if_false, std_copy_some, std_copy_empty, std_copy_within_some, std_copy_backward_some, std_fill_some, store_some, ofTriple, ctor, null, ctor_move, ge_iff_le, gt_iff_lt, not_lt, not_le, Nat.add_zero, Nat.zero_add, hm, hcap, hlt, hge]
      refine ⟨_, rfl, by simp, rfl, rfl, ?_⟩
      apply mk_spec
      · simp only [length_blit, List.length_set, List.length_replicate, List.length_map, List.length_take, List.length_append, List.length_drop, List.length_cons, List.length_nil, content, Option.getD_some, Option.getD_none, List.take_nil] <;> omega
      · omega
      · simp only [length_blit, List.length_set, List.length_replicate, List.length_map, List.length_take, List.length_append, List.length_drop, List.length_cons, List.length_nil, content, Option.getD_some, Option.getD_none, List.take_nil, cellAt_set, cellAt_blit, cellAt_replicate, cellAt_map_some, cellAt_take, cellAt_append, cellAt_drop, cellAt_cons_zero, cellAt_cons, cellAt_nil, List.getElem?_take, true_and, and_true, Nat.sub_zero, Nat.zero_add, Nat.add_zero, Nat.zero_le, Nat.sub_self, Nat.lt_irrefl, Nat.one_ne_zero, false_and, and_false, if_true, if_false]
        split_ifs <;> first | (with_reducible rfl) | omega | exact hs3 | exact ho3 | (simp only [false_and, and_false] at *; done)
      · simp only [length_blit, List.length_set, List.length_replicate, List.length_map, List.length_take, List.length_append, List.length_drop, List.length_cons, List.length_nil, content, Option.getD_some, Option.getD_none, List.take_nil] <;> omega
      · intro i hi
        skip
        simp only [length_blit, List.length_set, List.length_replicate, List.length_map, List.length_take, List.length_append, List.length_drop, List.length_cons, List.length_nil, content, Option.getD_some, Option.getD_none, List.take_nil, cellAt_set, cellAt_blit, cellAt_replicate, cellAt_map_some, cellAt_take, cellAt_append, cellAt_drop, cellAt_cons_zero, cellAt_cons, cellAt_nil, List.getElem?_take, true_and, and_true, Nat.sub_zero, Nat.zero_add, Nat.add_zero, Nat.zero_le, Nat.sub_self, Nat.lt_irrefl, Nat.one_ne_zero, false_and, and_false, if_true, if_false]
        split_ifs <;> first | (with_reducible rfl) | omega | (congr 1; omega) | (simp only [false_and, and_false] at *; done)
      · intro i hi
        skip
        simp only [length_blit, List.length_set, List.length_replicate, List.length_map, List.length_take, List.length_append, List.length_drop, List.length_cons, List.length_nil, content, Option.getD_some, Option.getD_none, List.take_nil, cellAt_set, cellAt_blit, cellAt_replicate, cellAt_map_some, cellAt_take, cellAt_append, cellAt_drop, cellAt_cons_zero, cellAt_cons, cellAt_nil, List.getElem?_take, true_and, and_true, Nat.sub_zero, Nat.zero_add, Nat.add_zero, Nat.zero_le, Nat.sub_self, Nat.lt_irrefl, Nat.one_ne_zero, false_and, and_false, if_true, if_false]
        have := trivial
        split_ifs <;> first | omega | exact hs4 _ (by omega) | exact ho4 _ (by omega) | exact hraw _ (by omega) | simp [this] | simp | (simp only [false_and, and_false] at *; done)
    · simp (disch := first | omega | (simp only [length_blit, List.length_set, List.length_replicate, List.length_map, List.length_take, List.length_append, List.length_drop, List.length_cons, List.length_nil, content, Option.getD_some, Option.getD_none, List.take_nil]; omega)) only [append_move, assert_assume, assume, bind, Option.bind, newArray, rawBlock, if_true, if_false, std_copy_some, std_copy_empty, std_copy_within_some, std_copy_backward_some, std_fill_some, store_some, ofTriple, ctor, null, ctor_move, ge_iff_le, gt_iff_lt, not_lt, not_le, Nat.add_zero, Nat.zero_add, hm, hcap, hlt, hge]
      refine ⟨_, rfl, by simp, rfl, rfl, ?_⟩
      apply mk_spec
      · simp only [length_blit, List.length_set, List.length_replicate, List.length_map, List.length_take, List.length_append, List.length_drop, List.length_cons, List.length_nil, content, Option.getD_some, Option.getD_none, List.take_nil] <;> omega
      · omega
      · simp only [length_blit, List.length_set, List.length_replicate, List.length_map, List.length_take, List.length_append, List.length_drop, List.length_cons, List.length_nil, content, Option.getD_some, Option.getD_none, List.take_nil, cellAt_set, cellAt_blit, cellAt_replicate, cellAt_map_some, cellAt_take, cellAt_append, cellAt_drop, cellAt_cons_zero, cellAt_cons, cellAt_nil, List.getElem?_take, true_and, and_true, Nat.sub_zero, Nat.zero_add, Nat.add_zero, Nat.zero_le, Nat.sub_self, Nat.lt_irrefl, Nat.one_ne_zero, false_and, and_false, if_true, if_false]
        split_ifs <;> first | (with_reducible rfl) | omega | exact hs3 | exact ho3 | (simp only [false_and, and_false] at *; done)
      · simp only [length_blit, List.length_set, List.length_replicate, List.length_map, List.length_take, List.length_append, List.length_drop, List.length_cons, List.length_nil, content, Option.getD_some, Option.getD_none, List.take_nil] <;> omega
      · intro i hi
        skip
        simp only [length_blit, List.length_set, List.length_replicate, List.length_map, List.length_take, List.length_append, List.length_drop, List.length_cons, List.length_nil, content, Option.getD_some, Option.getD_none, List.take_nil, cellAt_set, cellAt_blit, cellAt_replicate, cellAt_map_some, cellAt_take, cellAt_append, cellAt_drop, cellAt_cons_zero, cellAt_cons, cellAt_nil, List.getElem?_take, true_and, and_true, Nat.sub_zero, Nat.zero_add, Nat.add_zero, Nat.zero_le, Nat.sub_self, Nat.lt_irrefl, Nat.one_ne_zero, false_and, and_false, if_true, if_false]
        split_ifs <;> first | (with_reducible rfl) | omega | (congr 1; omega) | (simp only [false_and, and_false] at *; done)
      · intro i hi
        skip
        simp only [length_blit, List.length_set, List.length_replicate, List.length_map, List.length_take, List.length_append, List.length_drop, List.length_cons, List.length_nil, content, Option.getD_some, Option.getD_none, List.take_nil, cellAt_set, cellAt_blit, cellAt_replicate, cellAt_map_some, cellAt_take, cellAt_append, cellAt_drop, cellAt_cons_zero, cellAt_cons, cellAt_nil, List.getElem?_take, true_and, and_true, Nat.sub_zero, Nat.zero_add, Nat.add_zero, Nat.zero_le, Nat.sub_self, Nat.lt_irrefl, Nat.one_ne_zero, false_and, and_false, if_true, if_false]
        have := trivial
        split_ifs <;> first | omega | exact hs4 _ (by omega) | exact ho4 _ (by omega) | exact hraw _ (by omega) | simp [this] | simp | (simp only [false_and, and_false] at *; done)
  simp only [valid_some] at hs
  obtain ⟨rfl, hs2, hs3, hs4⟩ := hs
  have hcap := lookupCapacity_gt (n + m) (by omega)
  by_cases hlt : bs.length < lookupCapacity (n + m)
  · by_cases hge : lookupCapacity (n + m) ≤ bo.length
    · simp (disch := first | omega | (simp only [length_blit, List.length_set, List.length_replicate, List.length_map, List.length_take, List.length_append, List.length_drop, List.length_cons, List.length_nil, content, Option.getD_some, Option.getD_none, List.take_nil]; omega)) only [append_move, assert_assume, assume, bind, Option.bind, newArray, rawBlock, if_true, if_false, std_copy_some, std_copy_empty, std_copy_within_some, std_copy_backward_some, std_fill_some, store_some, ofTriple, ctor, null, ctor_move, ge_iff_le, gt_iff_lt, not_lt, not_le, Nat.add_zero, Nat.zero_add, hm, hcap, hlt, hge]
      refine ⟨_, rfl, by simp, rfl, rfl, ?_⟩
      apply mk_spec
      · simp only [length_blit, List.length_set, List.length_replicate, List.length_map, List.length_take, List.length_append, List.length_drop, List.length_cons, List.length_nil, content, Option.getD_some, Option.getD_none, List.take_nil] <;> omega
      · omega
      · simp only [length_blit, List.length_set, List.length_replicate, List.length_map, List.length_take, List.length_append, List.length_drop, List.length_cons, List.length_nil, content, Option.getD_some, Option.getD_none, List.take_nil, cellAt_set, cellAt_blit, cellAt_replicate, cellAt_map_some, cellAt_take, cellAt_append, cellAt_drop, cellAt_cons_zero, cellAt_cons, cellAt_nil, List.getElem?_take, true_and, and_true, Nat.sub_zero, Nat.zero_add, Nat.add_zero, Nat.zero_le, Nat.sub_self, Nat.lt_irrefl, Nat.one_ne_zero, false_and, and_false, if_true, if_false]
        split_ifs <;> first | (with_reducible rfl) | omega | exact hs3 | exact ho3 | (simp only [false_and, and_false] at *; done)
      · simp only [length_blit, List.length_set, List.length_replicate, List.length_map, List.length_take, List.length_append, List.length_drop, List.length_cons, List.length_nil, content, Option.getD_some, Option.getD_none, List.take_nil] <;> omega
      · intro i hi
        skip
        simp only [length_blit, List.length_set, List.length_replicate, List.length_map, List.length_take, List.length_append, List.length_drop, List.length_cons, List.length_nil, content, Option.getD_some, Option.getD_none, List.take_nil, cellAt_set, cellAt_blit, cellAt_replicate, cellAt_map_some, cellAt_take, cellAt_append, cellAt_drop, cellAt_cons_zero, cellAt_cons, cellAt_nil, List.getElem?_take, true_and, and_true, Nat.sub_zero, Nat.zero_add, Nat.add_zero, Nat.zero_le, Nat.sub_self, Nat.lt_irrefl, Nat.one_ne_zero, false_and, and_false, if_true, if_false]
        split_ifs <;> first | (with_reducible rfl) | omega | (congr 1; omega) | (simp only [false_and, and_false] at *; done)
      · intro i hi
        skip
        simp only [length_blit, List.length_set, List.length_replicate, List.length_map, List.length_take, List.length_append, List.length_drop, List.length_cons, List.length_nil, content, Option.getD_some, Option.getD_none, List.take_nil, cellAt_set, cellAt_blit, cellAt_replicate, cellAt_map_some, cellAt_take, cellAt_append, cellAt_drop, cellAt_cons_zero, cellAt_cons, cellAt_nil, List.getElem?_take, true_and, and_true, Nat.sub_zero, Nat.zero_add, Nat.add_zero, Nat.zero_le, Nat.sub_self, Nat.lt_irrefl, Nat.one_ne_zero, false_and, and_false, if_true, if_false]
        have := trivial
        split_ifs <;> first | omega | exact hs4 _ (by omega) | exact ho4 _ (by omega) | exact hraw _ (by omega) | simp [this] | simp | (simp only [false_and, and_false] at *; done)
    · simp (disch := first | omega | (simp only [length_blit, List.length_set, List.length_replicate, List.length_map, List.length_take, List.length_append, List.length_drop, List.length_cons, List.length_nil, content, Option.getD_some, Option.getD_none, List.take_nil]; omega)) only [append_move, assert_assume, assume, bind, Option.bind, newArray, rawBlock, if_true, if_false, std_copy_some, std_copy_empty, std_copy_within_some, std_copy_backward_some, std_fill_some, store_some, ofTriple, ctor, null, ctor_move, ge_iff_le, gt_iff_lt, not_lt, not_le, Nat.add_zero, Nat.zero_add, hm, hcap, hlt, hge]
      refine ⟨_, rfl, by simp, rfl, rfl, ?_⟩
      apply mk_spec
      · simp only [length_blit, List.length_set, List.length_replicate, List.length_map, List.length_take, List.length_append, List.length_drop, List.length_cons, List.length_nil, content, Option.getD_some, Option.getD_none, List.take_nil] <;> omega
      · omega
      · simp only [length_blit, List.length_set, List.length_replicate, List.length_map, List.length_take, List.length_append, List.length_drop, List.length_cons, List.length_nil, content, Option.getD_some, Option.getD_none, List.take_nil, cellAt_set, cellAt_blit, cellAt_replicate, cellAt_map_some, cellAt_take, cellAt_append, cellAt_drop, cellAt_cons_zero, cellAt_cons, cellAt_nil, List.getElem?_take, true_and, and_true, Nat.sub_zero, Nat.zero_add, Nat.add_zero, Nat.zero_le, Nat.sub_self, Nat.lt_irrefl, Nat.one_ne_zero, false_and, and_false, if_true, if_false]
        split_ifs <;> first | (with_reducible rfl) | omega | exact hs3 | exact ho3 | (simp only [false_and, and_false] at *; done)
      · simp only [length_blit, List.length_set, List.length_replicate, List.length_map, List.length_take, List.length_append, List.length_drop, List.length_cons, List.length_nil, content, Option.getD_some, Option.getD_none, List.take_nil] <;> omega
      · intro i hi
        skip
        simp only [length_blit, List.length_set, List.length_replicate, List.length_map, List.length_take, List.length_append, List.length_drop, List.length_cons, List.length_nil, content, Option.getD_some, Option.getD_none, List.take_nil, cellAt_set, cellAt_blit, cellAt_replicate, cellAt_map_some, cellAt_take, cellAt_append, cellAt_drop, cellAt_cons_zero, cellAt_cons, cellAt_nil, List.getElem?_take, true_and, and_true, Nat.sub_zero, Nat.zero_add, Nat.add_zero, Nat.zero_le, Nat.sub_self, Nat.lt_irrefl, Nat.one_ne_zero, false_and, and_false, if_true, if_false]
        split_ifs <;> first | (with_reducible rfl) | omega | (congr 1; omega) | (simp only [false_and, and_false] at *; done)
      · intro i hi
        skip
        simp only [length_blit, List.length_set, List.length_replicate, List.length_map, List.length_take, List.length_append, List.length_drop, List.length_cons, List.length_nil, content, Option.getD_some, Option.getD_none, List.take_nil, cellAt_set, cellAt_blit, cellAt_replicate, cellAt_map_some, cellAt_take, cellAt_append, cellAt_drop, cellAt_cons_zero, cellAt_cons, cellAt_nil, List.getElem?_take, true_and, and_true, Nat.sub_zero, Nat.zero_add, Nat.add_zero, Nat.zero_le, Nat.sub_self, Nat.lt_irrefl, Nat.one_ne_zero, false_and, and_false, if_true, if_false]
        have := trivial
        split_ifs <;> first | omega | exact hs4 _ (by omega) | exact ho4 _ (by omega) | exact hraw _ (by omega) | simp [this] | simp | (simp only [false_and, and_false] at *; done)
  · simp (disch := first | omega | (simp only [length_blit, List.length_set, List.length_replicate, List.length_map, List.length_take, List.length_append, List.length_drop, List.length_cons, List.length_nil, content, Option.getD_some, Option.getD_none, List.take_nil]; omega)) only [append_move, assert_assume, assume, bind, Option.bind, newArray, rawBlock, if_true, if_false, std_copy_some, std_copy_empty, std_copy_within_some, std_copy_backward_some, std_fill_some, store_some, ofTriple, ctor, null, ctor_move, ge_iff_le, gt_iff_lt, not_lt, not_le, Nat.add_zero, Nat.zero_add, hm, hcap, hlt]
    refine ⟨_, rfl, by simp, rfl, rfl, ?_⟩
    apply mk_spec
    · simp only [length_blit, List.length_set, List.length_replicate, List.length_map, List.length_take, List.length_append, List.length_drop, List.length_cons, List.length_nil, content, Option.getD_some, Option.getD_none, List.take_nil] <;> omega
    · omega
    · simp only [length_blit, List.length_set, List.length_replicate, List.length_map, List.length_take, List.length_append, List.length_drop, List.length_cons, List.length_nil, content, Option.getD_some, Option.getD_none, List.take_nil, cellAt_set, cellAt_blit, cellAt_replicate, cellAt_map_some, cellAt_take, cellAt_append, cellAt_drop, cellAt_cons_zero, cellAt_cons, cellAt_nil, List.getElem?_take, true_and, and_true, Nat.sub_zero, Nat.zero_add, Nat.add_zero, Nat.zero_le, Nat.sub_self, Nat.lt_irrefl, Nat.one_ne_zero, false_and, and_false, if_true, if_false]
      split_ifs <;> first | (with_reducible rfl) | omega | exact hs3 | exact ho3 | (simp only [false_and, and_false] at *; done)
    · simp only [length_blit, List.length_set, List.length_replicate, List.length_map, List.length_take, List.length_append, List.length_drop, List.length_cons, List.length_nil, content, Option.getD_some, Option.getD_none, List.take_nil] <;> omega
    · intro i hi
      skip
      simp only [length_blit, List.length_set, List.length_replicate, List.length_map, List.length_take, List.length_append, List.length_drop, List.length_cons, List.length_nil, content, Option.getD_some, Option.getD_none, List.take_nil, cellAt_set, cellAt_blit, cellAt_replicate, cellAt_map_some, cellAt_take, cellAt_append, cellAt_drop, cellAt_cons_zero, cellAt_cons, cellAt_nil, List.getElem?_take, true_and, and_true, Nat.sub_zero, Nat.zero_add, Nat.add_zero, Nat.zero_le, Nat.sub_self, Nat.lt_irrefl, Nat.one_ne_zero, false_and, and_false, if_true, if_false]
      split_ifs <;> first | (with_reducible rfl) | omega | (congr 1; omega) | (simp only [false_and, and_false] at *; done)
    · intro i hi
      skip
      simp only [length_blit, List.length_set, List.length_replicate, List.length_map, List.length_take, List.length_append, List.length_drop, List.length_cons, List.length_nil, content, Option.getD_some, Option.getD_none, List.take_nil, cellAt_set, cellAt_blit, cellAt_replicate, cellAt_map_some, cellAt_take, cellAt_append, cellAt_drop, cellAt_cons_zero, cellAt_cons, cellAt_nil, List.getElem?_take, true_and, and_true, Nat.sub_zero, Nat.zero_add, Nat.add_zero, Nat.zero_le, Nat.sub_self, Nat.lt_irrefl, Nat.one_ne_zero, false_and, and_false, if_true, if_false]
      have := trivial
      split_ifs <;> first | omega | exact hs4 _ (by omega) | exact ho4 _ (by omega) | exact hraw _ (by omega) | simp [this] | simp | (simp only [false_and, and_false] at *; done)

end StringType

namespace StringType

/-! ## Substrings -/

theorem substring_spec (self : StringType) (last : Nat) (hs : Valid self)
    (hl : last ≤ self.m_size) (hpos : 0 < last) :
    ∃ r, substring self last = some r ∧ r.m_size = last ∧
      r.m_capacity = lookupCapacity last ∧ Valid r ∧
      content r = (content self).take last := by
  rcases self with ⟨_ | bs, n, c⟩
  · simp only [valid_none] at hs
    simp only [hs.1] at hl
    omega
  simp only [valid_some] at hs
  obtain ⟨rfl, hs2, hs3, hs4⟩ := hs
  simp only at hl
  have hcap := lookupCapacity_gt last hpos
  simp (disch := first | omega | (simp only [length_blit, List.length_set, List.length_replicate, List.length_map, List.length_take, List.length_append, List.length_drop, List.length_cons, List.length_nil, content, Option.getD_some, Option.getD_none, List.take_nil]; omega)) only [substring, assert_assume, assume, bind, Option.bind, newArray, rawBlock, if_true, if_false, std_copy_some, std_copy_empty, std_copy_within_some, std_copy_backward_some, std_fill_some, store_some, ofTriple, ctor, null, ctor_move, ge_iff_le, gt_iff_lt, not_lt, not_le, Nat.add_zero, Nat.zero_add, ne_eq, not_false_eq_true, not_true_eq_false, true_or, or_true, Option.some_ne_none, reduceCtorEq, hl, hcap]
  refine ⟨_, rfl, rfl, rfl, ?_⟩
  apply mk_spec
  · simp only [length_blit, List.length_set, List.length_replicate, List.length_map, List.length_take, List.length_append, List.length_drop, List.length_cons, List.length_nil, content, Option.getD_some, Option.getD_none, List.take_nil] <;> omega
  · omega
  · simp only [length_blit, List.length_set, List.length_replicate, List.length_map, List.length_take, List.length_append, List.length_drop, List.length_cons, List.length_nil, content, Option.getD_some, Option.getD_none, List.take_nil, cellAt_set, cellAt_blit, cellAt_replicate, cellAt_map_some, cellAt_take, cellAt_append, cellAt_drop, cellAt_cons_zero, cellAt_cons, cellAt_nil, List.getElem?_take, true_and, and_true, Nat.sub_zero, Nat.zero_add, Nat.add_zero, Nat.zero_le, Nat.sub_self, Nat.lt_irrefl, Nat.one_ne_zero, false_and, and_false, if_true, if_false]
    split_ifs <;> first | (with_reducible rfl) | omega | exact hs3 | exact ho3 | (simp only [false_and, and_false] at *; done)
  · simp only [length_blit, List.length_set, List.length_replicate, List.length_map, List.length_take, List.length_append, List.length_drop, List.length_cons, List.length_nil, content, Option.getD_some, Option.getD_none, List.take_nil] <;> omega
  · intro i hi
    skip
    simp only [length_blit, List.length_set, List.length_replicate, List.length_map, List.length_take, List.length_append, List.length_drop, List.length_cons, List.length_nil, content, Option.getD_some, Option.getD_none, List.take_nil, cellAt_set, cellAt_blit, cellAt_replicate, cellAt_map_some, cellAt_take, cellAt_append, cellAt_drop, cellAt_cons_zero, cellAt_cons, cellAt_nil, List.getElem?_take, true_and, and_true, Nat.sub_zero, Nat.zero_add, Nat.add_zero, Nat.zero_le, Nat.sub_self, Nat.lt_irrefl, Nat.one_ne_zero, false_and, and_false, if_true, if_false]
    split_ifs <;> first | (with_reducible rfl) | omega | (congr 1; omega) | (simp only [false_and, and_false] at *; done)
  · intro i hi
    skip
    simp only [length_blit, List.length_set, List.length_replicate, List.length_map, List.length_take, List.length_append, List.length_drop, List.length_cons, List.length_nil, content, Option.getD_some, Option.getD_none, List.take_nil, cellAt_set, cellAt_blit, cellAt_replicate, cellAt_map_some, cellAt_take, cellAt_append, cellAt_drop, cellAt_cons_zero, cellAt_cons, cellAt_nil, List.getElem?_take, true_and, and_true, Nat.sub_zero, Nat.zero_add, Nat.add_zero, Nat.zero_le, Nat.sub_self, Nat.lt_irrefl, Nat.one_ne_zero, false_and, and_false, if_true, if_false]
    have := trivial
    split_ifs <;> first | omega | exact hs4 _ (by omega) | exact ho4 _ (by omega) | exact hraw _ (by omega) | simp [this] | simp | (simp only [false_and, and_false] at *; done)

theorem substring_range_spec (self : StringType) (first last : Nat) (hs : Valid self)
    (hf : first < last) (hl : last ≤ self.m_size) :
    ∃ r, substring_range self first last = some r ∧ r.m_size = last - first ∧
      r.m_capacity = lookupCapacity (last - first) ∧ Valid r ∧
      content r = ((content self).drop first).take (last - first) := by
  rcases self with ⟨_ | bs, n, c⟩
  · simp only [valid_none] at hs
    simp only [hs.1] at hl
    omega
  simp only [valid_some] at hs
  obtain ⟨rfl, hs2, hs3, hs4⟩ := hs
  simp only at hl
  have hcap := lookupCapacity_gt (last - first) (by omega)
  simp (disch := first | omega | (simp only [length_blit, List.length_set, List.length_replicate, List.length_map, List.length_take, List.length_append, List.length_drop, List.length_cons, List.length_nil, content, Option.getD_some, Option.getD_none, List.take_nil]; omega)) only [substring_range, assert_assume, assume, bind, Option.bind, newArray, rawBlock, if_true, if_false, std_copy_some, std_copy_empty, std_copy_within_some, std_copy_backward_some, std_fill_some, store_some, ofTriple, ctor, null, ctor_move, ge_iff_le, gt_iff_lt, not_lt, not_le, Nat.add_zero, Nat.zero_add, ne_eq, not_false_eq_true, not_true_eq_false, true_or, or_true, Option.some_ne_none, reduceCtorEq, hf, hl, hcap]
  refine ⟨_, rfl, rfl, rfl, ?_⟩
  apply mk_spec
  · simp only [length_blit, List.length_set, List.length_replicate, List.length_map, List.length_take, List.length_append, List.length_drop, List.length_cons, List.length_nil, content, Option.getD_some, Option.getD_none, List.take_nil] <;> omega
  · omega
  · simp only [length_blit, List.length_set, List.length_replicate, List.length_map, List.length_take, List.length_append, List.length_drop, List.length_cons, List.length_nil, content, Option.getD_some, Option.getD_none, List.take_nil, cellAt_set, cellAt_blit, cellAt_replicate, cellAt_map_some, cellAt_take, cellAt_append, cellAt_drop, cellAt_cons_zero, cellAt_cons, cellAt_nil, List.getElem?_take, true_and, and_true, Nat.sub_zero, Nat.zero_add, Nat.add_zero, Nat.zero_le, Nat.sub_self, Nat.lt_irrefl, Nat.one_ne_zero, false_and, and_false, if_true, if_false]
    split_ifs <;> first | (with_reducible rfl) | omega | exact hs3 | exact ho3 | (simp only [false_and, and_false] at *; done)
  · simp only [length_blit, List.length_set, List.length_replicate, List.length_map, List.length_take, List.length_append, List.length_drop, List.length_cons, List.length_nil, content, Option.getD_some, Option.getD_none, List.take_nil] <;> omega
  · intro i hi
    skip
    simp only [length_blit, List.length_set, List.length_replicate, List.length_map, List.length_take, List.length_append, List.length_drop, List.length_cons, List.length_nil, content, Option.getD_some, Option.getD_none, List.take_nil, cellAt_set, cellAt_blit, cellAt_replicate, cellAt_map_some, cellAt_take, cellAt_append, cellAt_drop, cellAt_cons_zero, cellAt_cons, cellAt_nil, List.getElem?_take, true_and, and_true, Nat.sub_zero, Nat.zero_add, Nat.add_zero, Nat.zero_le, Nat.sub_self, Nat.lt_irrefl, Nat.one_ne_zero, false_and, and_false, if_true, if_false]
    split_ifs <;> first | (with_reducible rfl) | omega | (congr 1; omega) | (simp only [false_and, and_false] at *; done)
  · intro i hi
    skip
    simp only [length_blit, List.length_set, List.length_replicate, List.length_map, List.length_take, List.length_append, List.length_drop, List.length_cons, List.length_nil, content, Option.getD_some, Option.getD_none, List.take_nil, cellAt_set, cellAt_blit, cellAt_replicate, cellAt_map_some, cellAt_take, cellAt_append, cellAt_drop, cellAt_cons_zero, cellAt_cons, cellAt_nil, List.getElem?_take, true_and, and_true, Nat.sub_zero, Nat.zero_add, Nat.add_zero, Nat.zero_le, Nat.sub_self, Nat.lt_irrefl, Nat.one_ne_zero, false_and, and_false, if_true, if_false]
    have := trivial
    split_ifs <;> first | omega | exact hs4 _ (by omega) | exact ho4 _ (by omega) | exact hraw _ (by omega) | simp [this] | simp | (simp only [false_and, and_false] at *; done)

theorem substring_move_spec (self : StringType) (last : Nat) (hs : Valid self)
    (hl : last ≤ self.m_size) (hb : 0 < self.m_capacity) :
    ∃ p, substring_move self last = some p ∧ p.2 = ⟨none, 0, 0⟩ ∧ p.1.m_size = last ∧
      p.1.m_capacity = self.m_capacity ∧ Valid p.1 ∧
      content p.1 = (content self).take last := by
  rcases self with ⟨_ | bs, n, c⟩
  · simp only [valid_none] at hs
    simp only [hs.2] at hb
    omega
  simp only [valid_some] at hs
  obtain ⟨rfl, hs2, hs3, hs4⟩ := hs
  simp only at hl
  have hlt : last < bs.length := by omega
  simp (disch := first | omega | (simp only [length_blit, List.length_set, List.length_replicate, List.length_map, List.length_take, List.length_append, List.length_drop, List.length_cons, List.length_nil, content, Option.getD_some, Option.getD_none, List.take_nil]; omega)) only [substring_move, assert_assume, assume, bind, Option.bind, newArray, rawBlock, if_true, if_false, std_copy_some, std_copy_empty, std_copy_within_some, std_copy_backward_some, std_fill_some, store_some, ofTriple, ctor, null, ctor_move, ge_iff_le, gt_iff_lt, not_lt, not_le, Nat.add_zero, Nat.zero_add, ne_eq, not_false_eq_true, not_true_eq_false, true_or, or_true, Option.some_ne_none, reduceCtorEq, hl, hlt]
  refine ⟨_, rfl, rfl, rfl, rfl, ?_⟩
  apply mk_spec
  · simp only [length_blit, List.length_set, List.length_replicate, List.length_map, List.length_take, List.length_append, List.length_drop, List.length_cons, List.length_nil, content, Option.getD_some, Option.getD_none, List.take_nil] <;> omega
  · omega
  · simp only [length_blit, List.length_set, List.length_replicate, List.length_map, List.length_take, List.length_append, List.length_drop, List.length_cons, List.length_nil, content, Option.getD_some, Option.getD_none, List.take_nil, cellAt_set, cellAt_blit, cellAt_replicate, cellAt_map_some, cellAt_take, cellAt_append, cellAt_drop, cellAt_cons_zero, cellAt_cons, cellAt_nil, List.getElem?_take, true_and, and_true, Nat.sub_zero, Nat.zero_add, Nat.add_zero, Nat.zero_le, Nat.sub_self, Nat.lt_irrefl, Nat.one_ne_zero, false_and, and_false, if_true, if_false]
    split_ifs <;> first | (with_reducible rfl) | omega | exact hs3 | exact ho3 | (simp only [false_and, and_false] at *; done)
  · simp only [length_blit, List.length_set, List.length_replicate, List.length_map, List.length_take, List.length_append, List.length_drop, List.length_cons, List.length_nil, content, Option.getD_some, Option.getD_none, List.take_nil] <;> omega
  · intro i hi
    skip
    simp only [length_blit, List.length_set, List.length_replicate, List.length_map, List.length_take, List.length_append, List.length_drop, List.length_cons, List.length_nil, content, Option.getD_some, Option.getD_none, List.take_nil, cellAt_set, cellAt_blit, cellAt_replicate, cellAt_map_some, cellAt_take, cellAt_append, cellAt_drop, cellAt_cons_zero, cellAt_cons, cellAt_nil, List.getElem?_take, true_and, and_true, Nat.sub_zero, Nat.zero_add, Nat.add_zero, Nat.zero_le, Nat.sub_self, Nat.lt_irrefl, Nat.one_ne_zero, false_and, and_false, if_true, if_false]
    split_ifs <;> first | (with_reducible rfl) | omega | (congr 1; omega) | (simp only [false_and, and_false] at *; done)
  · intro i hi
    skip
    simp only [length_blit, List.length_set, List.length_replicate, List.length_map, List.length_take, List.length_append, List.length_drop, List.length_cons, List.length_nil, content, Option.getD_some, Option.getD_none, List.take_nil, cellAt_set, cellAt_blit, cellAt_replicate, cellAt_map_some, cellAt_take, cellAt_append, cellAt_drop, cellAt_cons_zero, cellAt_cons, cellAt_nil, List.getElem?_take, true_and, and_true, Nat.sub_zero, Nat.zero_add, Nat.add_zero, Nat.zero_le, Nat.sub_self, Nat.lt_irrefl, Nat.one_ne_zero, false_and, and_false, if_true, if_false]
    have := trivial
    split_ifs <;> first | omega | exact hs4 _ (by omega) | exact ho4 _ (by omega) | exact hraw _ (by omega) | simp [this] | simp | (simp only [false_and, and_false] at *; done)

theorem substring_range_move_spec (self : StringType) (first last : Nat) (hs : Valid self)
    (hf : first < last) (hl : last ≤ self.m_size) :
    ∃ p, substring_range_move self first last = some p ∧ p.2 = ⟨none, 0, 0⟩ ∧
      p.1.m_size = last - first ∧ p.1.m_capacity = self.m_capacity ∧ Valid p.1 ∧
      content p.1 = ((content self).drop first).take (last - first) := by
  rcases self with ⟨_ | bs, n, c⟩
  · simp only [valid_none] at hs
    simp only [hs.1] at hl
    omega
  simp only [valid_some] at hs
  obtain ⟨rfl, hs2, hs3, hs4⟩ := hs
  simp only at hl
  have hlt : last - first < bs.length := by omega
  simp (disch := first | omega | (simp only [length_blit, List.length_set, List.length_replicate, List.length_map, List.length_take, List.length_append, List.length_drop, List.length_cons, List.length_nil, content, Option.getD_some, Option.getD_none, List.take_nil]; omega)) only [substring_range_move, assert_assume, assume, bind, Option.bind, newArray, rawBlock, if_true, if_false, std_copy_some, std_copy_empty, std_copy_within_some, std_copy_backward_some, std_fill_some, store_some, ofTriple, ctor, null, ctor_move, ge_iff_le, gt_iff_lt, not_lt, not_le, Nat.add_zero, Nat.zero_add, ne_eq, not_false_eq_true, not_true_eq_false, true_or, or_true, Option.some_ne_none, reduceCtorEq, hf, hl, hlt]
  refine ⟨_, rfl, rfl, rfl, rfl, ?_⟩
  apply mk_spec
  · simp only [length_blit, List.length_set, List.length_replicate, List.length_map, List.length_take, List.length_append, List.length_drop, List.length_cons, List.length_nil, content, Option.getD_some, Option.getD_none, List.take_nil] <;> omega
  · omega
  · simp only [length_blit, List.length_set, List.length_replicate, List.length_map, List.length_take, List.length_append, List.length_drop, List.length_cons, List.length_nil, content, Option.getD_some, Option.getD_none, List.take_nil, cellAt_set, cellAt_blit, cellAt_replicate, cellAt_map_some, cellAt_take, cellAt_append, cellAt_drop, cellAt_cons_zero, cellAt_cons, cellAt_nil, List.getElem?_take, true_and, and_true, Nat.sub_zero, Nat.zero_add, Nat.add_zero, Nat.zero_le, Nat.sub_self, Nat.lt_irrefl, Nat.one_ne_zero, false_and, and_false, if_true, if_false]
    split_ifs <;> first | (with_reducible rfl) | omega | exact hs3 | exact ho3 | (simp only [false_and, and_false] at *; done)
  · simp only [length_blit, List.length_set, List.length_replicate, List.length_map, List.length_take, List.length_append, List.length_drop, List.length_cons, List.length_nil, content, Option.getD_some, Option.getD_none, List.take_nil] <;> omega
  · intro i hi
    skip
    simp only [length_blit, List.length_set, List.length_replicate, List.length_map, List.length_take, List.length_append, List.length_drop, List.length_cons, List.length_nil, content, Option.getD_some, Option.getD_none, List.take_nil, cellAt_set, cellAt_blit, cellAt_replicate, cellAt_map_some, cellAt_take, cellAt_append, cellAt_drop, cellAt_cons_zero, cellAt_cons, cellAt_nil, List.getElem?_take, true_and, and_true, Nat.sub_zero, Nat.zero_add, Nat.add_zero, Nat.zero_le, Nat.sub_self, Nat.lt_irrefl, Nat.one_ne_zero, false_and, and_false, if_true, if_false]
    split_ifs <;> first | (with_reducible rfl) | omega | (congr 1; omega) | (simp only [false_and, and_false] at *; done)
  · intro i hi
    skip
    simp only [length_blit, List.length_set, List.length_replicate, List.length_map, List.length_take, List.length_append, List.length_drop, List.length_cons, List.length_nil, content, Option.getD_some, Option.getD_none, List.take_nil, cellAt_set, cellAt_blit, cellAt_replicate, cellAt_map_some, cellAt_take, cellAt_append, cellAt_drop, cellAt_cons_zero, cellAt_cons, cellAt_nil, List.getElem?_take, true_and, and_true, Nat.sub_zero, Nat.zero_add, Nat.add_zero, Nat.zero_le, Nat.sub_self, Nat.lt_irrefl, Nat.one_ne_zero, false_and, and_false, if_true, if_false]
    have := trivial
    split_ifs <;> first | omega | exact hs4 _ (by omega) | exact ho4 _ (by omega) | exact hraw _ (by omega) | simp [this] | simp | (simp only [false_and, and_false] at *; done)

end StringType

namespace StringType

/-! ## Concatenation of borrowed operands -/

theorem plus_spec (left right : StringType) (hs : Valid left) (ho : Valid right) :
    ∃ r, plus left right = some r ∧ r.m_size = left.m_size + right.m_size ∧
      r.m_capacity = lookupCapacity (left.m_size + right.m_size) ∧ Valid r ∧
      content r = content left ++ content right := by
  by_cases hn : left.m_size = 0
  · have hcl : content left = [] := by simp [content, hn]
    by_cases hm : right.m_size = 0
    · exact ⟨⟨none, 0, 0⟩, by simp [plus, hn, hm, ctor, null], by simp [hn, hm],
        by simp [hn, hm, lookupCapacity_zero], valid_null, by simp [content, hn, hm]⟩
    · obtain ⟨r, h1, h2, h3, h4, h5⟩ := ctor_copy_spec right ho
      exact ⟨r, by simp [plus, hn, hm, h1], by simp [hn, h2], by simp [hn, h3], h4,
        by simp [hcl, h5]⟩
  by_cases hm : right.m_size = 0
  · have hcr : content right = [] := by simp [content, hm]
    obtain ⟨r, h1, h2, h3, h4, h5⟩ := ctor_copy_spec left hs
    exact ⟨r, by simp [plus, hn, hm, h1], by simp [hm, h2], by simp [hm, h3], h4,
      by simp [hcr, h5]⟩
  rcases left with ⟨_ | bs, n, c⟩
  · simp only [valid_none] at hs
    exact absurd hs.1 hn
  simp only [valid_some] at hs
  obtain ⟨rfl, hs2, hs3, hs4⟩ := hs
  simp only at hn
  rcases right with ⟨_ | bo, m, co⟩
  · simp only [valid_none] at ho
    exact absurd ho.1 hm
  simp only [valid_some] at ho
  obtain ⟨rfl, ho2, ho3, ho4⟩ := ho
  simp only at hm
  have hcap := lookupCapacity_gt (n + m) (by omega)
  simp (disch := first | omega | (simp only [length_blit, List.length_set, List.length_replicate, List.length_map, List.length_take, List.length_append, List.length_drop, List.length_cons, List.length_nil, content, Option.getD_some, Option.getD_none, List.take_nil]; omega)) only [plus, assert_assume, assume, bind, Option.bind, newArray, rawBlock, if_true, if_false, std_copy_some, std_copy_empty, std_copy_within_some, std_copy_backward_some, std_fill_some, store_some, ofTriple, ctor, null, ctor_move, ge_iff_le, gt_iff_lt, not_lt, not_le, Nat.add_zero, Nat.zero_add, ne_eq, not_false_eq_true, not_true_eq_false, true_or, or_true, Option.some_ne_none, reduceCtorEq, hn, hm, hcap, false_and]
  refine ⟨_, rfl, rfl, rfl, ?_⟩
  apply mk_spec
  · simp only [length_blit, List.length_set, List.length_replicate, List.length_map, List.length_take, List.length_append, List.length_drop, List.length_cons, List.length_nil, content, Option.getD_some, Option.getD_none, List.take_nil] <;> omega
  · omega
  · simp only [length_blit, List.length_set, List.length_replicate, List.length_map, List.length_take, List.length_append, List.length_drop, List.length_cons, List.length_nil, content, Option.getD_some, Option.getD_none, List.take_nil, cellAt_set, cellAt_blit, cellAt_replicate, cellAt_map_some, cellAt_take, cellAt_append, cellAt_drop, cellAt_cons_zero, cellAt_cons, cellAt_nil, List.getElem?_take, true_and, and_true, Nat.sub_zero, Nat.zero_add, Nat.add_zero, Nat.zero_le, Nat.sub_self, Nat.lt_irrefl, Nat.one_ne_zero, false_and, and_false, if_true, if_false]
    split_ifs <;> first | (with_reducible rfl) | omega | exact hs3 | exact ho3 | (simp only [false_and, and_false] at *; done)
  · simp only [length_blit, List.length_set, List.length_replicate, List.length_map, List.length_take, List.length_append, List.length_drop, List.length_cons, List.length_nil, content, Option.getD_some, Option.getD_none, List.take_nil] <;> omega
  · intro i hi
    skip
    simp only [length_blit, List.length_set, List.length_replicate, List.length_map, List.length_take, List.length_append, List.length_drop, List.length_cons, List.length_nil, content, Option.getD_some, Option.getD_none, List.take_nil, cellAt_set, cellAt_blit, cellAt_replicate, cellAt_map_some, cellAt_take, cellAt_append, cellAt_drop, cellAt_cons_zero, cellAt_cons, cellAt_nil, List.getElem?_take, true_and, and_true, Nat.sub_zero, Nat.zero_add, Nat.add_zero, Nat.zero_le, Nat.sub_self, Nat.lt_irrefl, Nat.one_ne_zero, false_and, and_false, if_true, if_false]
    split_ifs <;> first | (with_reducible rfl) | omega | (congr 1; omega) | (simp only [false_and, and_false] at *; done)
  · intro i hi
    skip
    simp only [length_blit, List.length_set, List.length_replicate, List.length_map, List.length_take, List.length_append, List.length_drop, List.length_cons, List.length_nil, content, Option.getD_some, Option.getD_none, List.take_nil, cellAt_set, cellAt_blit, cellAt_replicate, cellAt_map_some, cellAt_take, cellAt_append, cellAt_drop, cellAt_cons_zero, cellAt_cons, cellAt_nil, List.getElem?_take, true_and, and_true, Nat.sub_zero, Nat.zero_add, Nat.add_zero, Nat.zero_le, Nat.sub_self, Nat.lt_irrefl, Nat.one_ne_zero, false_and, and_false, if_true, if_false]
    have := trivial
    split_ifs <;> first | omega | exact hs4 _ (by omega) | exact ho4 _ (by omega) | exact hraw _ (by omega) | simp [this] | simp | (simp only [false_and, and_false] at *; done)

theorem plus_cstring_spec (left : StringType) (cstring : ConstPointer) (L : Nat)
    (hs : Valid left) (hL : cstringSize cstring = some L) :
    ∃ r, plus_cstring left cstring = some r ∧ r.m_size = left.m_size + L ∧
      r.m_capacity = lookupCapacity (left.m_size + L) ∧ Valid r ∧
      content r = content left ++ (rawContent cstring).map some := by
  by_cases hn : left.m_size = 0
  · have hcl : content left = [] := by simp [content, hn]
    by_cases hm : L = 0
    · have hrc : rawContent cstring = [] := by
        have := rawContent_length cstring L hL
        exact List.length_eq_zero.mp (by omega)
      exact ⟨⟨none, 0, 0⟩, by simp [plus_cstring, hL, hn, hm, ctor, null], by simp [hn, hm],
        by simp [hn, hm, lookupCapacity_zero], valid_null, by simp [content, hn, hrc]⟩
    · obtain ⟨r, h1, h2, h3, h4, h5⟩ := ctor_cstring_spec cstring L hL
      exact ⟨r, by simp [plus_cstring, hL, hn, hm, h1], by simp [hn, h2], by simp [hn, h3], h4,
        by simp [hcl, h5]⟩
  by_cases hm : L = 0
  · have hrc : rawContent cstring = [] := by
      have := rawContent_length cstring L hL
      exact List.length_eq_zero.mp (by omega)
    obtain ⟨r, h1, h2, h3, h4, h5⟩ := ctor_copy_spec left hs
    exact ⟨r, by simp [plus_cstring, hL, hn, hm, h1], by simp [hm, h2], by simp [hm, h3], h4,
      by simp [hrc, h5]⟩
  obtain ⟨hL1, hL2, hL3⟩ := cstringSize_spec cstring L hL
  have hraw := raw_cells cstring L hL
  rw [hL3]
  rcases left with ⟨_ | bs, n, c⟩
  · simp only [valid_none] at hs
    exact absurd hs.1 hn
  simp only [valid_some] at hs
  obtain ⟨rfl, hs2, hs3, hs4⟩ := hs
  simp only at hn
  have hcap := lookupCapacity_gt (n + L) (by omega)
  simp (disch := first | omega | (simp only [length_blit, List.length_set, List.length_replicate, List.length_map, List.length_take, List.length_append, List.length_drop, List.length_cons, List.length_nil, content, Option.getD_some, Option.getD_none, List.take_nil]; omega)) only [plus_cstring, assert_assume, assume, bind, Option.bind, newArray, rawBlock, if_true, if_false, std_copy_some, std_copy_empty, std_copy_within_some, std_copy_backward_some, std_fill_some, store_some, ofTriple, ctor, null, ctor_move, ge_iff_le, gt_iff_lt, not_lt, not_le, Nat.add_zero, Nat.zero_add, ne_eq, not_false_eq_true, not_true_eq_false, true_or, or_true, Option.some_ne_none, reduceCtorEq, hL, hn, hm, hcap, false_and]
  refine ⟨_, rfl, rfl, rfl, ?_⟩
  apply mk_spec
  · simp only [length_blit, List.length_set, List.length_replicate, List.length_map, List.length_take, List.length_append, List.length_drop, List.length_cons, List.length_nil, content, Option.getD_some, Option.getD_none, List.take_nil] <;> omega
  · omega
  · simp only [length_blit, List.length_set, List.length_replicate, List.length_map, List.length_take, List.length_append, List.length_drop, List.length_cons, List.length_nil, content, Option.getD_some, Option.getD_none, List.take_nil, cellAt_set, cellAt_blit, cellAt_replicate, cellAt_map_some, cellAt_take, cellAt_append, cellAt_drop, cellAt_cons_zero, cellAt_cons, cellAt_nil, List.getElem?_take, true_and, and_true, Nat.sub_zero, Nat.zero_add, Nat.add_zero, Nat.zero_le, Nat.sub_self, Nat.lt_irrefl, Nat.one_ne_zero, false_and, and_false, if_true, if_false]
    split_ifs <;> first | (with_reducible rfl) | omega | exact hs3 | exact ho3 | (simp only [false_and, and_false] at *; done)
  · simp only [length_blit, List.length_set, List.length_replicate, List.length_map, List.length_take, List.length_append, List.length_drop, List.length_cons, List.length_nil, content, Option.getD_some, Option.getD_none, List.take_nil] <;> omega
  · intro i hi
    skip
    simp only [length_blit, List.length_set, List.length_replicate, List.length_map, List.length_take, List.length_append, List.length_drop, List.length_cons, List.length_nil, content, Option.getD_some, Option.getD_none, List.take_nil, cellAt_set, cellAt_blit, cellAt_replicate, cellAt_map_some, cellAt_take, cellAt_append, cellAt_drop, cellAt_cons_zero, cellAt_cons, cellAt_nil, List.getElem?_take, true_and, and_true, Nat.sub_zero, Nat.zero_add, Nat.add_zero, Nat.zero_le, Nat.sub_self, Nat.lt_irrefl, Nat.one_ne_zero, false_and, and_false, if_true, if_false]
    split_ifs <;> first | (with_reducible rfl) | omega | (congr 1; omega) | (simp only [false_and, and_false] at *; done)
  · intro i hi
    skip
    simp only [length_blit, List.length_set, List.length_replicate, List.length_map, List.length_take, List.length_append, List.length_drop, List.length_cons, List.length_nil, content, Option.getD_some, Option.getD_none, List.take_nil, cellAt_set, cellAt_blit, cellAt_replicate, cellAt_map_some, cellAt_take, cellAt_append, cellAt_drop, cellAt_cons_zero, cellAt_cons, cellAt_nil, List.getElem?_take, true_and, and_true, Nat.sub_zero, Nat.zero_add, Nat.add_zero, Nat.zero_le, Nat.sub_self, Nat.lt_irrefl, Nat.one_ne_zero, false_and, and_false, if_true, if_false]
    have := trivial
    split_ifs <;> first | omega | exact hs4 _ (by omega) | exact ho4 _ (by omega) | exact hraw _ (by omega) | simp [this] | simp | (simp only [false_and, and_false] at *; done)

theorem cstring_plus_spec (cstring : ConstPointer) (right : StringType) (L : Nat)
    (ho : Valid right) (hL : cstringSize cstring = some L) :
    ∃ r, cstring_plus cstring right = some r ∧ r.m_size = L + right.m_size ∧
      r.m_capacity = lookupCapacity (L + right.m_size) ∧ Valid r ∧
      content r = (rawContent cstring).map some ++ content right := by
  by_cases hm : right.m_size = 0
  · have hcr : content right = [] := by simp [content, hm]
    by_cases hn : L = 0
    · have hrc : rawContent cstring = [] := by
        have := rawContent_length cstring L hL
        exact List.length_eq_zero.mp (by omega)
      exact ⟨⟨none, 0, 0⟩, by simp [cstring_plus, hL, hn, hm, ctor, null], by simp [hn, hm],
        by simp [hn, hm, lookupCapacity_zero], valid_null, by simp [content, hm, hrc]⟩
    · obtain ⟨r, h1, h2, h3, h4, h5⟩ := ctor_cstring_spec cstring L hL
      exact ⟨r, by simp [cstring_plus, hL, hn, hm, h1], by simp [hm, h2], by simp [hm, h3], h4,
        by simp [hcr, h5]⟩
  by_cases hn : L = 0
  · have hrc : rawContent cstring = [] := by
      have := rawContent_length cstring L hL
      exact List.length_eq_zero.mp (by omega)
    obtain ⟨r, h1, h2, h3, h4, h5⟩ := ctor_copy_spec right ho
    exact ⟨r, by simp [cstring_plus, hL, hn, hm, h1], by simp [hn, h2], by simp [hn, h3], h4,
      by simp [hrc, h5]⟩
  obtain ⟨hL1, hL2, hL3⟩ := cstringSize_spec cstring L hL
  have hraw := raw_cells cstring L hL
  rw [hL3]
  rcases right with ⟨_ | bo, m, co⟩
  · simp only [valid_none] at ho
    exact absurd ho.1 hm
  simp only [valid_some] at ho
  obtain ⟨rfl, ho2, ho3, ho4⟩ := ho
  simp only at hm
  have hcap := lookupCapacity_gt (L + m) (by omega)
  simp (disch := first | omega | (simp only [length_blit, List.length_set, List.length_replicate, List.length_map, List.length_take, List.length_append, List.length_drop, List.length_cons, List.length_nil, content, Option.getD_some, Option.getD_none, List.take_nil]; omega)) only [cstring_plus, assert_assume, assume, bind, Option.bind, newArray, rawBlock, if_true, if_false, std_copy_some, std_copy_empty, std_copy_within_some, std_copy_backward_some, std_fill_some, store_some, ofTriple, ctor, null, ctor_move, ge_iff_le, gt_iff_lt, not_lt, not_le, Nat.add_zero, Nat.zero_add, ne_eq, not_false_eq_true, not_true_eq_false, true_or, or_true, Option.some_ne_none, reduceCtorEq, hL, hn, hm, hcap, false_and]
  refine ⟨_, rfl, rfl, rfl, ?_⟩
  apply mk_spec
  · simp only [length_blit, List.length_set, List.length_replicate, List.length_map, List.length_take, List.length_append, List.length_drop, List.length_cons, List.length_nil, content, Option.getD_some, Option.getD_none, List.take_nil] <;> omega
  · omega
  · simp only [length_blit, List.length_set, List.length_replicate, List.length_map, List.length_take, List.length_append, List.length_drop, List.length_cons, List.length_nil, content, Option.getD_some, Option.getD_none, List.take_nil, cellAt_set, cellAt_blit, cellAt_replicate, cellAt_map_some, cellAt_take, cellAt_append, cellAt_drop, cellAt_cons_zero, cellAt_cons, cellAt_nil, List.getElem?_take, true_and, and_true, Nat.sub_zero, Nat.zero_add, Nat.add_zero, Nat.zero_le, Nat.sub_self, Nat.lt_irrefl, Nat.one_ne_zero, false_and, and_false, if_true, if_false]
    split_ifs <;> first | (with_reducible rfl) | omega | exact hs3 | exact ho3 | (simp only [false_and, and_false] at *; done)
  · simp only [length_blit, List.length_set, List.length_replicate, List.length_map, List.length_take, List.length_append, List.length_drop, List.length_cons, List.length_nil, content, Option.getD_some, Option.getD_none, List.take_nil] <;> omega
  · intro i hi
    skip
    simp only [length_blit, List.length_set, List.length_replicate, List.length_map, List.length_take, List.length_append, List.length_drop, List.length_cons, List.length_nil, content, Option.getD_some, Option.getD_none, List.take_nil, cellAt_set, cellAt_blit, cellAt_replicate, cellAt_map_some, cellAt_take, cellAt_append, cellAt_drop, cellAt_cons_zero, cellAt_cons, cellAt_nil, List.getElem?_take, true_and, and_true, Nat.sub_zero, Nat.zero_add, Nat.add_zero, Nat.zero_le, Nat.sub_self, Nat.lt_irrefl, Nat.one_ne_zero, false_and, and_false, if_true, if_false]
    split_ifs <;> first | (with_reducible rfl) | omega | (congr 1; omega) | (simp only [false_and, and_false] at *; done)
  · intro i hi
    skip
    simp only [length_blit, List.length_set, List.length_replicate, List.length_map, List.length_take, List.length_append, List.length_drop, List.length_cons, List.length_nil, content, Option.getD_some, Option.getD_none, List.take_nil, cellAt_set, cellAt_blit, cellAt_replicate, cellAt_map_some, cellAt_take, cellAt_append, cellAt_drop, cellAt_cons_zero, cellAt_cons, cellAt_nil, List.getElem?_take, true_and, and_true, Nat.sub_zero, Nat.zero_add, Nat.add_zero, Nat.zero_le, Nat.sub_self, Nat.lt_irrefl, Nat.one_ne_zero, false_and, and_false, if_true, if_false]
    have := trivial
    split_ifs <;> first | omega | exact hs4 _ (by omega) | exact ho4 _ (by omega) | exact hraw _ (by omega) | simp [this] | simp | (simp only [false_and, and_false] at *; done)

theorem plus_char_spec (left : StringType) (character : ValueType) (hs : Valid left) :
    ∃ r, plus_char left character = some r ∧ r.m_size = left.m_size + 1 ∧
      r.m_capacity = lookupCapacity (left.m_size + 1) ∧ Valid r ∧
      content r = content left ++ [some character] := by
  by_cases hn : left.m_size = 0
  · have hcl : content left = [] := by simp [content, hn]
    obtain ⟨r, h1, h2, h3, h4, h5⟩ := ctor_list_spec [character]
    exact ⟨r, by simp [plus_char, hn, h1], by simp [hn, h2], by simp [hn, h3], h4,
      by simp [hcl, h5]⟩
  rcases left with ⟨_ | bs, n, c⟩
  · simp only [valid_none] at hs
    exact absurd hs.1 hn
  simp only [valid_some] at hs
  obtain ⟨rfl, hs2, hs3, hs4⟩ := hs
  simp only at hn
  have hcap := lookupCapacity_gt (n + 1) (by omega)
  simp (disch := first | omega | (simp only [length_blit, List.length_set, List.length_replicate, List.length_map, List.length_take, List.length_append, List.length_drop, List.length_cons, List.length_nil, content, Option.getD_some, Option.getD_none, List.take_nil]; omega)) only [plus_char, assert_assume, assume, bind, Option.bind, newArray, rawBlock, if_true, if_false, std_copy_some, std_copy_empty, std_copy_within_some, std_copy_backward_some, std_fill_some, store_some, ofTriple, ctor, null, ctor_move, ge_iff_le, gt_iff_lt, not_lt, not_le, Nat.add_zero, Nat.zero_add, ne_eq, not_false_eq_true, not_true_eq_false, true_or, or_true, Option.some_ne_none, reduceCtorEq, hn, hcap]
  refine ⟨_, rfl, rfl, rfl, ?_⟩
  apply mk_spec
  · simp only [length_blit, List.length_set, List.length_replicate, List.length_map, List.length_take, List.length_append, List.length_drop, List.length_cons, List.length_nil, content, Option.getD_some, Option.getD_none, List.take_nil] <;> omega
  · omega
  · simp only [length_blit, List.length_set, List.length_replicate, List.length_map, List.length_take, List.length_append, List.length_drop, List.length_cons, List.length_nil, content, Option.getD_some, Option.getD_none, List.take_nil, cellAt_set, cellAt_blit, cellAt_replicate, cellAt_map_some, cellAt_take, cellAt_append, cellAt_drop, cellAt_cons_zero, cellAt_cons, cellAt_nil, List.getElem?_take, true_and, and_true, Nat.sub_zero, Nat.zero_add, Nat.add_zero, Nat.zero_le, Nat.sub_self, Nat.lt_irrefl, Nat.one_ne_zero, false_and, and_false, if_true, if_false]
    split_ifs <;> first | (with_reducible rfl) | omega | exact hs3 | exact ho3 | (simp only [false_and, and_false] at *; done)
  · simp only [length_blit, List.length_set, List.length_replicate, List.length_map, List.length_take, List.length_append, List.length_drop, List.length_cons, List.length_nil, content, Option.getD_some, Option.getD_none, List.take_nil] <;> omega
  · intro i hi
    skip
    simp only [length_blit, List.length_set, List.length_replicate, List.length_map, List.length_take, List.length_append, List.length_drop, List.length_cons, List.length_nil, content, Option.getD_some, Option.getD_none, List.take_nil, cellAt_set, cellAt_blit, cellAt_replicate, cellAt_map_some, cellAt_take, cellAt_append, cellAt_drop, cellAt_cons_zero, cellAt_cons, cellAt_nil, List.getElem?_take, true_and, and_true, Nat.sub_zero, Nat.zero_add, Nat.add_zero, Nat.zero_le, Nat.sub_self, Nat.lt_irrefl, Nat.one_ne_zero, false_and, and_false, if_true, if_false]
    split_ifs <;> first | (with_reducible rfl) | omega | (congr 1; omega) | (simp only [false_and, and_false] at *; done)
  · intro i hi
    skip
    simp only [length_blit, List.length_set, List.length_replicate, List.length_map, List.length_take, List.length_append, List.length_drop, List.length_cons, List.length_nil, content, Option.getD_some, Option.getD_none, List.take_nil, cellAt_set, cellAt_blit, cellAt_replicate, cellAt_map_some, cellAt_take, cellAt_append, cellAt_drop, cellAt_cons_zero, cellAt_cons, cellAt_nil, List.getElem?_take, true_and, and_true, Nat.sub_zero, Nat.zero_add, Nat.add_zero, Nat.zero_le, Nat.sub_self, Nat.lt_irrefl, Nat.one_ne_zero, false_and, and_false, if_true, if_false]
    have := trivial
    split_ifs <;> first | omega | exact hs4 _ (by omega) | exact ho4 _ (by omega) | exact hraw _ (by omega) | simp [this] | simp | (simp only [false_and, and_false] at *; done)

theorem char_plus_spec (character : ValueType) (right : StringType) (ho : Valid right) :
    ∃ r, char_plus character right = some r ∧ r.m_size = 1 + right.m_size ∧
      r.m_capacity = lookupCapacity (1 + right.m_size) ∧ Valid r ∧
      content r = [some character] ++ content right := by
  by_cases hm : right.m_size = 0
  · have hcr : content right = [] := by simp [content, hm]
    obtain ⟨r, h1, h2, h3, h4, h5⟩ := ctor_list_spec [character]
    exact ⟨r, by simp [char_plus, hm, h1], by simp [hm, h2], by simp [hm, h3], h4,
      by simp [hcr, h5]⟩
  rcases right with ⟨_ | bo, m, co⟩
  · simp only [valid_none] at ho
    exact absurd ho.1 hm
  simp only [valid_some] at ho
  obtain ⟨rfl, ho2, ho3, ho4⟩ := ho
  simp only at hm
  have hcap := lookupCapacity_gt (1 + m) (by omega)
  simp (disch := first | omega | (simp only [length_blit, List.length_set, List.length_replicate, List.length_map, List.length_take, List.length_append, List.length_drop, List.length_cons, List.length_nil, content, Option.getD_some, Option.getD_none, List.take_nil]; omega)) only [char_plus, assert_assume, assume, bind, Option.bind, newArray, rawBlock, if_true, if_false, std_copy_some, std_copy_empty, std_copy_within_some, std_copy_backward_some, std_fill_some, store_some, ofTriple, ctor, null, ctor_move, ge_iff_le, gt_iff_lt, not_lt, not_le, Nat.add_zero, Nat.zero_add, ne_eq, not_false_eq_true, not_true_eq_false, true_or, or_true, Option.some_ne_none, reduceCtorEq, hm, hcap]
  refine ⟨_, rfl, rfl, rfl, ?_⟩
  apply mk_spec
  · simp only [length_blit, List.length_set, List.length_replicate, List.length_map, List.length_take, List.length_append, List.length_drop, List.length_cons, List.length_nil, content, Option.getD_some, Option.getD_none, List.take_nil] <;> omega
  · omega
  · simp only [length_blit, List.length_set, List.length_replicate, List.length_map, List.length_take, List.length_append, List.length_drop, List.length_cons, List.length_nil, content, Option.getD_some, Option.getD_none, List.take_nil, cellAt_set, cellAt_blit, cellAt_replicate, cellAt_map_some, cellAt_take, cellAt_append, cellAt_drop, cellAt_cons_zero, cellAt_cons, cellAt_nil, List.getElem?_take, true_and, and_true, Nat.sub_zero, Nat.zero_add, Nat.add_zero, Nat.zero_le, Nat.sub_self, Nat.lt_irrefl, Nat.one_ne_zero, false_and, and_false, if_true, if_false]
    split_ifs <;> first | (with_reducible rfl) | omega | exact hs3 | exact ho3 | (simp only [false_and, and_false] at *; done)
  · simp only [length_blit, List.length_set, List.length_replicate, List.length_map, List.length_take, List.length_append, List.length_drop, List.length_cons, List.length_nil, content, Option.getD_some, Option.getD_none, List.take_nil] <;> omega
  · intro i hi
    skip
    simp only [length_blit, List.length_set, List.length_replicate, List.length_map, List.length_take, List.length_append, List.length_drop, List.length_cons, List.length_nil, content, Option.getD_some, Option.getD_none, List.take_nil, cellAt_set, cellAt_blit, cellAt_replicate, cellAt_map_some, cellAt_take, cellAt_append, cellAt_drop, cellAt_cons_zero, cellAt_cons, cellAt_nil, List.getElem?_take, true_and, and_true, Nat.sub_zero, Nat.zero_add, Nat.add_zero, Nat.zero_le, Nat.sub_self, Nat.lt_irrefl, Nat.one_ne_zero, false_and, and_false, if_true, if_false]
    split_ifs <;> first | (with_reducible rfl) | omega | (congr 1; omega) | (simp only [false_and, and_false] at *; done)
  · intro i hi
    skip
    simp only [length_blit, List.length_set, List.length_replicate, List.length_map, List.length_take, List.length_append, List.length_drop, List.length_cons, List.length_nil, content, Option.getD_some, Option.getD_none, List.take_nil, cellAt_set, cellAt_blit, cellAt_replicate, cellAt_map_some, cellAt_take, cellAt_append, cellAt_drop, cellAt_cons_zero, cellAt_cons, cellAt_nil, List.getElem?_take, true_and, and_true, Nat.sub_zero, Nat.zero_add, Nat.add_zero, Nat.zero_le, Nat.sub_self, Nat.lt_irrefl, Nat.one_ne_zero, false_and, and_false, if_true, if_false]
    have := trivial
    split_ifs <;> first | omega | exact hs4 _ (by omega) | exact ho4 _ (by omega) | exact hraw _ (by omega) | simp [this] | simp | (simp only [false_and, and_false] at *; done)

end StringType

namespace StringType

/-! ## Concatenation of movable operands -/

theorem plus_move_move_spec (left right : StringType) (hs : Valid left) (ho : Valid right) :
    ∃ p, plus_move_move left right = some p ∧
      p.2.1 =
        (if left.m_size = 0 then left
          else if right.m_size = 0 then ⟨none, 0, 0⟩
          else if lookupCapacity (left.m_size + right.m_size) ≤ left.m_capacity
          then ⟨none, 0, 0⟩ else left) ∧
      p.2.2 =
        (if left.m_size = 0 then (if right.m_size = 0 then right else ⟨none, 0, 0⟩)
          else if right.m_size = 0 then right
          else if lookupCapacity (left.m_size + right.m_size) ≤ left.m_capacity then right
          else if lookupCapacity (left.m_size + right.m_size) ≤ right.m_capacity
          then ⟨none, 0, 0⟩ else right) ∧
      p.1.m_size = left.m_size + right.m_size ∧
      p.1.m_capacity =
        (if left.m_size = 0 then (if right.m_size = 0 then 0 else right.m_capacity)
          else if right.m_size = 0 then left.m_capacity
          else if lookupCapacity (left.m_size + right.m_size) ≤ left.m_capacity
          then left.m_capacity
          else if lookupCapacity (left.m_size + right.m_size) ≤ right.m_capacity
          then right.m_capacity else lookupCapacity (left.m_size + right.m_size)) ∧
      Valid p.1 ∧ content p.1 = content left ++ content right := by
  by_cases hn : left.m_size = 0
  · have hcl : content left = [] := by simp [content, hn]
    by_cases hm : right.m_size = 0
    · exact ⟨(⟨none, 0, 0⟩, left, right), by simp [plus_move_move, hn, hm, ctor, null],
        by simp [hn], by simp [hn, hm], by simp [hn, hm], by simp [hn, hm], valid_null,
        by simp [content, hn, hm]⟩
    · exact ⟨(right, left, ⟨none, 0, 0⟩), by simp [plus_move_move, hn, hm, ctor_move],
        by simp [hn], by simp [hn, hm], by simp [hn], by simp [hn, hm], ho, by simp [hcl]⟩
  by_cases hm : right.m_size = 0
  · have hcr : content right = [] := by simp [content, hm]
    exact ⟨(left, ⟨none, 0, 0⟩, right), by simp [plus_move_move, hn, hm, ctor_move],
      by simp [hn, hm], by simp [hn, hm], by simp [hm], by simp [hn, hm], hs, by simp [hcr]⟩
  rcases left with ⟨_ | bs, n, c⟩
  · simp only [valid_none] at hs
    exact absurd hs.1 hn
  simp only [valid_some] at hs
  obtain ⟨rfl, hs2, hs3, hs4⟩ := hs
  simp only at hn
  rcases right with ⟨_ | bo, m, co⟩
  · simp only [valid_none] at ho
    exact absurd ho.1 hm
  simp only [valid_some] at ho
  obtain ⟨rfl, ho2, ho3, ho4⟩ := ho
  simp only at hm
  have hcap := lookupCapacity_gt (n + m) (by omega)
  by_cases hge : lookupCapacity (n + m) ≤ bs.length
  · have hfit : n + m < bs.length := by omega
    simp (disch := first | omega | (simp only [length_blit, List.length_set, List.length_replicate, List.length_map, List.length_take, List.length_append, List.length_drop, List.length_cons, List.length_nil, content, Option.getD_some, Option.getD_none, List.take_nil]; omega)) only [plus_move_move, assert_assume, assume, bind, Option.bind, newArray, rawBlock, if_true, if_false, std_copy_some, std_copy_empty, std_copy_within_some, std_copy_backward_some, std_fill_some, store_some, ofTriple, ctor, null, ctor_move, ge_iff_le, gt_iff_lt, not_lt, not_le, Nat.add_zero, Nat.zero_add, ne_eq, not_false_eq_true, not_true_eq_false, true_or, or_true, Option.some_ne_none, reduceCtorEq, hn, hm, hcap, hge, hfit, false_and]
    refine ⟨_, rfl, rfl, rfl, rfl, rfl, ?_⟩
    apply mk_spec
    · simp only [length_blit, List.length_set, List.length_replicate, List.length_map, List.length_take, List.length_append, List.length_drop, List.length_cons, List.length_nil, content, Option.getD_some, Option.getD_none, List.take_nil] <;> omega
    · omega
    · simp only [length_blit, List.length_set, List.length_replicate, List.length_map, List.length_take, List.length_append, List.length_drop, List.length_cons, List.length_nil, content, Option.getD_some, Option.getD_none, List.take_nil, cellAt_set, cellAt_blit, cellAt_replicate, cellAt_map_some, cellAt_take, cellAt_append, cellAt_drop, cellAt_cons_zero, cellAt_cons, cellAt_nil, List.getElem?_take, true_and, and_true, Nat.sub_zero, Nat.zero_add, Nat.add_zero, Nat.zero_le, Nat.sub_self, Nat.lt_irrefl, Nat.one_ne_zero, false_and, and_false, if_true, if_false]
      split_ifs <;> first | (with_reducible rfl) | omega | exact hs3 | exact ho3 | (simp only [false_and, and_false] at *; done)
    · simp only [length_blit, List.length_set, List.length_replicate, List.length_map, List.length_take, List.length_append, List.length_drop, List.length_cons, List.length_nil, content, Option.getD_some, Option.getD_none, List.take_nil] <;> omega
    · intro i hi
      skip
      simp only [length_blit, List.length_set, List.length_replicate, List.length_map, List.length_take, List.length_append, List.length_drop, List.length_cons, List.length_nil, content, Option.getD_some, Option.getD_none, List.take_nil, cellAt_set, cellAt_blit, cellAt_replicate, cellAt_map_some, cellAt_take, cellAt_append, cellAt_drop, cellAt_cons_zero, cellAt_cons, cellAt_nil, List.getElem?_take, true_and, and_true, Nat.sub_zero, Nat.zero_add, Nat.add_zero, Nat.zero_le, Nat.sub_self, Nat.lt_irrefl, Nat.one_ne_zero, false_and, and_false, if_true, if_false]
      split_ifs <;> first | (with_reducible rfl) | omega | (congr 1; omega) | (simp only [false_and, and_false] at *; done)
    · intro i hi
      skip
      simp only [length_blit, List.length_set, List.length_replicate, List.length_map, List.length_take, List.length_append, List.length_drop, List.length_cons, List.length_nil, content, Option.getD_some, Option.getD_none, List.take_nil, cellAt_set, cellAt_blit, cellAt_replicate, cellAt_map_some, cellAt_take, cellAt_append, cellAt_drop, cellAt_cons_zero, cellAt_cons, cellAt_nil, List.getElem?_take, true_and, and_true, Nat.sub_zero, Nat.zero_add, Nat.add_zero, Nat.zero_le, Nat.sub_self, Nat.lt_irrefl, Nat.one_ne_zero, false_and, and_false, if_true, if_false]
      have := trivial
      split_ifs <;> first | omega | exact hs4 _ (by omega) | exact ho4 _ (by omega) | exact hraw _ (by omega) | simp [this] | simp | (simp only [false_and, and_false] at *; done)
  by_cases hge2 : lookupCapacity (n + m) ≤ bo.length
  · have hfit : n + m < bo.length := by omega
    simp (disch := first | omega | (simp only [length_blit, List.length_set, List.length_replicate, List.length_map, List.length_take, List.length_append, List.length_drop, List.length_cons, List.length_nil, content, Option.getD_some, Option.getD_none, List.take_nil]; omega)) only [plus_move_move, assert_assume, assume, bind, Option.bind, newArray, rawBlock, if_true, if_false, std_copy_some, std_copy_empty, std_copy_within_some, std_copy_backward_some, std_fill_some, store_some, ofTriple, ctor, null, ctor_move, ge_iff_le, gt_iff_lt, not_lt, not_le, Nat.add_zero, Nat.zero_add, ne_eq, not_false_eq_true, not_true_eq_false, true_or, or_true, Option.some_ne_none, reduceCtorEq, hn, hm, hcap, hge, hge2, hfit, false_and]
    refine ⟨_, rfl, rfl, rfl, rfl, rfl, ?_⟩
    apply mk_spec
    · simp only [length_blit, List.length_set, List.length_replicate, List.length_map, List.length_take, List.length_append, List.length_drop, List.length_cons, List.length_nil, content, Option.getD_some, Option.getD_none, List.take_nil] <;> omega
    · omega
    · simp only [length_blit, List.length_set, List.length_replicate, List.length_map, List.length_take, List.length_append, List.length_drop, List.length_cons, List.length_nil, content, Option.getD_some, Option.getD_none, List.take_nil, cellAt_set, cellAt_blit, cellAt_replicate, cellAt_map_some, cellAt_take, cellAt_append, cellAt_drop, cellAt_cons_zero, cellAt_cons, cellAt_nil, List.getElem?_take, true_and, and_true, Nat.sub_zero, Nat.zero_add, Nat.add_zero, Nat.zero_le, Nat.sub_self, Nat.lt_irrefl, Nat.one_ne_zero, false_and, and_false, if_true, if_false]
      split_ifs <;> first | (with_reducible rfl) | omega | exact hs3 | exact ho3 | (simp only [false_and, and_false] at *; done)
    · simp only [length_blit, List.length_set, List.length_replicate, List.length_map, List.length_take, List.length_append, List.length_drop, List.length_cons, List.length_nil, content, Option.getD_some, Option.getD_none, List.take_nil] <;> omega
    · intro i hi
      skip
      simp only [length_blit, List.length_set, List.length_replicate, List.length_map, List.length_take, List.length_append, List.length_drop, List.length_cons, List.length_nil, content, Option.getD_some, Option.getD_none, List.take_nil, cellAt_set, cellAt_blit, cellAt_replicate, cellAt_map_some, cellAt_take, cellAt_append, cellAt_drop, cellAt_cons_zero, cellAt_cons, cellAt_nil, List.getElem?_take, true_and, and_true, Nat.sub_zero, Nat.zero_add, Nat.add_zero, Nat.zero_le, Nat.sub_self, Nat.lt_irrefl, Nat.one_ne_zero, false_and, and_false, if_true, if_false]
      split_ifs <;> first | (with_reducible rfl) | omega | (congr 1; omega) | (simp only [false_and, and_false] at *; done)
    · intro i hi
      skip
      simp only [length_blit, List.length_set, List.length_replicate, List.length_map, List.length_take, List.length_append, List.length_drop, List.length_cons, List.length_nil, content, Option.getD_some, Option.getD_none, List.take_nil, cellAt_set, cellAt_blit, cellAt_replicate, cellAt_map_some, cellAt_take, cellAt_append, cellAt_drop, cellAt_cons_zero, cellAt_cons, cellAt_nil, List.getElem?_take, true_and, and_true, Nat.sub_zero, Nat.zero_add, Nat.add_zero, Nat.zero_le, Nat.sub_self, Nat.lt_irrefl, Nat.one_ne_zero, false_and, and_false, if_true, if_false]
      have := trivial
      split_ifs <;> first | omega | exact hs4 _ (by omega) | exact ho4 _ (by omega) | exact hraw _ (by omega) | simp [this] | simp | (simp only [false_and, and_false] at *; done)
  · simp (disch := first | omega | (simp only [length_blit, List.length_set, List.length_replicate, List.length_map, List.length_take, List.length_append, List.length_drop, List.length_cons, List.length_nil, content, Option.getD_some, Option.getD_none, List.take_nil]; omega)) only [plus_move_move, assert_assume, assume, bind, Option.bind, newArray, rawBlock, if_true, if_false, std_copy_some, std_copy_empty, std_copy_within_some, std_copy_backward_some, std_fill_some, store_some, ofTriple, ctor, null, ctor_move, ge_iff_le, gt_iff_lt, not_lt, not_le, Nat.add_zero, Nat.zero_add, ne_eq, not_false_eq_true, not_true_eq_false, true_or, or_true, Option.some_ne_none, reduceCtorEq, hn, hm, hcap, hge, hge2, false_and]
    refine ⟨_, rfl, rfl, rfl, rfl, rfl, ?_⟩
    apply mk_spec
    · simp only [length_blit, List.length_set, List.length_replicate, List.length_map, List.length_take, List.length_append, List.length_drop, List.length_cons, List.length_nil, content, Option.getD_some, Option.getD_none, List.take_nil] <;> omega
    · omega
    · simp only [length_blit, List.length_set, List.length_replicate, List.length_map, List.length_take, List.length_append, List.length_drop, List.length_cons, List.length_nil, content, Option.getD_some, Option.getD_none, List.take_nil, cellAt_set, cellAt_blit, cellAt_replicate, cellAt_map_some, cellAt_take, cellAt_append, cellAt_drop, cellAt_cons_zero, cellAt_cons, cellAt_nil, List.getElem?_take, true_and, and_true, Nat.sub_zero, Nat.zero_add, Nat.add_zero, Nat.zero_le, Nat.sub_self, Nat.lt_irrefl, Nat.one_ne_zero, false_and, and_false, if_true, if_false]
      split_ifs <;> first | (with_reducible rfl) | omega | exact hs3 | exact ho3 | (simp only [false_and, and_false] at *; done)
    · simp only [length_blit, List.length_set, List.length_replicate, List.length_map, List.length_take, List.length_append, List.length_drop, List.length_cons, List.length_nil, content, Option.getD_some, Option.getD_none, List.take_nil] <;> omega
    · intro i hi
      skip
      simp only [length_blit, List.length_set, List.length_replicate, List.length_map, List.length_take, List.length_append, List.length_drop, List.length_cons, List.length_nil, content, Option.getD_some, Option.getD_none, List.take_nil, cellAt_set, cellAt_blit, cellAt_replicate, cellAt_map_some, cellAt_take, cellAt_append, cellAt_drop, cellAt_cons_zero, cellAt_cons, cellAt_nil, List.getElem?_take, true_and, and_true, Nat.sub_zero, Nat.zero_add, Nat.add_zero, Nat.zero_le, Nat.sub_self, Nat.lt_irrefl, Nat.one_ne_zero, false_and, and_false, if_true, if_false]
      split_ifs <;> first | (with_reducible rfl) | omega | (congr 1; omega) | (simp only [false_and, and_false] at *; done)
    · intro i hi
      skip
      simp only [length_blit, List.length_set, List.length_replicate, List.length_map, List.length_take, List.length_append, List.length_drop, List.length_cons, List.length_nil, content, Option.getD_some, Option.getD_none, List.take_nil, cellAt_set, cellAt_blit, cellAt_replicate, cellAt_map_some, cellAt_take, cellAt_append, cellAt_drop, cellAt_cons_zero, cellAt_cons, cellAt_nil, List.getElem?_take, true_and, and_true, Nat.sub_zero, Nat.zero_add, Nat.add_zero, Nat.zero_le, Nat.sub_self, Nat.lt_irrefl, Nat.one_ne_zero, false_and, and_false, if_true, if_false]
      have := trivial
      split_ifs <;> first | omega | exact hs4 _ (by omega) | exact ho4 _ (by omega) | exact hraw _ (by omega) | simp [this] | simp | (simp only [false_and, and_false] at *; done)

theorem plus_move_copy_spec (left right : StringType) (hs : Valid left) (ho : Valid right) :
    ∃ p, plus_move_copy left right = some p ∧
      p.2.1 =
        (if left.m_size = 0 then left
          else if right.m_size = 0 then ⟨none, 0, 0⟩
          else if lookupCapacity (left.m_size + right.m_size) ≤ left.m_capacity
          then ⟨none, 0, 0⟩ else left) ∧
      p.2.2 = right ∧
      p.1.m_size = left.m_size + right.m_size ∧
      p.1.m_capacity =
        (if left.m_size = 0 then lookupCapacity right.m_size
          else if right.m_size = 0 then left.m_capacity
          else if lookupCapacity (left.m_size + right.m_size) ≤ left.m_capacity
          then left.m_capacity else lookupCapacity (left.m_size + right.m_size)) ∧
      Valid p.1 ∧ content p.1 = content left ++ content right := by
  by_cases hn : left.m_size = 0
  · have hcl : content left = [] := by simp [content, hn]
    by_cases hm : right.m_size = 0
    · exact ⟨(⟨none, 0, 0⟩, left, right), by simp [plus_move_copy, hn, hm, ctor, null],
        by simp [hn], rfl, by simp [hn, hm], by simp [hn, hm, lookupCapacity_zero], valid_null,
        by simp [content, hn, hm]⟩
    · obtain ⟨r, h1, h2, h3, h4, h5⟩ := ctor_copy_spec right ho
      exact ⟨(r, left, right), by simp [plus_move_copy, hn, hm, h1],
        by simp [hn], rfl, by simp [hn, h2], by simp [hn, h3], h4, by simp [hcl, h5]⟩
  by_cases hm : right.m_size = 0
  · have hcr : content right = [] := by simp [content, hm]
    exact ⟨(left, ⟨none, 0, 0⟩, right), by simp [plus_move_copy, hn, hm, ctor_move],
      by simp [hn, hm], rfl, by simp [hm], by simp [hn, hm], hs, by simp [hcr]⟩
  rcases left with ⟨_ | bs, n, c⟩
  · simp only [valid_none] at hs
    exact absurd hs.1 hn
  simp only [valid_some] at hs
  obtain ⟨rfl, hs2, hs3, hs4⟩ := hs
  simp only at hn
  rcases right with ⟨_ | bo, m, co⟩
  · simp only [valid_none] at ho
    exact absurd ho.1 hm
  simp only [valid_some] at ho
  obtain ⟨rfl, ho2, ho3, ho4⟩ := ho
  simp only at hm
  have hcap := lookupCapacity_gt (n + m) (by omega)
  by_cases hge : lookupCapacity (n + m) ≤ bs.length
  · have hfit : n + m < bs.length := by omega
    simp (disch := first | omega | (simp only [length_blit, List.length_set, List.length_replicate, List.length_map, List.length_take, List.length_append, List.length_drop, List.length_cons, List.length_nil, content, Option.getD_some, Option.getD_none, List.take_nil]; omega)) only [plus_move_copy, assert_assume, assume, bind, Option.bind, newArray, rawBlock, if_true, if_false, std_copy_some, std_copy_empty, std_copy_within_some, std_copy_backward_some, std_fill_some, store_some, ofTriple, ctor, null, ctor_move, ge_iff_le, gt_iff_lt, not_lt, not_le, Nat.add_zero, Nat.zero_add, ne_eq, not_false_eq_true, not_true_eq_false, true_or, or_true, Option.some_ne_none, reduceCtorEq, hn, hm, hcap, hge, hfit, false_and]
    refine ⟨_, rfl, rfl, rfl, rfl, rfl, ?_⟩
    apply mk_spec
    · simp only [length_blit, List.length_set, List.length_replicate, List.length_map, List.length_take, List.length_append, List.length_drop, List.length_cons, List.length_nil, content, Option.getD_some, Option.getD_none, List.take_nil] <;> omega
    · omega
    · simp only [length_blit, List.length_set, List.length_replicate, List.length_map, List.length_take, List.length_append, List.length_drop, List.length_cons, List.length_nil, content, Option.getD_some, Option.getD_none, List.take_nil, cellAt_set, cellAt_blit, cellAt_replicate, cellAt_map_some, cellAt_take, cellAt_append, cellAt_drop, cellAt_cons_zero, cellAt_cons, cellAt_nil, List.getElem?_take, true_and, and_true, Nat.sub_zero, Nat.zero_add, Nat.add_zero, Nat.zero_le, Nat.sub_self, Nat.lt_irrefl, Nat.one_ne_zero, false_and, and_false, if_true, if_false]
      split_ifs <;> first | (with_reducible rfl) | omega | exact hs3 | exact ho3 | (simp only [false_and, and_false] at *; done)
    · simp only [length_blit, List.length_set, List.length_replicate, List.length_map, List.length_take, List.length_append, List.length_drop, List.length_cons, List.length_nil, content, Option.getD_some, Option.getD_none, List.take_nil] <;> omega
    · intro i hi
      skip
      simp only [length_blit, List.length_set, List.length_replicate, List.length_map, List.length_take, List.length_append, List.length_drop, List.length_cons, List.length_nil, content, Option.getD_some, Option.getD_none, List.take_nil, cellAt_set, cellAt_blit, cellAt_replicate, cellAt_map_some, cellAt_take, cellAt_append, cellAt_drop, cellAt_cons_zero, cellAt_cons, cellAt_nil, List.getElem?_take, true_and, and_true, Nat.sub_zero, Nat.zero_add, Nat.add_zero, Nat.zero_le, Nat.sub_self, Nat.lt_irrefl, Nat.one_ne_zero, false_and, and_false, if_true, if_false]
      split_ifs <;> first | (with_reducible rfl) | omega | (congr 1; omega) | (simp only [false_and, and_false] at *; done)
    · intro i hi
      skip
      simp only [length_blit, List.length_set, List.length_replicate, List.length_map, List.length_take, List.length_append, List.length_drop, List.length_cons, List.length_nil, content, Option.getD_some, Option.getD_none, List.take_nil, cellAt_set, cellAt_blit, cellAt_replicate, cellAt_map_some, cellAt_take, cellAt_append, cellAt_drop, cellAt_cons_zero, cellAt_cons, cellAt_nil, List.getElem?_take, true_and, and_true, Nat.sub_zero, Nat.zero_add, Nat.add_zero, Nat.zero_le, Nat.sub_self, Nat.lt_irrefl, Nat.one_ne_zero, false_and, and_false, if_true, if_false]
      have := trivial
      split_ifs <;> first | omega | exact hs4 _ (by omega) | exact ho4 _ (by omega) | exact hraw _ (by omega) | simp [this] | simp | (simp only [false_and, and_false] at *; done)
  · simp (disch := first | omega | (simp only [length_blit, List.length_set, List.length_replicate, List.length_map, List.length_take, List.length_append, List.length_drop, List.length_cons, List.length_nil, content, Option.getD_some, Option.getD_none, List.take_nil]; omega)) only [plus_move_copy, assert_assume, assume, bind, Option.bind, newArray, rawBlock, if_true, if_false, std_copy_some, std_copy_empty, std_copy_within_some, std_copy_backward_some, std_fill_some, store_some, ofTriple, ctor, null, ctor_move, ge_iff_le, gt_iff_lt, not_lt, not_le, Nat.add_zero, Nat.zero_add, ne_eq, not_false_eq_true, not_true_eq_false, true_or, or_true, Option.some_ne_none, reduceCtorEq, hn, hm, hcap, hge, false_and]
    refine ⟨_, rfl, rfl, rfl, rfl, rfl, ?_⟩
    apply mk_spec
    · simp only [length_blit, List.length_set, List.length_replicate, List.length_map, List.length_take, List.length_append, List.length_drop, List.length_cons, List.length_nil, content, Option.getD_some, Option.getD_none, List.take_nil] <;> omega
    · omega
    · simp only [length_blit, List.length_set, List.length_replicate, List.length_map, List.length_take, List.length_append, List.length_drop, List.length_cons, List.length_nil, content, Option.getD_some, Option.getD_none, List.take_nil, cellAt_set, cellAt_blit, cellAt_replicate, cellAt_map_some, cellAt_take, cellAt_append, cellAt_drop, cellAt_cons_zero, cellAt_cons, cellAt_nil, List.getElem?_take, true_and, and_true, Nat.sub_zero, Nat.zero_add, Nat.add_zero, Nat.zero_le, Nat.sub_self, Nat.lt_irrefl, Nat.one_ne_zero, false_and, and_false, if_true, if_false]
      split_ifs <;> first | (with_reducible rfl) | omega | exact hs3 | exact ho3 | (simp only [false_and, and_false] at *; done)
    · simp only [length_blit, List.length_set, List.length_replicate, List.length_map, List.length_take, List.length_append, List.length_drop, List.length_cons, List.length_nil, content, Option.getD_some, Option.getD_none, List.take_nil] <;> omega
    · intro i hi
      skip
      simp only [length_blit, List.length_set, List.length_replicate, List.length_map, List.length_take, List.length_append, List.length_drop, List.length_cons, List.length_nil, content, Option.getD_some, Option.getD_none, List.take_nil, cellAt_set, cellAt_blit, cellAt_replicate, cellAt_map_some, cellAt_take, cellAt_append, cellAt_drop, cellAt_cons_zero, cellAt_cons, cellAt_nil, List.getElem?_take, true_and, and_true, Nat.sub_zero, Nat.zero_add, Nat.add_zero, Nat.zero_le, Nat.sub_self, Nat.lt_irrefl, Nat.one_ne_zero, false_and, and_false, if_true, if_false]
      split_ifs <;> first | (with_reducible rfl) | omega | (congr 1; omega) | (simp only [false_and, and_false] at *; done)
    · intro i hi
      skip
      simp only [length_blit, List.length_set, List.length_replicate, List.length_map, List.length_take, List.length_append, List.length_drop, List.length_cons, List.length_nil, content, Option.getD_some, Option.getD_none, List.take_nil, cellAt_set, cellAt_blit, cellAt_replicate, cellAt_map_some, cellAt_take, cellAt_append, cellAt_drop, cellAt_cons_zero, cellAt_cons, cellAt_nil, List.getElem?_take, true_and, and_true, Nat.sub_zero, Nat.zero_add, Nat.add_zero, Nat.zero_le, Nat.sub_self, Nat.lt_irrefl, Nat.one_ne_zero, false_and, and_false, if_true, if_false]
      have := trivial
      split_ifs <;> first | omega | exact hs4 _ (by omega) | exact ho4 _ (by omega) | exact hraw _ (by omega) | simp [this] | simp | (simp only [false_and, and_false] at *; done)

theorem plus_copy_move_spec (left right : StringType) (hs : Valid left) (ho : Valid right) :
    ∃ p, plus_copy_move left right = some p ∧
      p.2.1 = left ∧
      p.2.2 =
        (if right.m_size = 0 then right
          else if left.m_size = 0 then ⟨none, 0, 0⟩
          else if lookupCapacity (left.m_size + right.m_size) ≤ right.m_capacity
          then ⟨none, 0, 0⟩ else right) ∧
      p.1.m_size = left.m_size + right.m_size ∧
      p.1.m_capacity =
        (if right.m_size = 0 then lookupCapacity left.m_size
          else if left.m_size = 0 then right.m_capacity
          else if lookupCapacity (left.m_size + right.m_size) ≤ right.m_capacity
          then right.m_capacity else lookupCapacity (left.m_size + right.m_size)) ∧
      Valid p.1 ∧ content p.1 = content left ++ content right := by
  by_cases hn : left.m_size = 0
  · have hcl : content left = [] := by simp [content, hn]
    by_cases hm : right.m_size = 0
    · exact ⟨(⟨none, 0, 0⟩, left, right), by simp [plus_copy_move, hn, hm, ctor, null],
        rfl, by simp [hm], by simp [hn, hm], by simp [hn, hm, lookupCapacity_zero], valid_null,
        by simp [content, hn, hm]⟩
    · exact ⟨(right, left, ⟨none, 0, 0⟩), by simp [plus_copy_move, hn, hm, ctor_move],
        rfl, by simp [hn, hm], by simp [hn], by simp [hn, hm], ho, by simp [hcl]⟩
  by_cases hm : right.m_size = 0
  · have hcr : content right = [] := by simp [content, hm]
    obtain ⟨r, h1, h2, h3, h4, h5⟩ := ctor_copy_spec left hs
    exact ⟨(r, left, right), by simp [plus_copy_move, hn, hm, h1],
      rfl, by simp [hm], by simp [hm, h2], by simp [hm, h3], h4, by simp [hcr, h5]⟩
  rcases left with ⟨_ | bs, n, c⟩
  · simp only [valid_none] at hs
    exact absurd hs.1 hn
  simp only [valid_some] at hs
  obtain ⟨rfl, hs2, hs3, hs4⟩ := hs
  simp only at hn
  rcases right with ⟨_ | bo, m, co⟩
  · simp only [valid_none] at ho
    exact absurd ho.1 hm
  simp only [valid_some] at ho
  obtain ⟨rfl, ho2, ho3, ho4⟩ := ho
  simp only at hm
  have hcap := lookupCapacity_gt (n + m) (by omega)
  by_cases hge : lookupCapacity (n + m) ≤ bo.length
  · have hfit : n + m < bo.length := by omega
    simp (disch := first | omega | (simp only [length_blit, List.length_set, List.length_replicate, List.length_map, List.length_take, List.length_append, List.length_drop, List.length_cons, List.length_nil, content, Option.getD_some, Option.getD_none, List.take_nil]; omega)) only [plus_copy_move, assert_assume, assume, bind, Option.bind, newArray, rawBlock, if_true, if_false, std_copy_some, std_copy_empty, std_copy_within_some, std_copy_backward_some, std_fill_some, store_some, ofTriple, ctor, null, ctor_move, ge_iff_le, gt_iff_lt, not_lt, not_le, Nat.add_zero, Nat.zero_add, ne_eq, not_false_eq_true, not_true_eq_false, true_or, or_true, Option.some_ne_none, reduceCtorEq, hn, hm, hcap, hge, hfit, false_and]
    refine ⟨_, rfl, rfl, rfl, rfl, rfl, ?_⟩
    apply mk_spec
    · simp only [length_blit, List.length_set, List.length_replicate, List.length_map, List.length_take, List.length_append, List.length_drop, List.length_cons, List.length_nil, content, Option.getD_some, Option.getD_none, List.take_nil] <;> omega
    · omega
    · simp only [length_blit, List.length_set, List.length_replicate, List.length_map, List.length_take, List.length_append, List.length_drop, List.length_cons, List.length_nil, content, Option.getD_some, Option.getD_none, List.take_nil, cellAt_set, cellAt_blit, cellAt_replicate, cellAt_map_some, cellAt_take, cellAt_append, cellAt_drop, cellAt_cons_zero, cellAt_cons, cellAt_nil, List.getElem?_take, true_and, and_true, Nat.sub_zero, Nat.zero_add, Nat.add_zero, Nat.zero_le, Nat.sub_self, Nat.lt_irrefl, Nat.one_ne_zero, false_and, and_false, if_true, if_false]
      split_ifs <;> first | (with_reducible rfl) | omega | exact hs3 | exact ho3 | (simp only [false_and, and_false] at *; done)
    · simp only [length_blit, List.length_set, List.length_replicate, List.length_map, List.length_take, List.length_append, List.length_drop, List.length_cons, List.length_nil, content, Option.getD_some, Option.getD_none, List.take_nil] <;> omega
    · intro i hi
      skip
      simp only [length_blit, List.length_set, List.length_replicate, List.length_map, List.length_take, List.length_append, List.length_drop, List.length_cons, List.length_nil, content, Option.getD_some, Option.getD_none, List.take_nil, cellAt_set, cellAt_blit, cellAt_replicate, cellAt_map_some, cellAt_take, cellAt_append, cellAt_drop, cellAt_cons_zero, cellAt_cons, cellAt_nil, List.getElem?_take, true_and, and_true, Nat.sub_zero, Nat.zero_add, Nat.add_zero, Nat.zero_le, Nat.sub_self, Nat.lt_irrefl, Nat.one_ne_zero, false_and, and_false, if_true, if_false]
      split_ifs <;> first | (with_reducible rfl) | omega | (congr 1; omega) | (simp only [false_and, and_false] at *; done)
    · intro i hi
      skip
      simp only [length_blit, List.length_set, List.length_replicate, List.length_map, List.length_take, List.length_append, List.length_drop, List.length_cons, List.length_nil, content, Option.getD_some, Option.getD_none, List.take_nil, cellAt_set, cellAt_blit, cellAt_replicate, cellAt_map_some, cellAt_take, cellAt_append, cellAt_drop, cellAt_cons_zero, cellAt_cons, cellAt_nil, List.getElem?_take, true_and, and_true, Nat.sub_zero, Nat.zero_add, Nat.add_zero, Nat.zero_le, Nat.sub_self, Nat.lt_irrefl, Nat.one_ne_zero, false_and, and_false, if_true, if_false]
      have := trivial
      split_ifs <;> first | omega | exact hs4 _ (by omega) | exact ho4 _ (by omega) | exact hraw _ (by omega) | simp [this] | simp | (simp only [false_and, and_false] at *; done)
  · simp (disch := first | omega | (simp only [length_blit, List.length_set, List.length_replicate, List.length_map, List.length_take, List.length_append, List.length_drop, List.length_cons, List.length_nil, content, Option.getD_some, Option.getD_none, List.take_nil]; omega)) only [plus_copy_move, assert_assume, assume, bind, Option.bind, newArray, rawBlock, if_true, if_false, std_copy_some, std_copy_empty, std_copy_within_some, std_copy_backward_some, std_fill_some, store_some, ofTriple, ctor, null, ctor_move, ge_iff_le, gt_iff_lt, not_lt, not_le, Nat.add_zero, Nat.zero_add, ne_eq, not_false_eq_true, not_true_eq_false, true_or, or_true, Option.some_ne_none, reduceCtorEq, hn, hm, hcap, hge, false_and]
    refine ⟨_, rfl, rfl, rfl, rfl, rfl, ?_⟩
    apply mk_spec
    · simp only [length_blit, List.length_set, List.length_replicate, List.length_map, List.length_take, List.length_append, List.length_drop, List.length_cons, List.length_nil, content, Option.getD_some, Option.getD_none, List.take_nil] <;> omega
    · omega
    · simp only [length_blit, List.length_set, List.length_replicate, List.length_map, List.length_take, List.length_append, List.length_drop, List.length_cons, List.length_nil, content, Option.getD_some, Option.getD_none, List.take_nil, cellAt_set, cellAt_blit, cellAt_replicate, cellAt_map_some, cellAt_take, cellAt_append, cellAt_drop, cellAt_cons_zero, cellAt_cons, cellAt_nil, List.getElem?_take, true_and, and_true, Nat.sub_zero, Nat.zero_add, Nat.add_zero, Nat.zero_le, Nat.sub_self, Nat.lt_irrefl, Nat.one_ne_zero, false_and, and_false, if_true, if_false]
      split_ifs <;> first | (with_reducible rfl) | omega | exact hs3 | exact ho3 | (simp only [false_and, and_false] at *; done)
    · simp only [length_blit, List.length_set, List.length_replicate, List.length_map, List.length_take, List.length_append, List.length_drop, List.length_cons, List.length_nil, content, Option.getD_some, Option.getD_none, List.take_nil] <;> omega
    · intro i hi
      skip
      simp only [length_blit, List.length_set, List.length_replicate, List.length_map, List.length_take, List.length_append, List.length_drop, List.length_cons, List.length_nil, content, Option.getD_some, Option.getD_none, List.take_nil, cellAt_set, cellAt_blit, cellAt_replicate, cellAt_map_some, cellAt_take, cellAt_append, cellAt_drop, cellAt_cons_zero, cellAt_cons, cellAt_nil, List.getElem?_take, true_and, and_true, Nat.sub_zero, Nat.zero_add, Nat.add_zero, Nat.zero_le, Nat.sub_self, Nat.lt_irrefl, Nat.one_ne_zero, false_and, and_false, if_true, if_false]
      split_ifs <;> first | (with_reducible rfl) | omega | (congr 1; omega) | (simp only [false_and, and_false] at *; done)
    · intro i hi
      skip
      simp only [length_blit, List.length_set, List.length_replicate, List.length_map, List.length_take, List.length_append, List.length_drop, List.length_cons, List.length_nil, content, Option.getD_some, Option.getD_none, List.take_nil, cellAt_set, cellAt_blit, cellAt_replicate, cellAt_map_some, cellAt_take, cellAt_append, cellAt_drop, cellAt_cons_zero, cellAt_cons, cellAt_nil, List.getElem?_take, true_and, and_true, Nat.sub_zero, Nat.zero_add, Nat.add_zero, Nat.zero_le, Nat.sub_self, Nat.lt_irrefl, Nat.one_ne_zero, false_and, and_false, if_true, if_false]
      have := trivial
      split_ifs <;> first | omega | exact hs4 _ (by omega) | exact ho4 _ (by omega) | exact hraw _ (by omega) | simp [this] | simp | (simp only [false_and, and_false] at *; done)

end StringType

namespace StringType

theorem plus_move_cstring_spec (left : StringType) (cstring : ConstPointer) (L : Nat)
    (hs : Valid left) (hL : cstringSize cstring = some L) :
    ∃ p, plus_move_cstring left cstring = some p ∧
      p.2 =
        (if left.m_size = 0 then left
          else if L = 0 then ⟨none, 0, 0⟩
          else if lookupCapacity (left.m_size + L) ≤ left.m_capacity
          then ⟨none, 0, 0⟩ else left) ∧
      p.1.m_size = left.m_size + L ∧
      p.1.m_capacity =
        (if left.m_size = 0 then lookupCapacity L
          else if L = 0 then left.m_capacity
          else if lookupCapacity (left.m_size + L) ≤ left.m_capacity
          then left.m_capacity else lookupCapacity (left.m_size + L)) ∧
      Valid p.1 ∧ content p.1 = content left ++ (rawContent cstring).map some := by
  by_cases hn : left.m_size = 0
  · have hcl : content left = [] := by simp [content, hn]
    by_cases hm : L = 0
    · have hrc : rawContent cstring = [] := by
        have := rawContent_length cstring L hL
        exact List.length_eq_zero.mp (by omega)
      exact ⟨(⟨none, 0, 0⟩, left), by simp [plus_move_cstring, hL, hn, hm, ctor, null],
        by simp [hn], by simp [hn, hm], by simp [hn, hm, lookupCapacity_zero], valid_null,
        by simp [content, hn, hrc]⟩
    · obtain ⟨r, h1, h2, h3, h4, h5⟩ := ctor_cstring_spec cstring L hL
      exact ⟨(r, left), by simp [plus_move_cstring, hL, hn, hm, h1],
        by simp [hn], by simp [hn, h2], by simp [hn, h3], h4, by simp [hcl, h5]⟩
  by_cases hm : L = 0
  · have hrc : rawContent cstring = [] := by
      have := rawContent_length cstring L hL
      exact List.length_eq_zero.mp (by omega)
    exact ⟨(left, ⟨none, 0, 0⟩), by simp [plus_move_cstring, hL, hn, hm, ctor_move],
      by simp [hn, hm], by simp [hm], by simp [hn, hm], hs, by simp [hrc]⟩
  obtain ⟨hL1, hL2, hL3⟩ := cstringSize_spec cstring L hL
  have hraw := raw_cells cstring L hL
  rw [hL3]
  rcases left with ⟨_ | bs, n, c⟩
  · simp only [valid_none] at hs
    exact absurd hs.1 hn
  simp only [valid_some] at hs
  obtain ⟨rfl, hs2, hs3, hs4⟩ := hs
  simp only at hn
  have hcap := lookupCapacity_gt (n + L) (by omega)
  by_cases hge : lookupCapacity (n + L) ≤ bs.length
  · have hfit : n + L < bs.length := by omega
    simp (disch := first | omega | (simp only [length_blit, List.length_set, List.length_replicate, List.length_map, List.length_take, List.length_append, List.length_drop, List.length_cons, List.length_nil, content, Option.getD_some, Option.getD_none, List.take_nil]; omega)) only [plus_move_cstring, assert_assume, assume, bind, Option.bind, newArray, rawBlock, if_true, if_false, std_copy_some, std_copy_empty, std_copy_within_some, std_copy_backward_some, std_fill_some, store_some, ofTriple, ctor, null, ctor_move, ge_iff_le, gt_iff_lt, not_lt, not_le, Nat.add_zero, Nat.zero_add, ne_eq, not_false_eq_true, not_true_eq_false, true_or, or_true, Option.some_ne_none, reduceCtorEq, hL, hn, hm, hcap, hge, hfit, false_and]
    refine ⟨_, rfl, rfl, rfl, rfl, ?_⟩
    apply mk_spec
    · simp only [length_blit, List.length_set, List.length_replicate, List.length_map, List.length_take, List.length_append, List.length_drop, List.length_cons, List.length_nil, content, Option.getD_some, Option.getD_none, List.take_nil] <;> omega
    · omega
    · simp only [length_blit, List.length_set, List.length_replicate, List.length_map, List.length_take, List.length_append, List.length_drop, List.length_cons, List.length_nil, content, Option.getD_some, Option.getD_none, List.take_nil, cellAt_set, cellAt_blit, cellAt_replicate, cellAt_map_some, cellAt_take, cellAt_append, cellAt_drop, cellAt_cons_zero, cellAt_cons, cellAt_nil, List.getElem?_take, true_and, and_true, Nat.sub_zero, Nat.zero_add, Nat.add_zero, Nat.zero_le, Nat.sub_self, Nat.lt_irrefl, Nat.one_ne_zero, false_and, and_false, if_true, if_false]
      split_ifs <;> first | (with_reducible rfl) | omega | exact hs3 | exact ho3 | (simp only [false_and, and_false] at *; done)
    · simp only [length_blit, List.length_set, List.length_replicate, List.length_map, List.length_take, List.length_append, List.length_drop, List.length_cons, List.length_nil, content, Option.getD_some, Option.getD_none, List.take_nil] <;> omega
    · intro i hi
      skip
      simp only [length_blit, List.length_set, List.length_replicate, List.length_map, List.length_take, List.length_append, List.length_drop, List.length_cons, List.length_nil, content, Option.getD_some, Option.getD_none, List.take_nil, cellAt_set, cellAt_blit, cellAt_replicate, cellAt_map_some, cellAt_take, cellAt_append, cellAt_drop, cellAt_cons_zero, cellAt_cons, cellAt_nil, List.getElem?_take, true_and, and_true, Nat.sub_zero, Nat.zero_add, Nat.add_zero, Nat.zero_le, Nat.sub_self, Nat.lt_irrefl, Nat.one_ne_zero, false_and, and_false, if_true, if_false]
      split_ifs <;> first | (with_reducible rfl) | omega | (congr 1; omega) | (simp only [false_and, and_false] at *; done)
    · intro i hi
      skip
      simp only [length_blit, List.length_set, List.length_replicate, List.length_map, List.length_take, List.length_append, List.length_drop, List.length_cons, List.length_nil, content, Option.getD_some, Option.getD_none, List.take_nil, cellAt_set, cellAt_blit, cellAt_replicate, cellAt_map_some, cellAt_take, cellAt_append, cellAt_drop, cellAt_cons_zero, cellAt_cons, cellAt_nil, List.getElem?_take, true_and, and_true, Nat.sub_zero, Nat.zero_add, Nat.add_zero, Nat.zero_le, Nat.sub_self, Nat.lt_irrefl, Nat.one_ne_zero, false_and, and_false, if_true, if_false]
      have := trivial
      split_ifs <;> first | omega | exact hs4 _ (by omega) | exact ho4 _ (by omega) | exact hraw _ (by omega) | simp [this] | simp | (simp only [false_and, and_false] at *; done)
  · simp (disch := first | omega | (simp only [length_blit, List.length_set, List.length_replicate, List.length_map, List.length_take, List.length_append, List.length_drop, List.length_cons, List.length_nil, content, Option.getD_some, Option.getD_none, List.take_nil]; omega)) only [plus_move_cstring, assert_assume, assume, bind, Option.bind, newArray, rawBlock, if_true, if_false, std_copy_some, std_copy_empty, std_copy_within_some, std_copy_backward_some, std_fill_some, store_some, ofTriple, ctor, null, ctor_move, ge_iff_le, gt_iff_lt, not_lt, not_le, Nat.add_zero, Nat.zero_add, ne_eq, not_false_eq_true, not_true_eq_false, true_or, or_true, Option.some_ne_none, reduceCtorEq, hL, hn, hm, hcap, hge, false_and]
    refine ⟨_, rfl, rfl, rfl, rfl, ?_⟩
    apply mk_spec
    · simp only [length_blit, List.length_set, List.length_replicate, List.length_map, List.length_take, List.length_append, List.length_drop, List.length_cons, List.length_nil, content, Option.getD_some, Option.getD_none, List.take_nil] <;> omega
    · omega
    · simp only [length_blit, List.length_set, List.length_replicate, List.length_map, List.length_take, List.length_append, List.length_drop, List.length_cons, List.length_nil, content, Option.getD_some, Option.getD_none, List.take_nil, cellAt_set, cellAt_blit, cellAt_replicate, cellAt_map_some, cellAt_take, cellAt_append, cellAt_drop, cellAt_cons_zero, cellAt_cons, cellAt_nil, List.getElem?_take, true_and, and_true, Nat.sub_zero, Nat.zero_add, Nat.add_zero, Nat.zero_le, Nat.sub_self, Nat.lt_irrefl, Nat.one_ne_zero, false_and, and_false, if_true, if_false]
      split_ifs <;> first | (with_reducible rfl) | omega | exact hs3 | exact ho3 | (simp only [false_and, and_false] at *; done)
    · simp only [length_blit, List.length_set, List.length_replicate, List.length_map, List.length_take, List.length_append, List.length_drop, List.length_cons, List.length_nil, content, Option.getD_some, Option.getD_none, List.take_nil] <;> omega
    · intro i hi
      skip
      simp only [length_blit, List.length_set, List.length_replicate, List.length_map, List.length_take, List.length_append, List.length_drop, List.length_cons, List.length_nil, content, Option.getD_some, Option.getD_none, List.take_nil, cellAt_set, cellAt_blit, cellAt_replicate, cellAt_map_some, cellAt_take, cellAt_append, cellAt_drop, cellAt_cons_zero, cellAt_cons, cellAt_nil, List.getElem?_take, true_and, and_true, Nat.sub_zero, Nat.zero_add, Nat.add_zero, Nat.zero_le, Nat.sub_self, Nat.lt_irrefl, Nat.one_ne_zero, false_and, and_false, if_true, if_false]
      split_ifs <;> first | (with_reducible rfl) | omega | (congr 1; omega) | (simp only [false_and, and_false] at *; done)
    · intro i hi
      skip
      simp only [length_blit, List.length_set, List.length_replicate, List.length_map, List.length_take, List.length_append, List.length_drop, List.length_cons, List.length_nil, content, Option.getD_some, Option.getD_none, List.take_nil, cellAt_set, cellAt_blit, cellAt_replicate, cellAt_map_some, cellAt_take, cellAt_append, cellAt_drop, cellAt_cons_zero, cellAt_cons, cellAt_nil, List.getElem?_take, true_and, and_true, Nat.sub_zero, Nat.zero_add, Nat.add_zero, Nat.zero_le, Nat.sub_self, Nat.lt_irrefl, Nat.one_ne_zero, false_and, and_false, if_true, if_false]
      have := trivial
      split_ifs <;> first | omega | exact hs4 _ (by omega) | exact ho4 _ (by omega) | exact hraw _ (by omega) | simp [this] | simp | (simp only [false_and, and_false] at *; done)

theorem cstring_plus_move_spec (cstring : ConstPointer) (right : StringType) (L : Nat)
    (ho : Valid right) (hL : cstringSize cstring = some L) :
    ∃ p, cstring_plus_move cstring right = some p ∧
      p.2 =
        (if right.m_size = 0 then right
          else if L = 0 then ⟨none, 0, 0⟩
          else if lookupCapacity (L + right.m_size) ≤ right.m_capacity
          then ⟨none, 0, 0⟩ else right) ∧
      p.1.m_size = L + right.m_size ∧
      p.1.m_capacity =
        (if right.m_size = 0 then lookupCapacity L
          else if L = 0 then right.m_capacity
          else if lookupCapacity (L + right.m_size) ≤ right.m_capacity
          then right.m_capacity else lookupCapacity (L + right.m_size)) ∧
      Valid p.1 ∧ content p.1 = (rawContent cstring).map some ++ content right := by
  by_cases hm : right.m_size = 0
  · have hcr : content right = [] := by simp [content, hm]
    by_cases hn : L = 0
    · have hrc : rawContent cstring = [] := by
        have := rawContent_length cstring L hL
        exact List.length_eq_zero.mp (by omega)
      exact ⟨(⟨none, 0, 0⟩, right), by simp [cstring_plus_move, hL, hn, hm, ctor, null],
        by simp [hm], by simp [hn, hm], by simp [hn, hm, lookupCapacity_zero], valid_null,
        by simp [content, hm, hrc]⟩
    · obtain ⟨r, h1, h2, h3, h4, h5⟩ := ctor_cstring_spec cstring L hL
      exact ⟨(r, right), by simp [cstring_plus_move, hL, hn, hm, h1],
        by simp [hm], by simp [hm, h2], by simp [hm, h3], h4, by simp [hcr, h5]⟩
  by_cases hn : L = 0
  · have hrc : rawContent cstring = [] := by
      have := rawContent_length cstring L hL
      exact List.length_eq_zero.mp (by omega)
    exact ⟨(right, ⟨none, 0, 0⟩), by simp [cstring_plus_move, hL, hn, hm, ctor_move],
      by simp [hn, hm], by simp [hn], by simp [hn, hm], ho, by simp [hrc]⟩
  obtain ⟨hL1, hL2, hL3⟩ := cstringSize_spec cstring L hL
  have hraw := raw_cells cstring L hL
  rw [hL3]
  rcases right with ⟨_ | bo, m, co⟩
  · simp only [valid_none] at ho
    exact absurd ho.1 hm
  simp only [valid_some] at ho
  obtain ⟨rfl, ho2, ho3, ho4⟩ := ho
  simp only at hm
  have hcap := lookupCapacity_gt (L + m) (by omega)
  by_cases hge : lookupCapacity (L + m) ≤ bo.length
  · have hfit : L + m < bo.length := by omega
    simp (disch := first | omega | (simp only [length_blit, List.length_set, List.length_replicate, List.length_map, List.length_take, List.length_append, List.length_drop, List.length_cons, List.length_nil, content, Option.getD_some, Option.getD_none, List.take_nil]; omega)) only [cstring_plus_move, assert_assume, assume, bind, Option.bind, newArray, rawBlock, if_true, if_false, std_copy_some, std_copy_empty, std_copy_within_some, std_copy_backward_some, std_fill_some, store_some, ofTriple, ctor, null, ctor_move, ge_iff_le, gt_iff_lt, not_lt, not_le, Nat.add_zero, Nat.zero_add, ne_eq, not_false_eq_true, not_true_eq_false, true_or, or_true, Option.some_ne_none, reduceCtorEq, hL, hn, hm, hcap, hge, hfit, false_and]
    refine ⟨_, rfl, rfl, rfl, rfl, ?_⟩
    apply mk_spec
    · simp only [length_blit, List.length_set, List.length_replicate, List.length_map, List.length_take, List.length_append, List.length_drop, List.length_cons, List.length_nil, content, Option.getD_some, Option.getD_none, List.take_nil] <;> omega
    · omega
    · simp only [length_blit, List.length_set, List.length_replicate, List.length_map, List.length_take, List.length_append, List.length_drop, List.length_cons, List.length_nil, content, Option.getD_some, Option.getD_none, List.take_nil, cellAt_set, cellAt_blit, cellAt_replicate, cellAt_map_some, cellAt_take, cellAt_append, cellAt_drop, cellAt_cons_zero, cellAt_cons, cellAt_nil, List.getElem?_take, true_and, and_true, Nat.sub_zero, Nat.zero_add, Nat.add_zero, Nat.zero_le, Nat.sub_self, Nat.lt_irrefl, Nat.one_ne_zero, false_and, and_false, if_true, if_false]
      split_ifs <;> first | (with_reducible rfl) | omega | exact hs3 | exact ho3 | (simp only [false_and, and_false] at *; done)
    · simp only [length_blit, List.length_set, List.length_replicate, List.length_map, List.length_take, List.length_append, List.length_drop, List.length_cons, List.length_nil, content, Option.getD_some, Option.getD_none, List.take_nil] <;> omega
    · intro i hi
      skip
      simp only [length_blit, List.length_set, List.length_replicate, List.length_map, List.length_take, List.length_append, List.length_drop, List.length_cons, List.length_nil, content, Option.getD_some, Option.getD_none, List.take_nil, cellAt_set, cellAt_blit, cellAt_replicate, cellAt_map_some, cellAt_take, cellAt_append, cellAt_drop, cellAt_cons_zero, cellAt_cons, cellAt_nil, List.getElem?_take, true_and, and_true, Nat.sub_zero, Nat.zero_add, Nat.add_zero, Nat.zero_le, Nat.sub_self, Nat.lt_irrefl, Nat.one_ne_zero, false_and, and_false, if_true, if_false]
      split_ifs <;> first | (with_reducible rfl) | omega | (congr 1; omega) | (simp only [false_and, and_false] at *; done)
    · intro i hi
      skip
      simp only [length_blit, List.length_set, List.length_replicate, List.length_map, List.length_take, List.length_append, List.length_drop, List.length_cons, List.length_nil, content, Option.getD_some, Option.getD_none, List.take_nil, cellAt_set, cellAt_blit, cellAt_replicate, cellAt_map_some, cellAt_take, cellAt_append, cellAt_drop, cellAt_cons_zero, cellAt_cons, cellAt_nil, List.getElem?_take, true_and, and_true, Nat.sub_zero, Nat.zero_add, Nat.add_zero, Nat.zero_le, Nat.sub_self, Nat.lt_irrefl, Nat.one_ne_zero, false_and, and_false, if_true, if_false]
      have := trivial
      split_ifs <;> first | omega | exact hs4 _ (by omega) | exact ho4 _ (by omega) | exact hraw _ (by omega) | simp [this] | simp | (simp only [false_and, and_false] at *; done)
  · simp (disch := first | omega | (simp only [length_blit, List.length_set, List.length_replicate, List.length_map, List.length_take, List.length_append, List.length_drop, List.length_cons, List.length_nil, content, Option.getD_some, Option.getD_none, List.take_nil]; omega)) only [cstring_plus_move, assert_assume, assume, bind, Option.bind, newArray, rawBlock, if_true, if_false, std_copy_some, std_copy_empty, std_copy_within_some, std_copy_backward_some, std_fill_some, store_some, ofTriple, ctor, null, ctor_move, ge_iff_le, gt_iff_lt, not_lt, not_le, Nat.add_zero, Nat.zero_add, ne_eq, not_false_eq_true, not_true_eq_false, true_or, or_true, Option.some_ne_none, reduceCtorEq, hL, hn, hm, hcap, hge, false_and]
    refine ⟨_, rfl, rfl, rfl, rfl, ?_⟩
    apply mk_spec
    · simp only [length_blit, List.length_set, List.length_replicate, List.length_map, List.length_take, List.length_append, List.length_drop, List.length_cons, List.length_nil, content, Option.getD_some, Option.getD_none, List.take_nil] <;> omega
    · omega
    · simp only [length_blit, List.length_set, List.length_replicate, List.length_map, List.length_take, List.length_append, List.length_drop, List.length_cons, List.length_nil, content, Option.getD_some, Option.getD_none, List.take_nil, cellAt_set, cellAt_blit, cellAt_replicate, cellAt_map_some, cellAt_take, cellAt_append, cellAt_drop, cellAt_cons_zero, cellAt_cons, cellAt_nil, List.getElem?_take, true_and, and_true, Nat.sub_zero, Nat.zero_add, Nat.add_zero, Nat.zero_le, Nat.sub_self, Nat.lt_irrefl, Nat.one_ne_zero, false_and, and_false, if_true, if_false]
      split_ifs <;> first | (with_reducible rfl) | omega | exact hs3 | exact ho3 | (simp only [false_and, and_false] at *; done)
    · simp only [length_blit, List.length_set, List.length_replicate, List.length_map, List.length_take, List.length_append, List.length_drop, List.length_cons, List.length_nil, content, Option.getD_some, Option.getD_none, List.take_nil] <;> omega
    · intro i hi
      skip
      simp only [length_blit, List.length_set, List.length_replicate, List.length_map, List.length_take, List.length_append, List.length_drop, List.length_cons, List.length_nil, content, Option.getD_some, Option.getD_none, List.take_nil, cellAt_set, cellAt_blit, cellAt_replicate, cellAt_map_some, cellAt_take, cellAt_append, cellAt_drop, cellAt_cons_zero, cellAt_cons, cellAt_nil, List.getElem?_take, true_and, and_true, Nat.sub_zero, Nat.zero_add, Nat.add_zero, Nat.zero_le, Nat.sub_self, Nat.lt_irrefl, Nat.one_ne_zero, false_and, and_false, if_true, if_false]
      split_ifs <;> first | (with_reducible rfl) | omega | (congr 1; omega) | (simp only [false_and, and_false] at *; done)
    · intro i hi
      skip
      simp only [length_blit, List.length_set, List.length_replicate, List.length_map, List.length_take, List.length_append, List.length_drop, List.length_cons, List.length_nil, content, Option.getD_some, Option.getD_none, List.take_nil, cellAt_set, cellAt_blit, cellAt_replicate, cellAt_map_some, cellAt_take, cellAt_append, cellAt_drop, cellAt_cons_zero, cellAt_cons, cellAt_nil, List.getElem?_take, true_and, and_true, Nat.sub_zero, Nat.zero_add, Nat.add_zero, Nat.zero_le, Nat.sub_self, Nat.lt_irrefl, Nat.one_ne_zero, false_and, and_false, if_true, if_false]
      have := trivial
      split_ifs <;> first | omega | exact hs4 _ (by omega) | exact ho4 _ (by omega) | exact hraw _ (by omega) | simp [this] | simp | (simp only [false_and, and_false] at *; done)

theorem plus_move_char_spec (left : StringType) (character : ValueType) (hs : Valid left) :
    ∃ p, plus_move_char left character = some p ∧
      p.2 =
        (if left.m_size = 0 then left
          else if lookupCapacity (left.m_size + 1) ≤ left.m_capacity
          then ⟨none, 0, 0⟩ else left) ∧
      p.1.m_size = left.m_size + 1 ∧
      p.1.m_capacity =
        (if left.m_size = 0 then lookupCapacity 1
          else if lookupCapacity (left.m_size + 1) ≤ left.m_capacity
          then left.m_capacity else lookupCapacity (left.m_size + 1)) ∧
      Valid p.1 ∧ content p.1 = content left ++ [some character] := by
  by_cases hn : left.m_size = 0
  · have hcl : content left = [] := by simp [content, hn]
    obtain ⟨r, h1, h2, h3, h4, h5⟩ := ctor_list_spec [character]
    exact ⟨(r, left), by simp [plus_move_char, hn, h1], by simp [hn], by simp [hn, h2],
      by simp [hn, h3], h4, by simp [hcl, h5]⟩
  rcases left with ⟨_ | bs, n, c⟩
  · simp only [valid_none] at hs
    exact absurd hs.1 hn
  simp only [valid_some] at hs
  obtain ⟨rfl, hs2, hs3, hs4⟩ := hs
  simp only at hn
  have hcap := lookupCapacity_gt (n + 1) (by omega)
  by_cases hge : lookupCapacity (n + 1) ≤ bs.length
  · have hfit : n + 1 < bs.length := by omega
    simp (disch := first | omega | (simp only [length_blit, List.length_set, List.length_replicate, List.length_map, List.length_take, List.length_append, List.length_drop, List.length_cons, List.length_nil, content, Option.getD_some, Option.getD_none, List.take_nil]; omega)) only [plus_move_char, assert_assume, assume, bind, Option.bind, newArray, rawBlock, if_true, if_false, std_copy_some, std_copy_empty, std_copy_within_some, std_copy_backward_some, std_fill_some, store_some, ofTriple, ctor, null, ctor_move, ge_iff_le, gt_iff_lt, not_lt, not_le, Nat.add_zero, Nat.zero_add, ne_eq, not_false_eq_true, not_true_eq_false, true_or, or_true, Option.some_ne_none, reduceCtorEq, hn, hcap, hge, hfit]
    refine ⟨_, rfl, rfl, rfl, rfl, ?_⟩
    apply mk_spec
    · simp only [length_blit, List.length_set, List.length_replicate, List.length_map, List.length_take, List.length_append, List.length_drop, List.length_cons, List.length_nil, content, Option.getD_some, Option.getD_none, List.take_nil] <;> omega
    · omega
    · simp only [length_blit, List.length_set, List.length_replicate, List.length_map, List.length_take, List.length_append, List.length_drop, List.length_cons, List.length_nil, content, Option.getD_some, Option.getD_none, List.take_nil, cellAt_set, cellAt_blit, cellAt_replicate, cellAt_map_some, cellAt_take, cellAt_append, cellAt_drop, cellAt_cons_zero, cellAt_cons, cellAt_nil, List.getElem?_take, true_and, and_true, Nat.sub_zero, Nat.zero_add, Nat.add_zero, Nat.zero_le, Nat.sub_self, Nat.lt_irrefl, Nat.one_ne_zero, false_and, and_false, if_true, if_false]
      split_ifs <;> first | (with_reducible rfl) | omega | exact hs3 | exact ho3 | (simp only [false_and, and_false] at *; done)
    · simp only [length_blit, List.length_set, List.length_replicate, List.length_map, List.length_take, List.length_append, List.length_drop, List.length_cons, List.length_nil, content, Option.getD_some, Option.getD_none, List.take_nil] <;> omega
    · intro i hi
      skip
      simp only [length_blit, List.length_set, List.length_replicate, List.length_map, List.length_take, List.length_append, List.length_drop, List.length_cons, List.length_nil, content, Option.getD_some, Option.getD_none, List.take_nil, cellAt_set, cellAt_blit, cellAt_replicate, cellAt_map_some, cellAt_take, cellAt_append, cellAt_drop, cellAt_cons_zero, cellAt_cons, cellAt_nil, List.getElem?_take, true_and, and_true, Nat.sub_zero, Nat.zero_add, Nat.add_zero, Nat.zero_le, Nat.sub_self, Nat.lt_irrefl, Nat.one_ne_zero, false_and, and_false, if_true, if_false]
      split_ifs <;> first | (with_reducible rfl) | omega | (congr 1; omega) | (simp only [false_and, and_false] at *; done)
    · intro i hi
      skip
      simp only [length_blit, List.length_set, List.length_replicate, List.length_map, List.length_take, List.length_append, List.length_drop, List.length_cons, List.length_nil, content, Option.getD_some, Option.getD_none, List.take_nil, cellAt_set, cellAt_blit, cellAt_replicate, cellAt_map_some, cellAt_take, cellAt_append, cellAt_drop, cellAt_cons_zero, cellAt_cons, cellAt_nil, List.getElem?_take, true_and, and_true, Nat.sub_zero, Nat.zero_add, Nat.add_zero, Nat.zero_le, Nat.sub_self, Nat.lt_irrefl, Nat.one_ne_zero, false_and, and_false, if_true, if_false]
      have := trivial
      split_ifs <;> first | omega | exact hs4 _ (by omega) | exact ho4 _ (by omega) | exact hraw _ (by omega) | simp [this] | simp | (simp only [false_and, and_false] at *; done)
  · simp (disch := first | omega | (simp only [length_blit, List.length_set, List.length_replicate, List.length_map, List.length_take, List.length_append, List.length_drop, List.length_cons, List.length_nil, content, Option.getD_some, Option.getD_none, List.take_nil]; omega)) only [plus_move_char, assert_assume, assume, bind, Option.bind, newArray, rawBlock, if_true, if_false, std_copy_some, std_copy_empty, std_copy_within_some, std_copy_backward_some, std_fill_some, store_some, ofTriple, ctor, null, ctor_move, ge_iff_le, gt_iff_lt, not_lt, not_le, Nat.add_zero, Nat.zero_add, ne_eq, not_false_eq_true, not_true_eq_false, true_or, or_true, Option.some_ne_none, reduceCtorEq, hn, hcap, hge]
    refine ⟨_, rfl, rfl, rfl, rfl, ?_⟩
    apply mk_spec
    · simp only [length_blit, List.length_set, List.length_replicate, List.length_map, List.length_take, List.length_append, List.length_drop, List.length_cons, List.length_nil, content, Option.getD_some, Option.getD_none, List.take_nil] <;> omega
    · omega
    · simp only [length_blit, List.length_set, List.length_replicate, List.length_map, List.length_take, List.length_append, List.length_drop, List.length_cons, List.length_nil, content, Option.getD_some, Option.getD_none, List.take_nil, cellAt_set, cellAt_blit, cellAt_replicate, cellAt_map_some, cellAt_take, cellAt_append, cellAt_drop, cellAt_cons_zero, cellAt_cons, cellAt_nil, List.getElem?_take, true_and, and_true, Nat.sub_zero, Nat.zero_add, Nat.add_zero, Nat.zero_le, Nat.sub_self, Nat.lt_irrefl, Nat.one_ne_zero, false_and, and_false, if_true, if_false]
      split_ifs <;> first | (with_reducible rfl) | omega | exact hs3 | exact ho3 | (simp only [false_and, and_false] at *; done)
    · simp only [length_blit, List.length_set, List.length_replicate, List.length_map, List.length_take, List.length_append, List.length_drop, List.length_cons, List.length_nil, content, Option.getD_some, Option.getD_none, List.take_nil] <;> omega
    · intro i hi
      skip
      simp only [length_blit, List.length_set, List.length_replicate, List.length_map, List.length_take, List.length_append, List.length_drop, List.length_cons, List.length_nil, content, Option.getD_some, Option.getD_none, List.take_nil, cellAt_set, cellAt_blit, cellAt_replicate, cellAt_map_some, cellAt_take, cellAt_append, cellAt_drop, cellAt_cons_zero, cellAt_cons, cellAt_nil, List.getElem?_take, true_and, and_true, Nat.sub_zero, Nat.zero_add, Nat.add_zero, Nat.zero_le, Nat.sub_self, Nat.lt_irrefl, Nat.one_ne_zero, false_and, and_false, if_true, if_false]
      split_ifs <;> first | (with_reducible rfl) | omega | (congr 1; omega) | (simp only [false_and, and_false] at *; done)
    · intro i hi
      skip
      simp only [length_blit, List.length_set, List.length_replicate, List.length_map, List.length_take, List.length_append, List.length_drop, List.length_cons, List.length_nil, content, Option.getD_some, Option.getD_none, List.take_nil, cellAt_set, cellAt_blit, cellAt_replicate, cellAt_map_some, cellAt_take, cellAt_append, cellAt_drop, cellAt_cons_zero, cellAt_cons, cellAt_nil, List.getElem?_take, true_and, and_true, Nat.sub_zero, Nat.zero_add, Nat.add_zero, Nat.zero_le, Nat.sub_self, Nat.lt_irrefl, Nat.one_ne_zero, false_and, and_false, if_true, if_false]
      have := trivial
      split_ifs <;> first | omega | exact hs4 _ (by omega) | exact ho4 _ (by omega) | exact hraw _ (by omega) | simp [this] | simp | (simp only [false_and, and_false] at *; done)

theorem char_plus_move_spec (character : ValueType) (right : StringType) (ho : Valid right) :
    ∃ p, char_plus_move character right = some p ∧
      p.2 =
        (if right.m_size = 0 then right
          else if lookupCapacity (1 + right.m_size) ≤ right.m_capacity
          then ⟨none, 0, 0⟩ else right) ∧
      p.1.m_size = 1 + right.m_size ∧
      p.1.m_capacity =
        (if right.m_size = 0 then lookupCapacity 1
          else if lookupCapacity (1 + right.m_size) ≤ right.m_capacity
          then right.m_capacity else lookupCapacity (1 + right.m_size)) ∧
      Valid p.1 ∧ content p.1 = [some character] ++ content right := by
  by_cases hm : right.m_size = 0
  · have hcr : content right = [] := by simp [content, hm]
    obtain ⟨r, h1, h2, h3, h4, h5⟩ := ctor_list_spec [character]
    exact ⟨(r, right), by simp [char_plus_move, hm, h1], by simp [hm], by simp [hm, h2],
      by simp [hm, h3], h4, by simp [hcr, h5]⟩
  rcases right with ⟨_ | bo, m, co⟩
  · simp only [valid_none] at ho
    exact absurd ho.1 hm
  simp only [valid_some] at ho
  obtain ⟨rfl, ho2, ho3, ho4⟩ := ho
  simp only at hm
  have hcap := lookupCapacity_gt (1 + m) (by omega)
  by_cases hge : lookupCapacity (1 + m) ≤ bo.length
  · have hfit : 1 + m < bo.length := by omega
    simp (disch := first | omega | (simp only [length_blit, List.length_set, List.length_replicate, List.length_map, List.length_take, List.length_append, List.length_drop, List.length_cons, List.length_nil, content, Option.getD_some, Option.getD_none, List.take_nil]; omega)) only [char_plus_move, assert_assume, assume, bind, Option.bind, newArray, rawBlock, if_true, if_false, std_copy_some, std_copy_empty, std_copy_within_some, std_copy_backward_some, std_fill_some, store_some, ofTriple, ctor, null, ctor_move, ge_iff_le, gt_iff_lt, not_lt, not_le, Nat.add_zero, Nat.zero_add, ne_eq, not_false_eq_true, not_true_eq_false, true_or, or_true, Option.some_ne_none, reduceCtorEq, hm, hcap, hge, hfit]
    refine ⟨_, rfl, rfl, rfl, rfl, ?_⟩
    apply mk_spec
    · simp only [length_blit, List.length_set, List.length_replicate, List.length_map, List.length_take, List.length_append, List.length_drop, List.length_cons, List.length_nil, content, Option.getD_some, Option.getD_none, List.take_nil] <;> omega
    · omega
    · simp only [length_blit, List.length_set, List.length_replicate, List.length_map, List.length_take, List.length_append, List.length_drop, List.length_cons, List.length_nil, content, Option.getD_some, Option.getD_none, List.take_nil, cellAt_set, cellAt_blit, cellAt_replicate, cellAt_map_some, cellAt_take, cellAt_append, cellAt_drop, cellAt_cons_zero, cellAt_cons, cellAt_nil, List.getElem?_take, true_and, and_true, Nat.sub_zero, Nat.zero_add, Nat.add_zero, Nat.zero_le, Nat.sub_self, Nat.lt_irrefl, Nat.one_ne_zero, false_and, and_false, if_true, if_false]
      split_ifs <;> first | (with_reducible rfl) | omega | exact hs3 | exact ho3 | (simp only [false_and, and_false] at *; done)
    · simp only [length_blit, List.length_set, List.length_replicate, List.length_map, List.length_take, List.length_append, List.length_drop, List.length_cons, List.length_nil, content, Option.getD_some, Option.getD_none, List.take_nil] <;> omega
    · intro i hi
      skip
      simp only [length_blit, List.length_set, List.length_replicate, List.length_map, List.length_take, List.length_append, List.length_drop, List.length_cons, List.length_nil, content, Option.getD_some, Option.getD_none, List.take_nil, cellAt_set, cellAt_blit, cellAt_replicate, cellAt_map_some, cellAt_take, cellAt_append, cellAt_drop, cellAt_cons_zero, cellAt_cons, cellAt_nil, List.getElem?_take, true_and, and_true, Nat.sub_zero, Nat.zero_add, Nat.add_zero, Nat.zero_le, Nat.sub_self, Nat.lt_irrefl, Nat.one_ne_zero, false_and, and_false, if_true, if_false]
      split_ifs <;> first | (with_reducible rfl) | omega | (congr 1; omega) | (simp only [false_and, and_false] at *; done)
    · intro i hi
      skip
      simp only [length_blit, List.length_set, List.length_replicate, List.length_map, List.length_take, List.length_append, List.length_drop, List.length_cons, List.length_nil, content, Option.getD_some, Option.getD_none, List.take_nil, cellAt_set, cellAt_blit, cellAt_replicate, cellAt_map_some, cellAt_take, cellAt_append, cellAt_drop, cellAt_cons_zero, cellAt_cons, cellAt_nil, List.getElem?_take, true_and, and_true, Nat.sub_zero, Nat.zero_add, Nat.add_zero, Nat.zero_le, Nat.sub_self, Nat.lt_irrefl, Nat.one_ne_zero, false_and, and_false, if_true, if_false]
      have := trivial
      split_ifs <;> first | omega | exact hs4 _ (by omega) | exact ho4 _ (by omega) | exact hraw _ (by omega) | simp [this] | simp | (simp only [false_and, and_false] at *; done)
  · simp (disch := first | omega | (simp only [length_blit, List.length_set, List.length_replicate, List.length_map, List.length_take, List.length_append, List.length_drop, List.length_cons, List.length_nil, content, Option.getD_some, Option.getD_none, List.take_nil]; omega)) only [char_plus_move, assert_assume, assume, bind, Option.bind, newArray, rawBlock, if_true, if_false, std_copy_some, std_copy_empty, std_copy_within_some, std_copy_backward_some, std_fill_some, store_some, ofTriple, ctor, null, ctor_move, ge_iff_le, gt_iff_lt, not_lt, not_le, Nat.add_zero, Nat.zero_add, ne_eq, not_false_eq_true, not_true_eq_false, true_or, or_true, Option.some_ne_none, reduceCtorEq, hm, hcap, hge]
    refine ⟨_, rfl, rfl, rfl, rfl, ?_⟩
    apply mk_spec
    · simp only [length_blit, List.length_set, List.length_replicate, List.length_map, List.length_take, List.length_append, List.length_drop, List.length_cons, List.length_nil, content, Option.getD_some, Option.getD_none, List.take_nil] <;> omega
    · omega
    · simp only [length_blit, List.length_set, List.length_replicate, List.length_map, List.length_take, List.length_append, List.length_drop, List.length_cons, List.length_nil, content, Option.getD_some, Option.getD_none, List.take_nil, cellAt_set, cellAt_blit, cellAt_replicate, cellAt_map_some, cellAt_take, cellAt_append, cellAt_drop, cellAt_cons_zero, cellAt_cons, cellAt_nil, List.getElem?_take, true_and, and_true, Nat.sub_zero, Nat.zero_add, Nat.add_zero, Nat.zero_le, Nat.sub_self, Nat.lt_irrefl, Nat.one_ne_zero, false_and, and_false, if_true, if_false]
      split_ifs <;> first | (with_reducible rfl) | omega | exact hs3 | exact ho3 | (simp only [false_and, and_false] at *; done)
    · simp only [length_blit, List.length_set, List.length_replicate, List.length_map, List.length_take, List.length_append, List.length_drop, List.length_cons, List.length_nil, content, Option.getD_some, Option.getD_none, List.take_nil] <;> omega
    · intro i hi
      skip
      simp only [length_blit, List.length_set, List.length_replicate, List.length_map, List.length_take, List.length_append, List.length_drop, List.length_cons, List.length_nil, content, Option.getD_some, Option.getD_none, List.take_nil, cellAt_set, cellAt_blit, cellAt_replicate, cellAt_map_some, cellAt_take, cellAt_append, cellAt_drop, cellAt_cons_zero, cellAt_cons, cellAt_nil, List.getElem?_take, true_and, and_true, Nat.sub_zero, Nat.zero_add, Nat.add_zero, Nat.zero_le, Nat.sub_self, Nat.lt_irrefl, Nat.one_ne_zero, false_and, and_false, if_true, if_false]
      split_ifs <;> first | (with_reducible rfl) | omega | (congr 1; omega) | (simp only [false_and, and_false] at *; done)
    · intro i hi
      skip
      simp only [length_blit, List.length_set, List.length_replicate, List.length_map, List.length_take, List.length_append, List.length_drop, List.length_cons, List.length_nil, content, Option.getD_some, Option.getD_none, List.take_nil, cellAt_set, cellAt_blit, cellAt_replicate, cellAt_map_some, cellAt_take, cellAt_append, cellAt_drop, cellAt_cons_zero, cellAt_cons, cellAt_nil, List.getElem?_take, true_and, and_true, Nat.sub_zero, Nat.zero_add, Nat.add_zero, Nat.zero_le, Nat.sub_self, Nat.lt_irrefl, Nat.one_ne_zero, false_and, and_false, if_true, if_false]
      have := trivial
      split_ifs <;> first | omega | exact hs4 _ (by omega) | exact ho4 _ (by omega) | exact hraw _ (by omega) | simp [this] | simp | (simp only [false_and, and_false] at *; done)

end StringType


/-! ## Comparison -/

theorem load_some (b : Block) (i : Nat) : load (some b) i = cellAt b i := by
  simp only [load, cellAt]
  rcases hb : b[i]? with _ | _ | v <;> simp

namespace StringType

theorem units_length (s : StringType) : (units s).length = s.m_size := by
  simp [units]

theorem load_eq_units (s : StringType) (hs : Valid s) (i : Nat) (hi : i < s.m_size) :
    load s.m_data i = (units s)[i]? := by
  rcases s with ⟨_ | bs, n, c⟩
  · simp only [valid_none] at hs
    simp only [hs.1] at hi
    omega
  simp only [valid_some] at hs
  obtain ⟨rfl, hs2, hs3, hs4⟩ := hs
  simp only at hi
  have h := hs4 i hi
  simp only [units, List.getElem?_map, List.getElem?_range hi, Option.map_some', load_some]
  cases hc : cellAt bs i with
  | none => exact absurd hc h
  | some v => rfl

theorem get_eq_units (s : StringType) (hs : Valid s) (i : Nat) (hi : i < s.m_size) :
    get s i = (units s)[i]? := by
  rw [← load_eq_units s hs i hi]
  simp [get, assert_assume, hi]

theorem content_eq_units (s : StringType) (hs : Valid s) :
    content s = (units s).map some := by
  apply List.ext_getElem?
  intro i
  rcases s with ⟨_ | bs, n, c⟩
  · simp only [valid_none] at hs
    obtain ⟨rfl, rfl⟩ := hs
    simp [content, units]
  simp only [valid_some] at hs
  obtain ⟨rfl, hs2, hs3, hs4⟩ := hs
  by_cases hi : i < n
  · have h := load_eq_units ⟨some bs, n, bs.length⟩
      ((valid_some bs n bs.length).mpr ⟨rfl, hs2, hs3, hs4⟩) i hi
    simp only [load_some] at h
    simp only [content, Option.getD_some, List.getElem?_take, hi, if_true, List.getElem?_map, ← h]
    rw [getElem?_eq_cellAt, if_pos (by omega)]
    cases hc : cellAt bs i with
    | none => exact absurd hc (hs4 i hi)
    | some v => rfl
  · have h1 : (List.take n bs).length ≤ i := by simp; omega
    have h2 : ((units ⟨some bs, n, bs.length⟩).map some).length ≤ i := by
      simp [units_length]; omega
    simp only [content, Option.getD_some]
    rw [List.getElem?_eq_none h1, List.getElem?_eq_none h2]

theorem units_of_content (s : StringType) (hs : Valid s) (l : List ValueType)
    (h : content s = l.map some) : units s = l := by
  rw [content_eq_units s hs] at h
  exact List.map_injective_iff.mpr (Option.some_injective _) h

end StringType

theorem drop_eq_cons {α : Type} (l : List α) (i : Nat) (x : α) (h : l[i]? = some x) :
    l.drop i = x :: l.drop (i + 1) := by
  have hi : i < l.length := by
    by_contra hc
    rw [List.getElem?_eq_none (by omega)] at h
    cases h
  rw [List.getElem?_eq_getElem hi] at h
  cases h
  exact List.drop_eq_getElem_cons hi

namespace StringType

theorem compareLoop_spec (a b : StringType) (ha : Valid a) (hb : Valid b) (n : Nat) :
    ∀ i, i + n = min a.m_size b.m_size →
      compareLoop a b i n = some (threeWay ((units a).drop i) ((units b).drop i)) := by
  induction n with
  | zero =>
    intro i hi
    simp only [compareLoop, compareTail]
    have hla := units_length a
    have hlb := units_length b
    by_cases h1 : a.m_size < b.m_size
    · have e1 : (units a).drop i = [] := List.drop_eq_nil_of_le (by omega)
      obtain ⟨y, hy⟩ : ∃ y, (units b)[i]? = some y :=
        ⟨_, List.getElem?_eq_getElem (by omega)⟩
      rw [e1, drop_eq_cons _ _ _ hy]
      simp [h1, threeWay]
    · by_cases h2 : a.m_size > b.m_size
      · have e2 : (units b).drop i = [] := List.drop_eq_nil_of_le (by omega)
        obtain ⟨x, hx⟩ : ∃ x, (units a)[i]? = some x :=
          ⟨_, List.getElem?_eq_getElem (by omega)⟩
        rw [e2, drop_eq_cons _ _ _ hx]
        simp [h1, h2, threeWay]
      · have e1 : (units a).drop i = [] := List.drop_eq_nil_of_le (by omega)
        have e2 : (units b).drop i = [] := List.drop_eq_nil_of_le (by omega)
        rw [e1, e2]
        simp [h1, h2, threeWay]
  | succ n ih =>
    intro i hi
    have hia : i < a.m_size := by omega
    have hib : i < b.m_size := by omega
    obtain ⟨x, hx⟩ : ∃ x, (units a)[i]? = some x :=
      ⟨_, List.getElem?_eq_getElem (by rw [units_length]; omega)⟩
    obtain ⟨y, hy⟩ : ∃ y, (units b)[i]? = some y :=
      ⟨_, List.getElem?_eq_getElem (by rw [units_length]; omega)⟩
    rw [drop_eq_cons _ _ _ hx, drop_eq_cons _ _ _ hy]
    simp only [compareLoop, load_eq_units a ha i hia, load_eq_units b hb i hib, hx, hy, bind,
      Option.bind, threeWay]
    by_cases h1 : x < y
    · simp [h1]
    · by_cases h2 : x > y
      · simp [h1, h2]
      · simp only [h1, h2, if_false]
        exact ih (i + 1) (by omega)

theorem compare_spec (a b : StringType) (ha : Valid a) (hb : Valid b) :
    compare a b = some (threeWay (units a) (units b)) := by
  have := compareLoop_spec a b ha hb (min a.m_size b.m_size) 0 (by omega)
  simpa [compare] using this

end StringType


theorem raw_get (cstring : ConstPointer) (L : Nat) (hL : cstringSize cstring = some L)
    (j : Nat) (hj : j < L) :
    ∃ v, cstring[j]? = some v ∧ v ≠ NUL_TERMINATION ∧ (rawContent cstring)[j]? = some v := by
  obtain ⟨h1, h2, h3⟩ := cstringSize_spec cstring L hL
  have hv : cstring[j]? = some cstring[j] := List.getElem?_eq_getElem (by omega)
  have hr : (rawContent cstring)[j]? = some cstring[j] := by
    rw [h3, List.getElem?_take, if_pos hj, hv]
  exact ⟨_, hv, rawContent_ne_nul cstring j _ hr, hr⟩

namespace StringType

theorem compareCStringLoop_spec (a : StringType) (cstring : ConstPointer) (L : Nat)
    (ha : Valid a) (hL : cstringSize cstring = some L) (n : Nat) :
    ∀ i, i + n = a.m_size → i ≤ L →
      compareCStringLoop a cstring i n =
        some (threeWay ((units a).drop i) ((rawContent cstring).drop i)) := by
  obtain ⟨h1, h2, h3⟩ := cstringSize_spec cstring L hL
  have hlen := rawContent_length cstring L hL
  have hla := units_length a
  induction n with
  | zero =>
    intro i hi hiL
    have e1 : (units a).drop i = [] := List.drop_eq_nil_of_le (by omega)
    by_cases hlt : i < L
    · obtain ⟨v, hv1, hv2, hv3⟩ := raw_get cstring L hL i hlt
      rw [e1, drop_eq_cons _ _ _ hv3]
      simp [compareCStringLoop, compareCStringTail, hv1, hv2, threeWay]
    · have hiL' : i = L := by omega
      subst hiL'
      have e2 : (rawContent cstring).drop i = [] := List.drop_eq_nil_of_le (by omega)
      have hge : ¬ a.m_size > i := by omega
      rw [e1, e2]
      simp [compareCStringLoop, compareCStringTail, h2, hge, threeWay]
  | succ n ih =>
    intro i hi hiL
    have hia : i < a.m_size := by omega
    obtain ⟨x, hx⟩ : ∃ x, (units a)[i]? = some x :=
      ⟨_, List.getElem?_eq_getElem (by omega)⟩
    by_cases hlt : i < L
    · obtain ⟨v, hv1, hv2, hv3⟩ := raw_get cstring L hL i hlt
      rw [drop_eq_cons _ _ _ hx, drop_eq_cons _ _ _ hv3]
      simp only [compareCStringLoop, hv1, bind, Option.bind, hv2, if_false,
        load_eq_units a ha i hia, hx, threeWay]
      by_cases c1 : x < v
      · simp [c1]
      · by_cases c2 : x > v
        · simp [c1, c2]
        · simp only [c1, c2, if_false]
          exact ih (i + 1) (by omega) (by omega)
    · have hiL' : i = L := by omega
      subst hiL'
      have e2 : (rawContent cstring).drop i = [] := List.drop_eq_nil_of_le (by omega)
      rw [drop_eq_cons _ _ _ hx, e2]
      simp [compareCStringLoop, compareCStringTail, h2, hia, threeWay]

theorem compare_cstring_spec (a : StringType) (cstring : ConstPointer) (L : Nat)
    (ha : Valid a) (hL : cstringSize cstring = some L) :
    compare_cstring a cstring = some (threeWay (units a) (rawContent cstring)) := by
  have := compareCStringLoop_spec a cstring L ha hL a.m_size 0 (by omega) (by omega)
  simpa [compare_cstring] using this

end StringType


theorem threeWay_range (xs ys : List ValueType) :
    threeWay xs ys = -1 ∨ threeWay xs ys = 0 ∨ threeWay xs ys = 1 := by
  induction xs generalizing ys with
  | nil => cases ys <;> simp [threeWay]
  | cons x xs ih =>
    cases ys with
    | nil => simp [threeWay]
    | cons y ys =>
      simp only [threeWay]
      split_ifs
      · simp
      · simp
      · exact ih ys

theorem threeWay_cases (xs ys : List ValueType) :
    (∃ i x y, i < min xs.length ys.length ∧ xs[i]? = some x ∧ ys[i]? = some y ∧ x ≠ y ∧
        (∀ j, j < i → xs[j]? = ys[j]?) ∧ threeWay xs ys = (if x < y then -1 else 1)) ∨
      ((∀ j, j < min xs.length ys.length → xs[j]? = ys[j]?) ∧
        threeWay xs ys =
          (if xs.length < ys.length then -1 else if xs.length > ys.length then 1 else 0)) := by
  induction xs generalizing ys with
  | nil =>
    right
    cases ys with
    | nil => simp [threeWay]
    | cons y ys => simp [threeWay]
  | cons x xs ih =>
    cases ys with
    | nil =>
      right
      simp [threeWay]
    | cons y ys =>
      by_cases hxy : x = y
      · subst hxy
        have hstep : threeWay (x :: xs) (x :: ys) = threeWay xs ys := by
          simp [threeWay]
        rcases ih ys with ⟨i, a, b, hi, h1, h2, h3, h4, h5⟩ | ⟨h1, h2⟩
        · left
          refine ⟨i + 1, a, b, by simp; omega, by simpa using h1, by simpa using h2, h3, ?_, ?_⟩
          · intro j hj
            cases j with
            | zero => simp
            | succ j => simpa using h4 j (by omega)
          · rw [hstep, h5]
        · right
          refine ⟨?_, ?_⟩
          · intro j hj
            cases j with
            | zero => simp
            | succ j =>
              simp only [List.length_cons] at hj
              simpa using h1 j (by omega)
          · rw [hstep, h2]
            simp only [List.length_cons, Nat.add_lt_add_iff_right, gt_iff_lt]
      · left
        refine ⟨0, x, y, by simp, by simp, by simp, hxy, fun j hj => absurd hj (Nat.not_lt_zero j),
          ?_⟩
        simp only [threeWay]
        by_cases hlt : x < y
        · simp [hlt]
        · have hgt : x > y := lt_of_le_of_ne (not_lt.mp hlt) (Ne.symm hxy)
          simp [hlt, hgt]

namespace StringType

/-! ## Every operation that returns preserves the representation invariant -/

theorem valid_eta (s : StringType) (hs : Valid s) :
    Valid ⟨s.m_data, s.m_size, s.m_capacity⟩ := hs

theorem valid_of_no_capacity (s : StringType) (hs : Valid s) (h : ¬ 0 < s.m_capacity) :
    s.m_data = none := by
  rcases s with ⟨_ | bs, n, c⟩
  · rfl
  · simp only [valid_some] at hs
    simp only at h
    omega

theorem ctor_list_valid (list : List ValueType) (r : StringType) 
    (h : ctor_list list = some r) : Valid r := by
  obtain ⟨r0, h1, _, _, h4, _⟩ := ctor_list_spec list
  rw [h1] at h
  cases h
  exact h4

theorem ctor_fill_valid (character : ValueType) (size : Nat) (r : StringType) 
    (h : ctor_fill character size = some r) : Valid r := by
  obtain ⟨r0, h1, _, _, h4, _⟩ := ctor_fill_spec character size
  rw [h1] at h
  cases h
  exact h4

theorem ctor_cstring_valid (cstring : ConstPointer) (r : StringType) 
    (h : ctor_cstring cstring = some r) : Valid r := by
  cases hL : cstringSize cstring with
  | none => simp [ctor_cstring, assert_assume, bind, hL] at h
  | some L =>
    obtain ⟨r0, h1, _, _, h4, _⟩ := ctor_cstring_spec cstring L hL
    rw [h1] at h
    cases h
    exact h4

theorem ctor_copy_valid (object : StringType) (r : StringType) (ho : Valid object)
    (h : ctor_copy object = some r) : Valid r := by
  obtain ⟨r0, h1, _, _, h4, _⟩ := ctor_copy_spec object ho
  rw [h1] at h
  cases h
  exact h4

theorem assign_char_valid (self : StringType) (character : ValueType) (r : StringType) (hs : Valid self)
    (h : assign_char self character = some r) : Valid r := by
  obtain ⟨r0, h1, _, _, h4, _⟩ := assign_char_spec self character hs
  rw [h1] at h
  cases h
  exact h4

theorem assign_cstring_valid (self : StringType) (cstring : ConstPointer) (r : StringType) (hs : Valid self)
    (h : assign_cstring self cstring = some r) : Valid r := by
  cases hL : cstringSize cstring with
  | none => simp [assign_cstring, assert_assume, bind, hL] at h
  | some L =>
    obtain ⟨r0, h1, _, _, h4, _⟩ := assign_cstring_spec self cstring L hs hL
    rw [h1] at h
    cases h
    exact h4

theorem assign_copy_valid (self object : StringType) (r : StringType) (hs : Valid self) (ho : Valid object)
    (h : assign_copy self object = some r) : Valid r := by
  obtain ⟨r0, h1, _, _, h4, _⟩ := assign_copy_spec self object hs ho
  rw [h1] at h
  cases h
  exact h4

theorem reserve_valid (self : StringType) (size : Nat) (r : StringType) (hs : Valid self)
    (h : reserve self size = some r) : Valid r := by
  by_cases hp0 : 0 < size
  swap
  · exfalso
    have hz : size = 0 := by omega
    subst hz
    simp [reserve, assume, bind, lookupCapacity_zero] at h
  obtain ⟨r0, h1, _, _, h4, _⟩ := reserve_spec self size hs hp0
  rw [h1] at h
  cases h
  exact h4

theorem shrink_valid (self : StringType) (r : StringType) (hs : Valid self)
    (h : shrink self = some r) : Valid r := by
  obtain ⟨r0, h1, _, _, h4, _⟩ := shrink_spec self hs
  rw [h1] at h
  cases h
  exact h4

theorem set_valid (self : StringType) (index : Nat) (v : ValueType) (r : StringType) (hs : Valid self)
    (h : set self index v = some r) : Valid r := by
  by_cases hp0 : index < self.m_size
  swap
  · exfalso
    simp [set, assert_assume, assume, bind, hp0] at h
  obtain ⟨r0, h1, _, _, h4, _⟩ := set_spec self index v hs hp0
  rw [h1] at h
  cases h
  exact h4

theorem set_front_valid (self : StringType) (v : ValueType) (r : StringType) (hs : Valid self)
    (h : set_front self v = some r) : Valid r := by
  by_cases hp0 : 0 < self.m_size
  swap
  · exfalso
    have hz : self.m_size = 0 := by omega
    simp [set_front, assert_assume, bind, hz] at h
  obtain ⟨r0, h1, _, _, h4, _⟩ := set_front_spec self v hs hp0
  rw [h1] at h
  cases h
  exact h4

theorem set_back_valid (self : StringType) (v : ValueType) (r : StringType) (hs : Valid self)
    (h : set_back self v = some r) : Valid r := by
  by_cases hp0 : 0 < self.m_size
  swap
  · exfalso
    have hz : self.m_size = 0 := by omega
    simp [set_back, assert_assume, bind, hz] at h
  obtain ⟨r0, h1, _, _, h4, _⟩ := set_back_spec self v hs hp0
  rw [h1] at h
  cases h
  exact h4

theorem clear_valid (self : StringType) (r : StringType) (hs : Valid self)
    (h : clear self = some r) : Valid r := by
  obtain ⟨r0, h1, _, _, h4, _⟩ := clear_spec self hs
  rw [h1] at h
  cases h
  exact h4

theorem popback_valid (self : StringType) (count : Nat) (r : StringType) (hs : Valid self)
    (h : popback self count = some r) : Valid r := by
  by_cases hp0 : count ≤ self.m_size
  swap
  · exfalso
    simp [popback, assert_assume, assume, bind, hp0] at h
  by_cases hp1 : 0 < self.m_capacity
  swap
  · exfalso
    have hd := valid_of_no_capacity self hs hp1
    simp [popback, assert_assume, bind, store, hd] at h
  obtain ⟨r0, h1, _, _, h4, _⟩ := popback_spec self count hs hp0 hp1
  rw [h1] at h
  cases h
  exact h4

theorem trim_valid (self : StringType) (count : Nat) (r : StringType) (hs : Valid self)
    (h : trim self count = some r) : Valid r := by
  by_cases hp0 : count ≤ self.m_size
  swap
  · exfalso
    simp [trim, assert_assume, assume, bind, hp0] at h
  by_cases hp1 : 0 < self.m_capacity
  swap
  · exfalso
    have hd := valid_of_no_capacity self hs hp1
    rcases self with ⟨d, n, c⟩
    simp only at hd
    subst hd
    simp only [valid_none] at hs
    obtain ⟨rfl, rfl⟩ := hs
    have hc : count = 0 := by simpa using hp0
    subst hc
    simp [trim, assert_assume, bind, store, std_copy_within] at h
  obtain ⟨r0, h1, _, _, h4, _⟩ := trim_spec self count hs hp0 hp1
  rw [h1] at h
  cases h
  exact h4

theorem erase_valid (self : StringType) (index : Nat) (r : StringType) (hs : Valid self)
    (h : erase self index = some r) : Valid r := by
  by_cases hp0 : index < self.m_size
  swap
  · exfalso
    simp [erase, assert_assume, assume, bind, hp0] at h
  obtain ⟨r0, h1, _, _, h4, _⟩ := erase_spec self index hs hp0
  rw [h1] at h
  cases h
  exact h4

theorem erase_range_valid (self : StringType) (first last : Nat) (r : StringType) (hs : Valid self)
    (h : erase_range self first last = some r) : Valid r := by
  by_cases hp0 : first < last
  swap
  · exfalso
    simp [erase_range, assert_assume, assume, bind, hp0] at h
  by_cases hp1 : last ≤ self.m_size
  swap
  · exfalso
    simp [erase_range, assert_assume, assume, bind, hp0, hp1] at h
  obtain ⟨r0, h1, _, _, h4, _⟩ := erase_range_spec self first last hs hp0 hp1
  rw [h1] at h
  cases h
  exact h4

theorem insert_char_valid (self : StringType) (character : ValueType) (index : Nat) (r : StringType) (hs : Valid self)
    (h : insert_char self character index = some r) : Valid r := by
  by_cases hp0 : index < self.m_size
  swap
  · exfalso
    simp [insert_char, assert_assume, assume, bind, hp0] at h
  obtain ⟨r0, h1, _, _, h4, _⟩ := insert_char_spec self character index hs hp0
  rw [h1] at h
  cases h
  exact h4

theorem insert_cstring_valid (self : StringType) (cstring : ConstPointer) (index : Nat) (r : StringType) (hs : Valid self)
    (h : insert_cstring self cstring index = some r) : Valid r := by
  cases hL : cstringSize cstring with
  | none => simp [insert_cstring, assert_assume, bind, hL] at h
  | some L =>
    by_cases hp0 : index < self.m_size
    swap
    · exfalso
      simp [insert_cstring, assert_assume, assume, bind, hp0] at h
    obtain ⟨r0, h1, _, _, h4, _⟩ := insert_cstring_spec self cstring index L hs hp0 hL
    rw [h1] at h
    cases h
    exact h4

theorem insert_copy_valid (self object : StringType) (index : Nat) (r : StringType) (hs : Valid self) (ho : Valid object)
    (h : insert_copy self object index = some r) : Valid r := by
  by_cases hp0 : index < self.m_size
  swap
  · exfalso
    simp [insert_copy, assert_assume, assume, bind, hp0] at h
  obtain ⟨r0, h1, _, _, h4, _⟩ := insert_copy_spec self object index hs ho hp0
  rw [h1] at h
  cases h
  exact h4

theorem append_char_valid (self : StringType) (character : ValueType) (r : StringType) (hs : Valid self)
    (h : append_char self character = some r) : Valid r := by
  obtain ⟨r0, h1, _, _, h4, _⟩ := append_char_spec self character hs
  rw [h1] at h
  cases h
  exact h4

theorem append_cstring_valid (self : StringType) (cstring : ConstPointer) (r : StringType) (hs : Valid self)
    (h : append_cstring self cstring = some r) : Valid r := by
  cases hL : cstringSize cstring with
  | none => simp [append_cstring, assert_assume, bind, hL] at h
  | some L =>
    obtain ⟨r0, h1, _, _, h4, _⟩ := append_cstring_spec self cstring L hs hL
    rw [h1] at h
    cases h
    exact h4

theorem append_copy_valid (self object : StringType) (r : StringType) (hs : Valid self) (ho : Valid object)
    (h : append_copy self object = some r) : Valid r := by
  obtain ⟨r0, h1, _, _, h4, _⟩ := append_copy_spec self object hs ho
  rw [h1] at h
  cases h
  exact h4

theorem substring_valid (self : StringType) (last : Nat) (r : StringType) (hs : Valid self)
    (h : substring self last = some r) : Valid r := by
  by_cases hp0 : last ≤ self.m_size
  swap
  · exfalso
    simp [substring, assert_assume, assume, bind, hp0] at h
  by_cases hp1 : 0 < last
  swap
  · exfalso
    have hz : last = 0 := by omega
    subst hz
    simp [substring, assert_assume, assume, bind, lookupCapacity_zero] at h
  obtain ⟨r0, h1, _, _, h4, _⟩ := substring_spec self last hs hp0 hp1
  rw [h1] at h
  cases h
  exact h4

theorem substring_range_valid (self : StringType) (first last : Nat) (r : StringType) (hs : Valid self)
    (h : substring_range self first last = some r) : Valid r := by
  by_cases hp0 : first < last
  swap
  · exfalso
    simp [substring_range, assert_assume, assume, bind, hp0] at h
  by_cases hp1 : last ≤ self.m_size
  swap
  · exfalso
    simp [substring_range, assert_assume, assume, bind, hp0, hp1] at h
  obtain ⟨r0, h1, _, _, h4, _⟩ := substring_range_spec self first last hs hp0 hp1
  rw [h1] at h
  cases h
  exact h4

theorem plus_valid (left right : StringType) (r : StringType) (hs : Valid left) (ho : Valid right)
    (h : plus left right = some r) : Valid r := by
  obtain ⟨r0, h1, _, _, h4, _⟩ := plus_spec left right hs ho
  rw [h1] at h
  cases h
  exact h4

theorem plus_cstring_valid (left : StringType) (cstring : ConstPointer) (r : StringType) (hs : Valid left)
    (h : plus_cstring left cstring = some r) : Valid r := by
  cases hL : cstringSize cstring with
  | none => simp [plus_cstring, assert_assume, bind, hL] at h
  | some L =>
    obtain ⟨r0, h1, _, _, h4, _⟩ := plus_cstring_spec left cstring L hs hL
    rw [h1] at h
    cases h
    exact h4

theorem cstring_plus_valid (cstring : ConstPointer) (right : StringType) (r : StringType) (ho : Valid right)
    (h : cstring_plus cstring right = some r) : Valid r := by
  cases hL : cstringSize cstring with
  | none => simp [cstring_plus, assert_assume, bind, hL] at h
  | some L =>
    obtain ⟨r0, h1, _, _, h4, _⟩ := cstring_plus_spec cstring right L ho hL
    rw [h1] at h
    cases h
    exact h4

theorem plus_char_valid (left : StringType) (character : ValueType) (r : StringType) (hs : Valid left)
    (h : plus_char left character = some r) : Valid r := by
  obtain ⟨r0, h1, _, _, h4, _⟩ := plus_char_spec left character hs
  rw [h1] at h
  cases h
  exact h4

theorem char_plus_valid (character : ValueType) (right : StringType) (r : StringType) (ho : Valid right)
    (h : char_plus character right = some r) : Valid r := by
  obtain ⟨r0, h1, _, _, h4, _⟩ := char_plus_spec character right ho
  rw [h1] at h
  cases h
  exact h4

theorem insert_move_valid (self object : StringType) (index : Nat) (p : StringType × StringType) (hs : Valid self) (ho : Valid object)
    (h : insert_move self object index = some p) : Valid p.1 ∧ Valid p.2 := by
  by_cases hp0 : index < self.m_size
  swap
  · exfalso
    simp [insert_move, assert_assume, assume, bind, hp0] at h
  obtain ⟨p0, h1, h2, _, _, h4, _⟩ := insert_move_spec self object index hs ho hp0
  rw [h1] at h
  cases h
  refine ⟨h4, ?_⟩
  rw [h2]
  first | exact valid_null | exact hs | exact ho | (split_ifs <;> first | exact valid_null | exact hs | exact ho)

theorem append_move_valid (self object : StringType) (p : StringType × StringType) (hs : Valid self) (ho : Valid object)
    (h : append_move self object = some p) : Valid p.1 ∧ Valid p.2 := by
  obtain ⟨p0, h1, h2, _, _, h4, _⟩ := append_move_spec self object hs ho
  rw [h1] at h
  cases h
  refine ⟨h4, ?_⟩
  rw [h2]
  first | exact valid_null | exact hs | exact ho | (split_ifs <;> first | exact valid_null | exact hs | exact ho)

theorem substring_move_valid (self : StringType) (last : Nat) (p : StringType × StringType) (hs : Valid self)
    (h : substring_move self last = some p) : Valid p.1 ∧ Valid p.2 := by
  by_cases hp0 : last ≤ self.m_size
  swap
  · exfalso
    simp [substring_move, assert_assume, assume, bind, hp0] at h
  by_cases hp1 : 0 < self.m_capacity
  swap
  · exfalso
    have hd := valid_of_no_capacity self hs hp1
    simp [substring_move, assert_assume, bind, store, hd] at h
  obtain ⟨p0, h1, h2, _, _, h4, _⟩ := substring_move_spec self last hs hp0 hp1
  rw [h1] at h
  cases h
  refine ⟨h4, ?_⟩
  rw [h2]
  first | exact valid_null | exact hs | exact ho | (split_ifs <;> first | exact valid_null | exact hs | exact ho)

theorem substring_range_move_valid (self : StringType) (first last : Nat) (p : StringType × StringType) (hs : Valid self)
    (h : substring_range_move self first last = some p) : Valid p.1 ∧ Valid p.2 := by
  by_cases hp0 : first < last
  swap
  · exfalso
    simp [substring_range_move, assert_assume, assume, bind, hp0] at h
  by_cases hp1 : last ≤ self.m_size
  swap
  · exfalso
    simp [substring_range_move, assert_assume, assume, bind, hp0, hp1] at h
  obtain ⟨p0, h1, h2, _, _, h4, _⟩ := substring_range_move_spec self first last hs hp0 hp1
  rw [h1] at h
  cases h
  refine ⟨h4, ?_⟩
  rw [h2]
  first | exact valid_null | exact hs | exact ho | (split_ifs <;> first | exact valid_null | exact hs | exact ho)

theorem plus_move_move_valid (left right : StringType) (p : StringType × StringType × StringType) (hs : Valid left) (ho : Valid right)
    (h : plus_move_move left right = some p) : Valid p.1 ∧ Valid p.2.1 ∧ Valid p.2.2 := by
  obtain ⟨p0, h1, h2, h3, _, _, h4, _⟩ := plus_move_move_spec left right hs ho
  rw [h1] at h
  cases h
  refine ⟨h4, ?_, ?_⟩
  · rw [h2]
    first | exact valid_null | exact hs | exact ho | (split_ifs <;> first | exact valid_null | exact hs | exact ho)
  · rw [h3]
    first | exact valid_null | exact hs | exact ho | (split_ifs <;> first | exact valid_null | exact hs | exact ho)

theorem plus_move_copy_valid (left right : StringType) (p : StringType × StringType × StringType) (hs : Valid left) (ho : Valid right)
    (h : plus_move_copy left right = some p) : Valid p.1 ∧ Valid p.2.1 ∧ Valid p.2.2 := by
  obtain ⟨p0, h1, h2, h3, _, _, h4, _⟩ := plus_move_copy_spec left right hs ho
  rw [h1] at h
  cases h
  refine ⟨h4, ?_, ?_⟩
  · rw [h2]
    first | exact valid_null | exact hs | exact ho | (split_ifs <;> first | exact valid_null | exact hs | exact ho)
  · rw [h3]
    first | exact valid_null | exact hs | exact ho | (split_ifs <;> first | exact valid_null | exact hs | exact ho)

theorem plus_copy_move_valid (left right : StringType) (p : StringType × StringType × StringType) (hs : Valid left) (ho : Valid right)
    (h : plus_copy_move left right = some p) : Valid p.1 ∧ Valid p.2.1 ∧ Valid p.2.2 := by
  obtain ⟨p0, h1, h2, h3, _, _, h4, _⟩ := plus_copy_move_spec left right hs ho
  rw [h1] at h
  cases h
  refine ⟨h4, ?_, ?_⟩
  · rw [h2]
    first | exact valid_null | exact hs | exact ho | (split_ifs <;> first | exact valid_null | exact hs | exact ho)
  · rw [h3]
    first | exact valid_null | exact hs | exact ho | (split_ifs <;> first | exact valid_null | exact hs | exact ho)

theorem plus_move_cstring_valid (left : StringType) (cstring : ConstPointer) (p : StringType × StringType) (hs : Valid left)
    (h : plus_move_cstring left cstring = some p) : Valid p.1 ∧ Valid p.2 := by
  cases hL : cstringSize cstring with
  | none => simp [plus_move_cstring, assert_assume, bind, hL] at h
  | some L =>
    obtain ⟨p0, h1, h2, _, _, h4, _⟩ := plus_move_cstring_spec left cstring L hs hL
    rw [h1] at h
    cases h
    refine ⟨h4, ?_⟩
    rw [h2]
    first | exact valid_null | exact hs | exact ho | (split_ifs <;> first | exact valid_null | exact hs | exact ho)

theorem cstring_plus_move_valid (cstring : ConstPointer) (right : StringType) (p : StringType × StringType) (ho : Valid right)
    (h : cstring_plus_move cstring right = some p) : Valid p.1 ∧ Valid p.2 := by
  cases hL : cstringSize cstring with
  | none => simp [cstring_plus_move, assert_assume, bind, hL] at h
  | some L =>
    obtain ⟨p0, h1, h2, _, _, h4, _⟩ := cstring_plus_move_spec cstring right L ho hL
    rw [h1] at h
    cases h
    refine ⟨h4, ?_⟩
    rw [h2]
    first | exact valid_null | exact hs | exact ho | (split_ifs <;> first | exact valid_null | exact hs | exact ho)

theorem plus_move_char_valid (left : StringType) (character : ValueType) (p : StringType × StringType) (hs : Valid left)
    (h : plus_move_char left character = some p) : Valid p.1 ∧ Valid p.2 := by
  obtain ⟨p0, h1, h2, _, _, h4, _⟩ := plus_move_char_spec left character hs
  rw [h1] at h
  cases h
  refine ⟨h4, ?_⟩
  rw [h2]
  first | exact valid_null | exact hs | exact ho | (split_ifs <;> first | exact valid_null | exact hs | exact ho)

theorem char_plus_move_valid (character : ValueType) (right : StringType) (p : StringType × StringType) (ho : Valid right)
    (h : char_plus_move character right = some p) : Valid p.1 ∧ Valid p.2 := by
  obtain ⟨p0, h1, h2, _, _, h4, _⟩ := char_plus_move_spec character right ho
  rw [h1] at h
  cases h
  refine ⟨h4, ?_⟩
  rw [h2]
  first | exact valid_null | exact hs | exact ho | (split_ifs <;> first | exact valid_null | exact hs | exact ho)

end StringType

namespace StringType

/-- Every reachable value satisfies the representation invariant. -/
theorem reachable_valid (s : StringType) (h : Reachable s) : Valid s := by
  induction h with
  | ctor => exact valid_null
  | ctor_list list r h => exact ctor_list_valid list r h
  | ctor_fill character size r h => exact ctor_fill_valid character size r h
  | ctor_cstring cstring r h => exact ctor_cstring_valid cstring r h
  | ctor_copy object r _ h ih => exact ctor_copy_valid object r ih h
  | ctor_move_result object _ ih => exact ih
  | ctor_move_source object _ ih => exact valid_null
  | assign_char self character r _ h ih => exact assign_char_valid self character r ih h
  | assign_cstring self cstring r _ h ih => exact assign_cstring_valid self cstring r ih h
  | assign_copy self object r _ _ h ih1 ih2 => exact assign_copy_valid self object r ih1 ih2 h
  | assign_move_result self object _ _ ih1 ih2 => exact ih2
  | assign_move_source self object _ _ ih1 ih2 => exact valid_null
  | reserve self size r _ h ih => exact reserve_valid self size r ih h
  | shrink self r _ h ih => exact shrink_valid self r ih h
  | deallocate self _ ih => exact valid_null
  | set self index v r _ h ih => exact set_valid self index v r ih h
  | set_front self v r _ h ih => exact set_front_valid self v r ih h
  | set_back self v r _ h ih => exact set_back_valid self v r ih h
  | clear self r _ h ih => exact clear_valid self r ih h
  | popback self count r _ h ih => exact popback_valid self count r ih h
  | trim self count r _ h ih => exact trim_valid self count r ih h
  | erase self index r _ h ih => exact erase_valid self index r ih h
  | erase_range self first last r _ h ih => exact erase_range_valid self first last r ih h
  | insert_char self character index r _ h ih =>
    exact insert_char_valid self character index r ih h
  | insert_cstring self cstring index r _ h ih =>
    exact insert_cstring_valid self cstring index r ih h
  | insert_copy self object index r _ _ h ih1 ih2 =>
    exact insert_copy_valid self object index r ih1 ih2 h
  | insert_move_result self object index p _ _ h ih1 ih2 =>
    exact (insert_move_valid self object index p ih1 ih2 h).1
  | insert_move_source self object index p _ _ h ih1 ih2 =>
    exact (insert_move_valid self object index p ih1 ih2 h).2
  | append_char self character r _ h ih => exact append_char_valid self character r ih h
  | append_cstring self cstring r _ h ih => exact append_cstring_valid self cstring r ih h
  | append_copy self object r _ _ h ih1 ih2 => exact append_copy_valid self object r ih1 ih2 h
  | append_move_result self object p _ _ h ih1 ih2 =>
    exact (append_move_valid self object p ih1 ih2 h).1
  | append_move_source self object p _ _ h ih1 ih2 =>
    exact (append_move_valid self object p ih1 ih2 h).2
  | substring self last r _ h ih => exact substring_valid self last r ih h
  | substring_range self first last r _ h ih =>
    exact substring_range_valid self first last r ih h
  | substring_move_result self last p _ h ih => exact (substring_move_valid self last p ih h).1
  | substring_move_source self last p _ h ih => exact (substring_move_valid self last p ih h).2
  | substring_range_move_result self first last p _ h ih =>
    exact (substring_range_move_valid self first last p ih h).1
  | substring_range_move_source self first last p _ h ih =>
    exact (substring_range_move_valid self first last p ih h).2
  | plus left right r _ _ h ih1 ih2 => exact plus_valid left right r ih1 ih2 h
  | plus_cstring left right r _ h ih => exact plus_cstring_valid left right r ih h
  | cstring_plus left right r _ h ih => exact cstring_plus_valid left right r ih h
  | plus_char left right r _ h ih => exact plus_char_valid left right r ih h
  | char_plus left right r _ h ih => exact char_plus_valid left right r ih h
  | plus_move_move_result left right p _ _ h ih1 ih2 =>
    exact (plus_move_move_valid left right p ih1 ih2 h).1
  | plus_move_move_left left right p _ _ h ih1 ih2 =>
    exact (plus_move_move_valid left right p ih1 ih2 h).2.1
  | plus_move_move_right left right p _ _ h ih1 ih2 =>
    exact (plus_move_move_valid left right p ih1 ih2 h).2.2
  | plus_move_copy_result left right p _ _ h ih1 ih2 =>
    exact (plus_move_copy_valid left right p ih1 ih2 h).1
  | plus_move_copy_left left right p _ _ h ih1 ih2 =>
    exact (plus_move_copy_valid left right p ih1 ih2 h).2.1
  | plus_copy_move_result left right p _ _ h ih1 ih2 =>
    exact (plus_copy_move_valid left right p ih1 ih2 h).1
  | plus_copy_move_right left right p _ _ h ih1 ih2 =>
    exact (plus_copy_move_valid left right p ih1 ih2 h).2.2
  | plus_move_cstring_result left right p _ h ih =>
    exact (plus_move_cstring_valid left right p ih h).1
  | plus_move_cstring_left left right p _ h ih =>
    exact (plus_move_cstring_valid left right p ih h).2
  | cstring_plus_move_result left right p _ h ih =>
    exact (cstring_plus_move_valid left right p ih h).1
  | cstring_plus_move_right left right p _ h ih =>
    exact (cstring_plus_move_valid left right p ih h).2
  | plus_move_char_result left right p _ h ih =>
    exact (plus_move_char_valid left right p ih h).1
  | plus_move_char_left left right p _ h ih =>
    exact (plus_move_char_valid left right p ih h).2
  | char_plus_move_result left right p _ h ih =>
    exact (char_plus_move_valid left right p ih h).1
  | char_plus_move_right left right p _ h ih =>
    exact (char_plus_move_valid left right p ih h).2

end StringType

namespace StringType

/-! ## Facts about the concrete values -/

theorem sampleAb_eq : ctor_cstring rawAb = some sampleAb := by decide

theorem sampleAb_reachable : Reachable sampleAb :=
  Reachable.ctor_cstring rawAb sampleAb sampleAb_eq

theorem sampleCleared_reachable : Reachable sampleCleared :=
  Reachable.clear sampleAb sampleCleared sampleAb_reachable (by decide)

/-! ## The claims -/

/-- C1: for every reachable value with `capacity > 0`, `length < capacity`
and the cell `buffer[length]` holds the terminator unit. -/
theorem terminator_invariant (s : StringType) (h : Reachable s) (hc : 0 < s.m_capacity) :
    s.m_size < s.m_capacity ∧ load s.m_data s.m_size = some NUL_TERMINATION := by
  have hv := reachable_valid s h
  rcases s with ⟨_ | bs, n, c⟩
  · simp only [valid_none] at hv
    simp only [hv.2] at hc
    omega
  · simp only [valid_some] at hv
    obtain ⟨_, h2, h3, _⟩ := hv
    exact ⟨h2, by rw [load_some]; exact h3⟩

theorem terminator_invariant_witness :
    Reachable sampleAb ∧ 0 < sampleAb.m_capacity ∧
      (sampleAb.m_size < sampleAb.m_capacity ∧
        load sampleAb.m_data sampleAb.m_size = some NUL_TERMINATION) :=
  ⟨sampleAb_reachable, by decide, terminator_invariant sampleAb sampleAb_reachable (by decide)⟩

/-- C2, as stated, fails: after `StringType("ab")` and `clear()` the length
is 0 and the capacity is still 15. -/
theorem capacity_zero_iff_length_zero_counterexample :
    ¬ (∀ s, Reachable s → (s.m_capacity = 0 ↔ s.m_size = 0)) := by
  intro h
  have := (h sampleCleared sampleCleared_reachable).2 (by decide)
  revert this
  decide

/-- C2, amended: for every reachable value, `capacity == 0` implies
`length == 0`. -/
theorem capacity_zero_length_zero (s : StringType) (h : Reachable s)
    (hc : s.m_capacity = 0) : s.m_size = 0 := by
  have hv := reachable_valid s h
  rcases s with ⟨_ | bs, n, c⟩
  · simp only [valid_none] at hv
    exact hv.1
  · simp only [valid_some] at hv
    simp only at hc
    omega

theorem capacity_zero_length_zero_witness :
    Reachable ctor ∧ ctor.m_capacity = 0 ∧ ctor.m_size = 0 :=
  ⟨Reachable.ctor, rfl, capacity_zero_length_zero ctor Reachable.ctor rfl⟩

end StringType

/-- C5: over unbounded naturals, `lookupCapacity 0 = 0`, and for `n > 0`
the result is the smallest number of the form `15 * 2 ^ k` strictly greater
than `n`; in particular it exceeds `n`. -/
theorem lookupCapacity_least (n : Nat) :
    (n = 0 → lookupCapacity n = 0) ∧
      (0 < n →
        (∃ k, lookupCapacity n = 15 * 2 ^ k ∧ n < 15 * 2 ^ k ∧
          ∀ j, n < 15 * 2 ^ j → 15 * 2 ^ k ≤ 15 * 2 ^ j) ∧
        n < lookupCapacity n) := by
  refine ⟨?_, ?_⟩
  · intro h
    subst h
    exact lookupCapacity_zero
  · intro h
    exact ⟨lookupCapacity_spec n h, lookupCapacity_gt n h⟩

theorem lookupCapacity_least_witness :
    lookupCapacity 0 = 0 ∧
      ((∃ k, lookupCapacity 47 = 15 * 2 ^ k ∧ 47 < 15 * 2 ^ k ∧
          ∀ j, 47 < 15 * 2 ^ j → 15 * 2 ^ k ≤ 15 * 2 ^ j) ∧
        47 < lookupCapacity 47) :=
  ⟨(lookupCapacity_least 0).1 rfl, (lookupCapacity_least 47).2 (by decide)⟩

/-- C6: `lookupCapacity` is monotonic non-decreasing: `n ≥ m` implies
`lookupCapacity n ≥ lookupCapacity m`, also for `m = 0`. -/
theorem lookupCapacity_monotone (n m : Nat) (h : n ≥ m) :
    lookupCapacity n ≥ lookupCapacity m :=
  lookupCapacity_mono m n h

theorem lookupCapacity_monotone_witness :
    (15 : Nat) ≥ 14 ∧ lookupCapacity 15 ≥ lookupCapacity 14 ∧
      lookupCapacity 14 = 15 ∧ lookupCapacity 15 = 30 :=
  ⟨by decide, lookupCapacity_monotone 15 14 (by decide), by decide, by decide⟩

namespace StringType

theorem sampleAb_valid : Valid sampleAb := by decide

theorem sampleCd_valid : Valid sampleCd := by decide

theorem rawCd_size : cstringSize rawCd = some 2 := by decide

/-- For operands that are distinct objects and a raw sequence stored outside
the string operand's buffer, each of the twelve `operator+` overloads returns
a value whose length is the sum of the operand lengths and whose content is
the left operand's content followed by the right operand's content; a raw
sequence contributes its units before the first terminator, a single unit
itself. -/
theorem concatenation_content (left right : StringType) (cstring : ConstPointer) (L : Nat)
    (character : ValueType) (hl : Valid left) (hr : Valid right)
    (hL : cstringSize cstring = some L) :
    (rawContent cstring).length = L ∧
    Yields (plus left right) (left.m_size + right.m_size) (content left ++ content right) ∧
    Yields (plus_cstring left cstring) (left.m_size + L)
      (content left ++ (rawContent cstring).map some) ∧
    Yields (cstring_plus cstring right) (L + right.m_size)
      ((rawContent cstring).map some ++ content right) ∧
    Yields (plus_char left character) (left.m_size + 1) (content left ++ [some character]) ∧
    Yields (char_plus character right) (1 + right.m_size) ([some character] ++ content right) ∧
    Yields ((plus_move_move left right).map Prod.fst) (left.m_size + right.m_size)
      (content left ++ content right) ∧
    Yields ((plus_move_copy left right).map Prod.fst) (left.m_size + right.m_size)
      (content left ++ content right) ∧
    Yields ((plus_copy_move left right).map Prod.fst) (left.m_size + right.m_size)
      (content left ++ content right) ∧
    Yields ((plus_move_cstring left cstring).map Prod.fst) (left.m_size + L)
      (content left ++ (rawContent cstring).map some) ∧
    Yields ((cstring_plus_move cstring right).map Prod.fst) (L + right.m_size)
      ((rawContent cstring).map some ++ content right) ∧
    Yields ((plus_move_char left character).map Prod.fst) (left.m_size + 1)
      (content left ++ [some character]) ∧
    Yields ((char_plus_move character right).map Prod.fst) (1 + right.m_size)
      ([some character] ++ content right) := by
  refine ⟨rawContent_length cstring L hL, ?_, ?_, ?_, ?_, ?_, ?_, ?_, ?_, ?_, ?_, ?_, ?_⟩
  · obtain ⟨r, h1, h2, _, _, h5⟩ := plus_spec left right hl hr
    exact ⟨r, h1, h2, h5⟩
  · obtain ⟨r, h1, h2, _, _, h5⟩ := plus_cstring_spec left cstring L hl hL
    exact ⟨r, h1, h2, h5⟩
  · obtain ⟨r, h1, h2, _, _, h5⟩ := cstring_plus_spec cstring right L hr hL
    exact ⟨r, h1, h2, h5⟩
  · obtain ⟨r, h1, h2, _, _, h5⟩ := plus_char_spec left character hl
    exact ⟨r, h1, h2, h5⟩
  · obtain ⟨r, h1, h2, _, _, h5⟩ := char_plus_spec character right hr
    exact ⟨r, h1, h2, h5⟩
  · obtain ⟨p, h1, _, _, h2, _, _, h5⟩ := plus_move_move_spec left right hl hr
    exact ⟨p.1, by rw [h1]; rfl, h2, h5⟩
  · obtain ⟨p, h1, _, _, h2, _, _, h5⟩ := plus_move_copy_spec left right hl hr
    exact ⟨p.1, by rw [h1]; rfl, h2, h5⟩
  · obtain ⟨p, h1, _, _, h2, _, _, h5⟩ := plus_copy_move_spec left right hl hr
    exact ⟨p.1, by rw [h1]; rfl, h2, h5⟩
  · obtain ⟨p, h1, _, h2, _, _, h5⟩ := plus_move_cstring_spec left cstring L hl hL
    exact ⟨p.1, by rw [h1]; rfl, h2, h5⟩
  · obtain ⟨p, h1, _, h2, _, _, h5⟩ := cstring_plus_move_spec cstring right L hr hL
    exact ⟨p.1, by rw [h1]; rfl, h2, h5⟩
  · obtain ⟨p, h1, _, h2, _, _, h5⟩ := plus_move_char_spec left character hl
    exact ⟨p.1, by rw [h1]; rfl, h2, h5⟩
  · obtain ⟨p, h1, _, h2, _, _, h5⟩ := char_plus_move_spec character right hr
    exact ⟨p.1, by rw [h1]; rfl, h2, h5⟩

theorem concatenation_content_witness :
    Valid sampleAb ∧ Valid sampleCd ∧ cstringSize rawCd = some 2 ∧
      Yields (plus sampleAb sampleCd) (sampleAb.m_size + sampleCd.m_size)
        (content sampleAb ++ content sampleCd) ∧
      Yields ((plus_move_move sampleAb sampleCd).map Prod.fst)
        (sampleAb.m_size + sampleCd.m_size) (content sampleAb ++ content sampleCd) :=
  ⟨sampleAb_valid, sampleCd_valid, rawCd_size,
    (concatenation_content sampleAb sampleCd rawCd 2 120 sampleAb_valid sampleCd_valid
      rawCd_size).2.1,
    (concatenation_content sampleAb sampleCd rawCd 2 120 sampleAb_valid sampleCd_valid
      rawCd_size).2.2.2.2.2.2.1⟩

end StringType

namespace StringType

end StringType

namespace StringType

/-- C7: for a raw terminated sequence with `L` units before its first
terminator, the constructed value has `size() == L` and its `cstring()` view
starts with exactly those `L` units followed by a terminator; for `L == 0`
no buffer is allocated and the view is the static terminator unit. -/
theorem cstring_round_trip (raw : ConstPointer) (L : Nat) (hL : cstringSize raw = some L) :
    (rawContent raw).length = L ∧
      ∃ s view, ctor_cstring raw = some s ∧ size s = L ∧ cstring s = some view ∧
        view.take (L + 1) = (rawContent raw).map some ++ [some NUL_TERMINATION] ∧
        (L = 0 → s.m_capacity = 0 ∧ s.m_data = none ∧ view = [some NUL_TERMINATION]) := by
  have hlen := rawContent_length raw L hL
  refine ⟨hlen, ?_⟩
  obtain ⟨s, h1, h2, h3, h4, h5⟩ := ctor_cstring_spec raw L hL
  by_cases hz : L = 0
  · subst hz
    have hc : s.m_capacity = 0 := by rw [h3, lookupCapacity_zero]
    have hd : s.m_data = none := valid_of_no_capacity s h4 (by omega)
    have hr : rawContent raw = [] := List.length_eq_zero.mp hlen
    refine ⟨s, [some NUL_TERMINATION], h1, h2, by simp [cstring, hc], by simp [hr], ?_⟩
    intro _
    exact ⟨hc, hd, rfl⟩
  · rcases s with ⟨_ | bs, n, c⟩
    · simp only [valid_none] at h4
      simp only at h2
      omega
    · simp only [valid_some] at h4
      obtain ⟨rfl, hs2, hs3, hs4⟩ := h4
      simp only at h2
      subst h2
      have hpos : 0 < bs.length := by omega
      refine ⟨_, bs, h1, rfl, by simp [cstring, hpos], ?_, fun h => absurd h hz⟩
      simp only [content, Option.getD_some] at h5
      rw [← h5]
      apply block_ext
      · simp only [List.length_take, List.length_append, List.length_cons, List.length_nil]
        omega
      · intro i hi
        simp only [List.length_take] at hi
        simp only [cellAt_take, cellAt_append, List.length_take, cellAt_cons, cellAt_nil]
        by_cases hlt : i < n
        · have e1 : i < n + 1 := by omega
          have e2 : i < min n bs.length := by omega
          simp [e1, e2, hlt]
        · have e0 : i = n := by omega
          subst e0
          have e2 : ¬ i < min i bs.length := by omega
          have e3 : i - min i bs.length = 0 := by omega
          simp [e2, e3, hs3]

theorem cstring_round_trip_witness :
    cstringSize rawAb = some 2 ∧
      ((rawContent rawAb).length = 2 ∧
        ∃ s view, ctor_cstring rawAb = some s ∧ size s = 2 ∧ cstring s = some view ∧
          view.take (2 + 1) = (rawContent rawAb).map some ++ [some NUL_TERMINATION] ∧
          (2 = 0 → s.m_capacity = 0 ∧ s.m_data = none ∧ view = [some NUL_TERMINATION])) :=
  ⟨by decide, cstring_round_trip rawAb 2 (by decide)⟩

end StringType

namespace StringType

/-- C8: `a.compare(b)` returns -1, 0 or 1: at the first index
`i < min(a.length, b.length)` with `a[i] != b[i]` it is -1 if `a[i] < b[i]`
and 1 otherwise; without such an index it is -1 for the shorter `a`, 1 for
the longer `a` and 0 for equal lengths. In particular `"abc"` against `"ab"`
gives 1. -/
theorem compare_three_way (a b : StringType) (ha : Valid a) (hb : Valid b) :
    (∃ r, compare a b = some r ∧ (r = -1 ∨ r = 0 ∨ r = 1) ∧
      ((∃ i x y, i < min a.m_size b.m_size ∧ get a i = some x ∧ get b i = some y ∧ x ≠ y ∧
          (∀ j, j < i → get a j = get b j) ∧ r = (if x < y then -1 else 1)) ∨
        ((∀ j, j < min a.m_size b.m_size → get a j = get b j) ∧
          r = (if a.m_size < b.m_size then -1 else if a.m_size > b.m_size then 1 else 0)))) ∧
      (∃ abc ab, ctor_cstring [97, 98, 99, 0] = some abc ∧ ctor_cstring [97, 98, 0] = some ab ∧
        compare abc ab = some 1) := by
  refine ⟨⟨threeWay (units a) (units b), compare_spec a b ha hb, threeWay_range _ _, ?_⟩,
    ⟨sampleAbc, sampleAb, by decide, by decide, by decide⟩⟩
  have hla := units_length a
  have hlb := units_length b
  rcases threeWay_cases (units a) (units b) with ⟨i, x, y, hi, h1, h2, h3, h4, h5⟩ | ⟨h1, h2⟩
  · left
    rw [hla, hlb] at hi
    refine ⟨i, x, y, hi, ?_, ?_, h3, ?_, h5⟩
    · rw [get_eq_units a ha i (by omega)]
      exact h1
    · rw [get_eq_units b hb i (by omega)]
      exact h2
    · intro j hj
      rw [get_eq_units a ha j (by omega), get_eq_units b hb j (by omega)]
      exact h4 j hj
  · right
    rw [hla, hlb] at h1 h2
    refine ⟨?_, h2⟩
    intro j hj
    rw [get_eq_units a ha j (by omega), get_eq_units b hb j (by omega)]
    exact h1 j hj

theorem compare_three_way_witness :
    Valid sampleAb ∧ Valid sampleCd ∧
      ∃ r, compare sampleAb sampleCd = some r ∧ (r = -1 ∨ r = 0 ∨ r = 1) ∧
        ((∃ i x y, i < min sampleAb.m_size sampleCd.m_size ∧ get sampleAb i = some x ∧
            get sampleCd i = some y ∧ x ≠ y ∧
            (∀ j, j < i → get sampleAb j = get sampleCd j) ∧ r = (if x < y then -1 else 1)) ∨
          ((∀ j, j < min sampleAb.m_size sampleCd.m_size → get sampleAb j = get sampleCd j) ∧
            r = (if sampleAb.m_size < sampleCd.m_size then -1
              else if sampleAb.m_size > sampleCd.m_size then 1 else 0))) :=
  ⟨sampleAb_valid, sampleCd_valid,
    (compare_three_way sampleAb sampleCd sampleAb_valid sampleCd_valid).1⟩

/-- C9: for every string `s` and raw terminated sequence `r`, `s.compare(r)`
equals `s.compare(StringType(r))`, whether `s` is longer, shorter or holds
terminator-valued units itself. -/
theorem compare_cstring_agrees (s : StringType) (raw : ConstPointer) (L : Nat)
    (hs : Valid s) (hL : cstringSize raw = some L) :
    ∃ t k, ctor_cstring raw = some t ∧ compare_cstring s raw = some k ∧
      compare s t = some k := by
  obtain ⟨t, h1, _, _, h4, h5⟩ := ctor_cstring_spec raw L hL
  have hu : units t = rawContent raw := units_of_content t h4 _ h5
  refine ⟨t, threeWay (units s) (rawContent raw), h1, compare_cstring_spec s raw L hs hL, ?_⟩
  rw [compare_spec s t hs h4, hu]

theorem compare_cstring_agrees_witness :
    Valid sampleCleared ∧ cstringSize rawCd = some 2 ∧
      ∃ t k, ctor_cstring rawCd = some t ∧ compare_cstring sampleCleared rawCd = some k ∧
        compare sampleCleared t = some k :=
  ⟨by decide, rawCd_size, compare_cstring_agrees sampleCleared rawCd 2 (by decide) rawCd_size⟩

/-- For operands that are distinct objects and a raw sequence stored outside
the destination's buffer, each insert overload (single unit, raw terminated
sequence, string by reference, movable string) at an index below the length
leaves the destination with content
`old[0, index) ++ inserted ++ old[index, length)` and with the old length plus
the inserted size, on every path. -/
theorem insert_content (self object : StringType) (raw : ConstPointer) (L : Nat)
    (character : ValueType) (index : Nat) (hs : Valid self) (ho : Valid object)
    (hL : cstringSize raw = some L) (hi : index < self.m_size) :
    (rawContent raw).length = L ∧
    Yields (insert_char self character index) (self.m_size + 1)
      ((content self).take index ++ [some character] ++ (content self).drop index) ∧
    Yields (insert_cstring self raw index) (self.m_size + L)
      ((content self).take index ++ (rawContent raw).map some ++ (content self).drop index) ∧
    Yields (insert_copy self object index) (self.m_size + object.m_size)
      ((content self).take index ++ content object ++ (content self).drop index) ∧
    Yields ((insert_move self object index).map Prod.fst) (self.m_size + object.m_size)
      ((content self).take index ++ content object ++ (content self).drop index) := by
  refine ⟨rawContent_length raw L hL, ?_, ?_, ?_, ?_⟩
  · obtain ⟨r, h1, h2, _, _, h5⟩ := insert_char_spec self character index hs hi
    exact ⟨r, h1, h2, h5⟩
  · obtain ⟨r, h1, h2, _, _, h5⟩ := insert_cstring_spec self raw index L hs hi hL
    exact ⟨r, h1, h2, h5⟩
  · obtain ⟨r, h1, h2, _, _, h5⟩ := insert_copy_spec self object index hs ho hi
    exact ⟨r, h1, h2, h5⟩
  · obtain ⟨p, h1, _, h2, _, _, h5⟩ := insert_move_spec self object index hs ho hi
    exact ⟨p.1, by rw [h1]; rfl, h2, h5⟩

theorem insert_content_witness :
    Valid sampleAb ∧ Valid sampleCd ∧ cstringSize rawCd = some 2 ∧ 1 < sampleAb.m_size ∧
      Yields (insert_cstring sampleAb rawCd 1) (sampleAb.m_size + 2)
        ((content sampleAb).take 1 ++ (rawContent rawCd).map some ++
          (content sampleAb).drop 1) ∧
      Yields ((insert_move sampleAb sampleCd 1).map Prod.fst)
        (sampleAb.m_size + sampleCd.m_size)
        ((content sampleAb).take 1 ++ content sampleCd ++ (content sampleAb).drop 1) :=
  ⟨sampleAb_valid, sampleCd_valid, rawCd_size, by decide,
    (insert_content sampleAb sampleCd rawCd 2 120 1 sampleAb_valid sampleCd_valid rawCd_size
      (by decide)).2.2.1,
    (insert_content sampleAb sampleCd rawCd 2 120 1 sampleAb_valid sampleCd_valid rawCd_size
      (by decide)).2.2.2.2⟩

end StringType

namespace StringType

/-! ## Every operation that returns keeps the capacity at or above the growth policy -/

theorem fits_null : Fits ⟨none, 0, 0⟩ := by
  simp [Fits, lookupCapacity_zero]

theorem ctor_list_fits (list : List ValueType) (r : StringType) 
    (h : ctor_list list = some r) : Fits r := by
  obtain ⟨r0, h1, h2, h3, _, _⟩ := ctor_list_spec list
  rw [h1] at h
  cases h
  unfold Fits at *
  rw [h2, h3]
  all_goals first | exact Nat.le_refl _ | omega | (split_ifs <;> first | exact Nat.le_refl _ | omega | (simp_all [lookupCapacity_zero] <;> omega)) | (simp_all [lookupCapacity_zero] <;> omega)

theorem ctor_fill_fits (character : ValueType) (size : Nat) (r : StringType) 
    (h : ctor_fill character size = some r) : Fits r := by
  obtain ⟨r0, h1, h2, h3, _, _⟩ := ctor_fill_spec character size
  rw [h1] at h
  cases h
  unfold Fits at *
  rw [h2, h3]
  all_goals first | exact Nat.le_refl _ | omega | (split_ifs <;> first | exact Nat.le_refl _ | omega | (simp_all [lookupCapacity_zero] <;> omega)) | (simp_all [lookupCapacity_zero] <;> omega)

theorem ctor_cstring_fits (cstring : ConstPointer) (r : StringType) 
    (h : ctor_cstring cstring = some r) : Fits r := by
  cases hL : cstringSize cstring with
  | none => simp [ctor_cstring, assert_assume, bind, hL] at h
  | some L =>
    obtain ⟨r0, h1, h2, h3, _, _⟩ := ctor_cstring_spec cstring L hL
    rw [h1] at h
    cases h
    unfold Fits at *
    rw [h2, h3]
    all_goals first | exact Nat.le_refl _ | omega | (split_ifs <;> first | exact Nat.le_refl _ | omega | (simp_all [lookupCapacity_zero] <;> omega)) | (simp_all [lookupCapacity_zero] <;> omega)

theorem ctor_copy_fits (object : StringType) (r : StringType) (ho : Valid object) (fo : Fits object)
    (h : ctor_copy object = some r) : Fits r := by
  obtain ⟨r0, h1, h2, h3, _, _⟩ := ctor_copy_spec object ho
  rw [h1] at h
  cases h
  unfold Fits at *
  rw [h2, h3]
  all_goals first | exact Nat.le_refl _ | omega | (split_ifs <;> first | exact Nat.le_refl _ | omega | (simp_all [lookupCapacity_zero] <;> omega)) | (simp_all [lookupCapacity_zero] <;> omega)

theorem assign_char_fits (self : StringType) (character : ValueType) (r : StringType) (hs : Valid self) (fs : Fits self)
    (h : assign_char self character = some r) : Fits r := by
  obtain ⟨r0, h1, h2, h3, _, _⟩ := assign_char_spec self character hs
  rw [h1] at h
  cases h
  unfold Fits at *
  rw [h2, h3]
  all_goals first | exact Nat.le_refl _ | omega | (split_ifs <;> first | exact Nat.le_refl _ | omega | (simp_all [lookupCapacity_zero] <;> omega)) | (simp_all [lookupCapacity_zero] <;> omega)

theorem assign_cstring_fits (self : StringType) (cstring : ConstPointer) (r : StringType) (hs : Valid self) (fs : Fits self)
    (h : assign_cstring self cstring = some r) : Fits r := by
  cases hL : cstringSize cstring with
  | none => simp [assign_cstring, assert_assume, bind, hL] at h
  | some L =>
    obtain ⟨r0, h1, h2, h3, _, _⟩ := assign_cstring_spec self cstring L hs hL
    rw [h1] at h
    cases h
    unfold Fits at *
    rw [h2, h3]
    all_goals first | exact Nat.le_refl _ | omega | (split_ifs <;> first | exact Nat.le_refl _ | omega | (simp_all [lookupCapacity_zero] <;> omega)) | (simp_all [lookupCapacity_zero] <;> omega)

theorem assign_copy_fits (self object : StringType) (r : StringType) (hs : Valid self) (fs : Fits self) (ho : Valid object) (fo : Fits object)
    (h : assign_copy self object = some r) : Fits r := by
  obtain ⟨r0, h1, h2, h3, _, _⟩ := assign_copy_spec self object hs ho
  rw [h1] at h
  cases h
  unfold Fits at *
  rw [h2, h3]
  all_goals first | exact Nat.le_refl _ | omega | (split_ifs <;> first | exact Nat.le_refl _ | omega | (simp_all [lookupCapacity_zero] <;> omega)) | (simp_all [lookupCapacity_zero] <;> omega)

theorem reserve_fits (self : StringType) (size : Nat) (r : StringType) (hs : Valid self) (fs : Fits self)
    (h : reserve self size = some r) : Fits r := by
  by_cases hp0 : 0 < size
  swap
  · exfalso
    have hz : size = 0 := by omega
    subst hz
    simp [reserve, assume, bind, lookupCapacity_zero] at h
  obtain ⟨r0, h1, h2, h3, _, _⟩ := reserve_spec self size hs hp0
  rw [h1] at h
  cases h
  unfold Fits at *
  rw [h2, h3]
  all_goals first | exact Nat.le_refl _ | omega | (split_ifs <;> first | exact Nat.le_refl _ | omega | (simp_all [lookupCapacity_zero] <;> omega)) | (simp_all [lookupCapacity_zero] <;> omega)

theorem shrink_fits (self : StringType) (r : StringType) (hs : Valid self) (fs : Fits self)
    (h : shrink self = some r) : Fits r := by
  obtain ⟨r0, h1, h2, h3, _, _⟩ := shrink_spec self hs
  rw [h1] at h
  cases h
  unfold Fits at *
  rw [h2, h3]
  all_goals first | exact Nat.le_refl _ | omega | (split_ifs <;> first | exact Nat.le_refl _ | omega | (simp_all [lookupCapacity_zero] <;> omega)) | (simp_all [lookupCapacity_zero] <;> omega)

theorem set_fits (self : StringType) (index : Nat) (v : ValueType) (r : StringType) (hs : Valid self) (fs : Fits self)
    (h : set self index v = some r) : Fits r := by
  by_cases hp0 : index < self.m_size
  swap
  · exfalso
    simp [set, assert_assume, assume, bind, hp0] at h
  obtain ⟨r0, h1, h2, h3, _, _⟩ := set_spec self index v hs hp0
  rw [h1] at h
  cases h
  unfold Fits at *
  rw [h2, h3]
  all_goals first | exact Nat.le_refl _ | omega | (split_ifs <;> first | exact Nat.le_refl _ | omega | (simp_all [lookupCapacity_zero] <;> omega)) | (simp_all [lookupCapacity_zero] <;> omega)

theorem set_front_fits (self : StringType) (v : ValueType) (r : StringType) (hs : Valid self) (fs : Fits self)
    (h : set_front self v = some r) : Fits r := by
  by_cases hp0 : 0 < self.m_size
  swap
  · exfalso
    have hz : self.m_size = 0 := by omega
    simp [set_front, assert_assume, bind, hz] at h
  obtain ⟨r0, h1, h2, h3, _, _⟩ := set_front_spec self v hs hp0
  rw [h1] at h
  cases h
  unfold Fits at *
  rw [h2, h3]
  all_goals first | exact Nat.le_refl _ | omega | (split_ifs <;> first | exact Nat.le_refl _ | omega | (simp_all [lookupCapacity_zero] <;> omega)) | (simp_all [lookupCapacity_zero] <;> omega)

theorem set_back_fits (self : StringType) (v : ValueType) (r : StringType) (hs : Valid self) (fs : Fits self)
    (h : set_back self v = some r) : Fits r := by
  by_cases hp0 : 0 < self.m_size
  swap
  · exfalso
    have hz : self.m_size = 0 := by omega
    simp [set_back, assert_assume, bind, hz] at h
  obtain ⟨r0, h1, h2, h3, _, _⟩ := set_back_spec self v hs hp0
  rw [h1] at h
  cases h
  unfold Fits at *
  rw [h2, h3]
  all_goals first | exact Nat.le_refl _ | omega | (split_ifs <;> first | exact Nat.le_refl _ | omega | (simp_all [lookupCapacity_zero] <;> omega)) | (simp_all [lookupCapacity_zero] <;> omega)

theorem clear_fits (self : StringType) (r : StringType) (hs : Valid self) (fs : Fits self)
    (h : clear self = some r) : Fits r := by
  obtain ⟨r0, h1, h2, h3, _, _⟩ := clear_spec self hs
  rw [h1] at h
  cases h
  unfold Fits at *
  rw [h2, h3]
  all_goals first | exact Nat.le_refl _ | omega | (split_ifs <;> first | exact Nat.le_refl _ | omega | (simp_all [lookupCapacity_zero] <;> omega)) | (simp_all [lookupCapacity_zero] <;> omega)

theorem popback_fits (self : StringType) (count : Nat) (r : StringType) (hs : Valid self) (fs : Fits self)
    (h : popback self count = some r) : Fits r := by
  by_cases hp0 : count ≤ self.m_size
  swap
  · exfalso
    simp [popback, assert_assume, assume, bind, hp0] at h
  by_cases hp1 : 0 < self.m_capacity
  swap
  · exfalso
    have hd := valid_of_no_capacity self hs hp1
    simp [popback, assert_assume, bind, store, hd] at h
  obtain ⟨r0, h1, h2, h3, _, _⟩ := popback_spec self count hs hp0 hp1
  rw [h1] at h
  cases h
  unfold Fits at *
  rw [h2, h3]
  have hm := lookupCapacity_mono (self.m_size - count) self.m_size (by omega)
  all_goals first | exact Nat.le_refl _ | omega | (split_ifs <;> first | exact Nat.le_refl _ | omega | (simp_all [lookupCapacity_zero] <;> omega)) | (simp_all [lookupCapacity_zero] <;> omega)

theorem trim_fits (self : StringType) (count : Nat) (r : StringType) (hs : Valid self) (fs : Fits self)
    (h : trim self count = some r) : Fits r := by
  by_cases hp0 : count ≤ self.m_size
  swap
  · exfalso
    simp [trim, assert_assume, assume, bind, hp0] at h
  by_cases hp1 : 0 < self.m_capacity
  swap
  · exfalso
    have hd := valid_of_no_capacity self hs hp1
    rcases self with ⟨d, n, c⟩
    simp only at hd
    subst hd
    simp only [valid_none] at hs
    obtain ⟨rfl, rfl⟩ := hs
    have hc : count = 0 := by simpa using hp0
    subst hc
    simp [trim, assert_assume, bind, store, std_copy_within] at h
  obtain ⟨r0, h1, h2, h3, _, _⟩ := trim_spec self count hs hp0 hp1
  rw [h1] at h
  cases h
  unfold Fits at *
  rw [h2, h3]
  have hm := lookupCapacity_mono (self.m_size - count) self.m_size (by omega)
  all_goals first | exact Nat.le_refl _ | omega | (split_ifs <;> first | exact Nat.le_refl _ | omega | (simp_all [lookupCapacity_zero] <;> omega)) | (simp_all [lookupCapacity_zero] <;> omega)

theorem erase_fits (self : StringType) (index : Nat) (r : StringType) (hs : Valid self) (fs : Fits self)
    (h : erase self index = some r) : Fits r := by
  by_cases hp0 : index < self.m_size
  swap
  · exfalso
    simp [erase, assert_assume, assume, bind, hp0] at h
  obtain ⟨r0, h1, h2, h3, _, _⟩ := erase_spec self index hs hp0
  rw [h1] at h
  cases h
  unfold Fits at *
  rw [h2, h3]
  have hm := lookupCapacity_mono (self.m_size - 1) self.m_size (by omega)
  all_goals first | exact Nat.le_refl _ | omega | (split_ifs <;> first | exact Nat.le_refl _ | omega | (simp_all [lookupCapacity_zero] <;> omega)) | (simp_all [lookupCapacity_zero] <;> omega)

theorem erase_range_fits (self : StringType) (first last : Nat) (r : StringType) (hs : Valid self) (fs : Fits self)
    (h : erase_range self first last = some r) : Fits r := by
  by_cases hp0 : first < last
  swap
  · exfalso
    simp [erase_range, assert_assume, assume, bind, hp0] at h
  by_cases hp1 : last ≤ self.m_size
  swap
  · exfalso
    simp [erase_range, assert_assume, assume, bind, hp0, hp1] at h
  obtain ⟨r0, h1, h2, h3, _, _⟩ := erase_range_spec self first last hs hp0 hp1
  rw [h1] at h
  cases h
  unfold Fits at *
  rw [h2, h3]
  have hm := lookupCapacity_mono (self.m_size - (last - first)) self.m_size (by omega)
  all_goals first | exact Nat.le_refl _ | omega | (split_ifs <;> first | exact Nat.le_refl _ | omega | (simp_all [lookupCapacity_zero] <;> omega)) | (simp_all [lookupCapacity_zero] <;> omega)

theorem insert_char_fits (self : StringType) (character : ValueType) (index : Nat) (r : StringType) (hs : Valid self) (fs : Fits self)
    (h : insert_char self character index = some r) : Fits r := by
  by_cases hp0 : index < self.m_size
  swap
  · exfalso
    simp [insert_char, assert_assume, assume, bind, hp0] at h
  obtain ⟨r0, h1, h2, h3, _, _⟩ := insert_char_spec self character index hs hp0
  rw [h1] at h
  cases h
  unfold Fits at *
  rw [h2, h3]
  all_goals first | exact Nat.le_refl _ | omega | (split_ifs <;> first | exact Nat.le_refl _ | omega | (simp_all [lookupCapacity_zero] <;> omega)) | (simp_all [lookupCapacity_zero] <;> omega)

theorem insert_cstring_fits (self : StringType) (cstring : ConstPointer) (index : Nat) (r : StringType) (hs : Valid self) (fs : Fits self)
    (h : insert_cstring self cstring index = some r) : Fits r := by
  cases hL : cstringSize cstring with
  | none => simp [insert_cstring, assert_assume, bind, hL] at h
  | some L =>
    by_cases hp0 : index < self.m_size
    swap
    · exfalso
      simp [insert_cstring, assert_assume, assume, bind, hp0] at h
    obtain ⟨r0, h1, h2, h3, _, _⟩ := insert_cstring_spec self cstring index L hs hp0 hL
    rw [h1] at h
    cases h
    unfold Fits at *
    rw [h2, h3]
    all_goals first | exact Nat.le_refl _ | omega | (split_ifs <;> first | exact Nat.le_refl _ | omega | (simp_all [lookupCapacity_zero] <;> omega)) | (simp_all [lookupCapacity_zero] <;> omega)

theorem insert_copy_fits (self object : StringType) (index : Nat) (r : StringType) (hs : Valid self) (fs : Fits self) (ho : Valid object) (fo : Fits object)
    (h : insert_copy self object index = some r) : Fits r := by
  by_cases hp0 : index < self.m_size
  swap
  · exfalso
    simp [insert_copy, assert_assume, assume, bind, hp0] at h
  obtain ⟨r0, h1, h2, h3, _, _⟩ := insert_copy_spec self object index hs ho hp0
  rw [h1] at h
  cases h
  unfold Fits at *
  rw [h2, h3]
  all_goals first | exact Nat.le_refl _ | omega | (split_ifs <;> first | exact Nat.le_refl _ | omega | (simp_all [lookupCapacity_zero] <;> omega)) | (simp_all [lookupCapacity_zero] <;> omega)

theorem append_char_fits (self : StringType) (character : ValueType) (r : StringType) (hs : Valid self) (fs : Fits self)
    (h : append_char self character = some r) : Fits r := by
  obtain ⟨r0, h1, h2, h3, _, _⟩ := append_char_spec self character hs
  rw [h1] at h
  cases h
  unfold Fits at *
  rw [h2, h3]
  all_goals first | exact Nat.le_refl _ | omega | (split_ifs <;> first | exact Nat.le_refl _ | omega | (simp_all [lookupCapacity_zero] <;> omega)) | (simp_all [lookupCapacity_zero] <;> omega)

theorem append_cstring_fits (self : StringType) (cstring : ConstPointer) (r : StringType) (hs : Valid self) (fs : Fits self)
    (h : append_cstring self cstring = some r) : Fits r := by
  cases hL : cstringSize cstring with
  | none => simp [append_cstring, assert_assume, bind, hL] at h
  | some L =>
    obtain ⟨r0, h1, h2, h3, _, _⟩ := append_cstring_spec self cstring L hs hL
    rw [h1] at h
    cases h
    unfold Fits at *
    rw [h2, h3]
    all_goals first | exact Nat.le_refl _ | omega | (split_ifs <;> first | exact Nat.le_refl _ | omega | (simp_all [lookupCapacity_zero] <;> omega)) | (simp_all [lookupCapacity_zero] <;> omega)

theorem append_copy_fits (self object : StringType) (r : StringType) (hs : Valid self) (fs : Fits self) (ho : Valid object) (fo : Fits object)
    (h : append_copy self object = some r) : Fits r := by
  obtain ⟨r0, h1, h2, h3, _, _⟩ := append_copy_spec self object hs ho
  rw [h1] at h
  cases h
  unfold Fits at *
  rw [h2, h3]
  all_goals first | exact Nat.le_refl _ | omega | (split_ifs <;> first | exact Nat.le_refl _ | omega | (simp_all [lookupCapacity_zero] <;> omega)) | (simp_all [lookupCapacity_zero] <;> omega)

theorem substring_fits (self : StringType) (last : Nat) (r : StringType) (hs : Valid self) (fs : Fits self)
    (h : substring self last = some r) : Fits r := by
  by_cases hp0 : last ≤ self.m_size
  swap
  · exfalso
    simp [substring, assert_assume, assume, bind, hp0] at h
  by_cases hp1 : 0 < last
  swap
  · exfalso
    have hz : last = 0 := by omega
    subst hz
    simp [substring, assert_assume, assume, bind, lookupCapacity_zero] at h
  obtain ⟨r0, h1, h2, h3, _, _⟩ := substring_spec self last hs hp0 hp1
  rw [h1] at h
  cases h
  unfold Fits at *
  rw [h2, h3]
  all_goals first | exact Nat.le_refl _ | omega | (split_ifs <;> first | exact Nat.le_refl _ | omega | (simp_all [lookupCapacity_zero] <;> omega)) | (simp_all [lookupCapacity_zero] <;> omega)

theorem substring_range_fits (self : StringType) (first last : Nat) (r : StringType) (hs : Valid self) (fs : Fits self)
    (h : substring_range self first last = some r) : Fits r := by
  by_cases hp0 : first < last
  swap
  · exfalso
    simp [substring_range, assert_assume, assume, bind, hp0] at h
  by_cases hp1 : last ≤ self.m_size
  swap
  · exfalso
    simp [substring_range, assert_assume, assume, bind, hp0, hp1] at h
  obtain ⟨r0, h1, h2, h3, _, _⟩ := substring_range_spec self first last hs hp0 hp1
  rw [h1] at h
  cases h
  unfold Fits at *
  rw [h2, h3]
  all_goals first | exact Nat.le_refl _ | omega | (split_ifs <;> first | exact Nat.le_refl _ | omega | (simp_all [lookupCapacity_zero] <;> omega)) | (simp_all [lookupCapacity_zero] <;> omega)

theorem plus_fits (left right : StringType) (r : StringType) (hs : Valid left) (fs : Fits left) (ho : Valid right) (fo : Fits right)
    (h : plus left right = some r) : Fits r := by
  obtain ⟨r0, h1, h2, h3, _, _⟩ := plus_spec left right hs ho
  rw [h1] at h
  cases h
  unfold Fits at *
  rw [h2, h3]
  all_goals first | exact Nat.le_refl _ | omega | (split_ifs <;> first | exact Nat.le_refl _ | omega | (simp_all [lookupCapacity_zero] <;> omega)) | (simp_all [lookupCapacity_zero] <;> omega)

theorem plus_cstring_fits (left : StringType) (cstring : ConstPointer) (r : StringType) (hs : Valid left) (fs : Fits left)
    (h : plus_cstring left cstring = some r) : Fits r := by
  cases hL : cstringSize cstring with
  | none => simp [plus_cstring, assert_assume, bind, hL] at h
  | some L =>
    obtain ⟨r0, h1, h2, h3, _, _⟩ := plus_cstring_spec left cstring L hs hL
    rw [h1] at h
    cases h
    unfold Fits at *
    rw [h2, h3]
    all_goals first | exact Nat.le_refl _ | omega | (split_ifs <;> first | exact Nat.le_refl _ | omega | (simp_all [lookupCapacity_zero] <;> omega)) | (simp_all [lookupCapacity_zero] <;> omega)

theorem cstring_plus_fits (cstring : ConstPointer) (right : StringType) (r : StringType) (ho : Valid right) (fo : Fits right)
    (h : cstring_plus cstring right = some r) : Fits r := by
  cases hL : cstringSize cstring with
  | none => simp [cstring_plus, assert_assume, bind, hL] at h
  | some L =>
    obtain ⟨r0, h1, h2, h3, _, _⟩ := cstring_plus_spec cstring right L ho hL
    rw [h1] at h
    cases h
    unfold Fits at *
    rw [h2, h3]
    all_goals first | exact Nat.le_refl _ | omega | (split_ifs <;> first | exact Nat.le_refl _ | omega | (simp_all [lookupCapacity_zero] <;> omega)) | (simp_all [lookupCapacity_zero] <;> omega)

theorem plus_char_fits (left : StringType) (character : ValueType) (r : StringType) (hs : Valid left) (fs : Fits left)
    (h : plus_char left character = some r) : Fits r := by
  obtain ⟨r0, h1, h2, h3, _, _⟩ := plus_char_spec left character hs
  rw [h1] at h
  cases h
  unfold Fits at *
  rw [h2, h3]
  all_goals first | exact Nat.le_refl _ | omega | (split_ifs <;> first | exact Nat.le_refl _ | omega | (simp_all [lookupCapacity_zero] <;> omega)) | (simp_all [lookupCapacity_zero] <;> omega)

theorem char_plus_fits (character : ValueType) (right : StringType) (r : StringType) (ho : Valid right) (fo : Fits right)
    (h : char_plus character right = some r) : Fits r := by
  obtain ⟨r0, h1, h2, h3, _, _⟩ := char_plus_spec character right ho
  rw [h1] at h
  cases h
  unfold Fits at *
  rw [h2, h3]
  all_goals first | exact Nat.le_refl _ | omega | (split_ifs <;> first | exact Nat.le_refl _ | omega | (simp_all [lookupCapacity_zero] <;> omega)) | (simp_all [lookupCapacity_zero] <;> omega)

theorem insert_move_fits (self object : StringType) (index : Nat) (p : StringType × StringType) (hs : Valid self) (fs : Fits self) (ho : Valid object) (fo : Fits object)
    (h : insert_move self object index = some p) : Fits p.1 ∧ Fits p.2 := by
  by_cases hp0 : index < self.m_size
  swap
  · exfalso
    simp [insert_move, assert_assume, assume, bind, hp0] at h
  obtain ⟨p0, h1, h2, h5, h6, _, _⟩ := insert_move_spec self object index hs ho hp0
  rw [h1] at h
  cases h
  refine ⟨?_, ?_⟩
  · unfold Fits at *
    rw [h5, h6]
    all_goals first | exact Nat.le_refl _ | omega | (split_ifs <;> first | exact Nat.le_refl _ | omega | (simp_all [lookupCapacity_zero] <;> omega)) | (simp_all [lookupCapacity_zero] <;> omega)
  · rw [h2]
    first | exact fits_null | exact fs | exact fo | (split_ifs <;> first | exact fits_null | exact fs | exact fo)

theorem append_move_fits (self object : StringType) (p : StringType × StringType) (hs : Valid self) (fs : Fits self) (ho : Valid object) (fo : Fits object)
    (h : append_move self object = some p) : Fits p.1 ∧ Fits p.2 := by
  obtain ⟨p0, h1, h2, h5, h6, _, _⟩ := append_move_spec self object hs ho
  rw [h1] at h
  cases h
  refine ⟨?_, ?_⟩
  · unfold Fits at *
    rw [h5, h6]
    all_goals first | exact Nat.le_refl _ | omega | (split_ifs <;> first | exact Nat.le_refl _ | omega | (simp_all [lookupCapacity_zero] <;> omega)) | (simp_all [lookupCapacity_zero] <;> omega)
  · rw [h2]
    first | exact fits_null | exact fs | exact fo | (split_ifs <;> first | exact fits_null | exact fs | exact fo)

theorem substring_move_fits (self : StringType) (last : Nat) (p : StringType × StringType) (hs : Valid self) (fs : Fits self)
    (h : substring_move self last = some p) : Fits p.1 ∧ Fits p.2 := by
  by_cases hp0 : last ≤ self.m_size
  swap
  · exfalso
    simp [substring_move, assert_assume, assume, bind, hp0] at h
  by_cases hp1 : 0 < self.m_capacity
  swap
  · exfalso
    have hd := valid_of_no_capacity self hs hp1
    simp [substring_move, assert_assume, bind, store, hd] at h
  obtain ⟨p0, h1, h2, h5, h6, _, _⟩ := substring_move_spec self last hs hp0 hp1
  rw [h1] at h
  cases h
  refine ⟨?_, ?_⟩
  · unfold Fits at *
    rw [h5, h6]
    have hm := lookupCapacity_mono last self.m_size (by omega)
    all_goals first | exact Nat.le_refl _ | omega | (split_ifs <;> first | exact Nat.le_refl _ | omega | (simp_all [lookupCapacity_zero] <;> omega)) | (simp_all [lookupCapacity_zero] <;> omega)
  · rw [h2]
    first | exact fits_null | exact fs | exact fo | (split_ifs <;> first | exact fits_null | exact fs | exact fo)

theorem substring_range_move_fits (self : StringType) (first last : Nat) (p : StringType × StringType) (hs : Valid self) (fs : Fits self)
    (h : substring_range_move self first last = some p) : Fits p.1 ∧ Fits p.2 := by
  by_cases hp0 : first < last
  swap
  · exfalso
    simp [substring_range_move, assert_assume, assume, bind, hp0] at h
  by_cases hp1 : last ≤ self.m_size
  swap
  · exfalso
    simp [substring_range_move, assert_assume, assume, bind, hp0, hp1] at h
  obtain ⟨p0, h1, h2, h5, h6, _, _⟩ := substring_range_move_spec self first last hs hp0 hp1
  rw [h1] at h
  cases h
  refine ⟨?_, ?_⟩
  · unfold Fits at *
    rw [h5, h6]
    have hm := lookupCapacity_mono (last - first) self.m_size (by omega)
    all_goals first | exact Nat.le_refl _ | omega | (split_ifs <;> first | exact Nat.le_refl _ | omega | (simp_all [lookupCapacity_zero] <;> omega)) | (simp_all [lookupCapacity_zero] <;> omega)
  · rw [h2]
    first | exact fits_null | exact fs | exact fo | (split_ifs <;> first | exact fits_null | exact fs | exact fo)

theorem plus_move_move_fits (left right : StringType) (p : StringType × StringType × StringType) (hs : Valid left) (fs : Fits left) (ho : Valid right) (fo : Fits right)
    (h : plus_move_move left right = some p) : Fits p.1 ∧ Fits p.2.1 ∧ Fits p.2.2 := by
  obtain ⟨p0, h1, h2, h3, h5, h6, _, _⟩ := plus_move_move_spec left right hs ho
  rw [h1] at h
  cases h
  refine ⟨?_, ?_, ?_⟩
  · unfold Fits at *
    rw [h5, h6]
    all_goals first | exact Nat.le_refl _ | omega | (split_ifs <;> first | exact Nat.le_refl _ | omega | (simp_all [lookupCapacity_zero] <;> omega)) | (simp_all [lookupCapacity_zero] <;> omega)
  · rw [h2]
    first | exact fits_null | exact fs | exact fo | (split_ifs <;> first | exact fits_null | exact fs | exact fo)
  · rw [h3]
    first | exact fits_null | exact fs | exact fo | (split_ifs <;> first | exact fits_null | exact fs | exact fo)

theorem plus_move_copy_fits (left right : StringType) (p : StringType × StringType × StringType) (hs : Valid left) (fs : Fits left) (ho : Valid right) (fo : Fits right)
    (h : plus_move_copy left right = some p) : Fits p.1 ∧ Fits p.2.1 ∧ Fits p.2.2 := by
  obtain ⟨p0, h1, h2, h3, h5, h6, _, _⟩ := plus_move_copy_spec left right hs ho
  rw [h1] at h
  cases h
  refine ⟨?_, ?_, ?_⟩
  · unfold Fits at *
    rw [h5, h6]
    all_goals first | exact Nat.le_refl _ | omega | (split_ifs <;> first | exact Nat.le_refl _ | omega | (simp_all [lookupCapacity_zero] <;> omega)) | (simp_all [lookupCapacity_zero] <;> omega)
  · rw [h2]
    first | exact fits_null | exact fs | exact fo | (split_ifs <;> first | exact fits_null | exact fs | exact fo)
  · rw [h3]
    first | exact fits_null | exact fs | exact fo | (split_ifs <;> first | exact fits_null | exact fs | exact fo)

theorem plus_copy_move_fits (left right : StringType) (p : StringType × StringType × StringType) (hs : Valid left) (fs : Fits left) (ho : Valid right) (fo : Fits right)
    (h : plus_copy_move left right = some p) : Fits p.1 ∧ Fits p.2.1 ∧ Fits p.2.2 := by
  obtain ⟨p0, h1, h2, h3, h5, h6, _, _⟩ := plus_copy_move_spec left right hs ho
  rw [h1] at h
  cases h
  refine ⟨?_, ?_, ?_⟩
  · unfold Fits at *
    rw [h5, h6]
    all_goals first | exact Nat.le_refl _ | omega | (split_ifs <;> first | exact Nat.le_refl _ | omega | (simp_all [lookupCapacity_zero] <;> omega)) | (simp_all [lookupCapacity_zero] <;> omega)
  · rw [h2]
    first | exact fits_null | exact fs | exact fo | (split_ifs <;> first | exact fits_null | exact fs | exact fo)
  · rw [h3]
    first | exact fits_null | exact fs | exact fo | (split_ifs <;> first | exact fits_null | exact fs | exact fo)

theorem plus_move_cstring_fits (left : StringType) (cstring : ConstPointer) (p : StringType × StringType) (hs : Valid left) (fs : Fits left)
    (h : plus_move_cstring left cstring = some p) : Fits p.1 ∧ Fits p.2 := by
  cases hL : cstringSize cstring with
  | none => simp [plus_move_cstring, assert_assume, bind, hL] at h
  | some L =>
    obtain ⟨p0, h1, h2, h5, h6, _, _⟩ := plus_move_cstring_spec left cstring L hs hL
    rw [h1] at h
    cases h
    refine ⟨?_, ?_⟩
    · unfold Fits at *
      rw [h5, h6]
      all_goals first | exact Nat.le_refl _ | omega | (split_ifs <;> first | exact Nat.le_refl _ | omega | (simp_all [lookupCapacity_zero] <;> omega)) | (simp_all [lookupCapacity_zero] <;> omega)
    · rw [h2]
      first | exact fits_null | exact fs | exact fo | (split_ifs <;> first | exact fits_null | exact fs | exact fo)

theorem cstring_plus_move_fits (cstring : ConstPointer) (right : StringType) (p : StringType × StringType) (ho : Valid right) (fo : Fits right)
    (h : cstring_plus_move cstring right = some p) : Fits p.1 ∧ Fits p.2 := by
  cases hL : cstringSize cstring with
  | none => simp [cstring_plus_move, assert_assume, bind, hL] at h
  | some L =>
    obtain ⟨p0, h1, h2, h5, h6, _, _⟩ := cstring_plus_move_spec cstring right L ho hL
    rw [h1] at h
    cases h
    refine ⟨?_, ?_⟩
    · unfold Fits at *
      rw [h5, h6]
      all_goals first | exact Nat.le_refl _ | omega | (split_ifs <;> first | exact Nat.le_refl _ | omega | (simp_all [lookupCapacity_zero] <;> omega)) | (simp_all [lookupCapacity_zero] <;> omega)
    · rw [h2]
      first | exact fits_null | exact fs | exact fo | (split_ifs <;> first | exact fits_null | exact fs | exact fo)

theorem plus_move_char_fits (left : StringType) (character : ValueType) (p : StringType × StringType) (hs : Valid left) (fs : Fits left)
    (h : plus_move_char left character = some p) : Fits p.1 ∧ Fits p.2 := by
  obtain ⟨p0, h1, h2, h5, h6, _, _⟩ := plus_move_char_spec left character hs
  rw [h1] at h
  cases h
  refine ⟨?_, ?_⟩
  · unfold Fits at *
    rw [h5, h6]
    all_goals first | exact Nat.le_refl _ | omega | (split_ifs <;> first | exact Nat.le_refl _ | omega | (simp_all [lookupCapacity_zero] <;> omega)) | (simp_all [lookupCapacity_zero] <;> omega)
  · rw [h2]
    first | exact fits_null | exact fs | exact fo | (split_ifs <;> first | exact fits_null | exact fs | exact fo)

theorem char_plus_move_fits (character : ValueType) (right : StringType) (p : StringType × StringType) (ho : Valid right) (fo : Fits right)
    (h : char_plus_move character right = some p) : Fits p.1 ∧ Fits p.2 := by
  obtain ⟨p0, h1, h2, h5, h6, _, _⟩ := char_plus_move_spec character right ho
  rw [h1] at h
  cases h
  refine ⟨?_, ?_⟩
  · unfold Fits at *
    rw [h5, h6]
    all_goals first | exact Nat.le_refl _ | omega | (split_ifs <;> first | exact Nat.le_refl _ | omega | (simp_all [lookupCapacity_zero] <;> omega)) | (simp_all [lookupCapacity_zero] <;> omega)
  · rw [h2]
    first | exact fits_null | exact fs | exact fo | (split_ifs <;> first | exact fits_null | exact fs | exact fo)

end StringType

namespace StringType

/-- Every reachable value has a capacity at or above what the growth policy
prescribes for its length. -/
theorem reachable_fits (s : StringType) (h : Reachable s) : Fits s := by
  induction h with
  | ctor =>
    exact fits_null
  | ctor_list list r h =>
    exact ctor_list_fits list r h
  | ctor_fill character size r h =>
    exact ctor_fill_fits character size r h
  | ctor_cstring cstring r h =>
    exact ctor_cstring_fits cstring r h
  | ctor_copy object r hr1 h ih =>
    exact ctor_copy_fits object r (reachable_valid _ hr1) ih h
  | ctor_move_result object hr1 ih =>
    exact ih
  | ctor_move_source object hr1 ih =>
    exact fits_null
  | assign_char self character r hr1 h ih =>
    exact assign_char_fits self character r (reachable_valid _ hr1) ih h
  | assign_cstring self cstring r hr1 h ih =>
    exact assign_cstring_fits self cstring r (reachable_valid _ hr1) ih h
  | assign_copy self object r hr1 hr2 h ih1 ih2 =>
    exact assign_copy_fits self object r (reachable_valid _ hr1) ih1 (reachable_valid _ hr2) ih2 h
  | assign_move_result self object hr1 hr2 ih1 ih2 =>
    exact ih2
  | assign_move_source self object hr1 hr2 ih1 ih2 =>
    exact fits_null
  | reserve self size r hr1 h ih =>
    exact reserve_fits self size r (reachable_valid _ hr1) ih h
  | shrink self r hr1 h ih =>
    exact shrink_fits self r (reachable_valid _ hr1) ih h
  | deallocate self hr1 ih =>
    exact fits_null
  | set self index v r hr1 h ih =>
    exact set_fits self index v r (reachable_valid _ hr1) ih h
  | set_front self v r hr1 h ih =>
    exact set_front_fits self v r (reachable_valid _ hr1) ih h
  | set_back self v r hr1 h ih =>
    exact set_back_fits self v r (reachable_valid _ hr1) ih h
  | clear self r hr1 h ih =>
    exact clear_fits self r (reachable_valid _ hr1) ih h
  | popback self count r hr1 h ih =>
    exact popback_fits self count r (reachable_valid _ hr1) ih h
  | trim self count r hr1 h ih =>
    exact trim_fits self count r (reachable_valid _ hr1) ih h
  | erase self index r hr1 h ih =>
    exact erase_fits self index r (reachable_valid _ hr1) ih h
  | erase_range self first last r hr1 h ih =>
    exact erase_range_fits self first last r (reachable_valid _ hr1) ih h
  | insert_char self character index r hr1 h ih =>
    exact insert_char_fits self character index r (reachable_valid _ hr1) ih h
  | insert_cstring self cstring index r hr1 h ih =>
    exact insert_cstring_fits self cstring index r (reachable_valid _ hr1) ih h
  | insert_copy self object index r hr1 hr2 h ih1 ih2 =>
    exact insert_copy_fits self object index r (reachable_valid _ hr1) ih1 (reachable_valid _ hr2) ih2 h
  | insert_move_result self object index p hr1 hr2 h ih1 ih2 =>
    exact (insert_move_fits self object index p (reachable_valid _ hr1) ih1 (reachable_valid _ hr2) ih2 h).1
  | insert_move_source self object index p hr1 hr2 h ih1 ih2 =>
    exact (insert_move_fits self object index p (reachable_valid _ hr1) ih1 (reachable_valid _ hr2) ih2 h).2
  | append_char self character r hr1 h ih =>
    exact append_char_fits self character r (reachable_valid _ hr1) ih h
  | append_cstring self cstring r hr1 h ih =>
    exact append_cstring_fits self cstring r (reachable_valid _ hr1) ih h
  | append_copy self object r hr1 hr2 h ih1 ih2 =>
    exact append_copy_fits self object r (reachable_valid _ hr1) ih1 (reachable_valid _ hr2) ih2 h
  | append_move_result self object p hr1 hr2 h ih1 ih2 =>
    exact (append_move_fits self object p (reachable_valid _ hr1) ih1 (reachable_valid _ hr2) ih2 h).1
  | append_move_source self object p hr1 hr2 h ih1 ih2 =>
    exact (append_move_fits self object p (reachable_valid _ hr1) ih1 (reachable_valid _ hr2) ih2 h).2
  | substring self last r hr1 h ih =>
    exact substring_fits self last r (reachable_valid _ hr1) ih h
  | substring_range self first last r hr1 h ih =>
    exact substring_range_fits self first last r (reachable_valid _ hr1) ih h
  | substring_move_result self last p hr1 h ih =>
    exact (substring_move_fits self last p (reachable_valid _ hr1) ih h).1
  | substring_move_source self last p hr1 h ih =>
    exact (substring_move_fits self last p (reachable_valid _ hr1) ih h).2
  | substring_range_move_result self first last p hr1 h ih =>
    exact (substring_range_move_fits self first last p (reachable_valid _ hr1) ih h).1
  | substring_range_move_source self first last p hr1 h ih =>
    exact (substring_range_move_fits self first last p (reachable_valid _ hr1) ih h).2
  | plus left right r hr1 hr2 h ih1 ih2 =>
    exact plus_fits left right r (reachable_valid _ hr1) ih1 (reachable_valid _ hr2) ih2 h
  | plus_cstring left right r hr1 h ih =>
    exact plus_cstring_fits left right r (reachable_valid _ hr1) ih h
  | cstring_plus left right r hr1 h ih =>
    exact cstring_plus_fits left right r (reachable_valid _ hr1) ih h
  | plus_char left right r hr1 h ih =>
    exact plus_char_fits left right r (reachable_valid _ hr1) ih h
  | char_plus left right r hr1 h ih =>
    exact char_plus_fits left right r (reachable_valid _ hr1) ih h
  | plus_move_move_result left right p hr1 hr2 h ih1 ih2 =>
    exact (plus_move_move_fits left right p (reachable_valid _ hr1) ih1 (reachable_valid _ hr2) ih2 h).1
  | plus_move_move_left left right p hr1 hr2 h ih1 ih2 =>
    exact (plus_move_move_fits left right p (reachable_valid _ hr1) ih1 (reachable_valid _ hr2) ih2 h).2.1
  | plus_move_move_right left right p hr1 hr2 h ih1 ih2 =>
    exact (plus_move_move_fits left right p (reachable_valid _ hr1) ih1 (reachable_valid _ hr2) ih2 h).2.2
  | plus_move_copy_result left right p hr1 hr2 h ih1 ih2 =>
    exact (plus_move_copy_fits left right p (reachable_valid _ hr1) ih1 (reachable_valid _ hr2) ih2 h).1
  | plus_move_copy_left left right p hr1 hr2 h ih1 ih2 =>
    exact (plus_move_copy_fits left right p (reachable_valid _ hr1) ih1 (reachable_valid _ hr2) ih2 h).2.1
  | plus_copy_move_result left right p hr1 hr2 h ih1 ih2 =>
    exact (plus_copy_move_fits left right p (reachable_valid _ hr1) ih1 (reachable_valid _ hr2) ih2 h).1
  | plus_copy_move_right left right p hr1 hr2 h ih1 ih2 =>
    exact (plus_copy_move_fits left right p (reachable_valid _ hr1) ih1 (reachable_valid _ hr2) ih2 h).2.2
  | plus_move_cstring_result left right p hr1 h ih =>
    exact (plus_move_cstring_fits left right p (reachable_valid _ hr1) ih h).1
  | plus_move_cstring_left left right p hr1 h ih =>
    exact (plus_move_cstring_fits left right p (reachable_valid _ hr1) ih h).2
  | cstring_plus_move_result left right p hr1 h ih =>
    exact (cstring_plus_move_fits left right p (reachable_valid _ hr1) ih h).1
  | cstring_plus_move_right left right p hr1 h ih =>
    exact (cstring_plus_move_fits left right p (reachable_valid _ hr1) ih h).2
  | plus_move_char_result left right p hr1 h ih =>
    exact (plus_move_char_fits left right p (reachable_valid _ hr1) ih h).1
  | plus_move_char_left left right p hr1 h ih =>
    exact (plus_move_char_fits left right p (reachable_valid _ hr1) ih h).2
  | char_plus_move_result left right p hr1 h ih =>
    exact (char_plus_move_fits left right p (reachable_valid _ hr1) ih h).1
  | char_plus_move_right left right p hr1 h ih =>
    exact (char_plus_move_fits left right p (reachable_valid _ hr1) ih h).2

end StringType

namespace StringType

/-! ## The adopted buffer is the operand's own block -/

end StringType

namespace StringType

theorem sampleWide_reachable : Reachable sampleWide :=
  Reachable.reserve sampleAb 20 sampleWide sampleAb_reachable (by decide)

/-- For operands that are distinct objects and a raw sequence stored outside
the destination's buffer, each `operator+=` overload leaves the destination
with its old content followed by the operand's content and with the sum of
the two lengths; the capacity is unchanged when it is at least
`lookupCapacity` of the new length, otherwise it becomes that value, or, in
the movable overload, the operand's capacity when that one is large enough. -/
theorem append_content_capacity (self object : StringType) (raw : ConstPointer) (L : Nat)
    (character : ValueType) (hs : Reachable self) (ho : Valid object)
    (hL : cstringSize raw = some L) :
    (rawContent raw).length = L ∧
    YieldsWith (append_char self character) (self.m_size + 1)
      (content self ++ [some character])
      (if lookupCapacity (self.m_size + 1) ≤ self.m_capacity then self.m_capacity
        else lookupCapacity (self.m_size + 1)) ∧
    YieldsWith (append_cstring self raw) (self.m_size + L)
      (content self ++ (rawContent raw).map some)
      (if lookupCapacity (self.m_size + L) ≤ self.m_capacity then self.m_capacity
        else lookupCapacity (self.m_size + L)) ∧
    YieldsWith (append_copy self object) (self.m_size + object.m_size)
      (content self ++ content object)
      (if lookupCapacity (self.m_size + object.m_size) ≤ self.m_capacity then self.m_capacity
        else lookupCapacity (self.m_size + object.m_size)) ∧
    YieldsWith ((append_move self object).map Prod.fst) (self.m_size + object.m_size)
      (content self ++ content object)
      (if lookupCapacity (self.m_size + object.m_size) ≤ self.m_capacity then self.m_capacity
        else if lookupCapacity (self.m_size + object.m_size) ≤ object.m_capacity
        then object.m_capacity else lookupCapacity (self.m_size + object.m_size)) := by
  have hv := reachable_valid self hs
  have hf : lookupCapacity self.m_size ≤ self.m_capacity := reachable_fits self hs
  refine ⟨rawContent_length raw L hL, ?_, ?_, ?_, ?_⟩
  · obtain ⟨r, h1, h2, h3, _, h5⟩ := append_char_spec self character hv
    refine ⟨r, h1, h2, h5, ?_⟩
    rw [h3]
    split_ifs <;> omega
  · obtain ⟨r, h1, h2, h3, _, h5⟩ := append_cstring_spec self raw L hv hL
    refine ⟨r, h1, h2, h5, ?_⟩
    rw [h3]
    by_cases hz : L = 0
    · subst hz
      simp only [Nat.add_zero, if_true, hf]
    · simp only [hz, if_false]
      split_ifs <;> omega
  · obtain ⟨r, h1, h2, h3, _, h5⟩ := append_copy_spec self object hv ho
    refine ⟨r, h1, h2, h5, ?_⟩
    rw [h3]
    by_cases hz : object.m_size = 0
    · simp only [hz, Nat.add_zero, if_true, hf]
    · simp only [hz, if_false]
      split_ifs <;> omega
  · obtain ⟨p, h1, _, h2, h3, _, h5⟩ := append_move_spec self object hv ho
    refine ⟨p.1, by rw [h1]; rfl, h2, h5, ?_⟩
    rw [h3]
    by_cases hz : object.m_size = 0
    · simp only [hz, Nat.add_zero, if_true, hf]
    · simp only [hz, if_false]
      split_ifs <;> omega

theorem append_content_capacity_witness :
    Reachable sampleAb ∧ Valid sampleCd ∧ cstringSize rawCd = some 2 ∧
      YieldsWith ((append_move sampleAb sampleCd).map Prod.fst)
        (sampleAb.m_size + sampleCd.m_size) (content sampleAb ++ content sampleCd)
        (if lookupCapacity (sampleAb.m_size + sampleCd.m_size) ≤ sampleAb.m_capacity
          then sampleAb.m_capacity
          else if lookupCapacity (sampleAb.m_size + sampleCd.m_size) ≤ sampleCd.m_capacity
          then sampleCd.m_capacity else lookupCapacity (sampleAb.m_size + sampleCd.m_size)) :=
  ⟨sampleAb_reachable, sampleCd_valid, rawCd_size,
    (append_content_capacity sampleAb sampleCd rawCd 2 120 sampleAb_reachable sampleCd_valid
      rawCd_size).2.2.2.2⟩

end StringType

namespace StringType

theorem rawBig_size : cstringSize rawBig = some 34 := by decide

theorem rawSmall_size : cstringSize rawSmall = some 12 := by decide

/-- C14, as stated, fails: the literal `"very big and long string of text. "`
has 34 units before its terminator, so no constructed value has 35 units. -/
theorem example_concatenation_counterexample :
    ¬ ∃ big, ctor_cstring rawBig = some big ∧ big.m_size = 35 := by
  rintro ⟨big, h1, h2⟩
  obtain ⟨r, h3, h4, _⟩ := ctor_cstring_spec rawBig 34 rawBig_size
  rw [h3] at h1
  cases h1
  omega

/-- C14, amended: the two literals of the example program give values of 34
and 12 units; `operator+` on them gives a value of length 46 whose content is
the literal concatenation and whose capacity is `lookupCapacity 46`, which
is 60. -/
theorem example_concatenation :
    ∃ big small result, ctor_cstring rawBig = some big ∧ ctor_cstring rawSmall = some small ∧
      plus big small = some result ∧ big.m_size = 34 ∧ small.m_size = 12 ∧
      result.m_size = 46 ∧
      content result = (rawContent rawBig ++ rawContent rawSmall).map some ∧
      result.m_capacity = lookupCapacity 46 ∧ lookupCapacity 46 = 60 := by
  obtain ⟨big, b1, b2, _, b4, b5⟩ := ctor_cstring_spec rawBig 34 rawBig_size
  obtain ⟨small, s1, s2, _, s4, s5⟩ := ctor_cstring_spec rawSmall 12 rawSmall_size
  obtain ⟨result, r1, r2, r3, _, r5⟩ := plus_spec big small b4 s4
  refine ⟨big, small, result, b1, s1, r1, b2, s2, ?_, ?_, ?_, by decide⟩
  · rw [r2, b2, s2]
  · rw [r5, b5, s5, List.map_append]
  · rw [r3, b2, s2]

/-- C15 at its failing input: on the default-constructed value, which has no
buffer, `trim(0)` and `popback(0)` satisfy their asserted precondition
`count <= m_size` and then write the terminator through the null pointer. -/
theorem trim_popback_default_undefined :
    (0 ≤ ctor.m_size) ∧ ctor.m_data = none ∧ trim ctor 0 = none ∧ popback ctor 0 = none := by
  decide

/-- On a value that has a buffer, `trim(k)` then `popback(j)` leaves the
units `[k, length - j)` and the capacity unchanged. -/
theorem trim_popback_buffered (s : StringType) (k j : Nat) (hs : Valid s)
    (hb : 0 < s.m_capacity) (hk : k ≤ s.m_size) (hj : j ≤ s.m_size - k) :
    ∃ t r, trim s k = some t ∧ popback t j = some r ∧ r.m_size = s.m_size - k - j ∧
      content r = ((content s).drop k).take (s.m_size - k - j) ∧
      r.m_capacity = s.m_capacity := by
  obtain ⟨t, t1, t2, t3, t4, t5⟩ := trim_spec s k hs hk hb
  obtain ⟨r, r1, r2, r3, _, r5⟩ := popback_spec t j t4 (by omega) (by omega)
  refine ⟨t, r, t1, r1, by omega, ?_, by omega⟩
  rw [r5, t5, t2]

/-- C16: `erase(index)` with `index < length` leaves
`old[0, index) ++ old[index + 1, length)` and length minus one;
`erase(first, last)` with `first < last <= length` leaves
`old[0, first) ++ old[last, length)` and length minus `last - first`; the
capacity is unchanged in both. -/
theorem erase_content (s : StringType) (index first last : Nat) (hs : Valid s)
    (hi : index < s.m_size) (hf : first < last) (hl : last ≤ s.m_size) :
    YieldsWith (erase s index) (s.m_size - 1)
      ((content s).take index ++ (content s).drop (index + 1)) s.m_capacity ∧
    YieldsWith (erase_range s first last) (s.m_size - (last - first))
      ((content s).take first ++ (content s).drop last) s.m_capacity := by
  refine ⟨?_, ?_⟩
  · obtain ⟨r, h1, h2, h3, _, h5⟩ := erase_spec s index hs hi
    exact ⟨r, h1, h2, h5, h3⟩
  · obtain ⟨r, h1, h2, h3, _, h5⟩ := erase_range_spec s first last hs hf hl
    exact ⟨r, h1, h2, h5, h3⟩

theorem erase_content_witness :
    Valid sampleTen ∧ 4 < sampleTen.m_size ∧ 2 < 5 ∧ 5 ≤ sampleTen.m_size ∧
      (YieldsWith (erase sampleTen 4) (sampleTen.m_size - 1)
        ((content sampleTen).take 4 ++ (content sampleTen).drop (4 + 1))
        sampleTen.m_capacity ∧
      YieldsWith (erase_range sampleTen 2 5) (sampleTen.m_size - (5 - 2))
        ((content sampleTen).take 2 ++ (content sampleTen).drop 5) sampleTen.m_capacity) :=
  ⟨by decide, by decide, by decide, by decide,
    erase_content sampleTen 4 2 5 (by decide) (by decide) (by decide) (by decide)⟩

/-- C17: on every reachable value `shrink()` keeps the length and the
content and leaves the capacity equal to `lookupCapacity` of the length; a
value of length 0 is fully released (capacity 0, no buffer). -/
theorem shrink_to_policy (s : StringType) (hs : Reachable s) :
    ∃ r, shrink s = some r ∧ r.m_size = s.m_size ∧ content r = content s ∧
      r.m_capacity = lookupCapacity s.m_size ∧
      (s.m_size = 0 → r.m_capacity = 0 ∧ r.m_data = none) := by
  have hv := reachable_valid s hs
  have hf : lookupCapacity s.m_size ≤ s.m_capacity := reachable_fits s hs
  obtain ⟨r, h1, h2, h3, h4, h5⟩ := shrink_spec s hv
  have hc : r.m_capacity = lookupCapacity s.m_size := by
    rw [h3]
    by_cases hz : s.m_size = 0
    · simp only [hz, if_true, lookupCapacity_zero]
    · simp only [hz, if_false]
      split_ifs <;> omega
  refine ⟨r, h1, h2, h5, hc, ?_⟩
  intro hz
  have h0 : r.m_capacity = 0 := by rw [hc, hz, lookupCapacity_zero]
  exact ⟨h0, valid_of_no_capacity r h4 (by omega)⟩

theorem shrink_to_policy_witness :
    Reachable sampleWide ∧
      ∃ r, shrink sampleWide = some r ∧ r.m_size = sampleWide.m_size ∧
        content r = content sampleWide ∧ r.m_capacity = lookupCapacity sampleWide.m_size ∧
        (sampleWide.m_size = 0 → r.m_capacity = 0 ∧ r.m_data = none) :=
  ⟨sampleWide_reachable, shrink_to_policy sampleWide sampleWide_reachable⟩

/-- C18: `shrink()` is idempotent: on every reachable value a second call in
succession returns the length, capacity and content left by the first. -/
theorem shrink_idempotent (s : StringType) (hs : Reachable s) :
    ∃ r1 r2, shrink s = some r1 ∧ shrink r1 = some r2 ∧ r2.m_size = r1.m_size ∧
      r2.m_capacity = r1.m_capacity ∧ content r2 = content r1 := by
  have hv := reachable_valid s hs
  obtain ⟨r1, a1, a2, a3, a4, a5⟩ := shrink_spec s hv
  obtain ⟨r2, b1, b2, b3, _, b5⟩ := shrink_spec r1 a4
  refine ⟨r1, r2, a1, b1, b2, ?_, b5⟩
  rw [b3]
  by_cases hz : s.m_size = 0
  · have hz1 : r1.m_size = 0 := by omega
    simp only [hz1, if_true]
    rw [a3]
    simp only [hz, if_true]
  · have hz1 : ¬ r1.m_size = 0 := by omega
    simp only [hz1, if_false]
    rw [a2]
    split_ifs with hgt
    · exfalso
      rw [a3] at hgt
      simp only [hz, if_false] at hgt
      split_ifs at hgt <;> omega
    · rfl

theorem shrink_idempotent_witness :
    Reachable sampleWide ∧
      ∃ r1 r2, shrink sampleWide = some r1 ∧ shrink r1 = some r2 ∧ r2.m_size = r1.m_size ∧
        r2.m_capacity = r1.m_capacity ∧ content r2 = content r1 :=
  ⟨sampleWide_reachable, shrink_idempotent sampleWide sampleWide_reachable⟩

/-- C19 at its failing input: `reserve(0)` looks up capacity 0 and then
assumes `size < capacity`, that is `0 < 0`, so the call is undefined on every
value. -/
theorem reserve_zero_undefined (s : StringType) :
    lookupCapacity 0 = 0 ∧ reserve s 0 = none := by
  refine ⟨lookupCapacity_zero, ?_⟩
  simp [reserve, assume, lookupCapacity_zero]

/-- For `n > 0`, `reserve(n)` leaves a capacity of at least `lookupCapacity n`
and not below the old one, and keeps the length and the content. -/
theorem reserve_positive (s : StringType) (n : Nat) (hs : Valid s) (hn : 0 < n) :
    ∃ r, reserve s n = some r ∧ lookupCapacity n ≤ r.m_capacity ∧
      s.m_capacity ≤ r.m_capacity ∧ r.m_size = s.m_size ∧ content r = content s := by
  obtain ⟨r, h1, h2, h3, _, h5⟩ := reserve_spec s n hs hn
  refine ⟨r, h1, ?_, ?_, h2, h5⟩
  · rw [h3]
    split_ifs <;> omega
  · rw [h3]
    split_ifs <;> omega

end StringType

namespace StringType

end StringType


/-! ## The growth policy over 64-bit sizes -/

theorem seed_orbit_le (k : Nat) : 15 * 2 ^ k % SIZE_MODULUS ≤ 15 * 2 ^ 60 := by
  unfold SIZE_MODULUS
  by_cases h : k ≤ 60
  · have h1 : 2 ^ k ≤ 2 ^ 60 := Nat.pow_le_pow_right (by norm_num) h
    have h2 : 15 * 2 ^ k < 2 ^ 64 := by
      have h3 : (15 : Nat) * 2 ^ 60 < 2 ^ 64 := by norm_num
      have h4 : 15 * 2 ^ k ≤ 15 * 2 ^ 60 := Nat.mul_le_mul_left 15 h1
      exact lt_of_le_of_lt h4 h3
    rw [Nat.mod_eq_of_lt h2]
    exact Nat.mul_le_mul_left 15 h1
  · by_cases h5 : 64 ≤ k
    · obtain ⟨j, rfl⟩ := Nat.exists_eq_add_of_le h5
      have h6 : 15 * 2 ^ (64 + j) % 2 ^ 64 = 0 := by
        apply Nat.mod_eq_zero_of_dvd
        rw [pow_add]
        exact Dvd.dvd.mul_left (Dvd.intro _ rfl) 15
      rw [h6]
      exact Nat.zero_le _
    · have h7 : k = 61 ∨ k = 62 ∨ k = 63 := by omega
      rcases h7 with rfl | rfl | rfl <;> norm_num

theorem lookupCapacityLoop64_orbit (size : Nat) (hs : 15 * 2 ^ 60 < size) :
    ∀ fuel k, lookupCapacityLoop64 size fuel (15 * 2 ^ k % SIZE_MODULUS) = none := by
  intro fuel
  induction fuel with
  | zero =>
    intro k
    rfl
  | succ n ih =>
    intro k
    have hle := seed_orbit_le k
    have hgt : size > 15 * 2 ^ k % SIZE_MODULUS := lt_of_le_of_lt hle hs
    have hnext : 15 * 2 ^ k % SIZE_MODULUS * 2 % SIZE_MODULUS =
        15 * 2 ^ (k + 1) % SIZE_MODULUS := by
      rw [Nat.mod_mul_mod, pow_succ, Nat.mul_assoc]
    rw [lookupCapacityLoop64, if_pos hgt, hnext]
    exact ih (k + 1)

theorem lookupCapacityLoop64_small (size : Nat) (hs : size ≤ 15 * 2 ^ 60) :
    ∀ fuel k, k ≤ 60 → size ≤ 15 * 2 ^ k * 2 ^ fuel →
      lookupCapacityLoop64 size (fuel + 1) (15 * 2 ^ k) =
        some (lookupCapacityLoop size fuel (15 * 2 ^ k)) := by
  intro fuel
  induction fuel with
  | zero =>
    intro k hk hle
    have hng : ¬ size > 15 * 2 ^ k := by
      simp only [pow_zero, Nat.mul_one] at hle
      exact Nat.not_lt.mpr hle
    rw [lookupCapacityLoop64, if_neg hng, lookupCapacityLoop]
  | succ n ih =>
    intro k hk hle
    by_cases hgt : size > 15 * 2 ^ k
    · have hk1 : k + 1 ≤ 60 := by
        by_contra hc
        have hk60 : k = 60 := by omega
        subst hk60
        exact absurd hgt (Nat.not_lt.mpr hs)
      have hpow : 2 ^ (k + 1) ≤ 2 ^ 60 := Nat.pow_le_pow_right (by norm_num) hk1
      have hlt : 15 * 2 ^ k * 2 < SIZE_MODULUS := by
        unfold SIZE_MODULUS
        have h3 : (15 : Nat) * 2 ^ 60 < 2 ^ 64 := by norm_num
        have h4 : 15 * 2 ^ k * 2 = 15 * 2 ^ (k + 1) := by rw [pow_succ, Nat.mul_assoc]
        rw [h4]
        exact lt_of_le_of_lt (Nat.mul_le_mul_left 15 hpow) h3
      have h5 : 15 * 2 ^ k * 2 = 15 * 2 ^ (k + 1) := by rw [pow_succ, Nat.mul_assoc]
      rw [lookupCapacityLoop64, if_pos hgt, Nat.mod_eq_of_lt hlt, lookupCapacityLoop, if_pos hgt,
        h5]
      apply ih (k + 1) hk1
      calc size ≤ 15 * 2 ^ k * 2 ^ (n + 1) := hle
        _ = 15 * 2 ^ (k + 1) * 2 ^ n := by ring
    · rw [lookupCapacityLoop64, if_neg hgt, lookupCapacityLoop, if_neg hgt]

/-- For every size below `15 * 2 ^ 60` the 64-bit function returns, with the
value of the function over unbounded sizes. -/
theorem lookupCapacity64_small (size : Nat) (h : size < 15 * 2 ^ 60) :
    lookupCapacity64 (size + 2) size = some (lookupCapacity size) := by
  have hb : size < SIZE_MODULUS - 1 := by
    unfold SIZE_MODULUS
    have h3 : (15 : Nat) * 2 ^ 60 < 2 ^ 64 - 1 := by norm_num
    exact lt_trans h h3
  have hm : (size + 1) % SIZE_MODULUS = size + 1 := by
    apply Nat.mod_eq_of_lt
    omega
  by_cases hz : size = 0
  · subst hz
    simp [lookupCapacity64, lookupCapacity, assert_assume, SIZE_MODULUS]
  · have hle : size + 1 ≤ 15 * 2 ^ 0 * 2 ^ (size + 1) := by
      have := @Nat.lt_two_pow (size + 1)
      omega
    have := lookupCapacityLoop64_small (size + 1) (by omega) (size + 1) 0 (by omega) hle
    simp only [pow_zero, Nat.mul_one] at this
    simp only [lookupCapacity64, assert_assume, hb, if_true, hz, if_false, hm, SEED, lookupCapacity,
      bind, Option.bind]
    exact this

/-- C29 at its failing inputs: for every size from `15 * 2 ^ 60` up to the
asserted bound `size < 2 ^ 64 - 1`, the doubling loop of the 64-bit
`lookupCapacity` is not left after any number of iterations (the capacity wraps
to 0 and stays below the size), so the function returns no value. -/
theorem lookupCapacity64_never_returns (size : Nat) (h1 : 15 * 2 ^ 60 ≤ size)
    (h2 : size < SIZE_MODULUS - 1) :
    ∀ fuel, lookupCapacityLoop64 (size + 1) fuel SEED = none ∧
      lookupCapacity64 fuel size = none := by
  intro fuel
  have h := lookupCapacityLoop64_orbit (size + 1) (by omega) fuel 0
  have hseed : 15 * 2 ^ 0 % SIZE_MODULUS = SEED := by
    simp [SIZE_MODULUS, SEED]
  rw [hseed] at h
  have hm : (size + 1) % SIZE_MODULUS = size + 1 := by
    apply Nat.mod_eq_of_lt
    omega
  have hz : ¬ size = 0 := by omega
  refine ⟨h, ?_⟩
  simp only [lookupCapacity64, assert_assume, h2, if_true, hz, if_false, hm, bind, Option.bind]
  exact h

theorem lookupCapacity64_never_returns_witness :
    15 * 2 ^ 60 ≤ 15 * 2 ^ 60 ∧ 15 * 2 ^ 60 < SIZE_MODULUS - 1 ∧
      ∀ fuel, lookupCapacityLoop64 (15 * 2 ^ 60 + 1) fuel SEED = none ∧
        lookupCapacity64 fuel (15 * 2 ^ 60) = none :=
  ⟨Nat.le_refl _, by decide, lookupCapacity64_never_returns (15 * 2 ^ 60) (Nat.le_refl _)
    (by decide)⟩


/-! ## Equality operators -/

theorem threeWay_eq_zero (xs ys : List ValueType) : threeWay xs ys = 0 ↔ xs = ys := by
  induction xs generalizing ys with
  | nil => cases ys <;> simp [threeWay]
  | cons x xs ih =>
    cases ys with
    | nil => simp [threeWay]
    | cons y ys =>
      simp only [threeWay, List.cons.injEq]
      by_cases h1 : x < y
      · have hne : x ≠ y := ne_of_lt h1
        simp [h1, hne]
      · by_cases h2 : x > y
        · have hne : x ≠ y := ne_of_gt h2
          simp [h1, h2, hne]
        · have he : x = y := le_antisymm (not_lt.mp h2) (not_lt.mp h1)
          subst he
          simp only [h1, if_false, true_and]
          exact ih ys

namespace StringType

theorem equalLoop_spec (a b : StringType) (ha : Valid a) (hb : Valid b)
    (hsz : a.m_size = b.m_size) (n : Nat) :
    ∀ i, i + n = a.m_size →
      equalLoop a b i n = some (decide ((units a).drop i = (units b).drop i)) := by
  have hla := units_length a
  have hlb := units_length b
  induction n with
  | zero =>
    intro i hi
    have e1 : (units a).drop i = [] := List.drop_eq_nil_of_le (by omega)
    have e2 : (units b).drop i = [] := List.drop_eq_nil_of_le (by omega)
    rw [e1, e2]
    simp [equalLoop]
  | succ n ih =>
    intro i hi
    have hia : i < a.m_size := by omega
    have hib : i < b.m_size := by omega
    obtain ⟨x, hx⟩ : ∃ x, (units a)[i]? = some x :=
      ⟨_, List.getElem?_eq_getElem (by omega)⟩
    obtain ⟨y, hy⟩ : ∃ y, (units b)[i]? = some y :=
      ⟨_, List.getElem?_eq_getElem (by omega)⟩
    rw [drop_eq_cons _ _ _ hx, drop_eq_cons _ _ _ hy]
    simp only [equalLoop, load_eq_units a ha i hia, load_eq_units b hb i hib, hx, hy, bind,
      Option.bind]
    by_cases h1 : x = y
    · subst h1
      simp only [ne_eq, not_true_eq_false, if_false, List.cons.injEq, true_and]
      exact ih (i + 1) (by omega)
    · simp [h1]

theorem equal_spec (a b : StringType) (ha : Valid a) (hb : Valid b) :
    equal a b = some (decide (units a = units b)) := by
  have hla := units_length a
  have hlb := units_length b
  by_cases hsz : a.m_size = b.m_size
  · by_cases hz : a.m_size = 0
    · have e1 : units a = [] := List.length_eq_zero.mp (by omega)
      have e2 : units b = [] := List.length_eq_zero.mp (by omega)
      simp [equal, hsz, hz, e1, e2]
      intro h
      omega
    · have := equalLoop_spec a b ha hb hsz a.m_size 0 (by omega)
      simp only [List.drop_zero] at this
      simp only [equal, ne_eq, hsz, not_true_eq_false, if_false]
      rw [← hsz, if_neg hz]
      exact this
  · have hne : units a ≠ units b := by
      intro h
      apply hsz
      rw [← hla, ← hlb, h]
    simp [equal, hsz, hne]

theorem equalCStringLoop_spec (a : StringType) (cstring : ConstPointer) (L : Nat)
    (ha : Valid a) (hL : cstringSize cstring = some L) (n : Nat) :
    ∀ i, i + n = a.m_size → i ≤ L →
      equalCStringLoop a cstring i n =
        some (decide ((units a).drop i = (rawContent cstring).drop i)) := by
  obtain ⟨h1, h2, h3⟩ := cstringSize_spec cstring L hL
  have hlen := rawContent_length cstring L hL
  have hla := units_length a
  induction n with
  | zero =>
    intro i hi hiL
    have e1 : (units a).drop i = [] := List.drop_eq_nil_of_le (by omega)
    have hia : a.m_size = i := by omega
    by_cases hlt : i < L
    · obtain ⟨v, hv1, hv2, hv3⟩ := raw_get cstring L hL i hlt
      rw [e1, drop_eq_cons _ _ _ hv3]
      simp [equalCStringLoop, hia, hv1, hv2]
    · have hiL2 : i = L := by omega
      subst hiL2
      have e2 : (rawContent cstring).drop i = [] := List.drop_eq_nil_of_le (by omega)
      rw [e1, e2]
      simp [equalCStringLoop, hia, h2]
  | succ n ih =>
    intro i hi hiL
    have hia : i < a.m_size := by omega
    obtain ⟨x, hx⟩ : ∃ x, (units a)[i]? = some x :=
      ⟨_, List.getElem?_eq_getElem (by omega)⟩
    by_cases hlt : i < L
    · obtain ⟨v, hv1, hv2, hv3⟩ := raw_get cstring L hL i hlt
      rw [drop_eq_cons _ _ _ hx, drop_eq_cons _ _ _ hv3]
      simp only [equalCStringLoop, hv1, bind, Option.bind, hv2, if_false,
        load_eq_units a ha i hia, hx]
      by_cases c1 : x = v
      · subst c1
        simp only [ne_eq, not_true_eq_false, if_false, List.cons.injEq, true_and]
        exact ih (i + 1) (by omega) (by omega)
      · simp [c1]
    · have hiL2 : i = L := by omega
      subst hiL2
      have e2 : (rawContent cstring).drop i = [] := List.drop_eq_nil_of_le (by omega)
      rw [drop_eq_cons _ _ _ hx, e2]
      simp [equalCStringLoop, h2]

theorem equal_cstring_spec (a : StringType) (cstring : ConstPointer) (L : Nat)
    (ha : Valid a) (hL : cstringSize cstring = some L) :
    equal_cstring a cstring = some (decide (units a = rawContent cstring)) := by
  have := equalCStringLoop_spec a cstring L ha hL a.m_size 0 (by omega) (by omega)
  simpa [equal_cstring] using this

theorem equalByCompare_spec (a b : StringType) (ha : Valid a) (hb : Valid b) :
    equalByCompare a b = some (decide (units a = units b)) := by
  simp only [equalByCompare, compare_spec a b ha hb, Option.map_some', Option.some.injEq]
  by_cases h : units a = units b
  · simp [h, (threeWay_eq_zero _ _).mpr rfl]
  · have : threeWay (units a) (units b) ≠ 0 := fun hc => h ((threeWay_eq_zero _ _).mp hc)
    simp [h, this]

theorem equalByCompareCString_spec (a : StringType) (cstring : ConstPointer) (L : Nat)
    (ha : Valid a) (hL : cstringSize cstring = some L) :
    equalByCompareCString a cstring = some (decide (units a = rawContent cstring)) := by
  simp only [equalByCompareCString, compare_cstring_spec a cstring L ha hL, Option.map_some',
    Option.some.injEq]
  by_cases h : units a = rawContent cstring
  · simp [h, (threeWay_eq_zero _ _).mpr rfl]
  · have : threeWay (units a) (rawContent cstring) ≠ 0 :=
      fun hc => h ((threeWay_eq_zero _ _).mp hc)
    simp [h, this]

/-- C22: for strings `a`, `b` and a terminated raw sequence, `operator==(a, b)`
returns what `a.compare(b) == 0` returns, `operator!=(a, b)` returns its
negation, and `operator==(a, r)` returns what `a.compare(r) == 0` returns. -/
theorem equality_refines_compare (a b : StringType) (raw : ConstPointer) (L : Nat)
    (ha : Valid a) (hb : Valid b) (hL : cstringSize raw = some L) :
    (∃ e, equal a b = some e ∧ equalByCompare a b = some e ∧ not_equal a b = some (!e)) ∧
    (∃ e, equal_cstring a raw = some e ∧ equalByCompareCString a raw = some e ∧
      not_equal_cstring a raw = some (!e)) := by
  refine ⟨⟨_, equal_spec a b ha hb, equalByCompare_spec a b ha hb, ?_⟩,
    ⟨_, equal_cstring_spec a raw L ha hL, equalByCompareCString_spec a raw L ha hL, ?_⟩⟩
  · rw [not_equal, equal_spec a b ha hb]
    rfl
  · rw [not_equal_cstring, equal_cstring_spec a raw L ha hL]
    rfl

theorem equality_refines_compare_witness :
    Valid sampleAb ∧ Valid sampleCd ∧ cstringSize rawAb = some 2 ∧
      (∃ e, equal sampleAb sampleCd = some e ∧ equalByCompare sampleAb sampleCd = some e ∧
        not_equal sampleAb sampleCd = some (!e)) ∧
      (∃ e, equal_cstring sampleAb rawAb = some e ∧
        equalByCompareCString sampleAb rawAb = some e ∧
        not_equal_cstring sampleAb rawAb = some (!e)) :=
  ⟨sampleAb_valid, sampleCd_valid, by decide,
    equality_refines_compare sampleAb sampleCd rawAb 2 sampleAb_valid sampleCd_valid
      (by decide)⟩

end StringType


namespace StringType

/-! ## Claims on construction, equality and concatenation -/

theorem valid_terminator (r : StringType) (hv : Valid r) (hc : 0 < r.m_capacity) :
    load r.m_data r.m_size = some NUL_TERMINATION := by
  rcases r with ⟨_ | b, n, c⟩
  · simp only [valid_none] at hv
    simp only [hv.2] at hc
    omega
  · simp only [valid_some] at hv
    rw [load_some]
    exact hv.2.2.1

theorem constructs_of_spec (res : Option StringType) (n : Nat) (cells : List Cell)
    (h : ∃ r, res = some r ∧ r.m_size = n ∧ r.m_capacity = lookupCapacity n ∧ Valid r ∧
      content r = cells) :
    Constructs res n cells := by
  obtain ⟨r, h1, h2, h3, h4, h5⟩ := h
  have hnone : n = 0 → r.m_data = none := by
    intro hz
    apply valid_of_no_capacity r h4
    rw [h3, hz, lookupCapacity_zero]
    omega
  have hterm : 0 < n → load r.m_data n = some NUL_TERMINATION := by
    intro hn
    have hgt := lookupCapacity_gt n hn
    have := valid_terminator r h4 (by omega)
    rw [h2] at this
    exact this
  refine ⟨r, h1, h2, h3, hnone, h5, ?_, hterm⟩
  by_cases hz : n = 0
  · have hc : ¬ r.m_capacity > 0 := by
      rw [h3, hz, lookupCapacity_zero]
      omega
    simp only [cstring, hc, if_false, hz]
    rfl
  · have hgt := lookupCapacity_gt n (by omega)
    have hc : r.m_capacity > 0 := by omega
    simp only [cstring, hc, if_true]
    exact hterm (by omega)

/-- C21: each content constructor (initializer list, unit and count, raw
terminated sequence, copy) given `n` units returns a value of length `n` and
capacity `lookupCapacity n`, without a buffer when `n = 0`, whose content is
the given units and whose terminator stands at index `n`. -/
theorem content_constructors (list : List ValueType) (character : ValueType) (n : Nat)
    (raw : ConstPointer) (L : Nat) (object : StringType)
    (hL : cstringSize raw = some L) (ho : Valid object) :
    Constructs (ctor_list list) list.length (list.map some) ∧
    Constructs (ctor_fill character n) n (List.replicate n (some character)) ∧
    ((rawContent raw).length = L ∧
      Constructs (ctor_cstring raw) L ((rawContent raw).map some)) ∧
    Constructs (ctor_copy object) object.m_size (content object) :=
  ⟨constructs_of_spec _ _ _ (ctor_list_spec list),
    constructs_of_spec _ _ _ (ctor_fill_spec character n),
    ⟨rawContent_length raw L hL, constructs_of_spec _ _ _ (ctor_cstring_spec raw L hL)⟩,
    constructs_of_spec _ _ _ (ctor_copy_spec object ho)⟩

theorem content_constructors_witness :
    cstringSize rawAb = some 2 ∧ Valid sampleAb ∧
      Constructs (ctor_list unitsHello) unitsHello.length (unitsHello.map some) ∧
      Constructs (ctor_fill 120 0) 0 (List.replicate 0 (some 120)) ∧
      ((rawContent rawAb).length = 2 ∧
        Constructs (ctor_cstring rawAb) 2 ((rawContent rawAb).map some)) ∧
      Constructs (ctor_copy sampleAb) sampleAb.m_size (content sampleAb) :=
  ⟨by decide, sampleAb_valid,
    content_constructors unitsHello 120 0 rawAb 2 sampleAb (by decide) sampleAb_valid⟩

/-- C23: for strings `a`, `b`, `c`, the two groupings `(a + b) + c` and
`a + (b + c)`, the outer additions taking the temporary as a movable operand,
return values of equal length and equal content on which `operator==` returns
true; both have capacity `lookupCapacity` of the total length. -/
theorem concatenation_associative (a b c : StringType) (ha : Valid a) (hb : Valid b)
    (hc : Valid c) :
    ∃ ab bc l r, plus a b = some ab ∧ plus b c = some bc ∧
      plus_move_copy ab c = some l ∧ plus_copy_move a bc = some r ∧
      l.1.m_size = r.1.m_size ∧ content l.1 = content r.1 ∧
      content l.1 = content a ++ content b ++ content c ∧
      equal l.1 r.1 = some true ∧
      l.1.m_capacity = lookupCapacity (a.m_size + b.m_size + c.m_size) ∧
      r.1.m_capacity = lookupCapacity (a.m_size + b.m_size + c.m_size) := by
  obtain ⟨ab, p1, p2, p3, p4, p5⟩ := plus_spec a b ha hb
  obtain ⟨bc, q1, q2, q3, q4, q5⟩ := plus_spec b c hb hc
  obtain ⟨l, l1, _, _, l2, l3, l4, l5⟩ := plus_move_copy_spec ab c p4 hc
  obtain ⟨r, r1, _, _, r2, r3, r4, r5⟩ := plus_copy_move_spec a bc ha q4
  have hcl : content l.1 = content a ++ content b ++ content c := by rw [l5, p5]
  have hcr : content r.1 = content a ++ content b ++ content c := by
    rw [r5, q5, List.append_assoc]
  have hu : units l.1 = units r.1 := by
    apply units_of_content l.1 l4
    rw [hcl, ← hcr]
    exact content_eq_units r.1 r4
  have hm1 := lookupCapacity_mono (a.m_size + b.m_size) (a.m_size + b.m_size + c.m_size)
    (by omega)
  have hm2 := lookupCapacity_mono (b.m_size + c.m_size) (a.m_size + b.m_size + c.m_size)
    (by omega)
  refine ⟨ab, bc, l, r, p1, q1, l1, r1, by omega, by rw [hcl, hcr], hcl, ?_, ?_, ?_⟩
  · rw [equal_spec l.1 r.1 l4 r4, hu]
    simp
  · rw [l3, p2, p3]
    by_cases h1 : a.m_size + b.m_size = 0
    · simp only [h1, if_true, Nat.zero_add]
    · by_cases h2 : c.m_size = 0
      · simp only [h1, if_false, h2, if_true, Nat.add_zero]
      · simp only [h1, if_false, h2]
        split_ifs <;> omega
  · rw [r3, q2, q3]
    have e : a.m_size + (b.m_size + c.m_size) = a.m_size + b.m_size + c.m_size := by omega
    by_cases h1 : b.m_size + c.m_size = 0
    · have h2 : a.m_size + b.m_size + c.m_size = a.m_size := by omega
      simp only [h1, if_true, h2]
    · by_cases h2 : a.m_size = 0
      · simp only [h1, if_false, h2, if_true, Nat.zero_add]
      · simp only [h1, if_false, h2, e]
        split_ifs <;> omega

theorem concatenation_associative_witness :
    Valid sampleAb ∧ Valid sampleCd ∧ Valid sampleLong ∧
      ∃ ab bc l r, plus sampleAb sampleCd = some ab ∧ plus sampleCd sampleLong = some bc ∧
        plus_move_copy ab sampleLong = some l ∧ plus_copy_move sampleAb bc = some r ∧
        l.1.m_size = r.1.m_size ∧ content l.1 = content r.1 ∧
        content l.1 = content sampleAb ++ content sampleCd ++ content sampleLong ∧
        equal l.1 r.1 = some true ∧
        l.1.m_capacity =
          lookupCapacity (sampleAb.m_size + sampleCd.m_size + sampleLong.m_size) ∧
        r.1.m_capacity =
          lookupCapacity (sampleAb.m_size + sampleCd.m_size + sampleLong.m_size) :=
  ⟨sampleAb_valid, sampleCd_valid, by decide,
    concatenation_associative sampleAb sampleCd sampleLong sampleAb_valid sampleCd_valid
      (by decide)⟩

end StringType


namespace StringType

/-! ## Claims on insertion paths, adoption, safety and the capacity assumption -/

/-- C24, as stated, fails: `lookupCapacity 5` is 15, not 6; the value built
from the five units of `"hello"` has capacity 15, which is not below
`lookupCapacity 8`, so `insert` of three units does not enter its
reallocating branch. -/
theorem insert_reallocates_counterexample :
    lookupCapacity 5 ≠ 6 ∧
      ∃ s, ctor_list unitsHello = some s ∧ s.m_size = 5 ∧ s.m_capacity = 15 ∧
        ¬ s.m_capacity < lookupCapacity (s.m_size + 3) := by
  refine ⟨by decide, ?_⟩
  obtain ⟨s, h1, h2, h3, _⟩ := ctor_list_spec unitsHello
  have h4 : s.m_size = 5 := h2
  have h5 : s.m_capacity = 15 := by
    rw [h3]
    decide
  refine ⟨s, h1, h4, h5, ?_⟩
  rw [h4, h5]
  decide

/-- C24, amended: a value built from five units has capacity 15, which is
not below `lookupCapacity 8 = 15`, so `insert` of a three-unit raw sequence at
index 2 runs its in-place branch (shift the tail backward, copy the sequence
in, rewrite the terminator), keeps capacity 15 and leaves
`old[0, 2) ++ inserted ++ old[2, 5)`. -/
theorem insert_in_place (list : List ValueType) (raw : ConstPointer)
    (hl : list.length = 5) (hL : cstringSize raw = some 3) :
    ∃ s r, ctor_list list = some s ∧ s.m_size = 5 ∧ s.m_capacity = 15 ∧
      ¬ s.m_capacity < lookupCapacity (s.m_size + 3) ∧
      insert_cstring s raw 2 =
        (do
          let data ← std_copy_backward s.m_data 2 5 8
          let data ← std_copy (rawBlock raw) 0 3 data 2
          let data ← store data 8 NUL_TERMINATION
          some ⟨data, 8, 15⟩) ∧
      insert_cstring s raw 2 = some r ∧ r.m_size = 8 ∧ r.m_capacity = 15 ∧
      content r =
        (list.map some).take 2 ++ (rawContent raw).map some ++ (list.map some).drop 2 := by
  obtain ⟨s, h1, h2, h3, h4, h5⟩ := ctor_list_spec list
  have e5 : s.m_size = 5 := by rw [h2, hl]
  have e15 : s.m_capacity = 15 := by
    rw [h3, hl]
    decide
  have e8 : lookupCapacity (5 + 3) = 15 := by decide
  obtain ⟨r, r1, r2, r3, _, r5⟩ := insert_cstring_spec s raw 2 3 h4 (by omega) hL
  refine ⟨s, r, h1, e5, e15, ?_, ?_, r1, by omega, ?_, ?_⟩
  · rw [e5, e15, e8]
    omega
  · simp only [insert_cstring, assert_assume, assume, e5, e15, hL, e8, bind, Option.bind]
    simp
  · rw [r3, e5, e15, e8]
    simp
  · rw [r5, h5]

theorem insert_in_place_witness :
    unitsHello.length = 5 ∧ cstringSize rawXyz = some 3 ∧
      ∃ s r, ctor_list unitsHello = some s ∧ s.m_size = 5 ∧ s.m_capacity = 15 ∧
        ¬ s.m_capacity < lookupCapacity (s.m_size + 3) ∧
        insert_cstring s rawXyz 2 =
          (do
            let data ← std_copy_backward s.m_data 2 5 8
            let data ← std_copy (rawBlock rawXyz) 0 3 data 2
            let data ← store data 8 NUL_TERMINATION
            some ⟨data, 8, 15⟩) ∧
        insert_cstring s rawXyz 2 = some r ∧ r.m_size = 8 ∧ r.m_capacity = 15 ∧
        content r =
          (unitsHello.map some).take 2 ++ (rawContent rawXyz).map some ++
            (unitsHello.map some).drop 2 :=
  ⟨by decide, by decide, insert_in_place unitsHello rawXyz (by decide) (by decide)⟩

/-- C26: each of the five `operator+` overloads without a movable operand
returns, for all operands, those of zero length included, a value whose
capacity is `lookupCapacity (leftSize + rightSize)`. -/
theorem borrowed_concatenation_capacity (left right : StringType) (raw : ConstPointer)
    (L : Nat) (character : ValueType) (hl : Valid left) (hr : Valid right)
    (hL : cstringSize raw = some L) :
    (∃ r, plus left right = some r ∧
      r.m_capacity = lookupCapacity (left.m_size + right.m_size)) ∧
    (∃ r, plus_cstring left raw = some r ∧ r.m_capacity = lookupCapacity (left.m_size + L)) ∧
    (∃ r, cstring_plus raw right = some r ∧
      r.m_capacity = lookupCapacity (L + right.m_size)) ∧
    (∃ r, plus_char left character = some r ∧
      r.m_capacity = lookupCapacity (left.m_size + 1)) ∧
    (∃ r, char_plus character right = some r ∧
      r.m_capacity = lookupCapacity (1 + right.m_size)) := by
  obtain ⟨r1, a1, _, a3, _⟩ := plus_spec left right hl hr
  obtain ⟨r2, b1, _, b3, _⟩ := plus_cstring_spec left raw L hl hL
  obtain ⟨r3, c1, _, c3, _⟩ := cstring_plus_spec raw right L hr hL
  obtain ⟨r4, d1, _, d3, _⟩ := plus_char_spec left character hl
  obtain ⟨r5, e1, _, e3, _⟩ := char_plus_spec character right hr
  exact ⟨⟨r1, a1, a3⟩, ⟨r2, b1, b3⟩, ⟨r3, c1, c3⟩, ⟨r4, d1, d3⟩, ⟨r5, e1, e3⟩⟩

theorem borrowed_concatenation_capacity_witness :
    Valid ctor ∧ Valid sampleAb ∧ cstringSize rawCd = some 2 ∧
      (∃ r, plus ctor sampleAb = some r ∧
        r.m_capacity = lookupCapacity (ctor.m_size + sampleAb.m_size)) ∧
      (∃ r, plus_cstring ctor rawCd = some r ∧
        r.m_capacity = lookupCapacity (ctor.m_size + 2)) ∧
      (∃ r, cstring_plus rawCd sampleAb = some r ∧
        r.m_capacity = lookupCapacity (2 + sampleAb.m_size)) ∧
      (∃ r, plus_char ctor 120 = some r ∧ r.m_capacity = lookupCapacity (ctor.m_size + 1)) ∧
      (∃ r, char_plus 120 sampleAb = some r ∧
        r.m_capacity = lookupCapacity (1 + sampleAb.m_size)) :=
  ⟨by decide, sampleAb_valid, rawCd_size,
    borrowed_concatenation_capacity ctor sampleAb rawCd 2 120 (by decide) sampleAb_valid
      rawCd_size⟩

/-- C27 at its failing input: within the asserted precondition `k <= length`,
`popback(k)` and `trim(k)` return exactly when the value has a buffer; on a
value without one, such as the default-constructed value with `k = 0`, the
terminator write goes through the null pointer. -/
theorem popback_trim_need_buffer (s : StringType) (k : Nat) (hs : Reachable s)
    (hk : k ≤ s.m_size) :
    ((popback s k).isSome ↔ 0 < s.m_capacity) ∧ ((trim s k).isSome ↔ 0 < s.m_capacity) := by
  have hv := reachable_valid s hs
  by_cases hb : 0 < s.m_capacity
  · obtain ⟨r, h1, _⟩ := popback_spec s k hv hk hb
    obtain ⟨t, h2, _⟩ := trim_spec s k hv hk hb
    simp [h1, h2, hb]
  · have hd := valid_of_no_capacity s hv hb
    rcases s with ⟨d, n, c⟩
    simp only at hd hb hk
    subst hd
    simp only [valid_none] at hv
    obtain ⟨rfl, rfl⟩ := hv
    have hk0 : k = 0 := by omega
    subst hk0
    simp [popback, trim, assert_assume, store, std_copy_within]

theorem popback_trim_need_buffer_witness :
    Reachable ctor ∧ 0 ≤ ctor.m_size ∧
      ((popback ctor 0).isSome ↔ 0 < ctor.m_capacity) ∧
      ((trim ctor 0).isSome ↔ 0 < ctor.m_capacity) :=
  ⟨Reachable.ctor, Nat.le_refl _, popback_trim_need_buffer ctor 0 Reachable.ctor (Nat.le_refl _)⟩

/-- C28: every reachable value has a capacity of at least `lookupCapacity` of
its length. -/
theorem capacity_at_least_policy (s : StringType) (hs : Reachable s) :
    lookupCapacity s.m_size ≤ s.m_capacity :=
  reachable_fits s hs

theorem capacity_at_least_policy_witness :
    Reachable sampleWide ∧ lookupCapacity sampleWide.m_size ≤ sampleWide.m_capacity :=
  ⟨sampleWide_reachable, capacity_at_least_policy sampleWide sampleWide_reachable⟩

/-- C30 at its failing inputs: the assumption `size < lookupCapacity(size)`
holds exactly for `size > 0`; `reserve(0)` and the lvalue `substring(0)`, both
within their asserted preconditions, reach it with size 0 and are undefined
on every value. -/
theorem capacity_assumption_fails_at_zero (s : StringType) :
    (∀ size, size < lookupCapacity size ↔ 0 < size) ∧
      0 ≤ s.m_size ∧ substring s 0 = none ∧ reserve s 0 = none := by
  refine ⟨?_, Nat.zero_le _, ?_, ?_⟩
  · intro size
    constructor
    · intro h
      by_contra hc
      have hz : size = 0 := by omega
      rw [hz, lookupCapacity_zero] at h
      omega
    · exact lookupCapacity_gt size
  · simp [substring, assert_assume, assume, lookupCapacity_zero]
  · simp [reserve, assume, lookupCapacity_zero]

end StringType


namespace StringType

/-! ## Claims on the substring overloads -/

/-- The two-argument overloads, for `first < last <= length`: the lvalue
overload returns the units `[first, last)` with capacity
`lookupCapacity (last - first)`; the rvalue overload returns the same units
in the source's buffer, with the source's capacity, and leaves the source as
the empty triple. -/
theorem substring_two_argument (s : StringType) (first last : Nat) (hs : Valid s)
    (hf : first < last) (hl : last ≤ s.m_size) :
    YieldsWith (substring_range s first last) (last - first)
      (((content s).drop first).take (last - first)) (lookupCapacity (last - first)) ∧
    ∃ p, substring_range_move s first last = some p ∧ p.1.m_size = last - first ∧
      content p.1 = ((content s).drop first).take (last - first) ∧
      p.1.m_capacity = s.m_capacity ∧ p.2 = ⟨none, 0, 0⟩ := by
  obtain ⟨r, h1, h2, h3, _, h5⟩ := substring_range_spec s first last hs hf hl
  obtain ⟨p, q1, q2, q3, q4, _, q6⟩ := substring_range_move_spec s first last hs hf hl
  exact ⟨⟨r, h1, h2, h5, h3⟩, p, q1, q3, q6, q4, q2⟩

/-- The one-argument overloads with `0 < last <= length` give what the
two-argument overloads give for `first = 0`. -/
theorem substring_one_argument_agrees (s : StringType) (last : Nat) (hs : Valid s)
    (hp : 0 < last) (hl : last ≤ s.m_size) :
    (∃ r t, substring s last = some r ∧ substring_range s 0 last = some t ∧
      r.m_size = t.m_size ∧ content r = content t ∧ r.m_capacity = t.m_capacity) ∧
    ∃ p q, substring_move s last = some p ∧ substring_range_move s 0 last = some q ∧
      p.1.m_size = q.1.m_size ∧ content p.1 = content q.1 ∧
      p.1.m_capacity = q.1.m_capacity ∧ p.2 = q.2 := by
  have hb : 0 < s.m_capacity := by
    rcases s with ⟨_ | b, n, c⟩
    · simp only [valid_none] at hs
      simp only [hs.1] at hl
      omega
    · simp only [valid_some] at hs
      simp only at hl ⊢
      omega
  obtain ⟨r, a1, a2, a3, _, a5⟩ := substring_spec s last hs hl hp
  obtain ⟨t, b1, b2, b3, _, b5⟩ := substring_range_spec s 0 last hs hp hl
  obtain ⟨p, c1, c2, c3, c4, _, c6⟩ := substring_move_spec s last hs hl hb
  obtain ⟨q, d1, d2, d3, d4, _, d6⟩ := substring_range_move_spec s 0 last hs hp hl
  simp only [Nat.sub_zero, List.drop_zero] at b2 b3 b5 d3 d6
  refine ⟨⟨r, t, a1, b1, by omega, by rw [a5, b5], by omega⟩,
    p, q, c1, d1, by omega, by rw [c6, d6], by omega, by rw [c2, d2]⟩

/-- C31 at its failing inputs: within the asserted precondition
`last <= length`, the lvalue `substring(last)` returns exactly when
`last > 0` (with `last == 0` the assumption `0 < lookupCapacity(0)` is
violated), and the rvalue `substring(last)` returns exactly when the source
has a buffer (without one the terminator is written through the null
pointer). -/
theorem substring_one_argument_returns (s : StringType) (last : Nat) (hs : Reachable s)
    (hl : last ≤ s.m_size) :
    ((substring s last).isSome ↔ 0 < last) ∧
      ((substring_move s last).isSome ↔ 0 < s.m_capacity) := by
  have hv := reachable_valid s hs
  refine ⟨?_, ?_⟩
  · by_cases hp : 0 < last
    · obtain ⟨r, h1, _⟩ := substring_spec s last hv hl hp
      simp [h1, hp]
    · have hz : last = 0 := by omega
      subst hz
      simp [substring, assert_assume, assume, lookupCapacity_zero]
  · by_cases hb : 0 < s.m_capacity
    · obtain ⟨p, h1, _⟩ := substring_move_spec s last hv hl hb
      simp [h1, hb]
    · have hd := valid_of_no_capacity s hv hb
      simp [substring_move, assert_assume, hd, store, hb]

theorem substring_one_argument_returns_witness :
    Reachable ctor ∧ 0 ≤ ctor.m_size ∧
      (((substring ctor 0).isSome ↔ 0 < 0) ∧
        ((substring_move ctor 0).isSome ↔ 0 < ctor.m_capacity)) :=
  ⟨Reachable.ctor, Nat.le_refl _,
    substring_one_argument_returns ctor 0 Reachable.ctor (Nat.le_refl _)⟩

end StringType


namespace StringType

/-! ## A raw sequence inside the string operand's own buffer -/

/-- C10 at its failing input: `s = "abcd"` and `s.insert(s.cstring() + 2, 1)`.
The argument lies in the destination's buffer and reads `"cd"`; the capacity
suffices, so the in-place branch shifts the tail over the argument before it
copies the argument, and the destination is left with `"acbbcd"`. The same
units passed from outside the buffer give `"acdbcd"`. The reallocating branch
reads the argument before it releases the buffer: with `t = "abcdefghijklmn"`
(capacity 15), `t.insert(t.cstring() + 12, 1)` gives what the units `"mn"`
passed from outside give. -/
theorem insert_aliased_sequence :
    ctor_cstring rawAbcd = some sampleAbcd ∧ cstring sampleAbcd = sampleAbcd.m_data ∧
      cstringSizeAt sampleAbcd.m_data 2 = some 2 ∧
      unitsAt sampleAbcd.m_data 2 2 = rawCd ∧ 1 < sampleAbcd.m_size ∧
      (insert_cstring_within sampleAbcd 2 1).map content =
        some [some 97, some 99, some 98, some 98, some 99, some 100] ∧
      (insert_cstring sampleAbcd rawCd 1).map content =
        some [some 97, some 99, some 100, some 98, some 99, some 100] ∧
      sampleLong.m_capacity < lookupCapacity (sampleLong.m_size + 2) ∧
      cstringSizeAt sampleLong.m_data 12 = some 2 ∧
      (insert_cstring_within sampleLong 12 1).map content =
        (insert_cstring sampleLong [109, 110, 0] 1).map content ∧
      (insert_cstring_within sampleLong 12 1).isSome = true := by
  decide

/-- C11 at its failing input: `s = "abcdefghijklmn"` and `s += s.cstring()`.
The argument is the destination's buffer and reads the fourteen units; the
capacity 15 is below `lookupCapacity 28`, so the reallocating branch releases
the buffer before it copies from the argument: the copy reads a released
block and the call is undefined. The same units passed from outside the
buffer give the content twice. Without reallocation the copy reads the live
buffer: with `w = "ab"` after `reserve(20)`, `w += w.cstring()` gives
`"abab"`. -/
theorem append_aliased_sequence :
    ctor_cstring rawLong = some sampleLong ∧ cstring sampleLong = sampleLong.m_data ∧
      cstringSizeAt sampleLong.m_data 0 = some 14 ∧
      unitsAt sampleLong.m_data 0 14 = rawLong ∧
      sampleLong.m_capacity < lookupCapacity (sampleLong.m_size + 14) ∧
      append_cstring_within sampleLong 0 = none ∧
      (append_cstring sampleLong rawLong).map content =
        some (content sampleLong ++ content sampleLong) ∧
      ¬ sampleWide.m_capacity < lookupCapacity (sampleWide.m_size + 2) ∧
      (append_cstring_within sampleWide 0).map content =
        some [some 97, some 98, some 97, some 98] := by
  decide

end StringType

end simple
